import Mathlib

/-!
# NeoML gradient boosting: a shallow embedding of `GradientBoost.cpp`

C++ `int` values are `Int`, `double`/`float` values are exact rationals (or an
arbitrary linearly ordered field for the loss functions), `CArray<T>` is
`List T`.  A function that can raise returns the state it leaves behind
together with an `Outcome`, so that a `catch( ... )` block can be run on the
state at the point of the throw.
-/

namespace NeoML

/-! ## Failures and array primitives -/

/-- What a `throw` carries: a failed `NeoAssert` (an invalid `CArray` index is
one too) or an exception raised by an external collaborator. -/
inductive Exn where
  | assertion : Exn
  | raised : Nat → Exn
deriving DecidableEq, Repr

/-- Normal or exceptional completion of a call. -/
inductive Outcome (α : Type) where
  | ok : α → Outcome α
  | throw : Exn → Outcome α
deriving DecidableEq, Repr

/-- The C++ `for( int i = 0; i < n; i++ )` loop over a state, stopping at the
first iteration that throws; the indices are given as a list. -/
def forLoop {σ : Type} (body : Nat → σ → σ × Outcome Unit) : List Nat → σ → σ × Outcome Unit
  | [], s => (s, Outcome.ok ())
  | i :: rest, s =>
    match body i s with
    | (s', Outcome.ok _) => forLoop body rest s'
    | (s', Outcome.throw e) => (s', Outcome.throw e)

/-- Reading `arr[i]`: `CArray::operator[]` with a C++ `int` index. -/
def CArray.get? {α : Type} (arr : List α) (i : Int) : Option α :=
  if 0 ≤ i then arr[i.toNat]? else none

/-- Writing `arr[i] = v`; `none` when the index is invalid. -/
def CArray.set? {α : Type} (arr : List α) (i : Int) (v : α) : Option (List α) :=
  if 0 ≤ i ∧ i.toNat < arr.length then some (arr.set i.toNat v) else none

/-- The call `arr.SetSize( n )`: keeps the first `n` elements and pads with
default-constructed ones. -/
def CArray.SetSize {α : Type} (arr : List α) (n : Int) (dflt : α) : List α :=
  arr.take n.toNat ++ List.replicate (n.toNat - arr.length) dflt

/-- The call `arr.Add( v, count )`: appends `count` copies of `v`. -/
def CArray.AddN {α : Type} (arr : List α) (v : α) (count : Int) : List α :=
  arr ++ List.replicate count.toNat v

/-! ## The subsampler -/

/-- The state of a `CRandom` generator. -/
structure CRandom where
  state : Nat
deriving DecidableEq, Repr

/-- The method `CRandom::UniformInt( min, max )`, external to this file: from the
generator state and the two bounds it gives the drawn value and the next
state. -/
abbrev UniformIntFn := CRandom → Int → Int → Int × CRandom

/-- The contract of `UniformInt`: a draw from `[lo, hi]` lies in `[lo, hi]`. -/
def UniformIntInRange (uniformInt : UniformIntFn) : Prop :=
  ∀ (r : CRandom) (lo hi : Int), lo ≤ hi → lo ≤ (uniformInt r lo hi).1 ∧ (uniformInt r lo hi).1 ≤ hi

/-- The call `swap( result[i], result[index] )`. -/
def swapAt (result : List Int) (i index : Int) : Option (List Int) :=
  match CArray.get? result i, CArray.get? result index with
  | some a, some b =>
    match CArray.set? result i b with
    | some r1 => CArray.set? r1 index a
    | none => none
  | _, _ => none

/-- Modelled from the spec: `CArray::QuickSort< Ascending<int> >` is not part of
this file; the spec only says that the truncated array is then sorted ascending. -/
def QuickSort (arr : List Int) : List Int :=
  arr.insertionSort (fun a b => a ≤ b)

/-- The array `0, 1, ..., n-1` built by the `result.Add( i )` loop. -/
def identityArray (n : Nat) : List Int :=
  (List.range n).map Int.ofNat

/-- One iteration of the partial shuffle of `generateRandomArray`. -/
def shuffleBody (uniformInt : UniformIntFn) (n : Int) (i : Nat) (s : CRandom × List Int) :
    (CRandom × List Int) × Outcome Unit :=
  let draw := uniformInt s.1 (i : Int) (n - 1)
  match swapAt s.2 (i : Int) draw.1 with
  | some r => ((draw.2, r), Outcome.ok ())
  | none => ((draw.2, s.2), Outcome.throw Exn.assertion)

/-- The function `generateRandomArray( random, n, k, result )`: the state is the
generator together with the in/out array `result`. -/
def generateRandomArray (uniformInt : UniformIntFn) (random : CRandom) (n k : Int)
    (result : List Int) : (CRandom × List Int) × Outcome Unit :=
  if ¬ (k ≤ n) then ((random, result), Outcome.throw Exn.assertion)
  else if ¬ (1 ≤ k) then ((random, result), Outcome.throw Exn.assertion)
  else
    let filled : List Int := identityArray n.toNat
    if k = n then ((random, filled), Outcome.ok ())
    else
      match forLoop (shuffleBody uniformInt n) (List.range k.toNat) (random, filled) with
      | (s, Outcome.ok _) => ((s.1, QuickSort (s.2.take k.toNat)), Outcome.ok ())
      | (s, Outcome.throw e) => (s, Outcome.throw e)

/-- A linear congruential generator reduced into the requested range, used to
run the subsampler on concrete inputs. -/
def lcgUniformInt : UniformIntFn := fun r lo hi =>
  let next := (r.state * 1103515245 + 12345) % 2147483648
  (if lo ≤ hi then lo + (next : Int) % (hi - lo + 1) else lo, ⟨next⟩)

/-! ## Loss functions

The four loss classes share one double loop; they differ in the value computed
for one entry.  The scalar type is any linearly ordered field and the
exponential is a parameter, so the same definitions run on rationals and are
reasoned about on the reals with `Real.exp`. -/

section Loss

variable {K : Type} [LinearOrderedField K]

/-- The constant `MaxExpArgument`: the maximum argument for an exponent. -/
def MaxExpArgument : K := 30

/-- The literal `1e-16`. -/
def hessianFloor : K := 1 / 10 ^ 16

/-- Reading `arr[i][j]` with loop counters as indices. -/
def CArray.get2? {α : Type} (arr : List (List α)) (i j : Nat) : Option α :=
  match arr[i]? with
  | some row => row[j]?
  | none => none

/-- Writing `arr[i][j] = v` with loop counters as indices. -/
def CArray.set2? {α : Type} (arr : List (List α)) (i j : Nat) (v : α) : Option (List (List α)) :=
  match arr[i]? with
  | some row => if j < row.length then some (arr.set i (row.set j v)) else none
  | none => none

/-- Gradient and Hessian of one entry, `CGradientBoostingBinomialLossFunction`. -/
def binomialEntry (exp : K → K) (predict answer : K) : K × K :=
  let pred := 1 / (1 + exp (min (-predict) MaxExpArgument))
  (pred - answer, max (pred * (1 - pred)) hessianFloor)

/-- Gradient and Hessian of one entry, `CGradientBoostingExponentialLossFunction`. -/
def exponentialEntry (exp : K → K) (predict answer : K) : K × K :=
  let temp := -(2 * answer - 1)
  let tempExp := exp (min (temp * predict) MaxExpArgument)
  (temp * tempExp, temp * temp * tempExp)

/-- Gradient and Hessian of one entry, `CGradientBoostingSquaredHinge`. -/
def squaredHingeEntry (predict answer : K) : K × K :=
  let t := -(2 * answer - 1)
  if t * predict < 1 then (2 * t * (t * predict - 1), 2 * t * t) else (0, hessianFloor)

/-- Gradient and Hessian of one entry, `CGradientBoostingSquareLoss`. -/
def squareLossEntry (predict answer : K) : K × K :=
  (predict - answer, 1)

/-- The body of the inner loop: `gradients[i][j] = ...; hessians[i][j] = ...`. -/
def calcEntryBody (entry : K → K → K × K) (predicts answers : List (List K)) (i j : Nat)
    (s : List (List K) × List (List K)) : (List (List K) × List (List K)) × Outcome Unit :=
  match CArray.get2? predicts i j, CArray.get2? answers i j with
  | some p, some a =>
    match CArray.set2? s.1 i j (entry p a).1, CArray.set2? s.2 i j (entry p a).2 with
    | some g, some h => ((g, h), Outcome.ok ())
    | _, _ => (s, Outcome.throw Exn.assertion)
  | _, _ => (s, Outcome.throw Exn.assertion)

/-- The body of the outer loop: both rows are resized to `predicts[i].Size()`
and then filled. -/
def calcRowBody (entry : K → K → K × K) (predicts answers : List (List K)) (i : Nat)
    (s : List (List K) × List (List K)) : (List (List K) × List (List K)) × Outcome Unit :=
  match predicts[i]?, s.1[i]?, s.2[i]? with
  | some row, some g, some h =>
    forLoop (calcEntryBody entry predicts answers i) (List.range row.length)
      (s.1.set i (CArray.SetSize g row.length 0), s.2.set i (CArray.SetSize h row.length 0))
  | _, _, _ => (s, Outcome.throw Exn.assertion)

/-- The method `CalcGradientAndHessian( predicts, answers, gradients, hessians )`
shared by the four loss classes; the state is the pair of output arrays. -/
def calcGradientAndHessianWith (entry : K → K → K × K) (predicts answers : List (List K))
    (gradients hessians : List (List K)) : (List (List K) × List (List K)) × Outcome Unit :=
  if predicts.length ≠ answers.length then ((gradients, hessians), Outcome.throw Exn.assertion)
  else
    forLoop (calcRowBody entry predicts answers) (List.range predicts.length)
      (CArray.SetSize gradients predicts.length [], CArray.SetSize hessians predicts.length [])

/-- The loss classes created by `createLossFunction`. -/
inductive IGradientBoostingLossFunction where
  | CGradientBoostingBinomialLossFunction
  | CGradientBoostingExponentialLossFunction
  | CGradientBoostingSquaredHinge
  | CGradientBoostingSquareLoss
deriving DecidableEq, Repr

/-- The entry computed by each loss class. -/
def IGradientBoostingLossFunction.entry (exp : K → K) :
    IGradientBoostingLossFunction → K → K → K × K
  | CGradientBoostingBinomialLossFunction => binomialEntry exp
  | CGradientBoostingExponentialLossFunction => exponentialEntry exp
  | CGradientBoostingSquaredHinge => squaredHingeEntry
  | CGradientBoostingSquareLoss => squareLossEntry

/-- The virtual call `lossFunction.CalcGradientAndHessian( ... )`. -/
def IGradientBoostingLossFunction.CalcGradientAndHessian (exp : K → K)
    (lossFunction : IGradientBoostingLossFunction) (predicts answers : List (List K))
    (gradients hessians : List (List K)) : (List (List K) × List (List K)) × Outcome Unit :=
  calcGradientAndHessianWith (lossFunction.entry exp) predicts answers gradients hessians

/-- The rows `f predicts[i][j] answers[i][j]`, entry by entry. -/
def entryRows (f : K → K → K) (predicts answers : List (List K)) : List (List K) :=
  List.zipWith (fun prow arow => List.zipWith f prow arow) predicts answers

end Loss

/-! ## Data model of the trainer -/

/-- The enumeration `TGradientBoostTreeBuilder`; `other` stands for a value
outside the enumeration (the `default:` branch of `createTreeBuilder`). -/
inductive TGradientBoostTreeBuilder where
  | GBTB_Full
  | GBTB_FastHist
  | GBTB_MultiFull
  | GBTB_MultiFastHist
  | other : Int → TGradientBoostTreeBuilder
deriving DecidableEq, Repr

/-- The enumeration `CGradientBoost::TLossFunction`; `other` stands for a value
outside the enumeration (the `default:` branch of `createLossFunction`). -/
inductive TLossFunction where
  | LF_Exponential
  | LF_Binomial
  | LF_SquaredHinge
  | LF_L2
  | other : Int → TLossFunction
deriving DecidableEq, Repr

/-- The enumeration `TGradientBoostModelRepresentation`. -/
inductive TGradientBoostModelRepresentation where
  | GBMR_Linked
  | GBMR_Compact
  | GBMR_QuickScorer
  | other : Int → TGradientBoostModelRepresentation
deriving DecidableEq, Repr

/-- The constant `NotFound`. -/
def NotFound : Int := -1

/-- The configuration `CGradientBoost::CParams`.  `Random` is the generator the
pointer `params.Random` refers to, `none` for a null pointer. -/
structure CParams where
  LossFunction : TLossFunction
  IterationsCount : Int
  LearningRate : ℚ
  Subsample : ℚ
  Subfeature : ℚ
  Random : Option CRandom
  MaxTreeDepth : Int
  MaxNodesCount : Int
  L1RegFactor : ℚ
  L2RegFactor : ℚ
  PruneCriterionValue : ℚ
  ThreadCount : Int
  TreeBuilder : TGradientBoostTreeBuilder
  MaxBins : Int
  MinSubsetWeight : ℚ
  DenseTreeBoostCoefficient : ℚ
  Representation : TGradientBoostModelRepresentation
deriving DecidableEq, Repr

/-- The matrix descriptor `CFloatMatrixDesc` with its rows. -/
structure CFloatMatrixDesc where
  Height : Int
  Width : Int
  Rows : List (List ℚ)
deriving DecidableEq, Repr

/-- What the trainer reads through `IMultivariateRegressionProblem`. -/
structure IMultivariateRegressionProblem where
  ValueSize : Int
  VectorCount : Int
  FeatureCount : Int
  Matrix : CFloatMatrixDesc
  Values : List (List ℚ)
  Weights : List ℚ
deriving DecidableEq, Repr

/-- One entry of the prediction cache, `CPredictionCacheItem`. -/
structure CPredictionCacheItem where
  Step : Int
  Value : ℚ
deriving DecidableEq, Repr

/-- The parameters handed to `CGradientBoostFullTreeBuilder`. -/
structure CGradientBoostFullTreeBuilderParams where
  L1RegFactor : ℚ
  L2RegFactor : ℚ
  MinSubsetHessian : ℚ
  ThreadCount : Int
  MaxTreeDepth : Int
  MaxNodesCount : Int
  PruneCriterionValue : ℚ
  MinSubsetWeight : ℚ
  DenseTreeBoostCoefficient : ℚ
deriving DecidableEq, Repr

/-- The parameters handed to `CGradientBoostFastHistTreeBuilder`. -/
structure CGradientBoostFastHistTreeBuilderParams where
  L1RegFactor : ℚ
  L2RegFactor : ℚ
  MinSubsetHessian : ℚ
  ThreadCount : Int
  MaxTreeDepth : Int
  MaxNodesCount : Int
  PruneCriterionValue : ℚ
  MaxBins : Int
  MinSubsetWeight : ℚ
  DenseTreeBoostCoefficient : ℚ
deriving DecidableEq, Repr

/-- The view `CGradientBoostFullProblem`: it keeps references to the problem and
to the trainer's `usedVectors`, `usedFeatures` and `featureNumbers`, which the
builder therefore reads from the trainer state. -/
structure CGradientBoostFullProblem where
  ThreadCount : Int
  baseProblem : IMultivariateRegressionProblem
deriving DecidableEq, Repr

/-- The view `CGradientBoostFastHistProblem`. -/
structure CGradientBoostFastHistProblem where
  ThreadCount : Int
  MaxBins : Int
  baseProblem : IMultivariateRegressionProblem
deriving DecidableEq, Repr

/-- One line written to the log stream. -/
inductive LogEntry where
  | boostIteration : Int → LogEntry
  | sums : ℚ → ℚ → LogEntry
deriving DecidableEq, Repr

/-- The fields of `CGradientBoost`.  `Tree` is the type of tree nodes
(`IRegressionTreeNode`) and `B` the type of a tree-builder object. -/
structure CGradientBoost (Tree B : Type) where
  params : CParams
  defaultRandom : CRandom
  logStream : Option (List LogEntry)
  loss : ℚ
  lossFunction : Option IGradientBoostingLossFunction
  models : List (List Tree)
  predictCache : List (List CPredictionCacheItem)
  predicts : List (List ℚ)
  answers : List (List ℚ)
  gradients : List (List ℚ)
  hessians : List (List ℚ)
  usedVectors : List Int
  usedFeatures : List Int
  featureNumbers : List Int
  baseProblem : Option IMultivariateRegressionProblem
  fullSingleClassTreeBuilder : Option B
  fullMultiClassTreeBuilder : Option B
  fastHistSingleClassTreeBuilder : Option B
  fastHistMultiClassTreeBuilder : Option B
  fullProblem : Option CGradientBoostFullProblem
  fastHistProblem : Option CGradientBoostFastHistProblem
deriving DecidableEq, Repr

/-- The function `processParams` on the platforms other than iOS. -/
def processParams (params : CParams) : CParams := params

/-- The constructor `CGradientBoost::CGradientBoost( _params )`: the member
initialisers followed by the eight assertions, in source order.  The default
generator starts from the given seed state. -/
def CGradientBoost.construct {Tree B : Type} (seed : CRandom) (_params : CParams) :
    Outcome (CGradientBoost Tree B) :=
  let params := processParams _params
  if ¬ (params.IterationsCount > 0) then Outcome.throw Exn.assertion
  else if ¬ (0 ≤ params.Subsample ∧ params.Subsample ≤ 1) then Outcome.throw Exn.assertion
  else if ¬ (0 ≤ params.Subfeature ∧ params.Subfeature ≤ 1) then Outcome.throw Exn.assertion
  else if ¬ (params.MaxTreeDepth ≥ 0) then Outcome.throw Exn.assertion
  else if ¬ (params.MaxNodesCount ≥ 0 ∨ params.MaxNodesCount = NotFound) then
    Outcome.throw Exn.assertion
  else if ¬ (params.PruneCriterionValue ≥ 0) then Outcome.throw Exn.assertion
  else if ¬ (params.ThreadCount > 0) then Outcome.throw Exn.assertion
  else if ¬ (params.MinSubsetWeight ≥ 0) then Outcome.throw Exn.assertion
  else Outcome.ok
    { params := params
      defaultRandom := seed
      logStream := none
      loss := 0
      lossFunction := none
      models := []
      predictCache := []
      predicts := []
      answers := []
      gradients := []
      hessians := []
      usedVectors := []
      usedFeatures := []
      featureNumbers := []
      baseProblem := none
      fullSingleClassTreeBuilder := none
      fullMultiClassTreeBuilder := none
      fastHistSingleClassTreeBuilder := none
      fastHistMultiClassTreeBuilder := none
      fullProblem := none
      fastHistProblem := none }

/-! ## External collaborators -/

/-- What a tree builder receives through the problem view it is given: the
problem and the trainer's current active sets. -/
structure CBuildView where
  problem : IMultivariateRegressionProblem
  usedVectors : List Int
  usedFeatures : List Int
  featureNumbers : List Int
deriving DecidableEq, Repr

/-- One value written to a `CArchive`. -/
inductive ArchiveItem where
  | int : Int → ArchiveItem
  | double : ℚ → ArchiveItem
deriving DecidableEq, Repr

/-- The code this file calls and does not define.  A constructor gives the new
object or the exception it raises; a view constructor gives the exception it
raises, if any; a `Build` call gives the tree or the exception together with
the builder afterwards. -/
structure Collaborators (Tree B : Type) where
  /-- The method `CRandom::UniformInt`. -/
  uniformInt : UniformIntFn
  /-- The library function `exp` on the scalar type of the trainer. -/
  exp : ℚ → ℚ
  /-- The adapter `CMultivariateRegressionProblemNotNullWeightsView`. -/
  notNullWeightsView : IMultivariateRegressionProblem → IMultivariateRegressionProblem
  /-- Output `j` of one tree on a feature row. -/
  treeOutput : Tree → List ℚ → Nat → ℚ
  /-- Constructor of `CGradientBoostFullTreeBuilder`, multi-output when the flag is set. -/
  newFullTreeBuilder : Bool → CGradientBoostFullTreeBuilderParams → Outcome B
  /-- Constructor of `CGradientBoostFullProblem`. -/
  newFullProblem : Int → CBuildView → Option Exn
  /-- Constructor of `CGradientBoostFastHistTreeBuilder` with its prediction size. -/
  newFastHistTreeBuilder : Bool → CGradientBoostFastHistTreeBuilderParams → Int → Outcome B
  /-- Constructor of `CGradientBoostFastHistProblem`. -/
  newFastHistProblem : Int → Int → CBuildView → Option Exn
  /-- Single-output `CGradientBoostFullTreeBuilder::Build`. -/
  fullSingleBuild : B → CBuildView → List ℚ → ℚ → List ℚ → ℚ → List ℚ → ℚ → Outcome Tree × B
  /-- Multi-output `CGradientBoostFullTreeBuilder::Build`. -/
  fullMultiBuild : B → CBuildView → List (List ℚ) → List ℚ → List (List ℚ) → List ℚ →
    List ℚ → ℚ → Outcome Tree × B
  /-- Single-output `CGradientBoostFastHistTreeBuilder::Build`. -/
  fastHistSingleBuild : B → CBuildView → List ℚ → List ℚ → List ℚ → Outcome Tree × B
  /-- Multi-output `CGradientBoostFastHistTreeBuilder::Build`. -/
  fastHistMultiBuild : B → CBuildView → List (List ℚ) → List (List ℚ) → List ℚ → Outcome Tree × B
  /-- What a tree node's own `Serialize` writes. -/
  storeTree : Tree → List ArchiveItem
  /-- What a tree node's own `Serialize` reads: the node and the rest of the archive. -/
  loadTree : List ArchiveItem → Option (Tree × List ArchiveItem)

/-! ## Tree builder set-up -/

section Trainer

variable {Tree B : Type}

/-- Modelled from the spec: `isMultiTreesModel` is declared in the header, which
is not part of this file; a single shared ensemble is used when the builder
produces joint multi-output trees. -/
def CGradientBoost.isMultiTreesModel (s : CGradientBoost Tree B) : Bool :=
  match s.params.TreeBuilder with
  | TGradientBoostTreeBuilder.GBTB_MultiFull => true
  | TGradientBoostTreeBuilder.GBTB_MultiFastHist => true
  | _ => false

/-- The method `destroyTreeBuilder`. -/
def CGradientBoost.destroyTreeBuilder (s : CGradientBoost Tree B) : CGradientBoost Tree B :=
  { s with
    fullSingleClassTreeBuilder := none
    fullMultiClassTreeBuilder := none
    fullProblem := none
    fastHistSingleClassTreeBuilder := none
    fastHistMultiClassTreeBuilder := none
    fastHistProblem := none
    baseProblem := none }

/-- The method `createLossFunction`. -/
def CGradientBoost.createLossFunction (s : CGradientBoost Tree B) :
    Outcome IGradientBoostingLossFunction :=
  match s.params.LossFunction with
  | TLossFunction.LF_Binomial =>
    Outcome.ok IGradientBoostingLossFunction.CGradientBoostingBinomialLossFunction
  | TLossFunction.LF_Exponential =>
    Outcome.ok IGradientBoostingLossFunction.CGradientBoostingExponentialLossFunction
  | TLossFunction.LF_SquaredHinge =>
    Outcome.ok IGradientBoostingLossFunction.CGradientBoostingSquaredHinge
  | TLossFunction.LF_L2 =>
    Outcome.ok IGradientBoostingLossFunction.CGradientBoostingSquareLoss
  | TLossFunction.other _ => Outcome.throw Exn.assertion

/-- The view of the trainer state that the problem views refer to. -/
def CGradientBoost.buildView (s : CGradientBoost Tree B)
    (problem : IMultivariateRegressionProblem) : CBuildView :=
  { problem := problem
    usedVectors := s.usedVectors
    usedFeatures := s.usedFeatures
    featureNumbers := s.featureNumbers }

/-- The `GBTB_Full` / `GBTB_MultiFull` case of `createTreeBuilder`. -/
def CGradientBoost.createFullTreeBuilder (X : Collaborators Tree B) (s : CGradientBoost Tree B)
    (problem : IMultivariateRegressionProblem) (multi : Bool) :
    CGradientBoost Tree B × Outcome Unit :=
  let builderParams : CGradientBoostFullTreeBuilderParams :=
    { L1RegFactor := s.params.L1RegFactor
      L2RegFactor := s.params.L2RegFactor
      MinSubsetHessian := 1 / 1000
      ThreadCount := s.params.ThreadCount
      MaxTreeDepth := s.params.MaxTreeDepth
      MaxNodesCount := s.params.MaxNodesCount
      PruneCriterionValue := s.params.PruneCriterionValue
      MinSubsetWeight := s.params.MinSubsetWeight
      DenseTreeBoostCoefficient := s.params.DenseTreeBoostCoefficient }
  match X.newFullTreeBuilder multi builderParams with
  | Outcome.throw e => (s, Outcome.throw e)
  | Outcome.ok b =>
    let s1 : CGradientBoost Tree B :=
      if multi then { s with fullMultiClassTreeBuilder := some b }
      else { s with fullSingleClassTreeBuilder := some b }
    match X.newFullProblem s.params.ThreadCount (s.buildView problem) with
    | some e => (s1, Outcome.throw e)
    | none =>
      ({ s1 with fullProblem := some ⟨s.params.ThreadCount, problem⟩ }, Outcome.ok ())

/-- The `GBTB_FastHist` / `GBTB_MultiFastHist` case of `createTreeBuilder`. -/
def CGradientBoost.createFastHistTreeBuilder (X : Collaborators Tree B)
    (s : CGradientBoost Tree B) (problem : IMultivariateRegressionProblem) (multi : Bool) :
    CGradientBoost Tree B × Outcome Unit :=
  let builderParams : CGradientBoostFastHistTreeBuilderParams :=
    { L1RegFactor := s.params.L1RegFactor
      L2RegFactor := s.params.L2RegFactor
      MinSubsetHessian := 1 / 1000
      ThreadCount := s.params.ThreadCount
      MaxTreeDepth := s.params.MaxTreeDepth
      MaxNodesCount := s.params.MaxNodesCount
      PruneCriterionValue := s.params.PruneCriterionValue
      MaxBins := s.params.MaxBins
      MinSubsetWeight := s.params.MinSubsetWeight
      DenseTreeBoostCoefficient := s.params.DenseTreeBoostCoefficient }
  match X.newFastHistTreeBuilder multi builderParams (if multi then problem.ValueSize else 1) with
  | Outcome.throw e => (s, Outcome.throw e)
  | Outcome.ok b =>
    let s1 : CGradientBoost Tree B :=
      if multi then { s with fastHistMultiClassTreeBuilder := some b }
      else { s with fastHistSingleClassTreeBuilder := some b }
    match X.newFastHistProblem s.params.ThreadCount s.params.MaxBins (s.buildView problem) with
    | some e => (s1, Outcome.throw e)
    | none =>
      ({ s1 with fastHistProblem := some ⟨s.params.ThreadCount, s.params.MaxBins, problem⟩ },
        Outcome.ok ())

/-- The method `createTreeBuilder( problem )`. -/
def CGradientBoost.createTreeBuilder (X : Collaborators Tree B) (s : CGradientBoost Tree B)
    (problem : IMultivariateRegressionProblem) : CGradientBoost Tree B × Outcome Unit :=
  match s.params.TreeBuilder with
  | TGradientBoostTreeBuilder.GBTB_Full => s.createFullTreeBuilder X problem false
  | TGradientBoostTreeBuilder.GBTB_MultiFull => s.createFullTreeBuilder X problem true
  | TGradientBoostTreeBuilder.GBTB_FastHist => s.createFastHistTreeBuilder X problem false
  | TGradientBoostTreeBuilder.GBTB_MultiFastHist => s.createFastHistTreeBuilder X problem true
  | TGradientBoostTreeBuilder.other _ => (s, Outcome.throw Exn.assertion)

/-- The prediction cache allocated by `initialize` when the cache is empty:
`modelCount` rows of `vectorCount` items with step 0 and value 0. -/
def freshPredictCache (predictCache : List (List CPredictionCacheItem)) (modelCount vectorCount : Int) :
    List (List CPredictionCacheItem) :=
  (CArray.SetSize predictCache modelCount []).map
    (fun row => CArray.AddN row { Step := 0, Value := 0 } vectorCount)

/-- The part of `initialize` that precedes the `try` block: the three
assertions, the loss function, the ensembles, the cache, the buffers and the
active sets of a run without sampling.  It gives the adapted problem back. -/
def CGradientBoost.initializeState (s : CGradientBoost Tree B) :
    CGradientBoost Tree B × Outcome IMultivariateRegressionProblem :=
  match s.baseProblem with
  | none => (s, Outcome.throw Exn.assertion)
  | some baseProblem =>
    let modelCount := baseProblem.ValueSize
    let vectorCount := baseProblem.VectorCount
    let featureCount := baseProblem.FeatureCount
    if ¬ (modelCount ≥ 1) then (s, Outcome.throw Exn.assertion)
    else if ¬ (vectorCount > 0) then (s, Outcome.throw Exn.assertion)
    else if ¬ (featureCount > 0) then (s, Outcome.throw Exn.assertion)
    else
      match s.createLossFunction with
      | Outcome.throw e => (s, Outcome.throw e)
      | Outcome.ok lossFunction =>
        ({ s with
            lossFunction := some lossFunction
            models := CArray.SetSize s.models (if s.isMultiTreesModel then 1 else modelCount) []
            predictCache :=
              if s.predictCache.length = 0 then
                freshPredictCache s.predictCache modelCount vectorCount
              else s.predictCache
            predicts := CArray.SetSize s.predicts modelCount []
            answers := CArray.SetSize s.answers modelCount []
            gradients := CArray.SetSize s.gradients modelCount []
            hessians := CArray.SetSize s.hessians modelCount []
            usedVectors :=
              if s.params.Subsample = 1 then identityArray vectorCount.toNat else s.usedVectors
            usedFeatures :=
              if s.params.Subfeature = 1 then identityArray featureCount.toNat else s.usedFeatures
            featureNumbers :=
              if s.params.Subfeature = 1 then identityArray featureCount.toNat
              else s.featureNumbers },
          Outcome.ok baseProblem)

/-- The method `initialize`: the set-up above, then the `try` block around
`createTreeBuilder` with its `catch( ... )` that destroys the tree builder and
rethrows.  The closing `fullProblem->Update()` reloads data inside the view only
and leaves the trainer's fields as they are. -/
def CGradientBoost.initialize (X : Collaborators Tree B) (s : CGradientBoost Tree B) :
    CGradientBoost Tree B × Outcome Unit :=
  match s.initializeState with
  | (s1, Outcome.throw e) => (s1, Outcome.throw e)
  | (s1, Outcome.ok baseProblem) =>
    match s1.createTreeBuilder X baseProblem with
    | (s2, Outcome.throw e) => (s2.destroyTreeBuilder, Outcome.throw e)
    | (s2, Outcome.ok _) => (s2, Outcome.ok ())

/-- The method `prepareProblem( const IMultivariateRegressionProblem& )`. -/
def CGradientBoost.prepareProblem (X : Collaborators Tree B) (s : CGradientBoost Tree B)
    (_problem : IMultivariateRegressionProblem) : CGradientBoost Tree B × Outcome Unit :=
  match s.baseProblem with
  | none => CGradientBoost.initialize X { s with baseProblem := some (X.notNullWeightsView _problem) }
  | some _ => (s, Outcome.ok ())

end Trainer

/-! ## One boosting step -/

section Step

variable {Tree B : Type}

/-- All the values of a list of reads, `none` as soon as one read fails. -/
def collectAll {α : Type} : List (Option α) → Option (List α)
  | [] => some []
  | none :: _ => none
  | some a :: rest =>
    match collectAll rest with
    | some l => some (a :: l)
    | none => none

/-- The conversion `static_cast<int>( x )` of a scalar: truncation toward zero. -/
def truncToInt (x : ℚ) : Int :=
  if 0 ≤ x then Int.floor x else Int.ceil x

/-- Output `j` of `PredictRaw`: the learning rate times the sum of output `j` of
the trees of the ensemble from position `startPos` on. -/
def predictRawOutput (X : Collaborators Tree B) (ensemble : List Tree) (startPos : Int)
    (learningRate : ℚ) (features : List ℚ) (j : Nat) : ℚ :=
  learningRate * ((ensemble.drop startPos.toNat).map (fun t => X.treeOutput t features j)).sum

/-- Modelled from the spec: `CGradientBoostModel::PredictRaw( ensemble, startPos,
learningRate, features, predictions )` is defined outside this file; it scores a
row incrementally from a given ensemble depth, filling the `size` entries of
`predictions`. -/
def PredictRaw (X : Collaborators Tree B) (ensemble : List Tree) (startPos : Int)
    (learningRate : ℚ) (features : List ℚ) (size : Nat) : List ℚ :=
  (List.range size).map (predictRawOutput X ensemble startPos learningRate features)

/-- The generator used for sampling: `*params.Random` when the pointer is set,
`defaultRandom` otherwise. -/
def CGradientBoost.getRandom (s : CGradientBoost Tree B) : CRandom :=
  match s.params.Random with
  | some r => r
  | none => s.defaultRandom

/-- Stores the generator back after a draw. -/
def CGradientBoost.setRandom (s : CGradientBoost Tree B) (r : CRandom) : CGradientBoost Tree B :=
  match s.params.Random with
  | some _ => { s with params := { s.params with Random := some r } }
  | none => { s with defaultRandom := r }

/-- The block `if( params.Subsample < 1.0 )` of `executeStep`. -/
def CGradientBoost.sampleVectors (X : Collaborators Tree B) (s : CGradientBoost Tree B)
    (vectorCount : Int) : CGradientBoost Tree B × Outcome Unit :=
  if s.params.Subsample < 1 then
    match generateRandomArray X.uniformInt s.getRandom vectorCount
        (max (truncToInt (vectorCount * s.params.Subsample)) 1) s.usedVectors with
    | ((r, result), o) => ({ s.setRandom r with usedVectors := result }, o)
  else (s, Outcome.ok ())

/-- The loop `featureNumbers[usedFeatures[i]] = i`. -/
def renumberBody (usedFeatures : List Int) (i : Nat) (featureNumbers : List Int) :
    List Int × Outcome Unit :=
  match usedFeatures[i]? with
  | some f =>
    match CArray.set? featureNumbers f (i : Int) with
    | some r => (r, Outcome.ok ())
    | none => (featureNumbers, Outcome.throw Exn.assertion)
  | none => (featureNumbers, Outcome.throw Exn.assertion)

/-- The loop `featureNumbers[i] = NotFound` over `i < featureCount`. -/
def clearBody (i : Nat) (featureNumbers : List Int) : List Int × Outcome Unit :=
  match CArray.set? featureNumbers (i : Int) NotFound with
  | some r => (r, Outcome.ok ())
  | none => (featureNumbers, Outcome.throw Exn.assertion)

/-- The block `if( params.Subfeature < 1.0 )` of `executeStep`. -/
def CGradientBoost.sampleFeatures (X : Collaborators Tree B) (s : CGradientBoost Tree B)
    (featureCount : Int) : CGradientBoost Tree B × Outcome Unit :=
  if s.params.Subfeature < 1 then
    match generateRandomArray X.uniformInt s.getRandom featureCount
        (max (truncToInt (featureCount * s.params.Subfeature)) 1) s.usedFeatures with
    | ((r, result), Outcome.throw e) => ({ s.setRandom r with usedFeatures := result }, Outcome.throw e)
    | ((r, result), Outcome.ok _) =>
      let s1 : CGradientBoost Tree B := { s.setRandom r with usedFeatures := result }
      let resized : List Int :=
        if (s1.featureNumbers.length : Int) ≠ featureCount then
          CArray.SetSize s1.featureNumbers featureCount 0
        else s1.featureNumbers
      match forLoop clearBody (List.range featureCount.toNat) resized with
      | (cleared, Outcome.throw e) => ({ s1 with featureNumbers := cleared }, Outcome.throw e)
      | (cleared, Outcome.ok _) =>
        match forLoop (renumberBody s1.usedFeatures) (List.range s1.usedFeatures.length) cleared with
        | (numbered, o) => ({ s1 with featureNumbers := numbered }, o)
  else (s, Outcome.ok ())

/-- The four working buffers `predicts`, `answers`, `gradients`, `hessians`. -/
structure CBuffers where
  predicts : List (List ℚ)
  answers : List (List ℚ)
  gradients : List (List ℚ)
  hessians : List (List ℚ)
deriving DecidableEq, Repr

/-- The loop that resizes `predicts[i]` and `answers[i]` to the size of the
active set and empties `gradients[i]` and `hessians[i]`. -/
def resizeBody (size : Nat) (i : Nat) (b : CBuffers) : CBuffers × Outcome Unit :=
  match b.predicts[i]? with
  | none => (b, Outcome.throw Exn.assertion)
  | some p =>
    let b1 : CBuffers := { b with predicts := b.predicts.set i (CArray.SetSize p size 0) }
    match b1.answers[i]? with
    | none => (b1, Outcome.throw Exn.assertion)
    | some a =>
      let b2 : CBuffers := { b1 with answers := b1.answers.set i (CArray.SetSize a size 0) }
      match b2.gradients[i]? with
      | none => (b2, Outcome.throw Exn.assertion)
      | some _ =>
        let b3 : CBuffers := { b2 with gradients := b2.gradients.set i [] }
        match b3.hessians[i]? with
        | none => (b3, Outcome.throw Exn.assertion)
        | some _ => ({ b3 with hessians := b3.hessians.set i [] }, Outcome.ok ())

/-- The state that `buildPredictions` writes: the cache and two buffers. -/
structure CPredictState where
  predictCache : List (List CPredictionCacheItem)
  predicts : List (List ℚ)
  answers : List (List ℚ)
deriving DecidableEq, Repr

/-- The `if( isMultiTreesModel() )` block of `buildPredictions`: the increments
of one row, one per output. -/
def rowPredictions (X : Collaborators Tree B) (multi : Bool) (learningRate : ℚ)
    (models : List (List Tree)) (predictCache : List (List CPredictionCacheItem))
    (valueSize usedVector : Nat) (vector : List ℚ) : Option (List ℚ) :=
  if multi then
    match models[0]?, CArray.get2? predictCache 0 usedVector with
    | some ensemble, some item =>
      some (PredictRaw X ensemble item.Step learningRate vector valueSize)
    | _, _ => none
  else
    collectAll ((List.range valueSize).map (fun j =>
      match models[j]?, CArray.get2? predictCache j usedVector with
      | some ensemble, some item => (PredictRaw X ensemble item.Step learningRate vector 1)[0]?
      | _, _ => none))

/-- The closing loop over the outputs `j` of one row of `buildPredictions`. -/
def cacheWriteBody (predictions value : List ℚ) (curStep : Int) (usedVector index : Nat) (j : Nat)
    (st : CPredictState) : CPredictState × Outcome Unit :=
  match predictions[j]?, CArray.get2? st.predictCache j usedVector with
  | some q, some item =>
    match CArray.set2? st.predictCache j usedVector { Step := curStep, Value := item.Value + q } with
    | none => (st, Outcome.throw Exn.assertion)
    | some cache =>
      let st1 : CPredictState := { st with predictCache := cache }
      match CArray.set2? st1.predicts j index (item.Value + q) with
      | none => (st1, Outcome.throw Exn.assertion)
      | some predicts =>
        let st2 : CPredictState := { st1 with predicts := predicts }
        match value[j]? with
        | none => (st2, Outcome.throw Exn.assertion)
        | some v =>
          match CArray.set2? st2.answers j index v with
          | none => (st2, Outcome.throw Exn.assertion)
          | some answers => ({ st2 with answers := answers }, Outcome.ok ())
  | _, _ => (st, Outcome.throw Exn.assertion)

/-- One row of `buildPredictions`: position `index` of the active set. -/
def buildPredictionsRow (X : Collaborators Tree B) (multi : Bool) (learningRate : ℚ)
    (models : List (List Tree)) (problem : IMultivariateRegressionProblem) (usedVectors : List Int)
    (curStep : Int) (index : Nat) (st : CPredictState) : CPredictState × Outcome Unit :=
  match usedVectors[index]? with
  | none => (st, Outcome.throw Exn.assertion)
  | some usedVector =>
    if usedVector < 0 then (st, Outcome.throw Exn.assertion)
    else
      match problem.Values[usedVector.toNat]?, problem.Matrix.Rows[usedVector.toNat]? with
      | some value, some vector =>
        match rowPredictions X multi learningRate models st.predictCache problem.ValueSize.toNat
            usedVector.toNat vector with
        | none => (st, Outcome.throw Exn.assertion)
        | some predictions =>
          forLoop (cacheWriteBody predictions value curStep usedVector.toNat index)
            (List.range problem.ValueSize.toNat) st
      | _, _ => (st, Outcome.throw Exn.assertion)

/-- The method `buildPredictions( problem, models, curStep )`.  The rows of the
active set are split among the threads in contiguous ranges, every thread
writing the entries of its own rows; here they are visited in order. -/
def CGradientBoost.buildPredictions (X : Collaborators Tree B) (s : CGradientBoost Tree B)
    (problem : IMultivariateRegressionProblem) (models : List (List Tree)) (curStep : Int) :
    CGradientBoost Tree B × Outcome Unit :=
  if ¬ (problem.Matrix.Height = problem.VectorCount) then (s, Outcome.throw Exn.assertion)
  else if ¬ (problem.Matrix.Width = problem.FeatureCount) then (s, Outcome.throw Exn.assertion)
  else
    match forLoop (buildPredictionsRow X s.isMultiTreesModel s.params.LearningRate models problem
        s.usedVectors curStep) (List.range s.usedVectors.length)
        { predictCache := s.predictCache, predicts := s.predicts, answers := s.answers } with
    | (st, o) =>
      ({ s with predictCache := st.predictCache, predicts := st.predicts, answers := st.answers }, o)

end Step

section Execute

variable {Tree B : Type}

/-- The loop that reads `problem->GetVectorWeight( usedVectors[i] )` into `weights`. -/
def readWeights (problem : IMultivariateRegressionProblem) (usedVectors : List Int) :
    Option (List ℚ) :=
  collectAll (usedVectors.map (fun v => CArray.get? problem.Weights v))

/-- The gradient and Hessian buffers with their per-output sums. -/
structure CStatistics where
  gradients : List (List ℚ)
  hessians : List (List ℚ)
  gradientsSum : List ℚ
  hessiansSum : List ℚ
deriving DecidableEq, Repr

/-- The body of the weighting loop for output `i` and active position `j`. -/
def weightEntryBody (weights : List ℚ) (i j : Nat) (st : CStatistics) :
    CStatistics × Outcome Unit :=
  match CArray.get2? st.gradients i j, weights[j]?, st.gradientsSum[i]? with
  | some g, some w, some gs =>
    match CArray.set2? st.gradients i j (g * w) with
    | none => (st, Outcome.throw Exn.assertion)
    | some gradients =>
      let st1 : CStatistics :=
        { st with gradients := gradients, gradientsSum := st.gradientsSum.set i (gs + g * w) }
      match CArray.get2? st1.hessians i j, st1.hessiansSum[i]? with
      | some h, some hs =>
        match CArray.set2? st1.hessians i j (h * w) with
        | none => (st1, Outcome.throw Exn.assertion)
        | some hessians =>
          ({ st1 with hessians := hessians, hessiansSum := st1.hessiansSum.set i (hs + h * w) },
            Outcome.ok ())
      | _, _ => (st1, Outcome.throw Exn.assertion)
  | _, _, _ => (st, Outcome.throw Exn.assertion)

/-- The weighting loop of `executeStep` over the outputs and the active positions. -/
def weightStatistics (weights : List ℚ) (count : Nat) (st : CStatistics) :
    CStatistics × Outcome Unit :=
  forLoop (fun i st1 => forLoop (weightEntryBody weights i) (List.range count) st1)
    (List.range st.gradients.length) st

/-- The multi-output branch of the closing block of `executeStep`. -/
def CGradientBoost.buildMulti (X : Collaborators Tree B) (s : CGradientBoost Tree B)
    (gradientsSum hessiansSum weights : List ℚ) (weightsSum : ℚ) (curModels : List Tree) :
    CGradientBoost Tree B × Outcome (List Tree) :=
  match s.fullMultiClassTreeBuilder with
  | some b =>
    match s.fullProblem with
    | none => (s, Outcome.throw Exn.assertion)
    | some view =>
      match X.fullMultiBuild b (s.buildView view.baseProblem) s.gradients gradientsSum s.hessians
          hessiansSum weights weightsSum with
      | (Outcome.ok tree, b1) =>
        ({ s with fullMultiClassTreeBuilder := some b1 }, Outcome.ok (curModels ++ [tree]))
      | (Outcome.throw e, b1) => ({ s with fullMultiClassTreeBuilder := some b1 }, Outcome.throw e)
  | none =>
    match s.fastHistMultiClassTreeBuilder, s.fastHistProblem with
    | some b, some view =>
      match X.fastHistMultiBuild b (s.buildView view.baseProblem) s.gradients s.hessians weights with
      | (Outcome.ok tree, b1) =>
        ({ s with fastHistMultiClassTreeBuilder := some b1 }, Outcome.ok (curModels ++ [tree]))
      | (Outcome.throw e, b1) =>
        ({ s with fastHistMultiClassTreeBuilder := some b1 }, Outcome.throw e)
    | _, _ => (s, Outcome.throw Exn.assertion)

/-- Appends the two sums of output `i` to the log when a log stream is set. -/
def CGradientBoost.logSums (s : CGradientBoost Tree B) (g h : ℚ) : CGradientBoost Tree B :=
  match s.logStream with
  | some log => { s with logStream := some (log ++ [LogEntry.sums g h]) }
  | none => s

/-- One iteration of the single-output loop of `executeStep`: the tree of output `i`. -/
def buildSingleBody (X : Collaborators Tree B) (gradientsSum hessiansSum weights : List ℚ)
    (weightsSum : ℚ) (i : Nat) (st : CGradientBoost Tree B × List Tree) :
    (CGradientBoost Tree B × List Tree) × Outcome Unit :=
  match st.1.gradients[i]?, st.1.hessians[i]?, gradientsSum[i]?, hessiansSum[i]? with
  | some g, some h, some gs, some hs =>
    let s1 := st.1.logSums gs hs
    match s1.fullSingleClassTreeBuilder with
    | some b =>
      match s1.fullProblem with
      | none => ((s1, st.2), Outcome.throw Exn.assertion)
      | some view =>
        match X.fullSingleBuild b (s1.buildView view.baseProblem) g gs h hs weights weightsSum with
        | (Outcome.ok tree, b1) =>
          (({ s1 with fullSingleClassTreeBuilder := some b1 }, st.2 ++ [tree]), Outcome.ok ())
        | (Outcome.throw e, b1) =>
          (({ s1 with fullSingleClassTreeBuilder := some b1 }, st.2), Outcome.throw e)
    | none =>
      match s1.fastHistSingleClassTreeBuilder, s1.fastHistProblem with
      | some b, some view =>
        match X.fastHistSingleBuild b (s1.buildView view.baseProblem) g h weights with
        | (Outcome.ok tree, b1) =>
          (({ s1 with fastHistSingleClassTreeBuilder := some b1 }, st.2 ++ [tree]), Outcome.ok ())
        | (Outcome.throw e, b1) =>
          (({ s1 with fastHistSingleClassTreeBuilder := some b1 }, st.2), Outcome.throw e)
      | _, _ => ((s1, st.2), Outcome.throw Exn.assertion)
  | _, _, _, _ => (st, Outcome.throw Exn.assertion)

/-- The closing block of `executeStep`: one joint tree from a multi-output
builder, one tree per output otherwise. -/
def CGradientBoost.buildTrees (X : Collaborators Tree B) (s : CGradientBoost Tree B)
    (gradientsSum hessiansSum weights : List ℚ) (weightsSum : ℚ) (curModels : List Tree) :
    CGradientBoost Tree B × Outcome (List Tree) :=
  if s.fullMultiClassTreeBuilder.isSome ∨ s.fastHistMultiClassTreeBuilder.isSome then
    s.buildMulti X gradientsSum hessiansSum weights weightsSum curModels
  else
    match forLoop (buildSingleBody X gradientsSum hessiansSum weights weightsSum)
        (List.range s.gradients.length) (s, curModels) with
    | (st, Outcome.ok _) => (st.1, Outcome.ok st.2)
    | (st, Outcome.throw e) => (st.1, Outcome.throw e)

/-- The local variables of `executeStep` handed to the tree builder. -/
structure CStepSums where
  gradientsSum : List ℚ
  hessiansSum : List ℚ
  weights : List ℚ
  weightsSum : ℚ
deriving DecidableEq, Repr

/-- The loop of `executeStep` over `i < predicts.Size()` that prepares the four
working buffers for the active set. -/
def CGradientBoost.resizeBuffers (s : CGradientBoost Tree B) : CGradientBoost Tree B × Outcome Unit :=
  match forLoop (resizeBody s.usedVectors.length) (List.range s.predicts.length)
      { predicts := s.predicts, answers := s.answers, gradients := s.gradients,
        hessians := s.hessians } with
  | (b, o) =>
    ({ s with predicts := b.predicts, answers := b.answers, gradients := b.gradients,
              hessians := b.hessians }, o)

/-- The statistics of `executeStep`: the call of the loss function, the weights
of the active rows and the weighted sums. -/
def CGradientBoost.computeStatistics (X : Collaborators Tree B) (s : CGradientBoost Tree B)
    (lossFunction : IGradientBoostingLossFunction) (problem : IMultivariateRegressionProblem) :
    CGradientBoost Tree B × Outcome CStepSums :=
  match lossFunction.CalcGradientAndHessian X.exp s.predicts s.answers s.gradients s.hessians with
  | ((g, h), Outcome.throw e) => ({ s with gradients := g, hessians := h }, Outcome.throw e)
  | ((g, h), Outcome.ok _) =>
    let s1 : CGradientBoost Tree B := { s with gradients := g, hessians := h }
    match readWeights problem s1.usedVectors with
    | none => (s1, Outcome.throw Exn.assertion)
    | some weights =>
      match weightStatistics weights s1.usedVectors.length
          { gradients := s1.gradients, hessians := s1.hessians,
            gradientsSum := CArray.AddN [] 0 s1.gradients.length,
            hessiansSum := CArray.AddN [] 0 s1.gradients.length } with
      | (st, Outcome.throw e) =>
        ({ s1 with gradients := st.gradients, hessians := st.hessians }, Outcome.throw e)
      | (st, Outcome.ok _) =>
        ({ s1 with gradients := st.gradients, hessians := st.hessians },
          Outcome.ok
            { gradientsSum := st.gradientsSum, hessiansSum := st.hessiansSum, weights := weights,
              weightsSum := weights.foldl (fun acc w => acc + w) 0 })

/-- The part of `executeStep` between the assertions and the builder calls:
sampling, the buffers, the predictions through the cache, the statistics.  The
call `fullProblem->Update()` that follows reloads data inside the view only. -/
def CGradientBoost.gatherStatistics (X : Collaborators Tree B) (s : CGradientBoost Tree B)
    (lossFunction : IGradientBoostingLossFunction) (problem : IMultivariateRegressionProblem) :
    CGradientBoost Tree B × Outcome CStepSums :=
  match s.sampleVectors X problem.VectorCount with
  | (s1, Outcome.throw e) => (s1, Outcome.throw e)
  | (s1, Outcome.ok _) =>
    match s1.sampleFeatures X problem.FeatureCount with
    | (s2, Outcome.throw e) => (s2, Outcome.throw e)
    | (s2, Outcome.ok _) =>
      match s2.models[0]? with
      | none => (s2, Outcome.throw Exn.assertion)
      | some ensemble =>
        match s2.resizeBuffers with
        | (s3, Outcome.throw e) => (s3, Outcome.throw e)
        | (s3, Outcome.ok _) =>
          match s3.buildPredictions X problem s3.models (ensemble.length : Int) with
          | (s4, Outcome.throw e) => (s4, Outcome.throw e)
          | (s4, Outcome.ok _) => s4.computeStatistics X lossFunction problem

/-- The method `executeStep( lossFunction, problem, curModels )`. -/
def CGradientBoost.executeStep (X : Collaborators Tree B) (s : CGradientBoost Tree B)
    (lossFunction : IGradientBoostingLossFunction)
    (problem : Option IMultivariateRegressionProblem) (curModels : List Tree) :
    CGradientBoost Tree B × Outcome (List Tree) :=
  if s.models.isEmpty then (s, Outcome.throw Exn.assertion)
  else if ¬ curModels.isEmpty then (s, Outcome.throw Exn.assertion)
  else
    match problem with
    | none => (s, Outcome.throw Exn.assertion)
    | some problem =>
      match s.gatherStatistics X lossFunction problem with
      | (s1, Outcome.throw e) => (s1, Outcome.throw e)
      | (s1, Outcome.ok sums) =>
        s1.buildTrees X sums.gradientsSum sums.hessiansSum sums.weights sums.weightsSum curModels

/-- The loop of `trainStep` that appends tree `j` of the iteration to ensemble `j`. -/
def appendBody (curIterationModels : List Tree) (j : Nat) (models : List (List Tree)) :
    List (List Tree) × Outcome Unit :=
  match curIterationModels[j]?, models[j]? with
  | some tree, some ensemble => (models.set j (ensemble ++ [tree]), Outcome.ok ())
  | _, _ => (models, Outcome.throw Exn.assertion)

/-- Appends the iteration header to the log when a log stream is set. -/
def CGradientBoost.logIteration (s : CGradientBoost Tree B) (n : Int) : CGradientBoost Tree B :=
  match s.logStream with
  | some log => { s with logStream := some (log ++ [LogEntry.boostIteration n]) }
  | none => s

/-- The first statements of the `try` block of `trainStep`: the log line and
the call of `executeStep` on `*lossFunction` and `baseProblem`. -/
def CGradientBoost.trainStepExecute (X : Collaborators Tree B) (s : CGradientBoost Tree B) :
    CGradientBoost Tree B × Outcome (List Tree) :=
  match (if s.logStream.isSome then s.models[0]? else some []) with
  | none => (s, Outcome.throw Exn.assertion)
  | some first =>
    let s1 := if s.logStream.isSome then s.logIteration first.length else s
    match s1.lossFunction with
    | none => (s1, Outcome.throw Exn.assertion)
    | some lossFunction => s1.executeStep X lossFunction s1.baseProblem []

/-- The body of the `try` block of `trainStep`: the step, then the loop that
adds the new trees to the ensembles. -/
def CGradientBoost.trainStepTry (X : Collaborators Tree B) (s : CGradientBoost Tree B) :
    CGradientBoost Tree B × Outcome Unit :=
  match s.trainStepExecute X with
  | (s2, Outcome.throw e) => (s2, Outcome.throw e)
  | (s2, Outcome.ok curIterationModels) =>
    match forLoop (appendBody curIterationModels) (List.range curIterationModels.length)
        s2.models with
    | (models, o) => ({ s2 with models := models }, o)

/-- The method `trainStep`: the `try` block, the `catch( ... )` that destroys the
tree builder and rethrows, and the returned comparison. -/
def CGradientBoost.trainStep (X : Collaborators Tree B) (s : CGradientBoost Tree B) :
    CGradientBoost Tree B × Outcome Bool :=
  match s.trainStepTry X with
  | (s1, Outcome.throw e) => (s1.destroyTreeBuilder, Outcome.throw e)
  | (s1, Outcome.ok _) =>
    match s1.models[0]? with
    | none => (s1, Outcome.throw Exn.assertion)
    | some ensemble => (s1, Outcome.ok (decide ((ensemble.length : Int) ≥ s1.params.IterationsCount)))

/-- The method `TrainStep( const IMultivariateRegressionProblem& )`. -/
def CGradientBoost.TrainStep (X : Collaborators Tree B) (s : CGradientBoost Tree B)
    (_problem : IMultivariateRegressionProblem) : CGradientBoost Tree B × Outcome Bool :=
  match s.prepareProblem X _problem with
  | (s1, Outcome.throw e) => (s1, Outcome.throw e)
  | (s1, Outcome.ok _) => s1.trainStep X

end Execute

/-! ## Serialization -/

section Serialize

variable {Tree B : Type}

/-- What storing one cache item writes: the step, then the value. -/
def storeCacheItem (item : CPredictionCacheItem) : List ArchiveItem :=
  [ArchiveItem.int item.Step, ArchiveItem.double item.Value]

/-- What storing one row of the cache writes: its size, then its items. -/
def storeCacheRow (row : List CPredictionCacheItem) : List ArchiveItem :=
  ArchiveItem.int row.length :: (row.map storeCacheItem).flatten

/-- Modelled from the spec: `predictCache.Serialize( archive )` is the `CArray`
serialization, defined outside this file; storing writes the full prediction
cache, step and value per output per row. -/
def storePredictCache (predictCache : List (List CPredictionCacheItem)) : List ArchiveItem :=
  ArchiveItem.int predictCache.length :: (predictCache.map storeCacheRow).flatten

/-- Reads `count` cache items. -/
def loadCacheItems : Nat → List ArchiveItem → Option (List CPredictionCacheItem × List ArchiveItem)
  | 0, archive => some ([], archive)
  | count + 1, ArchiveItem.int step :: ArchiveItem.double value :: rest =>
    match loadCacheItems count rest with
    | some (items, rest1) => some ({ Step := step, Value := value } :: items, rest1)
    | none => none
  | _ + 1, _ => none

/-- Reads `count` rows of the cache. -/
def loadCacheRows : Nat → List ArchiveItem →
    Option (List (List CPredictionCacheItem) × List ArchiveItem)
  | 0, archive => some ([], archive)
  | count + 1, ArchiveItem.int size :: rest =>
    if size < 0 then none
    else
      match loadCacheItems size.toNat rest with
      | some (row, rest1) =>
        match loadCacheRows count rest1 with
        | some (rows, rest2) => some (row :: rows, rest2)
        | none => none
      | none => none
  | _ + 1, _ => none

/-- Modelled from the spec: the loading direction of `predictCache.Serialize`. -/
def loadPredictCache : List ArchiveItem →
    Option (List (List CPredictionCacheItem) × List ArchiveItem)
  | ArchiveItem.int size :: rest => if size < 0 then none else loadCacheRows size.toNat rest
  | _ => none

/-- The storing branch of `Serialize`: what is appended to the archive. -/
def CGradientBoost.store (X : Collaborators Tree B) (s : CGradientBoost Tree B) :
    Outcome (List ArchiveItem) :=
  if (s.models.length : Int) > 0 then
    match s.models[0]? with
    | none => Outcome.throw Exn.assertion
    | some first =>
      Outcome.ok (ArchiveItem.int s.models.length :: ArchiveItem.int first.length ::
        ((s.models.map (fun ensemble => (ensemble.map X.storeTree).flatten)).flatten ++
          storePredictCache s.predictCache))
  else Outcome.ok (ArchiveItem.int s.models.length :: storePredictCache s.predictCache)

/-- Reads `count` trees, each by the node's own `Serialize`. -/
def loadTrees (X : Collaborators Tree B) : Nat → List ArchiveItem →
    Option (List Tree × List ArchiveItem)
  | 0, archive => some ([], archive)
  | count + 1, archive =>
    match X.loadTree archive with
    | some (tree, rest) =>
      match loadTrees X count rest with
      | some (trees, rest1) => some (tree :: trees, rest1)
      | none => none
    | none => none

/-- One iteration of the loop over the ensembles when loading: ensemble `i` is
resized to `iterationsCount` and every position is filled with a loaded tree. -/
def loadEnsembleBody (X : Collaborators Tree B) (iterationsCount : Nat) (i : Nat)
    (st : List (List Tree) × List ArchiveItem) :
    (List (List Tree) × List ArchiveItem) × Outcome Unit :=
  match st.1[i]? with
  | none => (st, Outcome.throw Exn.assertion)
  | some _ =>
    match loadTrees X iterationsCount st.2 with
    | some (trees, rest) => ((st.1.set i trees, rest), Outcome.ok ())
    | none => (st, Outcome.throw (Exn.raised 0))

/-- The closing `predictCache.Serialize( archive )` when loading. -/
def CGradientBoost.loadCache (s : CGradientBoost Tree B) (archive : List ArchiveItem) :
    (CGradientBoost Tree B × List ArchiveItem) × Outcome Unit :=
  match loadPredictCache archive with
  | some (cache, rest) => (({ s with predictCache := cache }, rest), Outcome.ok ())
  | none => ((s, archive), Outcome.throw (Exn.raised 0))

/-- The loading branch of `Serialize`: the state and the rest of the archive. -/
def CGradientBoost.load (X : Collaborators Tree B) (s : CGradientBoost Tree B)
    (archive : List ArchiveItem) : (CGradientBoost Tree B × List ArchiveItem) × Outcome Unit :=
  match archive with
  | ArchiveItem.int ensemblesCount :: rest =>
    if ensemblesCount > 0 then
      let s1 : CGradientBoost Tree B :=
        { s with models := CArray.SetSize s.models ensemblesCount [] }
      match rest with
      | ArchiveItem.int iterationsCount :: rest1 =>
        if iterationsCount > 0 then
          match forLoop (loadEnsembleBody X iterationsCount.toNat) (List.range s1.models.length)
              (s1.models, rest1) with
          | (st, Outcome.throw e) => (({ s1 with models := st.1 }, st.2), Outcome.throw e)
          | (st, Outcome.ok _) => CGradientBoost.loadCache { s1 with models := st.1 } st.2
        else s1.loadCache rest1
      | _ => ((s1, rest), Outcome.throw (Exn.raised 0))
    else s.loadCache rest
  | _ => ((s, archive), Outcome.throw (Exn.raised 0))

/-- The archive `CArchive`: its direction and the values still to be read (when
loading) or written so far (when storing). -/
structure CArchive where
  IsStoring : Bool
  data : List ArchiveItem
deriving DecidableEq, Repr

/-- The method `Serialize( archive )`. -/
def CGradientBoost.Serialize (X : Collaborators Tree B) (s : CGradientBoost Tree B)
    (archive : CArchive) : (CGradientBoost Tree B × CArchive) × Outcome Unit :=
  if archive.IsStoring then
    match s.store X with
    | Outcome.ok written => ((s, { archive with data := archive.data ++ written }), Outcome.ok ())
    | Outcome.throw e => ((s, archive), Outcome.throw e)
  else
    match s.load X archive.data with
    | ((s1, rest), o) => ((s1, { archive with data := rest }), o)

end Serialize

/-! ## Predicates and concrete inputs used by the theorems -/

section Predicates

variable {Tree B : Type}

/-- The state that `destroyTreeBuilder` leaves: the four tree-builder handles,
the two problem views and the adapted problem are null. -/
def CGradientBoost.TornDown (s : CGradientBoost Tree B) : Prop :=
  s.fullSingleClassTreeBuilder = none ∧ s.fullMultiClassTreeBuilder = none ∧
  s.fastHistSingleClassTreeBuilder = none ∧ s.fastHistMultiClassTreeBuilder = none ∧
  s.fullProblem = none ∧ s.fastHistProblem = none ∧ s.baseProblem = none

/-- A problem whose parts agree with its three counts: the matrix has
`VectorCount` rows and the declared shape, every row has a target vector of
`ValueSize` entries and a weight, and no count is zero. -/
def IMultivariateRegressionProblem.WellFormed (p : IMultivariateRegressionProblem) : Prop :=
  1 ≤ p.ValueSize ∧ 0 < p.VectorCount ∧ 0 < p.FeatureCount ∧
  p.Matrix.Height = p.VectorCount ∧ p.Matrix.Width = p.FeatureCount ∧
  p.Matrix.Rows.length = p.VectorCount.toNat ∧ p.Values.length = p.VectorCount.toNat ∧
  (∀ v ∈ p.Values, v.length = p.ValueSize.toNat) ∧ p.Weights.length = p.VectorCount.toNat

/-- Every draw the subsampler asks for lies in the requested range. -/
def Collaborators.DrawsInRange (X : Collaborators Tree B) : Prop :=
  UniformIntInRange X.uniformInt

/-- The constructors of the tree builders and of the problem views do not raise. -/
def Collaborators.ConstructorsSucceed (X : Collaborators Tree B) : Prop :=
  (∀ multi params, ∃ b, X.newFullTreeBuilder multi params = Outcome.ok b) ∧
  (∀ threads view, X.newFullProblem threads view = none) ∧
  (∀ multi params size, ∃ b, X.newFastHistTreeBuilder multi params size = Outcome.ok b) ∧
  (∀ threads bins view, X.newFastHistProblem threads bins view = none)

/-- Every `Build` call of every tree builder gives a tree. -/
def Collaborators.BuildsSucceed (X : Collaborators Tree B) : Prop :=
  (∀ b v g gs h hs w ws, ∃ t, (X.fullSingleBuild b v g gs h hs w ws).1 = Outcome.ok t) ∧
  (∀ b v g gs h hs w ws, ∃ t, (X.fullMultiBuild b v g gs h hs w ws).1 = Outcome.ok t) ∧
  (∀ b v g h w, ∃ t, (X.fastHistSingleBuild b v g h w).1 = Outcome.ok t) ∧
  (∀ b v g h w, ∃ t, (X.fastHistMultiBuild b v g h w).1 = Outcome.ok t)

/-- The configuration without the generator the pointer `Random` refers to. -/
def CParams.fixed (p : CParams) : CParams :=
  { p with Random := none }

/-- The handles that `createTreeBuilder` sets for the configured builder kind
are set, and no multi-output handle is set for a single-output kind. -/
def CGradientBoost.HandlesReady (s : CGradientBoost Tree B) : Prop :=
  match s.params.TreeBuilder with
  | TGradientBoostTreeBuilder.GBTB_Full =>
    s.fullSingleClassTreeBuilder.isSome ∧ s.fullProblem.isSome ∧
    s.fullMultiClassTreeBuilder = none ∧ s.fastHistMultiClassTreeBuilder = none
  | TGradientBoostTreeBuilder.GBTB_MultiFull =>
    s.fullMultiClassTreeBuilder.isSome ∧ s.fullProblem.isSome
  | TGradientBoostTreeBuilder.GBTB_FastHist =>
    s.fastHistSingleClassTreeBuilder.isSome ∧ s.fastHistProblem.isSome ∧
    s.fullSingleClassTreeBuilder = none ∧ s.fullMultiClassTreeBuilder = none ∧
    s.fastHistMultiClassTreeBuilder = none
  | TGradientBoostTreeBuilder.GBTB_MultiFastHist =>
    s.fastHistMultiClassTreeBuilder.isSome ∧ s.fastHistProblem.isSome ∧
    s.fullMultiClassTreeBuilder = none
  | TGradientBoostTreeBuilder.other _ => False

/-- The trainer between two steps of a run on the adapted problem `bp` with
configuration `cfg`, every ensemble holding `k` trees: the state that
`initialize` sets up and every successful step keeps. -/
structure CGradientBoost.Ready (s : CGradientBoost Tree B) (bp : IMultivariateRegressionProblem)
    (cfg : CParams) (k : Nat) : Prop where
  params : s.params.fixed = cfg.fixed
  baseProblem : s.baseProblem = some bp
  wellFormed : bp.WellFormed
  lossFunction : s.lossFunction.isSome
  modelsLength : s.models.length = if s.isMultiTreesModel then 1 else bp.ValueSize.toNat
  ensembles : ∀ e ∈ s.models, e.length = k
  cacheLength : s.predictCache.length = bp.ValueSize.toNat
  cacheRows : ∀ row ∈ s.predictCache, row.length = bp.VectorCount.toNat
  predicts : s.predicts.length = bp.ValueSize.toNat
  answers : s.answers.length = bp.ValueSize.toNat
  gradients : s.gradients.length = bp.ValueSize.toNat
  hessians : s.hessians.length = bp.ValueSize.toNat
  subsample : 0 ≤ s.params.Subsample ∧ s.params.Subsample ≤ 1
  subfeature : 0 ≤ s.params.Subfeature ∧ s.params.Subfeature ≤ 1
  usedVectors : s.params.Subsample = 1 → s.usedVectors = identityArray bp.VectorCount.toNat
  handles : s.HandlesReady

/-- The fields that the statistics part of a step may write: `s1` is `s` with
the generators, the active sets, the cache and the four buffers replaced. -/
def CGradientBoost.StepFrame (s s1 : CGradientBoost Tree B) : Prop :=
  s1 = { s with
    params := s1.params
    defaultRandom := s1.defaultRandom
    usedVectors := s1.usedVectors
    usedFeatures := s1.usedFeatures
    featureNumbers := s1.featureNumbers
    predictCache := s1.predictCache
    predicts := s1.predicts
    answers := s1.answers
    gradients := s1.gradients
    hessians := s1.hessians } ∧
  s1.params.fixed = s.params.fixed

/-- The fields that the builder calls of a step may write: `s1` is `s` with the
four tree-builder handles and the log replaced, every handle that was set
being still set. -/
def CGradientBoost.BuildFrame (s s1 : CGradientBoost Tree B) : Prop :=
  s1 = { s with
    logStream := s1.logStream
    fullSingleClassTreeBuilder := s1.fullSingleClassTreeBuilder
    fullMultiClassTreeBuilder := s1.fullMultiClassTreeBuilder
    fastHistSingleClassTreeBuilder := s1.fastHistSingleClassTreeBuilder
    fastHistMultiClassTreeBuilder := s1.fastHistMultiClassTreeBuilder } ∧
  s1.fullSingleClassTreeBuilder.isSome = s.fullSingleClassTreeBuilder.isSome ∧
  s1.fullMultiClassTreeBuilder.isSome = s.fullMultiClassTreeBuilder.isSome ∧
  s1.fastHistSingleClassTreeBuilder.isSome = s.fastHistSingleClassTreeBuilder.isSome ∧
  s1.fastHistMultiClassTreeBuilder.isSome = s.fastHistMultiClassTreeBuilder.isSome

/-- The ensemble that the cache entries of output `j` are scored with:
ensemble 0 when the trees are joint, ensemble `j` otherwise. -/
def CGradientBoost.ensembleOf (s : CGradientBoost Tree B) (j : Nat) : List Tree :=
  (s.models[if s.isMultiTreesModel then 0 else j]?).getD []

/-- The output of a tree that output `j` of the model reads: output `j` of a
joint tree, output 0 of a single-output tree. -/
def CGradientBoost.outputOf (s : CGradientBoost Tree B) (j : Nat) : Nat :=
  if s.isMultiTreesModel then j else 0

/-- The learning rate times the sum of the outputs, on row `r` of the problem,
of the first `step` trees of the ensemble of output `j`. -/
def CGradientBoost.scoreUpTo (X : Collaborators Tree B) (s : CGradientBoost Tree B)
    (bp : IMultivariateRegressionProblem) (j r : Nat) (step : Int) : ℚ :=
  s.params.LearningRate *
    (((s.ensembleOf j).take step.toNat).map
      (fun t => X.treeOutput t ((bp.Matrix.Rows[r]?).getD []) (s.outputOf j))).sum

/-- The prediction-cache invariant: every entry holds the score of the trees
below its step, its step is between 0 and the ensemble length `k`, and the
entries of one row carry the same step for every output. -/
def CGradientBoost.CacheInvariant (X : Collaborators Tree B) (s : CGradientBoost Tree B)
    (bp : IMultivariateRegressionProblem) (k : Nat) : Prop :=
  ∀ (j r : Nat) (item : CPredictionCacheItem), CArray.get2? s.predictCache j r = some item →
    0 ≤ item.Step ∧ item.Step ≤ (k : Int) ∧ item.Value = s.scoreUpTo X bp j r item.Step ∧
    ∀ (j1 : Nat) (item1 : CPredictionCacheItem),
      CArray.get2? s.predictCache j1 r = some item1 → item1.Step = item.Step

/-- The loop invariant of `buildPredictions` after the first `i` positions of
the active set: the shapes of the cache and of the two buffers, the cache
invariant, the step of the rows already visited, and the entries of the rows
outside the active set, which are those of the state `s` the loop started from. -/
structure CGradientBoost.CacheLoop (X : Collaborators Tree B) (s : CGradientBoost Tree B)
    (bp : IMultivariateRegressionProblem) (k i : Nat) (st : CPredictState) : Prop where
  cacheLength : st.predictCache.length = bp.ValueSize.toNat
  cacheRows : ∀ row ∈ st.predictCache, row.length = bp.VectorCount.toNat
  predictsLength : st.predicts.length = bp.ValueSize.toNat
  predictsRows : ∀ row ∈ st.predicts, row.length = s.usedVectors.length
  answersLength : st.answers.length = bp.ValueSize.toNat
  answersRows : ∀ row ∈ st.answers, row.length = s.usedVectors.length
  invariant : CGradientBoost.CacheInvariant X { s with predictCache := st.predictCache } bp k
  refreshed : ∀ i1, i1 < i → ∀ v, s.usedVectors[i1]? = some v →
    ∀ (j : Nat) (item : CPredictionCacheItem),
      CArray.get2? st.predictCache j v.toNat = some item → item.Step = (k : Int)
  untouched : ∀ (j r : Nat), (r : Int) ∉ s.usedVectors →
    CArray.get2? st.predictCache j r = CArray.get2? s.predictCache j r

/-- The driver of a training run: `count` calls of `TrainStep` on the same
problem, with the outcome of every call in order. -/
def CGradientBoost.TrainSteps (X : Collaborators Tree B) (problem : IMultivariateRegressionProblem) :
    Nat → CGradientBoost Tree B → CGradientBoost Tree B × List (Outcome Bool)
  | 0, s => (s, [])
  | count + 1, s =>
    let before := CGradientBoost.TrainSteps X problem count s
    let call := before.1.TrainStep X problem
    (call.1, before.2 ++ [call.2])

/-- The length of ensemble 0, the step counter of the trainer. -/
def CGradientBoost.stepCount (s : CGradientBoost Tree B) : Int :=
  ((s.models[0]?).getD []).length

/-- The history of refreshes of a run of `count` calls of `TrainStep`: the
state reached and, for every row, the ensemble length at the start of the last
step whose active set held the row, 0 for a row no step has refreshed. -/
def CGradientBoost.refreshHistory (X : Collaborators Tree B)
    (problem : IMultivariateRegressionProblem) :
    Nat → CGradientBoost Tree B → CGradientBoost Tree B × (Int → Int)
  | 0, s => (s, fun _ => 0)
  | count + 1, s =>
    let before := CGradientBoost.refreshHistory X problem count s
    let after := (before.1.TrainStep X problem).1
    (after, fun r => if r ∈ after.usedVectors then before.1.stepCount else before.2 r)

end Predicates

/-- Collaborators for running the trainer on concrete inputs: a tree is the
constant it predicts, a builder counts its calls and raises from call number
`limit` on, the constructor of the tree builder raises when `failNew` is set. -/
def demoCollaborators (limit : Nat) (failNew : Bool) : Collaborators ℚ Nat where
  uniformInt := lcgUniformInt
  exp := fun _ => 1
  notNullWeightsView := fun p => p
  treeOutput := fun t _ _ => t
  newFullTreeBuilder := fun _ _ => if failNew then Outcome.throw (Exn.raised 5) else Outcome.ok 0
  newFullProblem := fun _ _ => none
  newFastHistTreeBuilder := fun _ _ _ =>
    if failNew then Outcome.throw (Exn.raised 5) else Outcome.ok 0
  newFastHistProblem := fun _ _ _ => none
  fullSingleBuild := fun b _ _ gs _ hs _ _ =>
    if b < limit then (Outcome.ok (-gs / hs), b + 1) else (Outcome.throw (Exn.raised 7), b + 1)
  fullMultiBuild := fun b _ _ gs _ hs _ _ =>
    if b < limit then (Outcome.ok (-gs.sum / hs.sum), b + 1)
    else (Outcome.throw (Exn.raised 7), b + 1)
  fastHistSingleBuild := fun b _ g h _ =>
    if b < limit then (Outcome.ok (-g.sum / h.sum), b + 1)
    else (Outcome.throw (Exn.raised 7), b + 1)
  fastHistMultiBuild := fun b _ g h _ =>
    if b < limit then (Outcome.ok (-g.flatten.sum / h.flatten.sum), b + 1)
    else (Outcome.throw (Exn.raised 7), b + 1)
  storeTree := fun t => [ArchiveItem.double t]
  loadTree := fun a =>
    match a with
    | ArchiveItem.double t :: rest => some (t, rest)
    | _ => none

/-- A configuration accepted by the constructor: L2 loss, three iterations, no
sampling, the full-scan single-output builder. -/
def demoParams : CParams where
  LossFunction := TLossFunction.LF_L2
  IterationsCount := 3
  LearningRate := 1 / 2
  Subsample := 1
  Subfeature := 1
  Random := none
  MaxTreeDepth := 3
  MaxNodesCount := -1
  L1RegFactor := 0
  L2RegFactor := 1
  PruneCriterionValue := 0
  ThreadCount := 1
  TreeBuilder := TGradientBoostTreeBuilder.GBTB_Full
  MaxBins := 32
  MinSubsetWeight := 0
  DenseTreeBoostCoefficient := 0
  Representation := TGradientBoostModelRepresentation.GBMR_Linked

/-- A problem with three rows, one feature and two outputs. -/
def demoProblem : IMultivariateRegressionProblem where
  ValueSize := 2
  VectorCount := 3
  FeatureCount := 1
  Matrix := { Height := 3, Width := 1, Rows := [[0], [1], [2]] }
  Values := [[1, 0], [2, 1], [4, 0]]
  Weights := [1, 1, 2]

/-- The trainer as the constructor leaves it for `demoParams`. -/
def demoFresh : CGradientBoost ℚ Nat where
  params := demoParams
  defaultRandom := ⟨7⟩
  logStream := none
  loss := 0
  lossFunction := none
  models := []
  predictCache := []
  predicts := []
  answers := []
  gradients := []
  hessians := []
  usedVectors := []
  usedFeatures := []
  featureNumbers := []
  baseProblem := none
  fullSingleClassTreeBuilder := none
  fullMultiClassTreeBuilder := none
  fastHistSingleClassTreeBuilder := none
  fastHistMultiClassTreeBuilder := none
  fullProblem := none
  fastHistProblem := none

/-- The trainer after one successful `TrainStep` on `demoProblem`. -/
def demoAfterOne (limit : Nat) : CGradientBoost ℚ Nat :=
  (demoFresh.TrainStep (demoCollaborators limit false) demoProblem).1

/-- Collaborators whose constructors and `Build` calls never raise: those of
`demoCollaborators` with builders that give a tree at every call. -/
def steadyCollaborators : Collaborators ℚ Nat :=
  { demoCollaborators 0 false with
    fullSingleBuild := fun b _ _ gs _ hs _ _ => (Outcome.ok (-gs / hs), b + 1)
    fullMultiBuild := fun b _ _ gs _ hs _ _ => (Outcome.ok (-gs.sum / hs.sum), b + 1)
    fastHistSingleBuild := fun b _ g h _ => (Outcome.ok (-g.sum / h.sum), b + 1)
    fastHistMultiBuild := fun b _ g h _ => (Outcome.ok (-g.flatten.sum / h.flatten.sum), b + 1) }

/-- The configuration `demoParams` with half of the rows sampled at every step. -/
def sampledParams : CParams :=
  { demoParams with Subsample := 1 / 2 }

/-- The trainer as the constructor leaves it for `sampledParams`. -/
def sampledFresh : CGradientBoost ℚ Nat :=
  { demoFresh with params := sampledParams }

/-! ## The mean loss -/

section LossMean

variable {K : Type} [LinearOrderedField K]

/-- The lambda `getMean` of the four `CalcLossMean` methods:
`n != 0 ? sum / static_cast<double>( n ) : 0`. -/
def getMean (sum : K) (n : Int) : K :=
  if n ≠ 0 then sum / (n : K) else 0

/-- The term summed by `CGradientBoostingBinomialLossFunction::CalcLossMean`. -/
def binomialTerm (exp log : K → K) (predict answer : K) : K :=
  log (1 + exp (min (-predict) MaxExpArgument)) - predict * answer

/-- The term summed by `CGradientBoostingExponentialLossFunction::CalcLossMean`. -/
def exponentialTerm (exp : K → K) (predict answer : K) : K :=
  exp (min ((1 - 2 * answer) * predict) MaxExpArgument)

/-- The term summed by `CGradientBoostingSquaredHinge::CalcLossMean`. -/
def squaredHingeTerm (predict answer : K) : K :=
  let base := max 0 (1 - (2 * answer - 1) * predict)
  base * base

/-- The term summed by `CGradientBoostingSquareLoss::CalcLossMean`. -/
def squareLossTerm (predict answer : K) : K :=
  let diff := answer - predict
  diff * diff / 2

/-- The body of the inner loop of `CalcLossMean`: `sum += term`. -/
def lossTermBody (term : K → K → K) (predicts answers : List (List K)) (i j : Nat) (sum : K) :
    K × Outcome Unit :=
  match CArray.get2? predicts i j, CArray.get2? answers i j with
  | some p, some a => (sum + term p a, Outcome.ok ())
  | _, _ => (sum, Outcome.throw Exn.assertion)

/-- The body of the outer loop of `CalcLossMean`: the sum over the row, then
`overallSum += getMean( sum, predicts[i].Size() )`. -/
def lossRowBody (term : K → K → K) (predicts answers : List (List K)) (i : Nat)
    (overallSum : K) : K × Outcome Unit :=
  match predicts[i]? with
  | some row =>
    match forLoop (lossTermBody term predicts answers i) (List.range row.length) 0 with
    | (sum, Outcome.ok _) => (overallSum + getMean sum (row.length : Int), Outcome.ok ())
    | (_, Outcome.throw e) => (overallSum, Outcome.throw e)
  | none => (overallSum, Outcome.throw Exn.assertion)

/-- The method `CalcLossMean( predicts, answers )` shared by the four loss
classes. -/
def calcLossMeanWith (term : K → K → K) (predicts answers : List (List K)) : Outcome K :=
  if predicts.length ≠ answers.length then Outcome.throw Exn.assertion
  else
    match forLoop (lossRowBody term predicts answers) (List.range predicts.length) 0 with
    | (overallSum, Outcome.ok _) => Outcome.ok (getMean overallSum (predicts.length : Int))
    | (_, Outcome.throw e) => Outcome.throw e

/-- The term summed by each loss class. -/
def IGradientBoostingLossFunction.term (exp log : K → K) :
    IGradientBoostingLossFunction → K → K → K
  | CGradientBoostingBinomialLossFunction => binomialTerm exp log
  | CGradientBoostingExponentialLossFunction => exponentialTerm exp
  | CGradientBoostingSquaredHinge => squaredHingeTerm
  | CGradientBoostingSquareLoss => squareLossTerm

/-- The virtual call `lossFunction.CalcLossMean( predicts, answers )`. -/
def IGradientBoostingLossFunction.CalcLossMean (exp log : K → K)
    (lossFunction : IGradientBoostingLossFunction) (predicts answers : List (List K)) :
    Outcome K :=
  calcLossMeanWith (lossFunction.term exp log) predicts answers

/-- The mean of a list of values, 0 for the empty list. -/
def meanOrZero (values : List K) : K :=
  if values.length = 0 then 0 else values.sum / (values.length : K)

/-- The mean over the outputs of the mean over the rows of the per-example
terms: the value the specification gives for the mean loss. -/
def meanOfMeans (term : K → K → K) (predicts answers : List (List K)) : K :=
  meanOrZero (List.zipWith (fun prow arow => meanOrZero (List.zipWith term prow arow))
    predicts answers)

end LossMean

/-! ## The DLL loader (`DllLoader.cpp`)

The four blocks of `Load` and of `Free` are compiled in under the macros
`NEOML_USE_...`; the bit of each kind is a constant of `DllLoader.h`; the dll
classes are defined outside this file.  All of them are parameters.  A call
that dereferences a null pointer has no result (`none`). -/

section DllLoader

/-- The dll classes `CVulkanDll`, `CCusparseDll`, `CCublasDll`, `CNcclDll` and
`CAvxDll`. -/
inductive DllClass where
  | CVulkanDll
  | CCusparseDll
  | CCublasDll
  | CNcclDll
  | CAvxDll
deriving DecidableEq, Repr

/-- The macros and constants that `DllLoader.cpp` reads: which blocks are
compiled in and the bit of each kind. -/
structure CDllLoaderConfig where
  NEOML_USE_VULKAN : Bool
  NEOML_USE_CUDA : Bool
  NEOML_USE_NCCL : Bool
  NEOML_USE_AVX : Bool
  VULKAN_DLL : Int
  CUDA_DLL : Int
  NCCL_DLL : Int
  AVX_DLL : Int
deriving DecidableEq, Repr

/-- The operations of the dll classes, which act on a dll object `D` and on the
process state `E` around it: `new`, `Load()` with its result, `Free()` and
`delete`. -/
structure DllClasses (D E : Type) where
  create : DllClass → E → D × E
  Load : D → E → (Bool × D) × E
  Free : D → E → D × E
  delete : D → E → E

variable {D E : Type}

/-- The static members of `CDllLoader`, together with the process state the dll
objects act on. -/
structure CDllLoader (D E : Type) where
  cusparseDll : Option D
  cublasDll : Option D
  cudaDllLinkCount : Int
  ncclDll : Option D
  ncclDllLinkCount : Int
  vulkanDll : Option D
  vulkanDllLinkCount : Int
  avxDll : Option D
  avxDllLinkCount : Int
  world : E
deriving DecidableEq, Repr

/-- The static initialisers: every handle is `nullptr`, every link count is 0. -/
def CDllLoader.initial (world : E) : CDllLoader D E :=
  { cusparseDll := none, cublasDll := none, cudaDllLinkCount := 0
    ncclDll := none, ncclDllLinkCount := 0
    vulkanDll := none, vulkanDllLinkCount := 0
    avxDll := none, avxDllLinkCount := 0
    world := world }

/-- The statement `delete p`, which does nothing for a null pointer. -/
def DllClasses.deletePtr (X : DllClasses D E) (p : Option D) (world : E) : E :=
  match p with
  | some d => X.delete d world
  | none => world

/-- The Vulkan block of `Load`. -/
def CDllLoader.loadVulkan (cfg : CDllLoaderConfig) (X : DllClasses D E)
    (st : Int × CDllLoader D E) : Int × CDllLoader D E :=
  let created : D × E :=
    match st.2.vulkanDll with
    | some d => (d, st.2.world)
    | none => X.create DllClass.CVulkanDll st.2.world
  match X.Load created.1 created.2 with
  | ((false, d), world) =>
    (st.1, { st.2 with vulkanDll := none, world := X.delete d world })
  | ((true, d), world) =>
    (Int.lor st.1 cfg.VULKAN_DLL,
      { st.2 with vulkanDll := some d, vulkanDllLinkCount := st.2.vulkanDllLinkCount + 1,
                  world := world })

/-- The failure branch of the CUDA block of `Load`: both objects are freed and
deleted. -/
def CDllLoader.dropCuda (X : DllClasses D E) (s : CDllLoader D E) (cusparse : D)
    (cublas : Option D) (world : E) : Option (CDllLoader D E) :=
  let freed := X.Free cusparse world
  let world1 := X.delete freed.1 freed.2
  match cublas with
  | none => none
  | some b =>
    let freed1 := X.Free b world1
    some { s with cusparseDll := none, cublasDll := none,
                  world := X.delete freed1.1 freed1.2 }

/-- The first statement of the CUDA block of `Load`: both objects are created
when `cusparseDll` is null.  It gives the two pointers afterwards. -/
def CDllLoader.cudaObjects (X : DllClasses D E) (s : CDllLoader D E) : D × Option D × E :=
  match s.cusparseDll with
  | some d => (d, s.cublasDll, s.world)
  | none =>
    let a := X.create DllClass.CCusparseDll s.world
    let b := X.create DllClass.CCublasDll a.2
    (a.1, some b.1, b.2)

/-- The CUDA block of `Load`. -/
def CDllLoader.loadCuda (cfg : CDllLoaderConfig) (X : DllClasses D E)
    (st : Int × CDllLoader D E) : Option (Int × CDllLoader D E) :=
  let created : D × Option D × E := CDllLoader.cudaObjects X st.2
  match X.Load created.1 created.2.2 with
  | ((false, a), world) =>
    match CDllLoader.dropCuda X st.2 a created.2.1 world with
    | some s => some (st.1, s)
    | none => none
  | ((true, a), world) =>
    match created.2.1 with
    | none => none
    | some b =>
      match X.Load b world with
      | ((false, b1), world1) =>
        match CDllLoader.dropCuda X st.2 a (some b1) world1 with
        | some s => some (st.1, s)
        | none => none
      | ((true, b1), world1) =>
        some (Int.lor st.1 cfg.CUDA_DLL,
          { st.2 with cusparseDll := some a, cublasDll := some b1,
                      cudaDllLinkCount := st.2.cudaDllLinkCount + 1, world := world1 })

/-- The NCCL block of `Load`. -/
def CDllLoader.loadNccl (cfg : CDllLoaderConfig) (X : DllClasses D E)
    (st : Int × CDllLoader D E) : Int × CDllLoader D E :=
  let created : D × E :=
    match st.2.ncclDll with
    | some d => (d, st.2.world)
    | none => X.create DllClass.CNcclDll st.2.world
  match X.Load created.1 created.2 with
  | ((false, d), world) =>
    (st.1, { st.2 with ncclDll := none, world := X.delete d world })
  | ((true, d), world) =>
    (Int.lor st.1 cfg.NCCL_DLL,
      { st.2 with ncclDll := some d, ncclDllLinkCount := st.2.ncclDllLinkCount + 1,
                  world := world })

/-- The AVX block of `Load`. -/
def CDllLoader.loadAvx (cfg : CDllLoaderConfig) (X : DllClasses D E)
    (st : Int × CDllLoader D E) : Int × CDllLoader D E :=
  let created : D × E :=
    match st.2.avxDll with
    | some d => (d, st.2.world)
    | none => X.create DllClass.CAvxDll st.2.world
  match X.Load created.1 created.2 with
  | ((false, d), world) =>
    (st.1, { st.2 with avxDll := none, world := X.delete d world })
  | ((true, d), world) =>
    (Int.lor st.1 cfg.AVX_DLL,
      { st.2 with avxDll := some d, avxDllLinkCount := st.2.avxDllLinkCount + 1,
                  world := world })

/-- The method `CDllLoader::Load( dll )`: the result and the state, the blocks in
source order (Vulkan, CUDA, NCCL, AVX). -/
def CDllLoader.Load (cfg : CDllLoaderConfig) (X : DllClasses D E) (s : CDllLoader D E)
    (dll : Int) : Option (Int × CDllLoader D E) :=
  if dll ≠ 0 then
    let st1 : Int × CDllLoader D E :=
      if cfg.NEOML_USE_VULKAN = true ∧ Int.land dll cfg.VULKAN_DLL ≠ 0 then
        CDllLoader.loadVulkan cfg X (0, s)
      else (0, s)
    let st2 : Option (Int × CDllLoader D E) :=
      if cfg.NEOML_USE_CUDA = true ∧ Int.land dll cfg.CUDA_DLL ≠ 0 then
        CDllLoader.loadCuda cfg X st1
      else some st1
    match st2 with
    | none => none
    | some st2 =>
      let st3 : Int × CDllLoader D E :=
        if cfg.NEOML_USE_NCCL = true ∧ Int.land dll cfg.NCCL_DLL ≠ 0 then
          CDllLoader.loadNccl cfg X st2
        else st2
      some (if cfg.NEOML_USE_AVX = true ∧ Int.land dll cfg.AVX_DLL ≠ 0 then
          CDllLoader.loadAvx cfg X st3
        else st3)
  else some (0, s)

/-- The Vulkan block of `Free`. -/
def CDllLoader.freeVulkan (X : DllClasses D E) (s : CDllLoader D E) : CDllLoader D E :=
  let s1 := { s with vulkanDllLinkCount := s.vulkanDllLinkCount - 1 }
  if s1.vulkanDllLinkCount ≤ 0 then
    { s1 with vulkanDll := none, world := X.deletePtr s1.vulkanDll s1.world }
  else s1

/-- The CUDA block of `Free`. -/
def CDllLoader.freeCuda (X : DllClasses D E) (s : CDllLoader D E) : CDllLoader D E :=
  let s1 := { s with cudaDllLinkCount := s.cudaDllLinkCount - 1 }
  if s1.cudaDllLinkCount ≤ 0 then
    { s1 with cusparseDll := none, cublasDll := none,
              world := X.deletePtr s1.cublasDll (X.deletePtr s1.cusparseDll s1.world) }
  else s1

/-- The NCCL block of `Free`. -/
def CDllLoader.freeNccl (X : DllClasses D E) (s : CDllLoader D E) : CDllLoader D E :=
  let s1 := { s with ncclDllLinkCount := s.ncclDllLinkCount - 1 }
  if s1.ncclDllLinkCount ≤ 0 then
    { s1 with ncclDll := none, world := X.deletePtr s1.ncclDll s1.world }
  else s1

/-- The AVX block of `Free`. -/
def CDllLoader.freeAvx (X : DllClasses D E) (s : CDllLoader D E) : CDllLoader D E :=
  let s1 := { s with avxDllLinkCount := s.avxDllLinkCount - 1 }
  if s1.avxDllLinkCount ≤ 0 then
    { s1 with avxDll := none, world := X.deletePtr s1.avxDll s1.world }
  else s1

/-- The method `CDllLoader::Free( dll )`, the blocks in source order (Vulkan,
CUDA, NCCL, AVX). -/
def CDllLoader.Free (cfg : CDllLoaderConfig) (X : DllClasses D E) (s : CDllLoader D E)
    (dll : Int) : CDllLoader D E :=
  if dll ≠ 0 then
    let s1 :=
      if cfg.NEOML_USE_VULKAN = true ∧ Int.land dll cfg.VULKAN_DLL ≠ 0 ∧
          s.vulkanDllLinkCount > 0 then CDllLoader.freeVulkan X s
      else s
    let s2 :=
      if cfg.NEOML_USE_CUDA = true ∧ Int.land dll cfg.CUDA_DLL ≠ 0 ∧
          s1.cudaDllLinkCount > 0 then CDllLoader.freeCuda X s1
      else s1
    let s3 :=
      if cfg.NEOML_USE_NCCL = true ∧ Int.land dll cfg.NCCL_DLL ≠ 0 ∧
          s2.ncclDllLinkCount > 0 then CDllLoader.freeNccl X s2
      else s2
    if cfg.NEOML_USE_AVX = true ∧ Int.land dll cfg.AVX_DLL ≠ 0 ∧
        s3.avxDllLinkCount > 0 then CDllLoader.freeAvx X s3
    else s3
  else s

/-- A call of the loader. -/
inductive DllCall where
  | Load (dll : Int)
  | Free (dll : Int)
deriving DecidableEq, Repr

/-- A sequence of calls, in order; `none` when a call has no result. -/
def CDllLoader.run (cfg : CDllLoaderConfig) (X : DllClasses D E) :
    List DllCall → CDllLoader D E → Option (CDllLoader D E)
  | [], s => some s
  | DllCall.Load dll :: rest, s =>
    match s.Load cfg X dll with
    | some r => CDllLoader.run cfg X rest r.2
    | none => none
  | DllCall.Free dll :: rest, s => CDllLoader.run cfg X rest (s.Free cfg X dll)

/-- What every call of the loader keeps: no link count is negative, and the
two CUDA handles are null together. -/
def CDllLoader.CountsValid (s : CDllLoader D E) : Prop :=
  0 ≤ s.vulkanDllLinkCount ∧ 0 ≤ s.cudaDllLinkCount ∧ 0 ≤ s.ncclDllLinkCount ∧
  0 ≤ s.avxDllLinkCount ∧ s.cusparseDll.isSome = s.cublasDll.isSome

end DllLoader

/-- A configuration with the four blocks compiled in and one bit per kind. -/
def demoDllConfig : CDllLoaderConfig where
  NEOML_USE_VULKAN := true
  NEOML_USE_CUDA := true
  NEOML_USE_NCCL := true
  NEOML_USE_AVX := true
  VULKAN_DLL := 1
  CUDA_DLL := 2
  NCCL_DLL := 4
  AVX_DLL := 8

/-- Dll classes for running the loader on concrete inputs: an object is its
class, and the process state is the list of the results of the coming `Load()`
calls, a call after the end of the list failing. -/
def demoDllClasses : DllClasses DllClass (List Bool) where
  create := fun c world => (c, world)
  Load := fun d world =>
    match world with
    | ok :: rest => ((ok, d), rest)
    | [] => ((false, d), [])
  Free := fun d world => (d, world)
  delete := fun _ world => world

/-! ## Finalization and the training loops -/

section Finalize

variable {Tree B M P R : Type}

/-- The code that `getModel` and the overloads for `IProblem` and
`IRegressionProblem` call and this file does not define: the logarithm, the
constructor of `CGradientBoostModel`, which receives `models` by reference and
gives the model together with what it leaves in `models`, the two conversions
of the model, the three instances of `CheckCast` that `getModel` is used with,
and the problem wrappers of `ProblemWrappers.h`. -/
structure ModelClasses (Tree M P R : Type) where
  log : ℚ → ℚ
  newGradientBoostModel : List (List Tree) → Int → ℚ → TLossFunction → M × List (List Tree)
  ConvertToCompact : M → M
  quickScorerBuild : M → M
  CheckCast_IModel : M → Outcome M
  CheckCast_IRegressionModel : M → Outcome M
  CheckCast_IMultivariateRegressionModel : M → Outcome M
  GetClassCount : P → Int
  overBinaryClassification : P → IMultivariateRegressionProblem
  overClassification : P → IMultivariateRegressionProblem
  overUnivariate : R → IMultivariateRegressionProblem

/-- The first loop of `buildFullPredictions`: `predicts[i]` and `answers[i]` are
resized to the number of rows of the problem. -/
def fullResizeBody (vectorCount : Int) (i : Nat) (b : List (List ℚ) × List (List ℚ)) :
    (List (List ℚ) × List (List ℚ)) × Outcome Unit :=
  match b.1[i]? with
  | none => (b, Outcome.throw Exn.assertion)
  | some p =>
    let predicts := b.1.set i (CArray.SetSize p vectorCount 0)
    match b.2[i]? with
    | none => ((predicts, b.2), Outcome.throw Exn.assertion)
    | some a => ((predicts, b.2.set i (CArray.SetSize a vectorCount 0)), Outcome.ok ())

/-- One row of `buildFullPredictions`: row `index` of the problem. -/
def buildFullPredictionsRow (X : Collaborators Tree B) (multi : Bool) (learningRate : ℚ)
    (models : List (List Tree)) (problem : IMultivariateRegressionProblem) (step : Int)
    (index : Nat) (st : CPredictState) : CPredictState × Outcome Unit :=
  match problem.Values[index]?, problem.Matrix.Rows[index]? with
  | some value, some vector =>
    match rowPredictions X multi learningRate models st.predictCache problem.ValueSize.toNat
        index vector with
    | none => (st, Outcome.throw Exn.assertion)
    | some predictions =>
      forLoop (cacheWriteBody predictions value step index index)
        (List.range problem.ValueSize.toNat) st
  | _, _ => (st, Outcome.throw Exn.assertion)

/-- The method `buildFullPredictions( problem, models )`.  The rows of the
problem are split among the threads in contiguous ranges, every thread writing
the entries of its own rows; here they are visited in order. -/
def CGradientBoost.buildFullPredictions (X : Collaborators Tree B) (s : CGradientBoost Tree B)
    (problem : IMultivariateRegressionProblem) (models : List (List Tree)) :
    CGradientBoost Tree B × Outcome Unit :=
  if ¬ (problem.Matrix.Height = problem.VectorCount) then (s, Outcome.throw Exn.assertion)
  else if ¬ (problem.Matrix.Width = problem.FeatureCount) then (s, Outcome.throw Exn.assertion)
  else
    match forLoop (fullResizeBody problem.VectorCount) (List.range s.predicts.length)
        (s.predicts, s.answers) with
    | (b, Outcome.throw e) => ({ s with predicts := b.1, answers := b.2 }, Outcome.throw e)
    | (b, Outcome.ok _) =>
      match models[0]? with
      | none => ({ s with predicts := b.1, answers := b.2 }, Outcome.throw Exn.assertion)
      | some ensemble =>
        match forLoop (buildFullPredictionsRow X s.isMultiTreesModel s.params.LearningRate models
            problem (ensemble.length : Int)) (List.range problem.VectorCount.toNat)
            { predictCache := s.predictCache, predicts := b.1, answers := b.2 } with
        | (st, o) =>
          ({ s with predictCache := st.predictCache, predicts := st.predicts,
                    answers := st.answers }, o)

/-- The method `createOutputRepresentation( models, predictionSize )`, called
on the trainer's own `models`. -/
def CGradientBoost.createOutputRepresentation (Y : ModelClasses Tree M P R)
    (s : CGradientBoost Tree B) (predictionSize : Int) : CGradientBoost Tree B × Outcome M :=
  let linked := Y.newGradientBoostModel s.models predictionSize s.params.LearningRate
    s.params.LossFunction
  let s1 : CGradientBoost Tree B := { s with models := linked.2 }
  match s.params.Representation with
  | TGradientBoostModelRepresentation.GBMR_Linked => (s1, Outcome.ok linked.1)
  | TGradientBoostModelRepresentation.GBMR_Compact => (s1, Outcome.ok (Y.ConvertToCompact linked.1))
  | TGradientBoostModelRepresentation.GBMR_QuickScorer =>
    (s1, Outcome.ok (Y.quickScorerBuild linked.1))
  | TGradientBoostModelRepresentation.other _ => (s1, Outcome.throw Exn.assertion)

/-- The first two statements of `getModel`: the predictions over the whole
problem and the stored loss. -/
def CGradientBoost.finalLoss (X : Collaborators Tree B) (Y : ModelClasses Tree M P R)
    (s : CGradientBoost Tree B) :
    CGradientBoost Tree B × Outcome IMultivariateRegressionProblem :=
  match s.baseProblem with
  | none => (s, Outcome.throw Exn.assertion)
  | some baseProblem =>
    match s.buildFullPredictions X baseProblem s.models with
    | (s1, Outcome.throw e) => (s1, Outcome.throw e)
    | (s1, Outcome.ok _) =>
      match s1.lossFunction with
      | none => (s1, Outcome.throw Exn.assertion)
      | some lossFunction =>
        match lossFunction.CalcLossMean X.exp Y.log s1.predicts s1.answers with
        | Outcome.throw e => (s1, Outcome.throw e)
        | Outcome.ok loss => ({ s1 with loss := loss }, Outcome.ok baseProblem)

/-- The method template `getModel<T>`, with `CheckCast<T>` as the argument
`checkCast`. -/
def CGradientBoost.getModel (X : Collaborators Tree B) (Y : ModelClasses Tree M P R)
    (checkCast : M → Outcome M) (s : CGradientBoost Tree B) :
    CGradientBoost Tree B × Outcome M :=
  match s.finalLoss X Y with
  | (s1, Outcome.throw e) => (s1, Outcome.throw e)
  | (s1, Outcome.ok baseProblem) =>
    let predictionSize : Int := if s1.isMultiTreesModel then baseProblem.ValueSize else 1
    let s2 := s1.destroyTreeBuilder
    let s3 : CGradientBoost Tree B := { s2 with predictCache := [] }
    match s3.createOutputRepresentation Y predictionSize with
    | (s4, Outcome.throw e) => (s4, Outcome.throw e)
    | (s4, Outcome.ok model) => (s4, checkCast model)

/-- The method `prepareProblem( const IProblem& )`. -/
def CGradientBoost.prepareProblem_IProblem (X : Collaborators Tree B)
    (Y : ModelClasses Tree M P R) (s : CGradientBoost Tree B) (_problem : P) :
    CGradientBoost Tree B × Outcome Unit :=
  match s.baseProblem with
  | none =>
    let multivariate :=
      if Y.GetClassCount _problem = 2 then Y.overBinaryClassification _problem
      else Y.overClassification _problem
    CGradientBoost.initialize X { s with baseProblem := some (X.notNullWeightsView multivariate) }
  | some _ => (s, Outcome.ok ())

/-- The method `prepareProblem( const IRegressionProblem& )`. -/
def CGradientBoost.prepareProblem_IRegressionProblem (X : Collaborators Tree B)
    (Y : ModelClasses Tree M P R) (s : CGradientBoost Tree B) (_problem : R) :
    CGradientBoost Tree B × Outcome Unit :=
  match s.baseProblem with
  | none =>
    let multivariate := Y.overUnivariate _problem
    CGradientBoost.initialize X { s with baseProblem := some (X.notNullWeightsView multivariate) }
  | some _ => (s, Outcome.ok ())

/-- The method `TrainStep( const IProblem& )`. -/
def CGradientBoost.TrainStep_IProblem (X : Collaborators Tree B) (Y : ModelClasses Tree M P R)
    (s : CGradientBoost Tree B) (_problem : P) : CGradientBoost Tree B × Outcome Bool :=
  match s.prepareProblem_IProblem X Y _problem with
  | (s1, Outcome.throw e) => (s1, Outcome.throw e)
  | (s1, Outcome.ok _) => s1.trainStep X

/-- The method `TrainStep( const IRegressionProblem& )`. -/
def CGradientBoost.TrainStep_IRegressionProblem (X : Collaborators Tree B)
    (Y : ModelClasses Tree M P R) (s : CGradientBoost Tree B) (_problem : R) :
    CGradientBoost Tree B × Outcome Bool :=
  match s.prepareProblem_IRegressionProblem X Y _problem with
  | (s1, Outcome.throw e) => (s1, Outcome.throw e)
  | (s1, Outcome.ok _) => s1.trainStep X

/-- The method `GetClassificationModel( const IProblem& )`. -/
def CGradientBoost.GetClassificationModel (X : Collaborators Tree B)
    (Y : ModelClasses Tree M P R) (s : CGradientBoost Tree B) (_problem : P) :
    CGradientBoost Tree B × Outcome M :=
  match s.prepareProblem_IProblem X Y _problem with
  | (s1, Outcome.throw e) => (s1, Outcome.throw e)
  | (s1, Outcome.ok _) => s1.getModel X Y Y.CheckCast_IModel

/-- The method `GetRegressionModel( const IRegressionProblem& )`. -/
def CGradientBoost.GetRegressionModel (X : Collaborators Tree B)
    (Y : ModelClasses Tree M P R) (s : CGradientBoost Tree B) (_problem : R) :
    CGradientBoost Tree B × Outcome M :=
  match s.prepareProblem_IRegressionProblem X Y _problem with
  | (s1, Outcome.throw e) => (s1, Outcome.throw e)
  | (s1, Outcome.ok _) => s1.getModel X Y Y.CheckCast_IRegressionModel

/-- The method `GetMultivariateRegressionModel( const IMultivariateRegressionProblem& )`. -/
def CGradientBoost.GetMultivariateRegressionModel (X : Collaborators Tree B)
    (Y : ModelClasses Tree M P R) (s : CGradientBoost Tree B)
    (_problem : IMultivariateRegressionProblem) : CGradientBoost Tree B × Outcome M :=
  match s.prepareProblem X _problem with
  | (s1, Outcome.throw e) => (s1, Outcome.throw e)
  | (s1, Outcome.ok _) => s1.getModel X Y Y.CheckCast_IMultivariateRegressionModel

/-- The loop `while( !step() ) {}` with at most `limit` calls of the step: the
state and outcome it ends with and the number of calls made, or `none` when
`limit` calls did not end it. -/
def whileNot {σ : Type} (step : σ → σ × Outcome Bool) :
    Nat → σ → Option ((σ × Outcome Unit) × Nat)
  | 0, _ => none
  | limit + 1, s =>
    match step s with
    | (s1, Outcome.throw e) => some ((s1, Outcome.throw e), 1)
    | (s1, Outcome.ok true) => some ((s1, Outcome.ok ()), 1)
    | (s1, Outcome.ok false) =>
      match whileNot step limit s1 with
      | some (r, calls) => some (r, calls + 1)
      | none => none

/-- The method `TrainRegression( const IMultivariateRegressionProblem& )`, with
the number of `TrainStep` calls the loop made. -/
def CGradientBoost.TrainRegression (X : Collaborators Tree B) (Y : ModelClasses Tree M P R)
    (s : CGradientBoost Tree B) (problem : IMultivariateRegressionProblem) (limit : Nat) :
    Option ((CGradientBoost Tree B × Outcome M) × Nat) :=
  match whileNot (fun t => t.TrainStep X problem) limit s with
  | none => none
  | some ((s1, Outcome.throw e), calls) => some ((s1, Outcome.throw e), calls)
  | some ((s1, Outcome.ok _), calls) =>
    some (s1.GetMultivariateRegressionModel X Y problem, calls)

/-- The method `TrainRegression( const IRegressionProblem& )`, with the number
of `TrainStep` calls the loop made. -/
def CGradientBoost.TrainRegression_IRegressionProblem (X : Collaborators Tree B)
    (Y : ModelClasses Tree M P R) (s : CGradientBoost Tree B) (problem : R) (limit : Nat) :
    Option ((CGradientBoost Tree B × Outcome M) × Nat) :=
  match whileNot (fun t => t.TrainStep_IRegressionProblem X Y problem) limit s with
  | none => none
  | some ((s1, Outcome.throw e), calls) => some ((s1, Outcome.throw e), calls)
  | some ((s1, Outcome.ok _), calls) => some (s1.GetRegressionModel X Y problem, calls)

/-- The method `Train( const IProblem& )`, with the number of `TrainStep` calls
the loop made. -/
def CGradientBoost.Train (X : Collaborators Tree B) (Y : ModelClasses Tree M P R)
    (s : CGradientBoost Tree B) (problem : P) (limit : Nat) :
    Option ((CGradientBoost Tree B × Outcome M) × Nat) :=
  match whileNot (fun t => t.TrainStep_IProblem X Y problem) limit s with
  | none => none
  | some ((s1, Outcome.throw e), calls) => some ((s1, Outcome.throw e), calls)
  | some ((s1, Outcome.ok _), calls) => some (s1.GetClassificationModel X Y problem, calls)

/-- A sequence of `TrainStep` calls on one trainer, each with its own problem
argument: the final state and the outcome of every call in order. -/
def CGradientBoost.TrainStepsOn (X : Collaborators Tree B) :
    List IMultivariateRegressionProblem → CGradientBoost Tree B →
    CGradientBoost Tree B × List (Outcome Bool)
  | [], s => (s, [])
  | problem :: rest, s =>
    let call := s.TrainStep X problem
    let after := CGradientBoost.TrainStepsOn X rest call.1
    (after.1, call.2 :: after.2)

end Finalize

section FinalizePredicates

variable {Tree B : Type}

/-- The loop invariant of `buildPredictions` for the two buffers, after the
first `i` positions of the active set: column `i1 < i` of `predicts` holds the
cache values of row `usedVectors[i1]`, and column `i1` of `answers` holds the
targets of that row. -/
def CGradientBoost.BufferLoop (s : CGradientBoost Tree B) (bp : IMultivariateRegressionProblem)
    (i : Nat) (st : CPredictState) : Prop :=
  ∀ (i1 : Nat) (v : Int), i1 < i → s.usedVectors[i1]? = some v →
    ∀ j : Nat, j < bp.ValueSize.toNat →
      ∃ (item : CPredictionCacheItem) (target : ℚ),
        CArray.get2? st.predictCache j v.toNat = some item ∧
        CArray.get2? st.predicts j i1 = some item.Value ∧
        CArray.get2? bp.Values v.toNat j = some target ∧
        CArray.get2? st.answers j i1 = some target

end FinalizePredicates

/-- Model classes for running the finalization on concrete inputs: a model is
the list of ensembles it was built from, which the constructor takes out of
`models`; the conversions and the casts keep it, and a problem of the other
two interfaces is its multivariate form. -/
def demoModelClasses : ModelClasses ℚ (List (List ℚ)) IMultivariateRegressionProblem
    IMultivariateRegressionProblem where
  log := fun _ => 0
  newGradientBoostModel := fun models _ _ _ => (models, [])
  ConvertToCompact := fun model => model
  quickScorerBuild := fun model => model
  CheckCast_IModel := fun model => Outcome.ok model
  CheckCast_IRegressionModel := fun model => Outcome.ok model
  CheckCast_IMultivariateRegressionModel := fun model => Outcome.ok model
  GetClassCount := fun problem => problem.ValueSize
  overBinaryClassification := fun problem => problem
  overClassification := fun problem => problem
  overUnivariate := fun problem => problem

/-! ## Resuming from a checkpoint -/

section Resume

variable {Tree B : Type}

/-- A deterministic tree builder: what a `Build` call gives, the tree or the
exception, depends on the arguments of the call only, not on the builder object
it is called on. -/
def Collaborators.Deterministic (X : Collaborators Tree B) : Prop :=
  (∀ b b1 v g gs h hs w ws,
    (X.fullSingleBuild b v g gs h hs w ws).1 = (X.fullSingleBuild b1 v g gs h hs w ws).1) ∧
  (∀ b b1 v g gs h hs w ws,
    (X.fullMultiBuild b v g gs h hs w ws).1 = (X.fullMultiBuild b1 v g gs h hs w ws).1) ∧
  (∀ b b1 v g h w, (X.fastHistSingleBuild b v g h w).1 = (X.fastHistSingleBuild b1 v g h w).1) ∧
  (∀ b b1 v g h w, (X.fastHistMultiBuild b v g h w).1 = (X.fastHistMultiBuild b1 v g h w).1)

/-- The array of `m` rows of `n` entries with `f j r` at position `[j][r]`. -/
def tableOf {α : Type} (m n : Nat) (f : Nat → Nat → α) : List (List α) :=
  (List.range m).map (fun j => (List.range n).map (fun r => f j r))

/-- What `initialize` sets once and no step of a run without feature sampling
changes: the loss function of the configured kind, the identity feature sets,
and the tree builder and problem view of the configured kind, the other
handles being null. -/
structure CGradientBoost.Settled (s : CGradientBoost Tree B)
    (bp : IMultivariateRegressionProblem) : Prop where
  lossFunction : ∃ lf, s.createLossFunction = Outcome.ok lf ∧ s.lossFunction = some lf
  usedFeatures : s.usedFeatures = identityArray bp.FeatureCount.toNat
  featureNumbers : s.featureNumbers = identityArray bp.FeatureCount.toNat
  fullSingle : s.fullSingleClassTreeBuilder.isSome =
    decide (s.params.TreeBuilder = TGradientBoostTreeBuilder.GBTB_Full)
  fullMulti : s.fullMultiClassTreeBuilder.isSome =
    decide (s.params.TreeBuilder = TGradientBoostTreeBuilder.GBTB_MultiFull)
  fastHistSingle : s.fastHistSingleClassTreeBuilder.isSome =
    decide (s.params.TreeBuilder = TGradientBoostTreeBuilder.GBTB_FastHist)
  fastHistMulti : s.fastHistMultiClassTreeBuilder.isSome =
    decide (s.params.TreeBuilder = TGradientBoostTreeBuilder.GBTB_MultiFastHist)
  fullProblem : s.fullProblem =
    if s.params.TreeBuilder = TGradientBoostTreeBuilder.GBTB_Full ∨
        s.params.TreeBuilder = TGradientBoostTreeBuilder.GBTB_MultiFull
      then some ⟨s.params.ThreadCount, bp⟩ else none
  fastHistProblem : s.fastHistProblem =
    if s.params.TreeBuilder = TGradientBoostTreeBuilder.GBTB_FastHist ∨
        s.params.TreeBuilder = TGradientBoostTreeBuilder.GBTB_MultiFastHist
      then some ⟨s.params.ThreadCount, s.params.MaxBins, bp⟩ else none

/-- The state in which a step without sampling hands the buffers to the loss
function: every row of the problem scored by the `k` trees of its ensemble, the
targets, the cache refreshed to step `k`, and empty gradients and Hessians. -/
def CGradientBoost.scored (X : Collaborators Tree B) (s : CGradientBoost Tree B)
    (bp : IMultivariateRegressionProblem) (k : Nat) : CGradientBoost Tree B :=
  { s with
    predictCache := tableOf bp.ValueSize.toNat bp.VectorCount.toNat
      (fun j r => { Step := (k : Int), Value := s.scoreUpTo X bp j r (k : Int) })
    predicts := tableOf bp.ValueSize.toNat bp.VectorCount.toNat
      (fun j r => s.scoreUpTo X bp j r (k : Int))
    answers := tableOf bp.ValueSize.toNat bp.VectorCount.toNat
      (fun j r => (CArray.get2? bp.Values r j).getD 0)
    gradients := List.replicate bp.ValueSize.toNat []
    hessians := List.replicate bp.ValueSize.toNat [] }

/-- Two trainers that a step cannot tell apart before it fills the buffers:
the same configuration up to the generator, loss function, ensembles, cache,
active sets, adapted problem and problem views, and tree builders of the same
kinds, whatever their internal state, the generators and the logs. -/
structure CGradientBoost.Agree (s t : CGradientBoost Tree B) : Prop where
  params : t.params.fixed = s.params.fixed
  lossFunction : t.lossFunction = s.lossFunction
  models : t.models = s.models
  predictCache : t.predictCache = s.predictCache
  usedVectors : t.usedVectors = s.usedVectors
  usedFeatures : t.usedFeatures = s.usedFeatures
  featureNumbers : t.featureNumbers = s.featureNumbers
  baseProblem : t.baseProblem = s.baseProblem
  fullProblem : t.fullProblem = s.fullProblem
  fastHistProblem : t.fastHistProblem = s.fastHistProblem
  fullSingle : t.fullSingleClassTreeBuilder.isSome = s.fullSingleClassTreeBuilder.isSome
  fullMulti : t.fullMultiClassTreeBuilder.isSome = s.fullMultiClassTreeBuilder.isSome
  fastHistSingle :
    t.fastHistSingleClassTreeBuilder.isSome = s.fastHistSingleClassTreeBuilder.isSome
  fastHistMulti : t.fastHistMultiClassTreeBuilder.isSome = s.fastHistMultiClassTreeBuilder.isSome

/-- Two trainers with the same four working buffers. -/
structure CGradientBoost.SameBuffers (s t : CGradientBoost Tree B) : Prop where
  predicts : t.predicts = s.predicts
  answers : t.answers = s.answers
  gradients : t.gradients = s.gradients
  hessians : t.hessians = s.hessians

/-- What a step without feature sampling keeps of a trainer: the configuration
up to the generator, the loss function, the feature sets, the problem views and
which tree builders are set. -/
structure CGradientBoost.Kept (s t : CGradientBoost Tree B) : Prop where
  params : t.params.fixed = s.params.fixed
  lossFunction : t.lossFunction = s.lossFunction
  usedFeatures : t.usedFeatures = s.usedFeatures
  featureNumbers : t.featureNumbers = s.featureNumbers
  fullProblem : t.fullProblem = s.fullProblem
  fastHistProblem : t.fastHistProblem = s.fastHistProblem
  fullSingle : t.fullSingleClassTreeBuilder.isSome = s.fullSingleClassTreeBuilder.isSome
  fullMulti : t.fullMultiClassTreeBuilder.isSome = s.fullMultiClassTreeBuilder.isSome
  fastHistSingle :
    t.fastHistSingleClassTreeBuilder.isSome = s.fastHistSingleClassTreeBuilder.isSome
  fastHistMulti : t.fastHistMultiClassTreeBuilder.isSome = s.fastHistMultiClassTreeBuilder.isSome

end Resume

/-! ## Statistics, feature numbering and ensemble lengths -/

section FeatureNumbering

variable {Tree B : Type}

/-- The array `featureNumbers` is the inverse of the renumbering `usedFeatures`
of `featureCount` features: it has `featureCount` entries, the entry of
`usedFeatures[i]` is `i`, and the entry of a feature that `usedFeatures` does
not hold is `NotFound`. -/
def CGradientBoost.FeaturesNumbered (s : CGradientBoost Tree B) (featureCount : Int) : Prop :=
  (s.featureNumbers.length : Int) = featureCount ∧
  (∀ (i : Nat) (f : Int), s.usedFeatures[i]? = some f →
    CArray.get? s.featureNumbers f = some (i : Int)) ∧
  (∀ f : Int, 0 ≤ f → f < featureCount → f ∉ s.usedFeatures →
    CArray.get? s.featureNumbers f = some NotFound)

end FeatureNumbering

section EnsembleLengths

variable {Tree B : Type}

/-- All the ensembles of `models` hold the same number of trees. -/
def CGradientBoost.SameLengths (s : CGradientBoost Tree B) : Prop :=
  ∀ e1 ∈ s.models, ∀ e2 ∈ s.models, e1.length = e2.length

/-- What every `TrainStep` on a problem with `outputs` outputs keeps of a
trainer: the ensembles have the same length; `models` and `predicts` are both
empty, or sized by `initialize` for `outputs` outputs; a multi-output tree
builder is set only for a multi-output builder kind; and no multi-output tree
builder is set while the trainer holds no adapted problem. -/
def CGradientBoost.Aligned (s : CGradientBoost Tree B) (outputs : Int) : Prop :=
  s.SameLengths ∧
  ((s.models = [] ∧ s.predicts = []) ∨
    (1 ≤ outputs ∧ s.models.length = (if s.isMultiTreesModel then 1 else outputs).toNat ∧
      s.predicts.length = outputs.toNat)) ∧
  ((s.fullMultiClassTreeBuilder.isSome ∨ s.fastHistMultiClassTreeBuilder.isSome) →
    s.isMultiTreesModel = true) ∧
  (s.baseProblem = none →
    s.fullMultiClassTreeBuilder = none ∧ s.fastHistMultiClassTreeBuilder = none)

/-- The fields that a step reads to decide how many trees it builds and where
it appends them, kept from `s` to `t`. -/
def CGradientBoost.Steady (s t : CGradientBoost Tree B) : Prop :=
  t.models = s.models ∧ t.predicts.length = s.predicts.length ∧
  t.params.fixed = s.params.fixed ∧ t.baseProblem = s.baseProblem ∧
  t.fullMultiClassTreeBuilder.isSome = s.fullMultiClassTreeBuilder.isSome ∧
  t.fastHistMultiClassTreeBuilder.isSome = s.fastHistMultiClassTreeBuilder.isSome

end EnsembleLengths

section LinkedHandles

variable {D E : Type}

/-- The half of the reference-count invariant that every call of the loader
keeps: no link count is negative, the two CUDA handles are null together, and
a handle that is set has a positive link count. -/
def CDllLoader.HandlesLinked (s : CDllLoader D E) : Prop :=
  s.CountsValid ∧
  (s.vulkanDll.isSome → 0 < s.vulkanDllLinkCount) ∧
  (s.cusparseDll.isSome → 0 < s.cudaDllLinkCount) ∧
  (s.ncclDll.isSome → 0 < s.ncclDllLinkCount) ∧
  (s.avxDll.isSome → 0 < s.avxDllLinkCount)

end LinkedHandles

/-- A problem with three rows, three features and two outputs. -/
def wideProblem : IMultivariateRegressionProblem where
  ValueSize := 2
  VectorCount := 3
  FeatureCount := 3
  Matrix := { Height := 3, Width := 3, Rows := [[0, 1, 2], [1, 0, 1], [2, 2, 0]] }
  Values := [[1, 0], [2, 1], [4, 0]]
  Weights := [1, 1, 2]

/-- The configuration `demoParams` with two thirds of the features sampled at
every step. -/
def featureParams : CParams :=
  { demoParams with Subfeature := 2 / 3 }

/-- The trainer as the constructor leaves it for `featureParams`. -/
def featureFresh : CGradientBoost ℚ Nat :=
  { demoFresh with params := featureParams }

/-- A problem with three rows, one feature and three outputs. -/
def threeOutputProblem : IMultivariateRegressionProblem where
  ValueSize := 3
  VectorCount := 3
  FeatureCount := 1
  Matrix := { Height := 3, Width := 1, Rows := [[0], [1], [2]] }
  Values := [[1, 0, 1], [2, 1, 0], [4, 0, 2]]
  Weights := [1, 1, 2]

/-- Collaborators of `demoCollaborators` whose single-output full-scan builder
also raises on every problem with two outputs. -/
def choosyCollaborators (limit : Nat) : Collaborators ℚ Nat :=
  { demoCollaborators limit false with
    fullSingleBuild := fun b v _ gs _ hs _ _ =>
      if b < limit ∧ v.problem.ValueSize ≠ 2 then (Outcome.ok (-gs / hs), b + 1)
      else (Outcome.throw (Exn.raised 7), b + 1) }

/-! # Theorems -/

/-! ## Loops and arrays -/

theorem forLoop_ok {σ : Type} (body : Nat → σ → σ × Outcome Unit) (Inv : σ → Prop)
    (idx : List Nat)
    (hbody : ∀ i ∈ idx, ∀ s, Inv s → (body i s).2 = Outcome.ok () ∧ Inv (body i s).1)
    (s : σ) (h : Inv s) :
    (forLoop body idx s).2 = Outcome.ok () ∧ Inv (forLoop body idx s).1 := by
  induction idx generalizing s with
  | nil => exact ⟨rfl, h⟩
  | cons i rest ih =>
    have hb := hbody i (List.mem_cons_self i rest) s h
    have hrest : ∀ j ∈ rest, ∀ s, Inv s → (body j s).2 = Outcome.ok () ∧ Inv (body j s).1 :=
      fun j hj => hbody j (List.mem_cons_of_mem i hj)
    rcases hres : body i s with ⟨s', o⟩
    rw [hres] at hb
    simp only at hb
    obtain ⟨ho, hinv⟩ := hb
    subst ho
    simp only [forLoop, hres]
    exact ih hrest s' hinv

theorem CArray.get?_eq_some {α : Type} (arr : List α) (i : Int) (h0 : 0 ≤ i)
    (h1 : i.toNat < arr.length) : CArray.get? arr i = some (arr.get ⟨i.toNat, h1⟩) := by
  simp [CArray.get?, h0, List.getElem?_eq_getElem h1]

theorem set_set_count (l : List Int) (i j : Nat) (hi : i < l.length) (hj : j < l.length)
    (c : Int) : ((l.set i (l.get ⟨j, hj⟩)).set j (l.get ⟨i, hi⟩)).count c = l.count c := by
  have hj' : j < (l.set i (l.get ⟨j, hj⟩)).length := by simpa using hj
  rw [List.count_set _ _ _ _ hj', List.count_set _ _ _ _ hi]
  by_cases hij : i = j
  · subst hij
    simp only [List.get_eq_getElem, List.getElem_set_self]
    have := List.count_pos_iff.mpr (List.getElem_mem hi)
    by_cases hc : l[i] = c
    · subst hc; simp
    · simp [hc]
  · have hne : (l.set i (l.get ⟨j, hj⟩))[j] = l[j] := by
      simp [List.getElem_set, hij]
    rw [hne]
    simp only [List.get_eq_getElem]
    have h1 := List.count_pos_iff.mpr (List.getElem_mem hi)
    have h2 := List.count_pos_iff.mpr (List.getElem_mem hj)
    by_cases hci : l[i] = c <;> by_cases hcj : l[j] = c
    · have : l[i] = l[j] := by rw [hci, hcj]
      subst hcj; simp [this]
    · subst hci; simp [hcj]
    · subst hcj; simp [hci]
    · simp [hci, hcj]

theorem swapAt_perm (result : List Int) (i index : Int) (h0 : 0 ≤ i) (h1 : i.toNat < result.length)
    (g0 : 0 ≤ index) (g1 : index.toNat < result.length) :
    ∃ r, swapAt result i index = some r ∧ r.Perm result := by
  refine ⟨(result.set i.toNat (result.get ⟨index.toNat, g1⟩)).set index.toNat
    (result.get ⟨i.toNat, h1⟩), ?_, ?_⟩
  · simp [swapAt, CArray.get?_eq_some, h0, h1, g0, g1, CArray.set?]
  · exact List.perm_iff_count.mpr (fun c => set_set_count result _ _ h1 g1 c)

theorem forLoop_append {σ : Type} (body : Nat → σ → σ × Outcome Unit) (xs ys : List Nat) (s : σ) :
    forLoop body (xs ++ ys) s =
      match forLoop body xs s with
      | (s', Outcome.ok _) => forLoop body ys s'
      | (s', Outcome.throw e) => (s', Outcome.throw e) := by
  induction xs generalizing s with
  | nil => simp [forLoop]
  | cons x xs ih =>
    simp only [List.cons_append, forLoop]
    rcases hb : body x s with ⟨s1, o⟩
    cases o with
    | ok u => simp only; exact ih s1
    | throw e => simp

theorem forLoop_range_steps {σ : Type} (body : Nat → σ → σ × Outcome Unit) (n : Nat)
    (P : Nat → σ) (h : ∀ i, i < n → body i (P i) = (P (i + 1), Outcome.ok ())) :
    forLoop body (List.range n) (P 0) = (P n, Outcome.ok ()) := by
  induction n with
  | zero => simp [forLoop]
  | succ n ih =>
    rw [List.range_succ, forLoop_append, ih (fun i hi => h i (Nat.lt_succ_of_lt hi))]
    simp [forLoop, h n (Nat.lt_succ_self n)]

theorem take_append_drop_set {α : Type} (T R : List α) (i : Nat) (hT : i < T.length)
    (hR : R.length = T.length) :
    (T.take i ++ R.drop i).set i (T.get ⟨i, hT⟩) = T.take (i + 1) ++ R.drop (i + 1) := by
  apply List.ext_getElem
  · simp; omega
  · intro k h1 h2
    simp only [List.getElem_set, List.getElem_append, List.length_take, List.getElem_take,
      List.getElem_drop, List.get_eq_getElem]
    have hmin : min i T.length = i := by omega
    have hmin1 : min (i + 1) T.length = i + 1 := by omega
    simp only [hmin, hmin1]
    by_cases hk : i = k
    · subst hk; simp
    · by_cases hlt : k < i
      · simp [hk, hlt, Nat.lt_succ_of_lt hlt]
      · have : ¬ k < i + 1 := by omega
        simp [hk, hlt, this]
        congr 1; omega

/-! ## The subsampler -/

theorem QuickSort_perm (arr : List Int) : (QuickSort arr).Perm arr :=
  List.perm_insertionSort _ arr

theorem QuickSort_sorted (arr : List Int) : (QuickSort arr).Sorted (fun a b => a ≤ b) :=
  List.sorted_insertionSort _ arr

theorem identityArray_length (m : Nat) : (identityArray m).length = m := by
  simp [identityArray]

theorem identity_nodup (m : Nat) : (identityArray m).Nodup :=
  (List.nodup_range m).map (fun a b h => by simpa using h)

theorem identity_mem (m : Nat) (x : Int) :
    x ∈ identityArray m ↔ 0 ≤ x ∧ x < m := by
  simp only [identityArray, List.mem_map, List.mem_range]
  constructor
  · rintro ⟨a, ha, rfl⟩
    exact ⟨Int.ofNat_nonneg a, by simpa using ha⟩
  · rintro ⟨h0, h1⟩
    exact ⟨x.toNat, by omega, by simp [Int.toNat_of_nonneg h0]⟩

theorem shuffle_ok (uniformInt : UniformIntFn) (n : Int) (k : Nat) (hk : (k : Int) ≤ n)
    (hdraw : ∀ (r : CRandom) (i : Int), 0 ≤ i → i ≤ n - 1 →
      i ≤ (uniformInt r i (n - 1)).1 ∧ (uniformInt r i (n - 1)).1 ≤ n - 1)
    (random : CRandom) (filled : List Int) (hlen : (filled.length : Int) = n) :
    (forLoop (shuffleBody uniformInt n) (List.range k) (random, filled)).2 = Outcome.ok () ∧
    (forLoop (shuffleBody uniformInt n) (List.range k) (random, filled)).1.2.Perm filled := by
  apply forLoop_ok (shuffleBody uniformInt n) (fun s => s.2.Perm filled)
  · intro i hi s hs
    have hi' : i < k := List.mem_range.mp hi
    have hl : s.2.length = filled.length := hs.length_eq
    have hd := hdraw s.1 (i : Int) (by positivity) (by omega)
    obtain ⟨r, hr, hperm⟩ := swapAt_perm s.2 (i : Int) (uniformInt s.1 (i : Int) (n - 1)).1
      (by positivity) (by simp; omega) (by omega) (by omega)
    simp only [shuffleBody, hr]
    exact ⟨by trivial, hperm.trans hs⟩
  · exact List.Perm.refl _

/-- Claim C1: for `n ≥ 1`, `1 ≤ k ≤ n` and a random source whose draws
`UniformInt( i, n - 1 )` lie in `[i, n - 1]`, `generateRandomArray` returns
normally and leaves in `result` exactly `k` strictly ascending values, each in
`[0, n)`, whatever `result` held before. -/
theorem generateRandomArray_sorted_distinct (uniformInt : UniformIntFn) (random : CRandom) (n k : Int)
    (result : List Int) (hn : 1 ≤ n) (hk1 : 1 ≤ k) (hkn : k ≤ n)
    (hdraw : ∀ (r : CRandom) (i : Int), 0 ≤ i → i ≤ n - 1 →
      i ≤ (uniformInt r i (n - 1)).1 ∧ (uniformInt r i (n - 1)).1 ≤ n - 1) :
    (generateRandomArray uniformInt random n k result).2 = Outcome.ok () ∧
    ((generateRandomArray uniformInt random n k result).1.2.length : Int) = k ∧
    (generateRandomArray uniformInt random n k result).1.2.Pairwise (fun a b => a < b) ∧
    ∀ x ∈ (generateRandomArray uniformInt random n k result).1.2, 0 ≤ x ∧ x < n := by
  have hnn : ((n.toNat : Nat) : Int) = n := Int.toNat_of_nonneg (by omega)
  have hkk : ((k.toNat : Nat) : Int) = k := Int.toNat_of_nonneg (by omega)
  by_cases hkeq : k = n
  · subst hkeq
    simp only [generateRandomArray, hkn, hk1, not_true_eq_false, if_false, if_true]
    refine ⟨by trivial, by rw [identityArray_length]; exact hnn, ?_, ?_⟩
    · rw [identityArray, List.pairwise_map]
      exact (List.pairwise_lt_range _).imp (fun h => Int.ofNat_lt.mpr h)
    · intro x hx
      have := (identity_mem k.toNat x).mp hx
      omega
  · have hlen : (((identityArray n.toNat).length : Nat) : Int) = n := by
      rw [identityArray_length]; exact hnn
    obtain ⟨hok, hperm⟩ := shuffle_ok uniformInt n k.toNat (by omega) hdraw random _ hlen
    simp only [generateRandomArray, hkn, hk1, not_true_eq_false, if_false, hkeq]
    rcases hres : forLoop (shuffleBody uniformInt n) (List.range k.toNat)
      (random, identityArray n.toNat) with ⟨s, o⟩
    rw [hres] at hok hperm
    simp only at hok hperm
    subst hok
    simp only
    have hnodup : s.2.Nodup := hperm.nodup_iff.mpr (identity_nodup _)
    have hslen : s.2.length = n.toNat := by rw [hperm.length_eq, identityArray_length]
    have hq := QuickSort_perm (s.2.take k.toNat)
    refine ⟨trivial, ?_, ?_, ?_⟩
    · rw [hq.length_eq, List.length_take, hslen]
      omega
    · have hnd : (QuickSort (s.2.take k.toNat)).Nodup :=
        hq.nodup_iff.mpr (hnodup.sublist (List.take_sublist _ _))
      exact (QuickSort_sorted _).lt_of_le hnd
    · intro x hx
      have hx1 : x ∈ s.2 := List.mem_of_mem_take (hq.mem_iff.mp hx)
      have := (identity_mem n.toNat x).mp (hperm.mem_iff.mp hx1)
      omega

/-- Claim C2: for `n ≥ 1` and any random source, `generateRandomArray` with
`k = n` returns normally, leaves `result` equal to `0, 1, ..., n-1` (length `n`,
entry `i` equal to `i`) and does not touch the generator. -/
theorem generateRandomArray_identity (uniformInt : UniformIntFn) (random : CRandom) (n : Int)
    (result : List Int) (hn : 1 ≤ n) :
    generateRandomArray uniformInt random n n result =
      ((random, identityArray n.toNat), Outcome.ok ()) ∧
    ((identityArray n.toNat).length : Int) = n ∧
    ∀ i : Nat, (i : Int) < n → (identityArray n.toNat)[i]? = some (i : Int) := by
  refine ⟨by simp [generateRandomArray, hn], ?_, ?_⟩
  · rw [identityArray_length]; exact Int.toNat_of_nonneg (by omega)
  · intro i hi
    have : i < n.toNat := by omega
    simp [identityArray, List.getElem?_range this]

theorem lcgUniformInt_inRange : UniformIntInRange lcgUniformInt := by
  intro r lo hi h
  simp only [lcgUniformInt, h, if_true]
  have h1 := Int.emod_nonneg (((r.state * 1103515245 + 12345) % 2147483648 : Nat) : Int)
    (show hi - lo + 1 ≠ 0 by omega)
  have h2 := Int.emod_lt_of_pos (((r.state * 1103515245 + 12345) % 2147483648 : Nat) : Int)
    (show 0 < hi - lo + 1 by omega)
  constructor <;> omega

theorem generateRandomArray_sorted_distinct_witness :
    (generateRandomArray lcgUniformInt ⟨7⟩ 10 4 [99]).2 = Outcome.ok () ∧
    ((generateRandomArray lcgUniformInt ⟨7⟩ 10 4 [99]).1.2.length : Int) = 4 ∧
    (generateRandomArray lcgUniformInt ⟨7⟩ 10 4 [99]).1.2.Pairwise (fun a b => a < b) ∧
    ∀ x ∈ (generateRandomArray lcgUniformInt ⟨7⟩ 10 4 [99]).1.2, 0 ≤ x ∧ x < 10 :=
  generateRandomArray_sorted_distinct lcgUniformInt ⟨7⟩ 10 4 [99] (by decide) (by decide)
    (by decide) (fun r i _ hi => lcgUniformInt_inRange r i (10 - 1) hi)

theorem generateRandomArray_identity_witness :
    generateRandomArray lcgUniformInt ⟨7⟩ 3 3 [99] = ((⟨7⟩, identityArray 3), Outcome.ok ()) ∧
    ((identityArray 3).length : Int) = 3 ∧
    ∀ i : Nat, (i : Int) < 3 → (identityArray 3)[i]? = some (i : Int) :=
  generateRandomArray_identity lcgUniformInt ⟨7⟩ 3 [99] (by decide)

/-! ## Loss functions -/

theorem CArray.set2?_set {α : Type} (G : List (List α)) (i j : Nat) (r : List α) (v : α)
    (hi : i < G.length) (hj : j < r.length) :
    CArray.set2? (G.set i r) i j v = some (G.set i (r.set j v)) := by
  simp [CArray.set2?, hi, hj]

theorem calcEntry_loop {K : Type} (entry : K → K → K × K) (predicts answers : List (List K)) (i : Nat)
    (prow arow : List K) (hp : predicts[i]? = some prow) (ha : answers[i]? = some arow)
    (hle : prow.length ≤ arow.length) (G H : List (List K)) (hG : i < G.length)
    (hH : i < H.length) (rg rh : List K) (hrg : rg.length = prow.length)
    (hrh : rh.length = prow.length) :
    forLoop (calcEntryBody entry predicts answers i) (List.range prow.length)
        (G.set i rg, H.set i rh) =
      ((G.set i (List.zipWith (fun p a => (entry p a).1) prow arow),
        H.set i (List.zipWith (fun p a => (entry p a).2) prow arow)), Outcome.ok ()) := by
  set TG := List.zipWith (fun p a => (entry p a).1) prow arow with hTG
  set TH := List.zipWith (fun p a => (entry p a).2) prow arow with hTH
  have hTGl : TG.length = prow.length := by simp [hTG]; omega
  have hTHl : TH.length = prow.length := by simp [hTH]; omega
  have key := forLoop_range_steps (calcEntryBody entry predicts answers i) prow.length
    (fun j => (G.set i (TG.take j ++ rg.drop j), H.set i (TH.take j ++ rh.drop j))) ?_
  · have e1 : TG.take prow.length ++ rg.drop prow.length = TG := by
      rw [List.take_of_length_le (le_of_eq hTGl), List.drop_eq_nil_of_le (le_of_eq hrg),
        List.append_nil]
    have e2 : TH.take prow.length ++ rh.drop prow.length = TH := by
      rw [List.take_of_length_le (le_of_eq hTHl), List.drop_eq_nil_of_le (le_of_eq hrh),
        List.append_nil]
    simp only [List.take_zero, List.drop_zero, List.nil_append, e1, e2] at key
    exact key
  · intro j hj
    have hja : j < arow.length := by omega
    have h1 : CArray.get2? predicts i j = some (prow.get ⟨j, hj⟩) := by
      simp [CArray.get2?, hp, List.getElem?_eq_getElem hj]
    have h2 : CArray.get2? answers i j = some (arow.get ⟨j, hja⟩) := by
      simp [CArray.get2?, ha, List.getElem?_eq_getElem hja]
    have hjg : j < (TG.take j ++ rg.drop j).length := by simp; omega
    have hjh : j < (TH.take j ++ rh.drop j).length := by simp; omega
    have e1 : (entry (prow.get ⟨j, hj⟩) (arow.get ⟨j, hja⟩)).1 = TG.get ⟨j, by omega⟩ := by
      simp [hTG]
    have e2 : (entry (prow.get ⟨j, hj⟩) (arow.get ⟨j, hja⟩)).2 = TH.get ⟨j, by omega⟩ := by
      simp [hTH]
    simp only [calcEntryBody, h1, h2, CArray.set2?_set _ _ _ _ _ hG hjg,
      CArray.set2?_set _ _ _ _ _ hH hjh, e1, e2]
    rw [take_append_drop_set TG rg j (by omega) (by omega),
      take_append_drop_set TH rh j (by omega) (by omega)]

theorem CArray.length_SetSize {α : Type} (arr : List α) (n : Nat) (d : α) :
    (CArray.SetSize arr (n : Int) d).length = n := by
  simp [CArray.SetSize]; omega

section LossTheorems

variable {K : Type} [LinearOrderedField K]

theorem calcGradientAndHessianWith_eq (entry : K → K → K × K) (predicts answers : List (List K))
    (gradients hessians : List (List K)) (hlen : predicts.length = answers.length)
    (hrows : ∀ (i : Nat) (prow arow : List K), predicts[i]? = some prow → answers[i]? = some arow →
      prow.length ≤ arow.length) :
    calcGradientAndHessianWith entry predicts answers gradients hessians =
      ((entryRows (fun p a => (entry p a).1) predicts answers,
        entryRows (fun p a => (entry p a).2) predicts answers), Outcome.ok ()) := by
  set TG := entryRows (fun p a => (entry p a).1) predicts answers with hTG
  set TH := entryRows (fun p a => (entry p a).2) predicts answers with hTH
  set G0 := CArray.SetSize gradients (predicts.length : Int) [] with hG0
  set H0 := CArray.SetSize hessians (predicts.length : Int) [] with hH0
  have hTGl : TG.length = predicts.length := by simp [hTG, entryRows, hlen]
  have hTHl : TH.length = predicts.length := by simp [hTH, entryRows, hlen]
  have hG0l : G0.length = predicts.length := CArray.length_SetSize _ _ _
  have hH0l : H0.length = predicts.length := CArray.length_SetSize _ _ _
  have key := forLoop_range_steps (calcRowBody entry predicts answers) predicts.length
    (fun i => (TG.take i ++ G0.drop i, TH.take i ++ H0.drop i)) ?_
  · unfold calcGradientAndHessianWith
    rw [if_neg (not_not.mpr hlen)]
    have e1 : TG.take predicts.length ++ G0.drop predicts.length = TG := by
      rw [List.take_of_length_le (le_of_eq hTGl), List.drop_eq_nil_of_le (le_of_eq hG0l),
        List.append_nil]
    have e2 : TH.take predicts.length ++ H0.drop predicts.length = TH := by
      rw [List.take_of_length_le (le_of_eq hTHl), List.drop_eq_nil_of_le (le_of_eq hH0l),
        List.append_nil]
    simp only [List.take_zero, List.drop_zero, List.nil_append, e1, e2] at key
    exact key
  · intro i hi
    have hia : i < answers.length := by omega
    have hp : predicts[i]? = some (predicts.get ⟨i, hi⟩) := by
      simp [List.getElem?_eq_getElem hi]
    have ha : answers[i]? = some (answers.get ⟨i, hia⟩) := by
      simp [List.getElem?_eq_getElem hia]
    have hle := hrows i _ _ hp ha
    have hig : i < (TG.take i ++ G0.drop i).length := by simp; omega
    have hih : i < (TH.take i ++ H0.drop i).length := by simp; omega
    have hg : (TG.take i ++ G0.drop i)[i]? = some ((TG.take i ++ G0.drop i).get ⟨i, hig⟩) := by
      simp [List.getElem?_eq_getElem hig]
    have hh : (TH.take i ++ H0.drop i)[i]? = some ((TH.take i ++ H0.drop i).get ⟨i, hih⟩) := by
      simp [List.getElem?_eq_getElem hih]
    simp only [calcRowBody, hp, hg, hh]
    rw [calcEntry_loop entry predicts answers i _ _ hp ha hle _ _ hig hih _ _
      (CArray.length_SetSize _ _ _) (CArray.length_SetSize _ _ _)]
    have e1 : List.zipWith (fun p a => (entry p a).1) (predicts.get ⟨i, hi⟩)
        (answers.get ⟨i, hia⟩) = TG.get ⟨i, by omega⟩ := by
      simp [hTG, entryRows]
    have e2 : List.zipWith (fun p a => (entry p a).2) (predicts.get ⟨i, hi⟩)
        (answers.get ⟨i, hia⟩) = TH.get ⟨i, by omega⟩ := by
      simp [hTH, entryRows]
    rw [e1, e2, take_append_drop_set TG G0 i (by omega) (by omega),
      take_append_drop_set TH H0 i (by omega) (by omega)]

end LossTheorems

open Real in
theorem exp_neg_forty_lt : Real.exp (-40) < 1 / 10 ^ 16 := by
  have h1 : (2.7 : ℝ) < Real.exp 1 := by
    have := Real.exp_one_gt_d9
    linarith
  have h2 : Real.exp 40 = Real.exp 1 ^ 40 := by
    rw [← Real.exp_nat_mul]; norm_num
  have h3 : (10 : ℝ) ^ 16 < Real.exp 40 := by
    rw [h2]
    calc (10 : ℝ) ^ 16 < 2.7 ^ 40 := by norm_num
      _ < Real.exp 1 ^ 40 := by gcongr
  rw [Real.exp_neg, one_div]
  exact inv_strictAnti₀ (by positivity) h3

/-- Claim C6, evaluated at the failing input: for the exponential loss with
target 0 and prediction -40 (over the reals) `CalcGradientAndHessian` returns
normally and the Hessian entry it produces is below `1e-16`. -/
theorem exponential_hessian_below_floor :
    ∃ g h : ℝ,
      IGradientBoostingLossFunction.CalcGradientAndHessian Real.exp
          IGradientBoostingLossFunction.CGradientBoostingExponentialLossFunction
          [[-40]] [[0]] [] [] = (([[g]], [[h]]), Outcome.ok ()) ∧
      h < hessianFloor := by
  refine ⟨(exponentialEntry Real.exp (-40) 0).1, (exponentialEntry Real.exp (-40) 0).2, ?_, ?_⟩
  · unfold IGradientBoostingLossFunction.CalcGradientAndHessian
    rw [calcGradientAndHessianWith_eq _ _ _ _ _ (by simp)]
    · simp only [entryRows, List.zipWith_cons_cons, List.zipWith_nil_right,
        IGradientBoostingLossFunction.entry]
    · intro i prow arow hp ha
      match i with
      | 0 => simp at hp ha; subst hp; subst ha; simp
      | i + 1 => simp at hp
  · simp only [IGradientBoostingLossFunction.entry, exponentialEntry, hessianFloor,
      MaxExpArgument]
    norm_num
    have := exp_neg_forty_lt
    norm_num at this
    exact this

/-- The Hessian entries of the binomial, squared-hinge and L2 losses are at least
`1e-16` for targets in `{0, 1}`; the one of the exponential loss is only
positive. -/
theorem hessian_floor_le (exp : ℝ → ℝ) (hexp : ∀ x, 0 < exp x) (p y : ℝ) (hy : y = 0 ∨ y = 1) :
    hessianFloor ≤ (binomialEntry exp p y).2 ∧ hessianFloor ≤ (squaredHingeEntry p y).2 ∧
    hessianFloor ≤ (squareLossEntry p y).2 ∧ 0 < (exponentialEntry exp p y).2 := by
  refine ⟨?_, ?_, ?_, ?_⟩
  · simp only [binomialEntry]
    exact le_max_right _ _
  · simp only [squaredHingeEntry]
    split_ifs
    · rcases hy with rfl | rfl <;> norm_num [hessianFloor]
    · exact le_refl _
  · norm_num [squareLossEntry, hessianFloor]
  · simp only [exponentialEntry]
    rcases hy with rfl | rfl
    · have := hexp (min (-(2 * 0 - 1) * p) MaxExpArgument)
      nlinarith
    · have := hexp (min (-(2 * 1 - 1) * p) MaxExpArgument)
      nlinarith

/-! ## The constructor -/

theorem construct_ok_iff_aux {Tree B : Type} (seed : CRandom) (p : CParams) :
    (∃ s : CGradientBoost Tree B, CGradientBoost.construct seed p = Outcome.ok s) ↔
      (p.IterationsCount > 0 ∧ (0 ≤ p.Subsample ∧ p.Subsample ≤ 1) ∧
        (0 ≤ p.Subfeature ∧ p.Subfeature ≤ 1) ∧ p.MaxTreeDepth ≥ 0 ∧
        (p.MaxNodesCount ≥ 0 ∨ p.MaxNodesCount = -1) ∧ p.PruneCriterionValue ≥ 0 ∧
        p.ThreadCount > 0 ∧ p.MinSubsetWeight ≥ 0) := by
  unfold CGradientBoost.construct processParams NotFound
  constructor
  · rintro ⟨s, hs⟩
    dsimp only at hs
    split_ifs at hs
    refine ⟨?_, ?_, ?_, ?_, ?_, ?_, ?_, ?_⟩ <;> assumption
  · rintro ⟨h1, h2, h3, h4, h5, h6, h7, h8⟩
    simp only [h1, h2, h3, h4, h5, h6, h7, h8]
    simp

/-- Claim C5: the constructor succeeds exactly when the eight conditions on the
parameters hold, it fails by assertion otherwise, and a successfully constructed
trainer has read no problem: no adapted problem, no cache, no ensemble. -/
theorem construct_succeeds_iff {Tree B : Type} (seed : CRandom) (p : CParams) :
    ((∃ s : CGradientBoost Tree B, CGradientBoost.construct seed p = Outcome.ok s) ↔
      (p.IterationsCount > 0 ∧ (0 ≤ p.Subsample ∧ p.Subsample ≤ 1) ∧
        (0 ≤ p.Subfeature ∧ p.Subfeature ≤ 1) ∧ p.MaxTreeDepth ≥ 0 ∧
        (p.MaxNodesCount ≥ 0 ∨ p.MaxNodesCount = -1) ∧ p.PruneCriterionValue ≥ 0 ∧
        p.ThreadCount > 0 ∧ p.MinSubsetWeight ≥ 0)) ∧
    ((¬ ∃ s : CGradientBoost Tree B, CGradientBoost.construct seed p = Outcome.ok s) →
      (CGradientBoost.construct seed p : Outcome (CGradientBoost Tree B)) =
        Outcome.throw Exn.assertion) ∧
    (∀ s : CGradientBoost Tree B, CGradientBoost.construct seed p = Outcome.ok s →
      s.params = p ∧ s.baseProblem = none ∧ s.predictCache = [] ∧ s.models = []) := by
  refine ⟨construct_ok_iff_aux seed p, ?_, ?_⟩
  · intro hno
    unfold CGradientBoost.construct processParams
    dsimp only
    split_ifs <;> first | rfl | skip
    exact absurd ⟨_, by
      unfold CGradientBoost.construct processParams
      dsimp only
      simp only [*, not_true_eq_false, if_false]
      rfl⟩ hno
  · intro s hs
    unfold CGradientBoost.construct processParams at hs
    dsimp only at hs
    split_ifs at hs
    simp only [Outcome.ok.injEq] at hs
    subst hs
    simp

theorem forLoop_preserves {σ : Type} (body : Nat → σ → σ × Outcome Unit) (P : σ → Prop)
    (h : ∀ i s, P s → P (body i s).1) (idx : List Nat) (s : σ) (hs : P s) :
    P (forLoop body idx s).1 := by
  induction idx generalizing s with
  | nil => exact hs
  | cons i rest ih =>
    have hb := h i s hs
    rcases hres : body i s with ⟨s', o⟩
    rw [hres] at hb
    cases o with
    | ok u => simp only [forLoop, hres]; exact ih s' hb
    | throw e => simp only [forLoop, hres]; exact hb

section
variable {Tree B : Type}

@[simp]
theorem setRandom_models (s : CGradientBoost Tree B) (r : CRandom) :
    (s.setRandom r).models = s.models := by
  unfold CGradientBoost.setRandom; split <;> rfl

theorem sampleVectors_models (X : Collaborators Tree B) (s : CGradientBoost Tree B) (n : Int) :
    (s.sampleVectors X n).1.models = s.models := by
  unfold CGradientBoost.sampleVectors
  split_ifs <;> simp

theorem sampleFeatures_models (X : Collaborators Tree B) (s : CGradientBoost Tree B) (n : Int) :
    (s.sampleFeatures X n).1.models = s.models := by
  unfold CGradientBoost.sampleFeatures
  split_ifs
  · rcases generateRandomArray X.uniformInt s.getRandom n
      (max (truncToInt (n * s.params.Subfeature)) 1) s.usedFeatures with ⟨⟨r, result⟩, _ | e⟩
    · dsimp only
      rcases forLoop clearBody (List.range n.toNat) _ with ⟨cleared, _ | e⟩
      · simp
      · simp
    · simp
  · rfl

theorem resizeBuffers_models (s : CGradientBoost Tree B) : s.resizeBuffers.1.models = s.models := by
  unfold CGradientBoost.resizeBuffers
  rfl

theorem buildPredictions_models (X : Collaborators Tree B) (s : CGradientBoost Tree B)
    (p : IMultivariateRegressionProblem) (m : List (List Tree)) (c : Int) :
    (s.buildPredictions X p m c).1.models = s.models := by
  unfold CGradientBoost.buildPredictions
  split_ifs <;> rfl

theorem computeStatistics_models (X : Collaborators Tree B) (s : CGradientBoost Tree B)
    (lf : IGradientBoostingLossFunction) (p : IMultivariateRegressionProblem) :
    (s.computeStatistics X lf p).1.models = s.models := by
  unfold CGradientBoost.computeStatistics
  rcases lf.CalcGradientAndHessian X.exp s.predicts s.answers s.gradients s.hessians with
    ⟨⟨g, h⟩, _ | e⟩
  · dsimp only
    rcases readWeights p s.usedVectors with _ | w
    · rfl
    · dsimp only
      rcases weightStatistics w s.usedVectors.length _ with ⟨st, _ | e⟩ <;> rfl
  · rfl

theorem gatherStatistics_models (X : Collaborators Tree B) (s : CGradientBoost Tree B)
    (lf : IGradientBoostingLossFunction) (p : IMultivariateRegressionProblem) :
    (s.gatherStatistics X lf p).1.models = s.models := by
  unfold CGradientBoost.gatherStatistics
  rcases hh1 : s.sampleVectors X p.VectorCount with ⟨s1, _ | e⟩
  all_goals have h1 : s1.models = s.models := by simpa [hh1] using sampleVectors_models X s p.VectorCount
  all_goals dsimp only
  · rcases hh2 : s1.sampleFeatures X p.FeatureCount with ⟨s2, _ | e⟩
    all_goals have h2 : s2.models = s.models := (by simpa [hh2] using sampleFeatures_models X s1 p.FeatureCount : s2.models = _).trans h1
    all_goals dsimp only
    · rcases s2.models[0]? with _ | ensemble
      · exact h2
      · dsimp only
        rcases hh3 : s2.resizeBuffers with ⟨s3, _ | e⟩
        all_goals have h3 : s3.models = s.models := (by simpa [hh3] using resizeBuffers_models s2 : s3.models = _).trans h2
        all_goals dsimp only
        · rcases hh4 : s3.buildPredictions X p s3.models (ensemble.length : Int) with ⟨s4, _ | e⟩
          all_goals have h4 : s4.models = s.models := (by simpa [hh4] using buildPredictions_models X s3 p s3.models (ensemble.length : Int) : s4.models = _).trans h3
          all_goals dsimp only
          · rw [computeStatistics_models, h4]
          · exact h4
        · exact h3
    · exact h2
  · exact h1

theorem logSums_models (s : CGradientBoost Tree B) (g h : ℚ) : (s.logSums g h).models = s.models := by
  unfold CGradientBoost.logSums; split <;> rfl

theorem buildSingleBody_models (X : Collaborators Tree B) (gs hs w : List ℚ) (ws : ℚ) (i : Nat)
    (st : CGradientBoost Tree B × List Tree) :
    (buildSingleBody X gs hs w ws i st).1.1.models = st.1.models := by
  unfold buildSingleBody
  rcases st.1.gradients[i]? with _ | g <;> try rfl
  rcases st.1.hessians[i]? with _ | h <;> try rfl
  rcases gs[i]? with _ | g1 <;> try rfl
  rcases hs[i]? with _ | h1 <;> try rfl
  dsimp only
  have hl := logSums_models st.1 g1 h1
  generalize st.1.logSums g1 h1 = s1 at hl ⊢
  rcases s1.fullSingleClassTreeBuilder with _ | b
  · dsimp only
    rcases s1.fastHistSingleClassTreeBuilder with _ | b <;> try exact hl
    rcases s1.fastHistProblem with _ | v <;> try exact hl
    dsimp only
    rcases X.fastHistSingleBuild b (s1.buildView v.baseProblem) g h w with ⟨_ | e, b1⟩ <;> exact hl
  · dsimp only
    rcases s1.fullProblem with _ | v <;> try exact hl
    dsimp only
    rcases X.fullSingleBuild b (s1.buildView v.baseProblem) g g1 h h1 w ws with ⟨_ | e, b1⟩ <;>
      exact hl

theorem buildMulti_models (X : Collaborators Tree B) (s : CGradientBoost Tree B)
    (gs hs w : List ℚ) (ws : ℚ) (cur : List Tree) :
    (s.buildMulti X gs hs w ws cur).1.models = s.models := by
  unfold CGradientBoost.buildMulti
  rcases s.fullMultiClassTreeBuilder with _ | b
  · dsimp only
    rcases s.fastHistMultiClassTreeBuilder with _ | b <;> try rfl
    rcases s.fastHistProblem with _ | v <;> try rfl
    dsimp only
    rcases X.fastHistMultiBuild b (s.buildView v.baseProblem) s.gradients s.hessians w with
      ⟨_ | e, b1⟩ <;> rfl
  · dsimp only
    rcases s.fullProblem with _ | v <;> try rfl
    dsimp only
    rcases X.fullMultiBuild b (s.buildView v.baseProblem) s.gradients gs s.hessians hs w ws with
      ⟨_ | e, b1⟩ <;> rfl

theorem buildTrees_models (X : Collaborators Tree B) (s : CGradientBoost Tree B)
    (gs hs w : List ℚ) (ws : ℚ) (cur : List Tree) :
    (s.buildTrees X gs hs w ws cur).1.models = s.models := by
  unfold CGradientBoost.buildTrees
  split_ifs
  · exact buildMulti_models X s gs hs w ws cur
  · have := forLoop_preserves (buildSingleBody X gs hs w ws) (fun st => st.1.models = s.models)
      (fun i st h => (buildSingleBody_models X gs hs w ws i st).trans h)
      (List.range s.gradients.length) (s, cur) rfl
    rcases hh : forLoop (buildSingleBody X gs hs w ws) (List.range s.gradients.length) (s, cur)
      with ⟨st, _ | e⟩ <;> simpa [hh] using this

theorem executeStep_models (X : Collaborators Tree B) (s : CGradientBoost Tree B)
    (lf : IGradientBoostingLossFunction) (p : Option IMultivariateRegressionProblem)
    (cur : List Tree) : (s.executeStep X lf p cur).1.models = s.models := by
  unfold CGradientBoost.executeStep
  split_ifs
  all_goals try rfl
  rcases p with _ | problem
  · rfl
  · dsimp only
    rcases hh : s.gatherStatistics X lf problem with ⟨s1, sums | e⟩
    all_goals have h1 : s1.models = s.models := by simpa [hh] using gatherStatistics_models X s lf problem
    all_goals dsimp only
    · rw [buildTrees_models, h1]
    · exact h1

end

section
variable {Tree B : Type}

theorem appendBody_length (cur : List Tree) (j : Nat) (models : List (List Tree)) :
    (appendBody cur j models).1.length = models.length := by
  unfold appendBody
  rcases cur[j]? with _ | t <;> try rfl
  rcases models[j]? with _ | e <;> simp

theorem trainStepExecute_models (X : Collaborators Tree B) (s : CGradientBoost Tree B) :
    (s.trainStepExecute X).1.models = s.models := by
  unfold CGradientBoost.trainStepExecute
  have hlog : ∀ n, (s.logIteration n).models = s.models := by
    intro n; unfold CGradientBoost.logIteration; split <;> rfl
  split
  · rfl
  · rename_i first hfirst
    dsimp only
    have h1 : (if s.logStream.isSome then s.logIteration first.length else s).models = s.models := by
      split_ifs
      · exact hlog _
      · rfl
    generalize (if s.logStream.isSome then s.logIteration first.length else s) = s1 at h1 ⊢
    rcases s1.lossFunction with _ | lf
    · exact h1
    · dsimp only
      rw [executeStep_models, h1]

theorem trainStepExecute_ok_nonempty (X : Collaborators Tree B) (s s1 : CGradientBoost Tree B)
    (cur : List Tree) (h : s.trainStepExecute X = (s1, Outcome.ok cur)) : s.models ≠ [] := by
  intro hempty
  unfold CGradientBoost.trainStepExecute at h
  split at h
  · simp at h
  · dsimp only at h
    split at h
    · simp at h
    · rename_i first _ _ lf _
      have hm : (if s.logStream.isSome then s.logIteration first.length else s).models = [] := by
        split_ifs
        · unfold CGradientBoost.logIteration; split <;> exact hempty
        · exact hempty
      unfold CGradientBoost.executeStep at h
      rw [hm] at h
      simp at h

theorem trainStep_throw (X : Collaborators Tree B) (s : CGradientBoost Tree B) (e : Exn) :
    (s.trainStep X).2 = Outcome.throw e ↔ (s.trainStepTry X).2 = Outcome.throw e := by
  unfold CGradientBoost.trainStep
  rcases hh : s.trainStepTry X with ⟨s1, _ | e1⟩
  · dsimp only
    have hne : s1.models ≠ [] := by
      unfold CGradientBoost.trainStepTry at hh
      rcases hx : s.trainStepExecute X with ⟨s2, cur | e2⟩
      · rw [hx] at hh
        dsimp only at hh
        have hlen := forLoop_preserves (appendBody cur) (fun m => m.length = s2.models.length)
          (fun i m hm => (appendBody_length cur i m).trans hm) (List.range cur.length) s2.models rfl
        have h2 : s2.models = s.models := by simpa [hx] using trainStepExecute_models X s
        have h3 := trainStepExecute_ok_nonempty X s s2 cur hx
        simp only [Prod.mk.injEq] at hh
        rw [← hh.1]
        dsimp only at hlen ⊢
        intro h0
        rw [h0, h2] at hlen
        exact h3 (List.length_eq_zero.mp hlen.symm)
      · rw [hx] at hh
        simp at hh
    rcases hm : s1.models with _ | ⟨ens, rest⟩
    · exact absurd hm hne
    · simp
  · simp

theorem trainStep_tornDown (X : Collaborators Tree B) (s : CGradientBoost Tree B) (e : Exn)
    (h : (s.trainStepTry X).2 = Outcome.throw e) :
    (s.trainStep X).2 = Outcome.throw e ∧ (s.trainStep X).1.TornDown ∧
    (s.trainStep X).1 = (s.trainStepTry X).1.destroyTreeBuilder := by
  unfold CGradientBoost.trainStep
  rcases hh : s.trainStepTry X with ⟨s1, _ | e1⟩
  · rw [hh] at h; simp at h
  · rw [hh] at h
    simp only [Outcome.throw.injEq] at h
    subst h
    simp [CGradientBoost.TornDown, CGradientBoost.destroyTreeBuilder]

theorem initialize_tornDown (X : Collaborators Tree B) (s s1 : CGradientBoost Tree B)
    (bp : IMultivariateRegressionProblem) (e : Exn)
    (h1 : s.initializeState = (s1, Outcome.ok bp))
    (h2 : (s1.createTreeBuilder X bp).2 = Outcome.throw e) :
    ( s.initialize X).2 = Outcome.throw e ∧ ( s.initialize X).1.TornDown := by
  unfold CGradientBoost.initialize
  rw [h1]
  dsimp only
  rcases hh : s1.createTreeBuilder X bp with ⟨s2, _ | e1⟩
  · rw [hh] at h2; simp at h2
  · rw [hh] at h2
    simp only [Outcome.throw.injEq] at h2
    subst h2
    simp [CGradientBoost.TornDown, CGradientBoost.destroyTreeBuilder]

theorem prepareProblem_tornDown (X : Collaborators Tree B) (s : CGradientBoost Tree B)
    (h : s.TornDown) (p : IMultivariateRegressionProblem) :
    s.prepareProblem X p =
      CGradientBoost.initialize X { s with baseProblem := some (X.notNullWeightsView p) } := by
  unfold CGradientBoost.prepareProblem
  rw [h.2.2.2.2.2.2]

end

theorem forLoop_range_inv {σ : Type} (body : Nat → σ → σ × Outcome Unit) (n : Nat)
    (Inv : Nat → σ → Prop)
    (hbody : ∀ i, i < n → ∀ s, Inv i s → (body i s).2 = Outcome.ok () ∧ Inv (i + 1) (body i s).1)
    (s : σ) (h : Inv 0 s) :
    (forLoop body (List.range n) s).2 = Outcome.ok () ∧ Inv n (forLoop body (List.range n) s).1 := by
  induction n with
  | zero => exact ⟨rfl, h⟩
  | succ n ih =>
    obtain ⟨h1, h2⟩ := ih (fun i hi => hbody i (Nat.lt_succ_of_lt hi))
    rw [List.range_succ, forLoop_append]
    rcases hres : forLoop body (List.range n) s with ⟨s1, o⟩
    rw [hres] at h1 h2
    dsimp only at h1 h2
    subst h1
    dsimp only
    have hb := hbody n (Nat.lt_succ_self n) s1 h2
    rcases hres2 : body n s1 with ⟨s2, o2⟩
    rw [hres2] at hb
    dsimp only at hb
    obtain ⟨hb1, hb2⟩ := hb
    subst hb1
    simp only [forLoop, hres2]
    exact ⟨trivial, hb2⟩

/-- The result of `generateRandomArray` on valid arguments: a sorted
rearrangement of the first `k` entries of a rearrangement of `0, ..., n-1`. -/
theorem generateRandomArray_run (uniformInt : UniformIntFn) (random : CRandom) (n k : Int)
    (result : List Int) (hn : 1 ≤ n) (hk1 : 1 ≤ k) (hkn : k ≤ n)
    (hdraw : ∀ (r : CRandom) (i : Int), 0 ≤ i → i ≤ n - 1 →
      i ≤ (uniformInt r i (n - 1)).1 ∧ (uniformInt r i (n - 1)).1 ≤ n - 1) :
    (generateRandomArray uniformInt random n k result).2 = Outcome.ok () ∧
    (generateRandomArray uniformInt random n k result).1.2.Sorted (fun a b => a ≤ b) ∧
    ∃ l : List Int, l.Perm (identityArray n.toNat) ∧
      (generateRandomArray uniformInt random n k result).1.2.Perm (l.take k.toNat) := by
  have hnn : ((n.toNat : Nat) : Int) = n := Int.toNat_of_nonneg (by omega)
  by_cases hkeq : k = n
  · subst hkeq
    simp only [generateRandomArray, hkn, hk1, not_true_eq_false, if_false, if_true]
    refine ⟨by trivial, ?_, identityArray k.toNat, List.Perm.refl _, ?_⟩
    · rw [identityArray, List.Sorted, List.pairwise_map]
      exact (List.pairwise_lt_range _).imp (fun h => Int.ofNat_le.mpr (le_of_lt h))
    · rw [List.take_of_length_le (le_of_eq (identityArray_length _))]
  · have hlen : (((identityArray n.toNat).length : Nat) : Int) = n := by
      rw [identityArray_length]; exact hnn
    obtain ⟨hok, hperm⟩ := shuffle_ok uniformInt n k.toNat (by omega) hdraw random _ hlen
    simp only [generateRandomArray, hkn, hk1, not_true_eq_false, if_false, hkeq]
    rcases hres : forLoop (shuffleBody uniformInt n) (List.range k.toNat)
      (random, identityArray n.toNat) with ⟨s, o⟩
    rw [hres] at hok hperm
    simp only at hok hperm
    subst hok
    exact ⟨by trivial, QuickSort_sorted _, s.2, hperm, QuickSort_perm _⟩

theorem generateRandomArray_valid (uniformInt : UniformIntFn) (random : CRandom) (n k : Int)
    (result : List Int) (hn : 1 ≤ n) (hk1 : 1 ≤ k) (hkn : k ≤ n)
    (hdraw : UniformIntInRange uniformInt) :
    ∃ r uv, generateRandomArray uniformInt random n k result = ((r, uv), Outcome.ok ()) ∧
      (∀ x ∈ uv, 0 ≤ x ∧ x < n) ∧ uv.Nodup := by
  obtain ⟨h1, _, l, hl, hp⟩ := generateRandomArray_run uniformInt random n k result hn hk1 hkn
    (fun r i _ hi => hdraw r i (n - 1) hi)
  rcases hres : generateRandomArray uniformInt random n k result with ⟨⟨r, uv⟩, o⟩
  rw [hres] at h1 hp
  dsimp only at h1 hp
  subst h1
  refine ⟨r, uv, rfl, ?_, ?_⟩
  · intro x hx
    have hx1 : x ∈ l := List.mem_of_mem_take (hp.mem_iff.mp hx)
    have := (identity_mem n.toNat x).mp (hl.mem_iff.mp hx1)
    omega
  · exact hp.nodup_iff.mpr ((hl.nodup_iff.mpr (identity_nodup _)).sublist (List.take_sublist _ _))

theorem truncToInt_bounds (n : Int) (q : ℚ) (hn : 1 ≤ n) (h0 : 0 ≤ q) (h1 : q < 1) :
    1 ≤ max (truncToInt ((n : ℚ) * q)) 1 ∧ max (truncToInt ((n : ℚ) * q)) 1 ≤ n := by
  have hnq : (0 : ℚ) ≤ (n : ℚ) * q := mul_nonneg (by exact_mod_cast (by omega : 0 ≤ n)) h0
  have hlt : (n : ℚ) * q < n := by
    have : (0 : ℚ) < n := by exact_mod_cast (by omega : 0 < n)
    nlinarith
  simp only [truncToInt, hnq, if_true]
  have hfl : Int.floor ((n : ℚ) * q) < n := Int.floor_lt.mpr hlt
  constructor
  · exact le_max_right _ _
  · exact max_le (le_of_lt hfl) hn

section
variable {Tree B : Type}

theorem setRandom_eq (s : CGradientBoost Tree B) (r : CRandom) :
    s.setRandom r = { s with params := (s.setRandom r).params,
                             defaultRandom := (s.setRandom r).defaultRandom } ∧
    (s.setRandom r).params.fixed = s.params.fixed := by
  unfold CGradientBoost.setRandom
  split <;> exact ⟨rfl, rfl⟩

end

section
variable {Tree B : Type}

theorem CGradientBoost.StepFrame.same (s : CGradientBoost Tree B) : s.StepFrame s := ⟨rfl, rfl⟩

theorem CGradientBoost.StepFrame.andThen {s s1 s2 : CGradientBoost Tree B} (h1 : s.StepFrame s1)
    (h2 : s1.StepFrame s2) : s.StepFrame s2 := by
  obtain ⟨e1, f1⟩ := h1
  obtain ⟨e2, f2⟩ := h2
  refine ⟨?_, f2.trans f1⟩
  rw [e2]
  conv_lhs => rw [e1]

theorem CGradientBoost.StepFrame.models {s s1 : CGradientBoost Tree B} (h : s.StepFrame s1) :
    s1.models = s.models := by rw [h.1]

theorem CGradientBoost.StepFrame.baseProblem {s s1 : CGradientBoost Tree B} (h : s.StepFrame s1) :
    s1.baseProblem = s.baseProblem := by rw [h.1]

theorem CGradientBoost.StepFrame.lossFunction {s s1 : CGradientBoost Tree B} (h : s.StepFrame s1) :
    s1.lossFunction = s.lossFunction := by rw [h.1]

theorem CGradientBoost.StepFrame.treeBuilder {s s1 : CGradientBoost Tree B} (h : s.StepFrame s1) :
    s1.params.TreeBuilder = s.params.TreeBuilder := by
  have : s1.params.fixed.TreeBuilder = s.params.fixed.TreeBuilder := congrArg CParams.TreeBuilder h.2
  exact this

theorem CGradientBoost.StepFrame.isMulti {s s1 : CGradientBoost Tree B} (h : s.StepFrame s1) :
    s1.isMultiTreesModel = s.isMultiTreesModel := by
  unfold CGradientBoost.isMultiTreesModel
  rw [h.treeBuilder]

theorem CGradientBoost.StepFrame.handles {s s1 : CGradientBoost Tree B} (h : s.StepFrame s1)
    (hr : s.HandlesReady) : s1.HandlesReady := by
  unfold CGradientBoost.HandlesReady at hr ⊢
  rw [h.treeBuilder]
  rw [h.1]
  exact hr

theorem CGradientBoost.Ready.of_stepFrame {s s1 : CGradientBoost Tree B} {bp : IMultivariateRegressionProblem}
    {cfg : CParams} {k : Nat} (hr : s.Ready bp cfg k) (hf : s.StepFrame s1)
    (hc1 : s1.predictCache.length = bp.ValueSize.toNat)
    (hc2 : ∀ row ∈ s1.predictCache, row.length = bp.VectorCount.toNat)
    (hp : s1.predicts.length = bp.ValueSize.toNat) (ha : s1.answers.length = bp.ValueSize.toNat)
    (hg : s1.gradients.length = bp.ValueSize.toNat)
    (hh : s1.hessians.length = bp.ValueSize.toNat)
    (hu : s1.params.Subsample = 1 → s1.usedVectors = identityArray bp.VectorCount.toNat) :
    s1.Ready bp cfg k where
  params := hf.2.trans hr.params
  baseProblem := hf.baseProblem.trans hr.baseProblem
  wellFormed := hr.wellFormed
  lossFunction := by rw [hf.lossFunction]; exact hr.lossFunction
  modelsLength := by rw [hf.models, hf.isMulti]; exact hr.modelsLength
  ensembles := by rw [hf.models]; exact hr.ensembles
  cacheLength := hc1
  cacheRows := hc2
  predicts := hp
  answers := ha
  gradients := hg
  hessians := hh
  subsample := by
    have : s1.params.fixed.Subsample = s.params.fixed.Subsample := congrArg CParams.Subsample hf.2
    change s1.params.Subsample = s.params.Subsample at this
    rw [this]; exact hr.subsample
  subfeature := by
    have : s1.params.fixed.Subfeature = s.params.fixed.Subfeature := congrArg CParams.Subfeature hf.2
    change s1.params.Subfeature = s.params.Subfeature at this
    rw [this]; exact hr.subfeature
  usedVectors := hu
  handles := hf.handles hr.handles

end

section
variable {Tree B : Type}

theorem sampleVectors_spec (X : Collaborators Tree B) (s : CGradientBoost Tree B)
    (bp : IMultivariateRegressionProblem) (cfg : CParams) (k : Nat) (hr : s.Ready bp cfg k)
    (hd : X.DrawsInRange) :
    ∃ s1, s.sampleVectors X bp.VectorCount = (s1, Outcome.ok ()) ∧
      s1 = { s with params := s1.params, defaultRandom := s1.defaultRandom,
                    usedVectors := s1.usedVectors } ∧
      s1.params.fixed = s.params.fixed ∧
      (∀ v ∈ s1.usedVectors, 0 ≤ v ∧ v < bp.VectorCount) ∧ s1.usedVectors.Nodup ∧
      (s.params.Subsample = 1 → s1.usedVectors = s.usedVectors) := by
  have hwf := hr.wellFormed
  obtain ⟨_, hvc, _⟩ := hwf
  unfold CGradientBoost.sampleVectors
  by_cases hsub : s.params.Subsample < 1
  · rw [if_pos hsub]
    obtain ⟨hk1, hk2⟩ := truncToInt_bounds bp.VectorCount s.params.Subsample (by omega)
      hr.subsample.1 hsub
    obtain ⟨r, uv, hgen, hvalid, hnodup⟩ := generateRandomArray_valid X.uniformInt s.getRandom
      bp.VectorCount _ s.usedVectors (by omega) hk1 hk2 hd
    rw [hgen]
    refine ⟨_, rfl, ?_, ?_, hvalid, hnodup, ?_⟩
    · dsimp only
      conv_lhs => rw [(setRandom_eq s r).1]
    · exact (setRandom_eq s r).2
    · intro h1; rw [h1] at hsub; exact absurd hsub (lt_irrefl _)
  · rw [if_neg hsub]
    have h1 : s.params.Subsample = 1 := le_antisymm hr.subsample.2 (not_lt.mp hsub)
    have hu := hr.usedVectors h1
    refine ⟨s, rfl, rfl, rfl, ?_, ?_, fun _ => rfl⟩
    · intro v hv
      rw [hu] at hv
      have := (identity_mem _ v).mp hv
      omega
    · rw [hu]; exact identity_nodup _

theorem clearBody_loop (n : Nat) (fn : List Int) (hlen : fn.length = n) :
    (forLoop clearBody (List.range n) fn).2 = Outcome.ok () ∧
    (forLoop clearBody (List.range n) fn).1.length = n := by
  apply forLoop_ok clearBody (fun l => l.length = n)
  · intro i hi l hl
    have hi' : i < n := List.mem_range.mp hi
    simp [clearBody, CArray.set?, hl, hi']
  · exact hlen

theorem renumberBody_loop (uf : List Int) (n : Nat) (fn : List Int) (hlen : fn.length = n)
    (hvalid : ∀ v ∈ uf, 0 ≤ v ∧ v < (n : Int)) :
    (forLoop (renumberBody uf) (List.range uf.length) fn).2 = Outcome.ok () ∧
    (forLoop (renumberBody uf) (List.range uf.length) fn).1.length = n := by
  apply forLoop_ok (renumberBody uf) (fun l => l.length = n)
  · intro i hi l hl
    have hi' : i < uf.length := List.mem_range.mp hi
    have hv := hvalid _ (List.getElem_mem hi')
    have : uf[i].toNat < l.length := by omega
    simp [renumberBody, List.getElem?_eq_getElem hi', CArray.set?, hv.1, hv.2, this, hl]
  · exact hlen

theorem sampleFeatures_spec (X : Collaborators Tree B) (s : CGradientBoost Tree B)
    (fc : Int) (hfc : 0 < fc) (hsf : 0 ≤ s.params.Subfeature ∧ s.params.Subfeature ≤ 1)
    (hd : X.DrawsInRange) :
    ∃ s1, s.sampleFeatures X fc = (s1, Outcome.ok ()) ∧
      s1 = { s with params := s1.params, defaultRandom := s1.defaultRandom,
                    usedFeatures := s1.usedFeatures, featureNumbers := s1.featureNumbers } ∧
      s1.params.fixed = s.params.fixed := by
  unfold CGradientBoost.sampleFeatures
  by_cases hsub : s.params.Subfeature < 1
  · rw [if_pos hsub]
    obtain ⟨hk1, hk2⟩ := truncToInt_bounds fc s.params.Subfeature (by omega) hsf.1 hsub
    obtain ⟨r, uf, hgen, hvalid, hnodup⟩ := generateRandomArray_valid X.uniformInt s.getRandom
      fc _ s.usedFeatures (by omega) hk1 hk2 hd
    rw [hgen]
    dsimp only
    have hn : ((fc.toNat : Nat) : Int) = fc := Int.toNat_of_nonneg (by omega)
    have hres : (if ((s.setRandom r).featureNumbers.length : Int) ≠ fc then
        CArray.SetSize (s.setRandom r).featureNumbers fc 0
        else (s.setRandom r).featureNumbers).length = fc.toNat := by
      split_ifs with h
      · have := CArray.length_SetSize (s.setRandom r).featureNumbers fc.toNat (0 : Int)
        rw [hn] at this; exact this
      · have h' : ((s.setRandom r).featureNumbers.length : Int) = fc := not_not.mp h
        omega
    obtain ⟨hc1, hc2⟩ := clearBody_loop fc.toNat _ hres
    rcases hcl : forLoop clearBody (List.range fc.toNat)
      (if ((s.setRandom r).featureNumbers.length : Int) ≠ fc then
        CArray.SetSize (s.setRandom r).featureNumbers fc 0
        else (s.setRandom r).featureNumbers) with ⟨cleared, o⟩
    rw [hcl] at hc1 hc2
    dsimp only at hc1 hc2
    subst hc1
    dsimp only
    obtain ⟨hr1, hr2⟩ := renumberBody_loop uf fc.toNat cleared hc2
      (fun v hv => by have := hvalid v hv; omega)
    rcases hrn : forLoop (renumberBody uf) (List.range uf.length) cleared with ⟨numbered, o⟩
    rw [hrn] at hr1
    dsimp only at hr1
    subst hr1
    refine ⟨_, rfl, ?_, (setRandom_eq s r).2⟩
    dsimp only
    conv_lhs => rw [(setRandom_eq s r).1]
  · rw [if_neg hsub]
    exact ⟨s, rfl, rfl, rfl⟩

end

theorem getElem?_take_append_drop {α : Type} (T R : List α) (i : Nat) (hT : T.length = R.length)
    (hi : i < R.length) : (T.take i ++ R.drop i)[i]? = some (R.get ⟨i, hi⟩) := by
  have h1 : (T.take i).length = i := by simp; omega
  rw [List.getElem?_append_right (by omega), h1]
  simp [List.getElem?_eq_getElem hi]

section
variable {Tree B : Type}

theorem resizeBody_loop (size : Nat) (b : CBuffers) (m : Nat) (hp : b.predicts.length = m)
    (ha : b.answers.length = m) (hg : b.gradients.length = m) (hh : b.hessians.length = m) :
    forLoop (resizeBody size) (List.range m) b =
      ({ predicts := b.predicts.map (fun p => CArray.SetSize p size 0),
         answers := b.answers.map (fun a => CArray.SetSize a size 0),
         gradients := b.gradients.map (fun _ => []),
         hessians := b.hessians.map (fun _ => []) }, Outcome.ok ()) := by
  set TP := b.predicts.map (fun p => CArray.SetSize p (size : Int) (0 : ℚ)) with hTP
  set TA := b.answers.map (fun a => CArray.SetSize a (size : Int) (0 : ℚ)) with hTA
  set TG : List (List ℚ) := b.gradients.map (fun _ => []) with hTG
  set TH : List (List ℚ) := b.hessians.map (fun _ => []) with hTH
  have lP : TP.length = m := by simp [hTP, hp]
  have lA : TA.length = m := by simp [hTA, ha]
  have lG : TG.length = m := by simp [hTG, hg]
  have lH : TH.length = m := by simp [hTH, hh]
  have key := forLoop_range_steps (resizeBody size) m
    (fun i => ({ predicts := TP.take i ++ b.predicts.drop i,
                 answers := TA.take i ++ b.answers.drop i,
                 gradients := TG.take i ++ b.gradients.drop i,
                 hessians := TH.take i ++ b.hessians.drop i } : CBuffers)) ?_
  · have e1 : TP.take m ++ b.predicts.drop m = TP := by
      rw [List.take_of_length_le (le_of_eq lP), List.drop_eq_nil_of_le (le_of_eq hp),
        List.append_nil]
    have e2 : TA.take m ++ b.answers.drop m = TA := by
      rw [List.take_of_length_le (le_of_eq lA), List.drop_eq_nil_of_le (le_of_eq ha),
        List.append_nil]
    have e3 : TG.take m ++ b.gradients.drop m = TG := by
      rw [List.take_of_length_le (le_of_eq lG), List.drop_eq_nil_of_le (le_of_eq hg),
        List.append_nil]
    have e4 : TH.take m ++ b.hessians.drop m = TH := by
      rw [List.take_of_length_le (le_of_eq lH), List.drop_eq_nil_of_le (le_of_eq hh),
        List.append_nil]
    simp only [List.take_zero, List.drop_zero, List.nil_append, e1, e2, e3, e4] at key
    exact key
  · intro i hi
    have g1 := getElem?_take_append_drop TP b.predicts i (lP.trans hp.symm) (by omega)
    have g2 := getElem?_take_append_drop TA b.answers i (lA.trans ha.symm) (by omega)
    have g3 := getElem?_take_append_drop TG b.gradients i (lG.trans hg.symm) (by omega)
    have g4 := getElem?_take_append_drop TH b.hessians i (lH.trans hh.symm) (by omega)
    have t1 : CArray.SetSize (b.predicts.get ⟨i, by omega⟩) (size : Int) (0 : ℚ) =
        TP.get ⟨i, by omega⟩ := by simp [hTP]
    have t2 : CArray.SetSize (b.answers.get ⟨i, by omega⟩) (size : Int) (0 : ℚ) =
        TA.get ⟨i, by omega⟩ := by simp [hTA]
    have t3 : ([] : List ℚ) = TG.get ⟨i, by omega⟩ := by simp [hTG]
    have t4 : ([] : List ℚ) = TH.get ⟨i, by omega⟩ := by simp [hTH]
    simp only [resizeBody, g1, g2, g3, g4, t1, t2]
    rw [take_append_drop_set TP b.predicts i (by omega) (by omega),
      take_append_drop_set TA b.answers i (by omega) (by omega)]
    have u3 := take_append_drop_set TG b.gradients i (by omega) (by omega)
    have u4 := take_append_drop_set TH b.hessians i (by omega) (by omega)
    rw [← t3] at u3
    rw [← t4] at u4
    rw [u3, u4]

end

theorem CArray.set2?_eq {α : Type} (L : List (List α)) (j c : Nat) (row : List α) (v : α)
    (hrow : L[j]? = some row) (hc : c < row.length) :
    CArray.set2? L j c v = some (L.set j (row.set c v)) := by
  simp [CArray.set2?, hrow, hc]

theorem CArray.get2?_eq {α : Type} (L : List (List α)) (j c : Nat) (row : List α)
    (hrow : L[j]? = some row) : CArray.get2? L j c = row[c]? := by
  simp [CArray.get2?, hrow]

theorem collectAll_map_some {α β : Type} (f : α → Option β) (g : α → β) (l : List α)
    (h : ∀ a ∈ l, f a = some (g a)) : collectAll (l.map f) = some (l.map g) := by
  induction l with
  | nil => rfl
  | cons a rest ih =>
    have ha := h a (List.mem_cons_self a rest)
    have hrest := ih (fun b hb => h b (List.mem_cons_of_mem a hb))
    simp [collectAll, ha, hrest]

section
variable {Tree B : Type}

/-- The cache after the entries of row `r` have been advanced by `preds`. -/
theorem cacheWrite_loop (preds value : List ℚ) (curStep : Int) (r index m : Nat)
    (st : CPredictState) (hpl : preds.length = m) (hvl : value.length = m)
    (hc : st.predictCache.length = m) (hcr : ∀ row ∈ st.predictCache, r < row.length)
    (hp : st.predicts.length = m) (hpr : ∀ row ∈ st.predicts, index < row.length)
    (ha : st.answers.length = m) (har : ∀ row ∈ st.answers, index < row.length) :
    forLoop (cacheWriteBody preds value curStep r index) (List.range m) st =
      ({ predictCache := List.zipWith (fun row q =>
            row.set r { Step := curStep, Value := ((row[r]?).getD ⟨0, 0⟩).Value + q })
            st.predictCache preds,
         predicts := List.zipWith (fun row x => row.set index x) st.predicts
            (List.zipWith (fun row q => ((row[r]?).getD ⟨0, 0⟩).Value + q) st.predictCache preds),
         answers := List.zipWith (fun row v => row.set index v) st.answers value },
        Outcome.ok ()) := by
  set TC := List.zipWith (fun (row : List CPredictionCacheItem) q =>
    row.set r { Step := curStep, Value := ((row[r]?).getD ⟨0, 0⟩).Value + q })
    st.predictCache preds with hTC
  set NV := List.zipWith (fun (row : List CPredictionCacheItem) q =>
    ((row[r]?).getD ⟨0, 0⟩).Value + q) st.predictCache preds with hNV
  set TP := List.zipWith (fun (row : List ℚ) x => row.set index x) st.predicts NV with hTP
  set TA := List.zipWith (fun (row : List ℚ) v => row.set index v) st.answers value with hTA
  have lC : TC.length = m := by simp [hTC, hc, hpl]
  have lN : NV.length = m := by simp [hNV, hc, hpl]
  have lP : TP.length = m := by simp [hTP, hp, lN]
  have lA : TA.length = m := by simp [hTA, ha, hvl]
  have key := forLoop_range_steps (cacheWriteBody preds value curStep r index) m
    (fun j => ({ predictCache := TC.take j ++ st.predictCache.drop j,
                 predicts := TP.take j ++ st.predicts.drop j,
                 answers := TA.take j ++ st.answers.drop j } : CPredictState)) ?_
  · have e1 : TC.take m ++ st.predictCache.drop m = TC := by
      rw [List.take_of_length_le (le_of_eq lC), List.drop_eq_nil_of_le (le_of_eq hc),
        List.append_nil]
    have e2 : TP.take m ++ st.predicts.drop m = TP := by
      rw [List.take_of_length_le (le_of_eq lP), List.drop_eq_nil_of_le (le_of_eq hp),
        List.append_nil]
    have e3 : TA.take m ++ st.answers.drop m = TA := by
      rw [List.take_of_length_le (le_of_eq lA), List.drop_eq_nil_of_le (le_of_eq ha),
        List.append_nil]
    simp only [List.take_zero, List.drop_zero, List.nil_append, e1, e2, e3] at key
    exact key
  · intro j hj
    have g1 := getElem?_take_append_drop TC st.predictCache j (lC.trans hc.symm) (by omega)
    have g2 := getElem?_take_append_drop TP st.predicts j (lP.trans hp.symm) (by omega)
    have g3 := getElem?_take_append_drop TA st.answers j (lA.trans ha.symm) (by omega)
    have hjc : j < st.predictCache.length := by omega
    have hjp : j < st.predicts.length := by omega
    have hja : j < st.answers.length := by omega
    have hjq : j < preds.length := by omega
    have hjv : j < value.length := by omega
    have hrr : r < (st.predictCache[j]).length := hcr _ (List.getElem_mem _)
    have hir : index < (st.predicts[j]).length := hpr _ (List.getElem_mem _)
    have hia : index < (st.answers[j]).length := har _ (List.getElem_mem _)
    have q1 : preds[j]? = some preds[j] := List.getElem?_eq_getElem hjq
    have v1 : value[j]? = some value[j] := List.getElem?_eq_getElem hjv
    have g1' : (TC.take j ++ st.predictCache.drop j)[j]? = some st.predictCache[j] := g1
    have g2' : (TP.take j ++ st.predicts.drop j)[j]? = some st.predicts[j] := g2
    have g3' : (TA.take j ++ st.answers.drop j)[j]? = some st.answers[j] := g3
    have c1 : CArray.get2? (TC.take j ++ st.predictCache.drop j) j r =
        some (st.predictCache[j])[r] := by
      rw [CArray.get2?_eq _ _ _ _ g1']; exact List.getElem?_eq_getElem hrr
    have hd : ((st.predictCache[j])[r]?).getD ⟨0, 0⟩ = (st.predictCache[j])[r] := by
      rw [List.getElem?_eq_getElem hrr]; rfl
    have hTCj : j < TC.length := by omega
    have hNVj : j < NV.length := by omega
    have hTPj : j < TP.length := by omega
    have hTAj : j < TA.length := by omega
    have t1 : (st.predictCache[j]).set r
        { Step := curStep, Value := ((st.predictCache[j])[r]).Value + preds[j] } = TC[j] := by
      simp only [hTC, List.getElem_zipWith, hd]
    have n1 : ((st.predictCache[j])[r]).Value + preds[j] = NV[j] := by
      simp only [hNV, List.getElem_zipWith, hd]
    have t2 : (st.predicts[j]).set index NV[j] = TP[j] := by
      simp only [hTP, List.getElem_zipWith]
    have t3 : (st.answers[j]).set index value[j] = TA[j] := by
      simp only [hTA, List.getElem_zipWith]
    have u1 := take_append_drop_set TC st.predictCache j hTCj (by omega)
    have u2 := take_append_drop_set TP st.predicts j hTPj (by omega)
    have u3 := take_append_drop_set TA st.answers j hTAj (by omega)
    simp only [List.get_eq_getElem] at u1 u2 u3
    simp only [cacheWriteBody, q1, c1, v1, CArray.set2?_eq _ _ _ _ _ g1' hrr,
      CArray.set2?_eq _ _ _ _ _ g2' hir, CArray.set2?_eq _ _ _ _ _ g3' hia]
    rw [t1, n1, t2, t3, u1, u2, u3]

end

section
variable {Tree B : Type}

theorem PredictRaw_length (X : Collaborators Tree B) (e : List Tree) (step : Int) (lr : ℚ)
    (vec : List ℚ) (size : Nat) : (PredictRaw X e step lr vec size).length = size := by
  simp [PredictRaw]

/-- The step that `buildPredictions` reads for output `j` of row `r`: the one of
output 0 when the trees are joint. -/
theorem rowPredictions_eq (X : Collaborators Tree B) (s : CGradientBoost Tree B)
    (cache : List (List CPredictionCacheItem)) (m n r : Nat) (vec : List ℚ)
    (hm : 1 ≤ m) (hml : s.models.length = if s.isMultiTreesModel then 1 else m)
    (hc : cache.length = m) (hcr : ∀ row ∈ cache, row.length = n) (hr : r < n) :
    rowPredictions X s.isMultiTreesModel s.params.LearningRate s.models cache m r vec =
      some ((List.range m).map (fun j =>
        predictRawOutput X (s.ensembleOf j)
          ((CArray.get2? cache (if s.isMultiTreesModel then 0 else j) r).getD ⟨0, 0⟩).Step
          s.params.LearningRate vec (s.outputOf j))) := by
  unfold rowPredictions
  by_cases hmulti : s.isMultiTreesModel = true
  · simp only [hmulti, if_true] at hml ⊢
    have h0 : 0 < s.models.length := by omega
    have hc0 : 0 < cache.length := by omega
    have hrow : r < (cache[0]).length := by rw [hcr _ (List.getElem_mem _)]; exact hr
    have e1 : s.models[0]? = some s.models[0] := List.getElem?_eq_getElem h0
    have e2 : CArray.get2? cache 0 r = some (cache[0])[r] := by
      rw [CArray.get2?_eq _ _ _ _ (List.getElem?_eq_getElem hc0)]
      exact List.getElem?_eq_getElem hrow
    simp only [e1, e2, Option.getD_some, PredictRaw, CGradientBoost.ensembleOf, hmulti, if_true,
      CGradientBoost.outputOf]
  · have hmulti' : s.isMultiTreesModel = false := by simpa using hmulti
    simp only [hmulti', Bool.false_eq_true, if_false] at hml ⊢
    apply collectAll_map_some
    intro j hj
    have hj' : j < m := List.mem_range.mp hj
    have hjm : j < s.models.length := by omega
    have hjc : j < cache.length := by omega
    have hrow : r < (cache[j]).length := by rw [hcr _ (List.getElem_mem _)]; exact hr
    have e1 : s.models[j]? = some s.models[j] := List.getElem?_eq_getElem hjm
    have e2 : CArray.get2? cache j r = some (cache[j])[r] := by
      rw [CArray.get2?_eq _ _ _ _ (List.getElem?_eq_getElem hjc)]
      exact List.getElem?_eq_getElem hrow
    simp only [e1, e2, Option.getD_some, PredictRaw, CGradientBoost.ensembleOf, hmulti',
      Bool.false_eq_true, if_false, CGradientBoost.outputOf]
    simp

theorem score_split (X : Collaborators Tree B) (s : CGradientBoost Tree B)
    (bp : IMultivariateRegressionProblem) (j r k : Nat) (step : Int) (vec : List ℚ)
    (hvec : bp.Matrix.Rows[r]? = some vec) (hlen : (s.ensembleOf j).length = k) :
    s.scoreUpTo X bp j r step +
      predictRawOutput X (s.ensembleOf j) step s.params.LearningRate vec (s.outputOf j) =
      s.scoreUpTo X bp j r (k : Int) := by
  unfold CGradientBoost.scoreUpTo predictRawOutput
  rw [hvec, Option.getD_some, ← mul_add, List.map_take, List.map_drop,
    List.sum_take_add_sum_drop]
  congr 2
  rw [Int.toNat_ofNat, ← hlen, List.take_length]

end

theorem zipWith_set_rows {α β : Type} (f : List α → β → α) (L : List (List α)) (Q : List β)
    (r n : Nat) (h : ∀ row ∈ L, row.length = n) :
    ∀ row ∈ List.zipWith (fun row q => row.set r (f row q)) L Q, row.length = n := by
  induction L generalizing Q with
  | nil => intro row hrow; simp at hrow
  | cons a rest ih =>
    cases Q with
    | nil => intro row hrow; simp at hrow
    | cons q qs =>
      intro row hrow
      simp only [List.zipWith_cons_cons, List.mem_cons] at hrow
      rcases hrow with rfl | hrow
      · rw [List.length_set]; exact h a (List.mem_cons_self a rest)
      · exact ih qs (fun row hr => h row (List.mem_cons_of_mem a hr)) row hrow

theorem get2?_zipWith_set_ne {α β : Type} (f : List α → β → α) (L : List (List α)) (Q : List β)
    (hlen : L.length = Q.length) (j r r1 : Nat) (hne : r1 ≠ r) :
    CArray.get2? (List.zipWith (fun row q => row.set r (f row q)) L Q) j r1 =
      CArray.get2? L j r1 := by
  unfold CArray.get2?
  by_cases hj : j < L.length
  · have hj2 : j < (List.zipWith (fun row q => row.set r (f row q)) L Q).length := by
      simp; omega
    rw [List.getElem?_eq_getElem hj2, List.getElem?_eq_getElem hj]
    simp only [List.getElem_zipWith]
    rw [List.getElem?_set_ne (Ne.symm hne)]
  · have hj2 : ¬ j < (List.zipWith (fun row q => row.set r (f row q)) L Q).length := by
      simp; omega
    rw [List.getElem?_eq_none (not_lt.mp hj2), List.getElem?_eq_none (not_lt.mp hj)]

theorem get2?_zipWith_set_eq {α β : Type} (f : List α → β → α) (L : List (List α)) (Q : List β)
    (j r : Nat) (x : α) (h : CArray.get2? (List.zipWith (fun row q => row.set r (f row q)) L Q) j r
      = some x) :
    ∃ (hj : j < L.length) (hq : j < Q.length), x = f L[j] Q[j] ∧ r < (L[j]).length := by
  unfold CArray.get2? at h
  by_cases hj2 : j < (List.zipWith (fun row q => row.set r (f row q)) L Q).length
  · have hj : j < L.length := by simp at hj2; omega
    have hq : j < Q.length := by simp at hj2; omega
    rw [List.getElem?_eq_getElem hj2] at h
    simp only [List.getElem_zipWith] at h
    by_cases hr : r < (L[j]).length
    · rw [List.getElem?_set_self hr] at h
      exact ⟨hj, hq, (Option.some.inj h).symm, hr⟩
    · rw [List.getElem?_eq_none (by simpa using hr)] at h
      exact absurd h (by simp)
  · rw [List.getElem?_eq_none (not_lt.mp hj2)] at h
    exact absurd h (by simp)

section
variable {Tree B : Type}

theorem ensembleOf_length (s : CGradientBoost Tree B) (bp : IMultivariateRegressionProblem)
    (cfg : CParams) (k : Nat) (hR : s.Ready bp cfg k) (j : Nat) (hj : j < bp.ValueSize.toNat) :
    (s.ensembleOf j).length = k := by
  unfold CGradientBoost.ensembleOf
  have hml := hR.modelsLength
  have hidx : (if s.isMultiTreesModel then 0 else j) < s.models.length := by
    split_ifs with h
    · rw [hml, if_pos h]; exact Nat.one_pos
    · rw [hml, if_neg h]; exact hj
  rw [List.getElem?_eq_getElem hidx, Option.getD_some]
  exact hR.ensembles _ (List.getElem_mem _)

theorem buildPredictionsRow_step (X : Collaborators Tree B) (s : CGradientBoost Tree B)
    (bp : IMultivariateRegressionProblem) (cfg : CParams) (k : Nat) (hR : s.Ready bp cfg k)
    (hv : ∀ v ∈ s.usedVectors, 0 ≤ v ∧ v < bp.VectorCount) (i : Nat)
    (hi : i < s.usedVectors.length) (st : CPredictState) (hst : s.CacheLoop X bp k i st) :
    (buildPredictionsRow X s.isMultiTreesModel s.params.LearningRate s.models bp s.usedVectors
        (k : Int) i st).2 = Outcome.ok () ∧
    s.CacheLoop X bp k (i + 1)
      (buildPredictionsRow X s.isMultiTreesModel s.params.LearningRate s.models bp s.usedVectors
        (k : Int) i st).1 := by
  obtain ⟨hvs, hvc, hfc, hmh, hmw, hrows, hvals, hvall, hwts⟩ := hR.wellFormed
  have huv := hv _ (List.getElem_mem hi)
  set uv := s.usedVectors[i] with huvdef
  set r := uv.toNat with hrdef
  have hrn : r < bp.VectorCount.toNat := by omega
  have hruv : (r : Int) = uv := Int.toNat_of_nonneg huv.1
  have hrV : r < bp.Values.length := by omega
  have hrR : r < bp.Matrix.Rows.length := by omega
  have hvalue : (bp.Values[r]).length = bp.ValueSize.toNat := hvall _ (List.getElem_mem _)
  have hm1 : 1 ≤ bp.ValueSize.toNat := by omega
  have hpreds := rowPredictions_eq X s st.predictCache bp.ValueSize.toNat bp.VectorCount.toNat r
    (bp.Matrix.Rows[r]) hm1 hR.modelsLength hst.cacheLength hst.cacheRows hrn
  set preds := (List.range bp.ValueSize.toNat).map (fun j =>
        predictRawOutput X (s.ensembleOf j)
          ((CArray.get2? st.predictCache (if s.isMultiTreesModel then 0 else j) r).getD ⟨0, 0⟩).Step
          s.params.LearningRate (bp.Matrix.Rows[r]) (s.outputOf j)) with hpdef
  have hpl : preds.length = bp.ValueSize.toNat := by simp [hpdef]
  have hloop := cacheWrite_loop preds (bp.Values[r]) (k : Int) r i bp.ValueSize.toNat st hpl hvalue
    hst.cacheLength (fun row hrow => by rw [hst.cacheRows row hrow]; exact hrn)
    hst.predictsLength (fun row hrow => by rw [hst.predictsRows row hrow]; exact hi)
    hst.answersLength (fun row hrow => by rw [hst.answersRows row hrow]; exact hi)
  have hrun : buildPredictionsRow X s.isMultiTreesModel s.params.LearningRate s.models bp
      s.usedVectors (k : Int) i st =
      forLoop (cacheWriteBody preds (bp.Values[r]) (k : Int) r i)
        (List.range bp.ValueSize.toNat) st := by
    unfold buildPredictionsRow
    rw [List.getElem?_eq_getElem hi]
    dsimp only
    rw [if_neg (not_lt.mpr huv.1)]
    rw [List.getElem?_eq_getElem hrV, List.getElem?_eq_getElem hrR]
    dsimp only
    rw [hpreds]
  rw [hrun, hloop]
  refine ⟨rfl, ?_⟩
  dsimp only
  have hlenCP : st.predictCache.length = preds.length := by rw [hst.cacheLength, hpl]
  have hB : ∀ (j : Nat) (x : CPredictionCacheItem),
      CArray.get2? (List.zipWith (fun (row : List CPredictionCacheItem) q =>
        row.set r { Step := (k : Int), Value := ((row[r]?).getD ⟨0, 0⟩).Value + q })
        st.predictCache preds) j r = some x →
      x.Step = (k : Int) ∧ j < bp.ValueSize.toNat ∧
      x.Value = CGradientBoost.scoreUpTo X s bp j r (k : Int) := by
    intro j x hx
    obtain ⟨hj, hq, hxe, hrj⟩ := get2?_zipWith_set_eq
      (fun (row : List CPredictionCacheItem) q =>
        ({ Step := (k : Int), Value := ((row[r]?).getD ⟨0, 0⟩).Value + q } : CPredictionCacheItem))
      st.predictCache preds j r x hx
    have hjm : j < bp.ValueSize.toNat := by rw [← hst.cacheLength]; exact hj
    refine ⟨by rw [hxe], hjm, ?_⟩
    rw [hxe]
    dsimp only
    have hold : CArray.get2? st.predictCache j r = some (st.predictCache[j])[r] := by
      rw [CArray.get2?_eq _ _ _ _ (List.getElem?_eq_getElem hj)]
      exact List.getElem?_eq_getElem hrj
    obtain ⟨_, _, hval, hsync⟩ := hst.invariant j r _ hold
    have hidx : (if s.isMultiTreesModel then 0 else j) < st.predictCache.length := by
      split_ifs
      · omega
      · exact hj
    have hrow2 : r < (st.predictCache[if s.isMultiTreesModel then 0 else j]).length := by
      rw [hst.cacheRows _ (List.getElem_mem _)]; exact hrn
    have hold2 : CArray.get2? st.predictCache (if s.isMultiTreesModel then 0 else j) r =
        some (st.predictCache[if s.isMultiTreesModel then 0 else j])[r] := by
      rw [CArray.get2?_eq _ _ _ _ (List.getElem?_eq_getElem hidx)]
      exact List.getElem?_eq_getElem hrow2
    have hstep := hsync _ _ hold2
    have hq2 : preds[j] = predictRawOutput X (s.ensembleOf j) ((st.predictCache[j])[r]).Step
        s.params.LearningRate (bp.Matrix.Rows[r]) (s.outputOf j) := by
      simp only [hpdef, List.getElem_map, List.getElem_range, hold2, Option.getD_some, hstep]
    rw [List.getElem?_eq_getElem hrj, Option.getD_some, hq2]
    have hval' : ((st.predictCache[j])[r]).Value =
        CGradientBoost.scoreUpTo X s bp j r ((st.predictCache[j])[r]).Step := hval
    rw [hval']
    exact score_split X s bp j r k _ _ (List.getElem?_eq_getElem hrR)
      (ensembleOf_length s bp cfg k hR j hjm)
  have hA : ∀ (j r1 : Nat), r1 ≠ r →
      CArray.get2? (List.zipWith (fun (row : List CPredictionCacheItem) q =>
        row.set r { Step := (k : Int), Value := ((row[r]?).getD ⟨0, 0⟩).Value + q })
        st.predictCache preds) j r1 = CArray.get2? st.predictCache j r1 :=
    fun j r1 hne => get2?_zipWith_set_ne
      (fun (row : List CPredictionCacheItem) q =>
        ({ Step := (k : Int), Value := ((row[r]?).getD ⟨0, 0⟩).Value + q } : CPredictionCacheItem))
      st.predictCache preds hlenCP j r r1 hne
  constructor
  · simp [hst.cacheLength, hpl]
  · exact zipWith_set_rows _ _ _ _ _ hst.cacheRows
  · simp [hst.predictsLength, hst.cacheLength, hpl]
  · exact zipWith_set_rows (fun _ x => x) _ _ _ _ hst.predictsRows
  · simp [hst.answersLength, hvalue]
  · exact zipWith_set_rows (fun _ x => x) _ _ _ _ hst.answersRows
  · intro j r1 item hitem
    change CArray.get2? (List.zipWith _ st.predictCache preds) j r1 = some item at hitem
    by_cases hr1 : r1 = r
    · subst hr1
      obtain ⟨h1, h2, h3⟩ := hB j item hitem
      refine ⟨by rw [h1]; exact Int.ofNat_nonneg k, le_of_eq h1, by rw [h1]; exact h3, ?_⟩
      intro j1 item1 hitem1
      change CArray.get2? (List.zipWith _ st.predictCache preds) j1 r = some item1 at hitem1
      rw [(hB j1 item1 hitem1).1, h1]
    · rw [hA j r1 hr1] at hitem
      obtain ⟨g1, g2, g3, g4⟩ := hst.invariant j r1 item hitem
      refine ⟨g1, g2, g3, ?_⟩
      intro j1 item1 hitem1
      change CArray.get2? (List.zipWith _ st.predictCache preds) j1 r1 = some item1 at hitem1
      rw [hA j1 r1 hr1] at hitem1
      exact g4 j1 item1 hitem1
  · intro i1 hi1 v hvi j item hitem
    by_cases hr1 : v.toNat = r
    · rw [hr1] at hitem
      exact (hB j item hitem).1
    · rw [hA j v.toNat hr1] at hitem
      have hlt : i1 < i := by
        rcases Nat.lt_succ_iff_lt_or_eq.mp hi1 with h | h
        · exact h
        · subst h
          rw [List.getElem?_eq_getElem hi] at hvi
          exact absurd (by rw [← Option.some.inj hvi]) hr1
      exact hst.refreshed i1 hlt v hvi j item hitem
  · intro j r1 hr1
    have hne : r1 ≠ r := by
      intro h
      apply hr1
      rw [h, hruv]
      exact List.getElem_mem hi
    rw [hA j r1 hne]
    exact hst.untouched j r1 hr1

end

section
variable {Tree B : Type}

theorem buildPredictions_spec (X : Collaborators Tree B) (s : CGradientBoost Tree B)
    (bp : IMultivariateRegressionProblem) (cfg : CParams) (k : Nat) (hR : s.Ready bp cfg k)
    (hv : ∀ v ∈ s.usedVectors, 0 ≤ v ∧ v < bp.VectorCount)
    (hinv : s.CacheInvariant X bp k)
    (hpr : ∀ row ∈ s.predicts, row.length = s.usedVectors.length)
    (har : ∀ row ∈ s.answers, row.length = s.usedVectors.length) :
    ∃ s1, s.buildPredictions X bp s.models (k : Int) = (s1, Outcome.ok ()) ∧
      s1 = { s with predictCache := s1.predictCache, predicts := s1.predicts,
                    answers := s1.answers } ∧
      s.CacheLoop X bp k s.usedVectors.length
        { predictCache := s1.predictCache, predicts := s1.predicts, answers := s1.answers } := by
  obtain ⟨hvs, hvc, hfc, hmh, hmw, hrows, hvals, hvall, hwts⟩ := hR.wellFormed
  have h0 : s.CacheLoop X bp k 0
      { predictCache := s.predictCache, predicts := s.predicts, answers := s.answers } :=
    { cacheLength := hR.cacheLength
      cacheRows := hR.cacheRows
      predictsLength := hR.predicts
      predictsRows := hpr
      answersLength := hR.answers
      answersRows := har
      invariant := hinv
      refreshed := fun i1 hi1 => absurd hi1 (Nat.not_lt_zero _)
      untouched := fun _ _ _ => rfl }
  obtain ⟨h1, h2⟩ := forLoop_range_inv
    (buildPredictionsRow X s.isMultiTreesModel s.params.LearningRate s.models bp s.usedVectors
      (k : Int)) s.usedVectors.length (fun i st => s.CacheLoop X bp k i st)
    (fun i hi st hst => buildPredictionsRow_step X s bp cfg k hR hv i hi st hst) _ h0
  unfold CGradientBoost.buildPredictions
  rw [if_neg (not_not.mpr hmh), if_neg (not_not.mpr hmw)]
  rcases hres : forLoop
    (buildPredictionsRow X s.isMultiTreesModel s.params.LearningRate s.models bp s.usedVectors
      (k : Int)) (List.range s.usedVectors.length)
    { predictCache := s.predictCache, predicts := s.predicts, answers := s.answers } with ⟨st, o⟩
  rw [hres] at h1 h2
  dsimp only at h1 h2
  subst h1
  exact ⟨_, rfl, rfl, h2⟩

theorem readWeights_spec (bp : IMultivariateRegressionProblem) (uv : List Int)
    (hw : bp.Weights.length = bp.VectorCount.toNat)
    (hv : ∀ v ∈ uv, 0 ≤ v ∧ v < bp.VectorCount) :
    ∃ w, readWeights bp uv = some w ∧ w.length = uv.length := by
  refine ⟨uv.map (fun v => (bp.Weights[v.toNat]?).getD 0), ?_, by simp⟩
  unfold readWeights
  apply collectAll_map_some
  intro v hvm
  have := hv v hvm
  have hlt : v.toNat < bp.Weights.length := by omega
  simp [CArray.get?, this.1, List.getElem?_eq_getElem hlt]

/-- The shapes that the weighting loop keeps. -/
theorem weightEntryBody_step (weights : List ℚ) (m c : Nat) (hw : weights.length = c)
    (i j : Nat) (hi : i < m) (hj : j < c) (st : CStatistics)
    (h : st.gradients.length = m ∧ (∀ row ∈ st.gradients, row.length = c) ∧
      st.hessians.length = m ∧ (∀ row ∈ st.hessians, row.length = c) ∧
      st.gradientsSum.length = m ∧ st.hessiansSum.length = m) :
    (weightEntryBody weights i j st).2 = Outcome.ok () ∧
    ((weightEntryBody weights i j st).1.gradients.length = m ∧
      (∀ row ∈ (weightEntryBody weights i j st).1.gradients, row.length = c) ∧
      (weightEntryBody weights i j st).1.hessians.length = m ∧
      (∀ row ∈ (weightEntryBody weights i j st).1.hessians, row.length = c) ∧
      (weightEntryBody weights i j st).1.gradientsSum.length = m ∧
      (weightEntryBody weights i j st).1.hessiansSum.length = m) := by
  obtain ⟨hg, hgr, hh, hhr, hgs, hhs⟩ := h
  have hig : i < st.gradients.length := by omega
  have hih : i < st.hessians.length := by omega
  have higs : i < st.gradientsSum.length := by omega
  have hihs : i < st.hessiansSum.length := by omega
  have hjw : j < weights.length := by omega
  have hjg : j < (st.gradients[i]).length := by rw [hgr _ (List.getElem_mem _)]; exact hj
  have hjh : j < (st.hessians[i]).length := by rw [hhr _ (List.getElem_mem _)]; exact hj
  have e1 : CArray.get2? st.gradients i j = some (st.gradients[i])[j] := by
    rw [CArray.get2?_eq _ _ _ _ (List.getElem?_eq_getElem hig)]
    exact List.getElem?_eq_getElem hjg
  have e2 : CArray.get2? st.hessians i j = some (st.hessians[i])[j] := by
    rw [CArray.get2?_eq _ _ _ _ (List.getElem?_eq_getElem hih)]
    exact List.getElem?_eq_getElem hjh
  have setRows : ∀ (L : List (List ℚ)) (hL : i < L.length) (x : ℚ),
      (∀ row ∈ L, row.length = c) → ∀ row ∈ L.set i ((L[i]).set j x), row.length = c := by
    intro L hL x hrows row hrow
    rcases List.mem_or_eq_of_mem_set hrow with h1 | h1
    · exact hrows row h1
    · rw [h1, List.length_set]; exact hrows _ (List.getElem_mem _)
  simp only [weightEntryBody, e1, List.getElem?_eq_getElem hjw, List.getElem?_eq_getElem higs,
    CArray.set2?_eq _ _ _ _ _ (List.getElem?_eq_getElem hig) hjg, e2,
    List.getElem?_eq_getElem hihs,
    CArray.set2?_eq _ _ _ _ _ (List.getElem?_eq_getElem hih) hjh]
  refine ⟨trivial, ?_, setRows _ hig _ hgr, ?_, setRows _ hih _ hhr, ?_, ?_⟩ <;> simp [*]

end

theorem entryRows_shape {K : Type} [LinearOrderedField K] (f : K → K → K)
    (predicts answers : List (List K)) (m c : Nat)
    (hp : predicts.length = m) (ha : answers.length = m)
    (hpr : ∀ row ∈ predicts, row.length = c) (har : ∀ row ∈ answers, row.length = c) :
    (entryRows f predicts answers).length = m ∧
    ∀ row ∈ entryRows f predicts answers, row.length = c := by
  constructor
  · simp [entryRows, hp, ha]
  · intro row hrow
    unfold entryRows at hrow
    obtain ⟨i, hi, rfl⟩ := List.getElem_of_mem hrow
    have hi1 : i < predicts.length := by simp at hi; omega
    have hi2 : i < answers.length := by simp at hi; omega
    simp only [List.getElem_zipWith, List.length_zipWith]
    rw [hpr _ (List.getElem_mem _), har _ (List.getElem_mem _)]
    exact Nat.min_self c

section
variable {Tree B : Type}

theorem weightStatistics_spec (weights : List ℚ) (m c : Nat) (hw : weights.length = c)
    (st : CStatistics)
    (h : st.gradients.length = m ∧ (∀ row ∈ st.gradients, row.length = c) ∧
      st.hessians.length = m ∧ (∀ row ∈ st.hessians, row.length = c) ∧
      st.gradientsSum.length = m ∧ st.hessiansSum.length = m) :
    (weightStatistics weights c st).2 = Outcome.ok () ∧
    ((weightStatistics weights c st).1.gradients.length = m ∧
      (∀ row ∈ (weightStatistics weights c st).1.gradients, row.length = c) ∧
      (weightStatistics weights c st).1.hessians.length = m ∧
      (∀ row ∈ (weightStatistics weights c st).1.hessians, row.length = c) ∧
      (weightStatistics weights c st).1.gradientsSum.length = m ∧
      (weightStatistics weights c st).1.hessiansSum.length = m) := by
  unfold weightStatistics
  rw [h.1]
  apply forLoop_ok _ (fun (st1 : CStatistics) =>
    st1.gradients.length = m ∧ (∀ row ∈ st1.gradients, row.length = c) ∧
    st1.hessians.length = m ∧ (∀ row ∈ st1.hessians, row.length = c) ∧
    st1.gradientsSum.length = m ∧ st1.hessiansSum.length = m)
  · intro i hi st1 h1
    apply forLoop_ok _ (fun (st2 : CStatistics) =>
      st2.gradients.length = m ∧ (∀ row ∈ st2.gradients, row.length = c) ∧
      st2.hessians.length = m ∧ (∀ row ∈ st2.hessians, row.length = c) ∧
      st2.gradientsSum.length = m ∧ st2.hessiansSum.length = m)
    · intro j hj st2 h2
      exact weightEntryBody_step weights m c hw i j (List.mem_range.mp hi) (List.mem_range.mp hj)
        st2 h2
    · exact h1
  · exact h

theorem computeStatistics_spec (X : Collaborators Tree B) (s : CGradientBoost Tree B)
    (lf : IGradientBoostingLossFunction) (bp : IMultivariateRegressionProblem) (m : Nat)
    (hw : bp.Weights.length = bp.VectorCount.toNat)
    (hv : ∀ v ∈ s.usedVectors, 0 ≤ v ∧ v < bp.VectorCount)
    (hp : s.predicts.length = m) (ha : s.answers.length = m)
    (hpr : ∀ row ∈ s.predicts, row.length = s.usedVectors.length)
    (har : ∀ row ∈ s.answers, row.length = s.usedVectors.length) :
    ∃ s1 sums, s.computeStatistics X lf bp = (s1, Outcome.ok sums) ∧
      s1 = { s with gradients := s1.gradients, hessians := s1.hessians } ∧
      s1.gradients.length = m ∧ s1.hessians.length = m ∧
      sums.gradientsSum.length = m ∧ sums.hessiansSum.length = m := by
  unfold CGradientBoost.computeStatistics IGradientBoostingLossFunction.CalcGradientAndHessian
  rw [calcGradientAndHessianWith_eq _ _ _ _ _ (hp.trans ha.symm)
    (fun i prow arow h1 h2 => by
      rw [hpr _ (List.getElem?_mem h1), har _ (List.getElem?_mem h2)])]
  dsimp only
  obtain ⟨w, hrw, hwl⟩ := readWeights_spec bp s.usedVectors hw hv
  rw [hrw]
  dsimp only
  obtain ⟨g1, g2⟩ := entryRows_shape (fun p a => ((lf.entry X.exp) p a).1) s.predicts s.answers m
    s.usedVectors.length hp ha hpr har
  obtain ⟨k1, k2⟩ := entryRows_shape (fun p a => ((lf.entry X.exp) p a).2) s.predicts s.answers m
    s.usedVectors.length hp ha hpr har
  obtain ⟨hok, hshape⟩ := weightStatistics_spec w m s.usedVectors.length hwl
    { gradients := entryRows (fun p a => ((lf.entry X.exp) p a).1) s.predicts s.answers,
      hessians := entryRows (fun p a => ((lf.entry X.exp) p a).2) s.predicts s.answers,
      gradientsSum := CArray.AddN [] 0
        ((entryRows (fun p a => ((lf.entry X.exp) p a).1) s.predicts s.answers).length : Int),
      hessiansSum := CArray.AddN [] 0
        ((entryRows (fun p a => ((lf.entry X.exp) p a).1) s.predicts s.answers).length : Int) }
    ⟨g1, g2, k1, k2, by simp [CArray.AddN, g1], by simp [CArray.AddN, g1]⟩
  rcases hres : weightStatistics w s.usedVectors.length _ with ⟨st, o⟩
  rw [hres] at hok hshape
  dsimp only at hok hshape
  subst hok
  dsimp only
  exact ⟨_, _, rfl, rfl, hshape.1, hshape.2.2.1, hshape.2.2.2.2.1, hshape.2.2.2.2.2⟩

end

section
variable {Tree B : Type}

theorem CacheInvariant.congr (X : Collaborators Tree B) (s s1 : CGradientBoost Tree B)
    (bp : IMultivariateRegressionProblem) (k : Nat) (hc : s1.predictCache = s.predictCache)
    (hm : s1.models = s.models) (hp : s1.params.fixed = s.params.fixed)
    (h : s.CacheInvariant X bp k) : s1.CacheInvariant X bp k := by
  have hlr : s1.params.LearningRate = s.params.LearningRate := by
    have : s1.params.fixed.LearningRate = s.params.fixed.LearningRate :=
      congrArg CParams.LearningRate hp
    exact this
  have htb : s1.params.TreeBuilder = s.params.TreeBuilder := by
    have : s1.params.fixed.TreeBuilder = s.params.fixed.TreeBuilder :=
      congrArg CParams.TreeBuilder hp
    exact this
  have hmulti : s1.isMultiTreesModel = s.isMultiTreesModel := by
    unfold CGradientBoost.isMultiTreesModel; rw [htb]
  have hscore : ∀ j r step, s1.scoreUpTo X bp j r step = s.scoreUpTo X bp j r step := by
    intro j r step
    unfold CGradientBoost.scoreUpTo CGradientBoost.ensembleOf CGradientBoost.outputOf
    rw [hlr, hm, hmulti]
  intro j r item hitem
  rw [hc] at hitem
  obtain ⟨h1, h2, h3, h4⟩ := h j r item hitem
  refine ⟨h1, h2, by rw [hscore]; exact h3, ?_⟩
  intro j1 item1 hitem1
  rw [hc] at hitem1
  exact h4 j1 item1 hitem1

theorem gatherStatistics_spec (X : Collaborators Tree B) (s : CGradientBoost Tree B)
    (lf : IGradientBoostingLossFunction) (bp : IMultivariateRegressionProblem) (cfg : CParams)
    (k : Nat) (hR : s.Ready bp cfg k) (hinv : s.CacheInvariant X bp k) (hd : X.DrawsInRange) :
    ∃ s1 sums, s.gatherStatistics X lf bp = (s1, Outcome.ok sums) ∧ s.StepFrame s1 ∧
      s1.Ready bp cfg k ∧ s1.CacheInvariant X bp k ∧
      (∀ v ∈ s1.usedVectors, 0 ≤ v ∧ v < bp.VectorCount) ∧
      (∀ v ∈ s1.usedVectors, ∀ (j : Nat) (item : CPredictionCacheItem),
        CArray.get2? s1.predictCache j v.toNat = some item → item.Step = (k : Int)) ∧
      (∀ (j r : Nat), (r : Int) ∉ s1.usedVectors →
        CArray.get2? s1.predictCache j r = CArray.get2? s.predictCache j r) ∧
      (s.params.Subsample = 1 → s1.usedVectors = s.usedVectors) ∧
      sums.gradientsSum.length = bp.ValueSize.toNat ∧
      sums.hessiansSum.length = bp.ValueSize.toNat := by
  obtain ⟨hvs, hvc, hfc, hmh, hmw, hrows, hvals, hvall, hwts⟩ := hR.wellFormed
  unfold CGradientBoost.gatherStatistics
  -- sampling of the rows
  obtain ⟨s1, e1, q1, f1, hvalid, hnodup, hsame⟩ := sampleVectors_spec X s bp cfg k hR hd
  rw [e1]
  dsimp only
  have F1 : s.StepFrame s1 := ⟨by rw [q1], f1⟩
  have c1 : s1.predictCache = s.predictCache := by rw [q1]
  have R1 : s1.Ready bp cfg k := hR.of_stepFrame F1 (by rw [c1]; exact hR.cacheLength)
    (by rw [c1]; exact hR.cacheRows) (by rw [q1]; exact hR.predicts)
    (by rw [q1]; exact hR.answers) (by rw [q1]; exact hR.gradients)
    (by rw [q1]; exact hR.hessians)
    (fun h => by
      have hs : s1.params.fixed.Subsample = s.params.fixed.Subsample :=
        congrArg CParams.Subsample f1
      have hs' : s.params.Subsample = 1 := by rw [← h]; exact hs.symm
      rw [hsame hs']; exact hR.usedVectors hs')
  -- sampling of the features
  obtain ⟨s2, e2, q2, f2⟩ := sampleFeatures_spec X s1 bp.FeatureCount hfc R1.subfeature hd
  rw [e2]
  dsimp only
  have F2 : s1.StepFrame s2 := ⟨by rw [q2], f2⟩
  have c2 : s2.predictCache = s1.predictCache := by rw [q2]
  have u2 : s2.usedVectors = s1.usedVectors := by rw [q2]
  have R2 : s2.Ready bp cfg k := R1.of_stepFrame F2 (by rw [c2]; exact R1.cacheLength)
    (by rw [c2]; exact R1.cacheRows) (by rw [q2]; exact R1.predicts)
    (by rw [q2]; exact R1.answers) (by rw [q2]; exact R1.gradients)
    (by rw [q2]; exact R1.hessians)
    (fun h => by
      have hs : s2.params.fixed.Subsample = s1.params.fixed.Subsample :=
        congrArg CParams.Subsample f2
      have hs' : s1.params.Subsample = 1 := by rw [← h]; exact hs.symm
      rw [u2]; exact R1.usedVectors hs')
  -- the step counter
  have hm0 : 0 < s2.models.length := by
    rw [R2.modelsLength]; split_ifs
    · exact Nat.one_pos
    · omega
  rw [List.getElem?_eq_getElem hm0]
  dsimp only
  have hk : (s2.models[0]).length = k := R2.ensembles _ (List.getElem_mem _)
  rw [hk]
  -- the buffers
  have e3 : s2.resizeBuffers =
      ({ s2 with
          predicts := s2.predicts.map (fun p => CArray.SetSize p s2.usedVectors.length 0)
          answers := s2.answers.map (fun a => CArray.SetSize a s2.usedVectors.length 0)
          gradients := s2.gradients.map (fun _ => [])
          hessians := s2.hessians.map (fun _ => []) }, Outcome.ok ()) := by
    unfold CGradientBoost.resizeBuffers
    rw [R2.predicts, resizeBody_loop s2.usedVectors.length _ bp.ValueSize.toNat R2.predicts
      R2.answers R2.gradients R2.hessians]
  rw [e3]
  dsimp only
  set s3 : CGradientBoost Tree B :=
    { s2 with
      predicts := s2.predicts.map (fun p => CArray.SetSize p s2.usedVectors.length 0)
      answers := s2.answers.map (fun a => CArray.SetSize a s2.usedVectors.length 0)
      gradients := s2.gradients.map (fun _ => [])
      hessians := s2.hessians.map (fun _ => []) } with hs3
  have F3 : s2.StepFrame s3 := ⟨rfl, rfl⟩
  have R3 : s3.Ready bp cfg k := R2.of_stepFrame F3 R2.cacheLength R2.cacheRows
    (by simp [hs3, R2.predicts]) (by simp [hs3, R2.answers]) (by simp [hs3, R2.gradients])
    (by simp [hs3, R2.hessians]) R2.usedVectors
  have hv3 : ∀ v ∈ s3.usedVectors, 0 ≤ v ∧ v < bp.VectorCount := by
    intro v hv; apply hvalid; rw [← u2]; exact hv
  have hpr3 : ∀ row ∈ s3.predicts, row.length = s3.usedVectors.length := by
    intro row hrow
    simp only [hs3, List.mem_map] at hrow
    obtain ⟨p, _, rfl⟩ := hrow
    exact CArray.length_SetSize _ _ _
  have har3 : ∀ row ∈ s3.answers, row.length = s3.usedVectors.length := by
    intro row hrow
    simp only [hs3, List.mem_map] at hrow
    obtain ⟨p, _, rfl⟩ := hrow
    exact CArray.length_SetSize _ _ _
  have hinv3 : s3.CacheInvariant X bp k :=
    CacheInvariant.congr X s s3 bp k (c2.trans c1) (F2.models.trans F1.models)
      (f2.trans f1) hinv
  -- the predictions through the cache
  obtain ⟨s4, e4, q4, L4⟩ := buildPredictions_spec X s3 bp cfg k R3 hv3 hinv3 hpr3 har3
  rw [e4]
  dsimp only
  have F4 : s3.StepFrame s4 := ⟨by rw [q4], by rw [q4]⟩
  have u4 : s4.usedVectors = s3.usedVectors := by rw [q4]
  have R4 : s4.Ready bp cfg k := R3.of_stepFrame F4 L4.cacheLength L4.cacheRows
    L4.predictsLength L4.answersLength (by rw [q4]; exact R3.gradients)
    (by rw [q4]; exact R3.hessians)
    (fun h => by
      rw [u4]; apply R3.usedVectors
      have : s4.params = s3.params := by rw [q4]
      rw [← this]; exact h)
  -- the statistics
  obtain ⟨s5, sums, e5, q5, g5, h5, gs5, hs5⟩ := computeStatistics_spec X s4 lf bp
    bp.ValueSize.toNat hwts (by rw [u4]; exact hv3) L4.predictsLength L4.answersLength
    (by rw [u4]; exact L4.predictsRows) (by rw [u4]; exact L4.answersRows)
  rw [e5]
  have F5 : s4.StepFrame s5 := ⟨by rw [q5], by rw [q5]⟩
  have u5 : s5.usedVectors = s4.usedVectors := by rw [q5]
  have c5 : s5.predictCache = s4.predictCache := by rw [q5]
  have R5 : s5.Ready bp cfg k := R4.of_stepFrame F5 (by rw [c5]; exact R4.cacheLength)
    (by rw [c5]; exact R4.cacheRows) (by rw [q5]; exact R4.predicts)
    (by rw [q5]; exact R4.answers) g5 h5
    (fun h => by
      rw [u5]; apply R4.usedVectors
      have : s5.params = s4.params := by rw [q5]
      rw [← this]; exact h)
  have Fall : s.StepFrame s5 := F1.andThen (F2.andThen (F3.andThen (F4.andThen F5)))
  have uall : s5.usedVectors = s1.usedVectors := by rw [u5, u4]; exact u2
  have hI4 : s4.CacheInvariant X bp k := by
    have := L4.invariant
    exact CacheInvariant.congr X _ s4 bp k (by rfl) (by rw [q4]) (by rw [q4]) this
  refine ⟨s5, sums, rfl, Fall, R5, ?_, ?_, ?_, ?_, ?_, gs5, hs5⟩
  · exact CacheInvariant.congr X s4 s5 bp k c5 F5.models F5.2 hI4
  · intro v hv; apply hvalid; rw [← uall]; exact hv
  · intro v hv j item hitem
    rw [c5] at hitem
    rw [uall, ← u2] at hv
    obtain ⟨i, hi, rfl⟩ := List.getElem_of_mem hv
    exact L4.refreshed i hi _ (List.getElem?_eq_getElem hi) j item hitem
  · intro j r hr
    rw [c5]
    rw [uall, ← u2] at hr
    rw [L4.untouched j r hr]
    show CArray.get2? s2.predictCache j r = _
    rw [c2, c1]
  · intro h
    rw [uall]; exact hsame h

end

theorem forLoop_range_partial {σ : Type} (body : Nat → σ → σ × Outcome Unit) (n : Nat)
    (Inv : Nat → σ → Prop)
    (hbody : ∀ i, i < n → ∀ s, Inv i s → (body i s).2 = Outcome.ok () → Inv (i + 1) (body i s).1)
    (s : σ) (h : Inv 0 s) (hok : (forLoop body (List.range n) s).2 = Outcome.ok ()) :
    Inv n (forLoop body (List.range n) s).1 := by
  induction n with
  | zero => exact h
  | succ n ih =>
    rw [List.range_succ, forLoop_append] at hok ⊢
    rcases hres : forLoop body (List.range n) s with ⟨s1, o⟩
    rw [hres] at hok
    cases o with
    | throw e => simp at hok
    | ok u =>
      have h2 := ih (fun i hi => hbody i (Nat.lt_succ_of_lt hi)) (by rw [hres])
      rw [hres] at h2
      dsimp only at h2 hok ⊢
      rcases hres2 : body n s1 with ⟨s2, o2⟩
      cases o2 with
      | throw e => simp [forLoop, hres2] at hok
      | ok u2 =>
        have := hbody n (Nat.lt_succ_self n) s1 h2 (by rw [hres2])
        rw [hres2] at this
        simpa [forLoop, hres2] using this

section
variable {Tree B : Type}

theorem CGradientBoost.BuildFrame.refl (s : CGradientBoost Tree B) : s.BuildFrame s :=
  ⟨rfl, rfl, rfl, rfl, rfl⟩

theorem CGradientBoost.BuildFrame.trans {s s1 s2 : CGradientBoost Tree B} (h1 : s.BuildFrame s1)
    (h2 : s1.BuildFrame s2) : s.BuildFrame s2 := by
  obtain ⟨e1, a1, b1, c1, d1⟩ := h1
  obtain ⟨e2, a2, b2, c2, d2⟩ := h2
  refine ⟨?_, a2.trans a1, b2.trans b1, c2.trans c1, d2.trans d1⟩
  rw [e2]
  conv_lhs => rw [e1]

theorem logSums_buildFrame (s : CGradientBoost Tree B) (g h : ℚ) : s.BuildFrame (s.logSums g h) := by
  unfold CGradientBoost.logSums
  split
  · exact ⟨rfl, rfl, rfl, rfl, rfl⟩
  · exact CGradientBoost.BuildFrame.refl s

theorem buildSingleBody_buildFrame (X : Collaborators Tree B) (gs hs w : List ℚ) (ws : ℚ) (i : Nat)
    (st : CGradientBoost Tree B × List Tree) :
    st.1.BuildFrame (buildSingleBody X gs hs w ws i st).1.1 := by
  unfold buildSingleBody
  split
  · rename_i g h g1 h1 _ _ _ _
    dsimp only
    have hl := logSums_buildFrame st.1 g1 h1
    generalize st.1.logSums g1 h1 = s1 at hl ⊢
    split
    · rename_i b hb
      split
      · exact hl
      · rename_i v hv
        rcases X.fullSingleBuild b (s1.buildView v.baseProblem) g g1 h h1 w ws with ⟨_ | e, b1⟩ <;>
          dsimp only <;> exact hl.trans ⟨rfl, by simp [hb], rfl, rfl, rfl⟩
    · rename_i hb
      split
      · rename_i b v hb2 hv
        rcases X.fastHistSingleBuild b (s1.buildView v.baseProblem) g h w with ⟨_ | e, b1⟩ <;>
          dsimp only <;> exact hl.trans ⟨rfl, rfl, rfl, by simp [hb2], rfl⟩
      · exact hl
  · exact CGradientBoost.BuildFrame.refl _

theorem buildMulti_buildFrame (X : Collaborators Tree B) (s : CGradientBoost Tree B)
    (gs hs w : List ℚ) (ws : ℚ) (cur : List Tree) :
    s.BuildFrame (s.buildMulti X gs hs w ws cur).1 := by
  unfold CGradientBoost.buildMulti
  split
  · rename_i b hb
    split
    · exact CGradientBoost.BuildFrame.refl _
    · rename_i v hv
      rcases X.fullMultiBuild b (s.buildView v.baseProblem) s.gradients gs s.hessians hs w ws with
        ⟨_ | e, b1⟩ <;> dsimp only <;> exact ⟨rfl, rfl, by simp [hb], rfl, rfl⟩
  · rename_i hb
    split
    · rename_i b v hb2 hv
      rcases X.fastHistMultiBuild b (s.buildView v.baseProblem) s.gradients s.hessians w with
        ⟨_ | e, b1⟩ <;> dsimp only <;> exact ⟨rfl, rfl, rfl, rfl, by simp [hb2]⟩
    · exact CGradientBoost.BuildFrame.refl _

theorem buildTrees_buildFrame (X : Collaborators Tree B) (s : CGradientBoost Tree B)
    (gs hs w : List ℚ) (ws : ℚ) (cur : List Tree) :
    s.BuildFrame (s.buildTrees X gs hs w ws cur).1 := by
  unfold CGradientBoost.buildTrees
  split_ifs
  · exact buildMulti_buildFrame X s gs hs w ws cur
  · have := forLoop_preserves (buildSingleBody X gs hs w ws) (fun st => s.BuildFrame st.1)
      (fun i st h => h.trans (buildSingleBody_buildFrame X gs hs w ws i st))
      (List.range s.gradients.length) (s, cur) (CGradientBoost.BuildFrame.refl s)
    rcases hh : forLoop (buildSingleBody X gs hs w ws) (List.range s.gradients.length) (s, cur)
      with ⟨st, _ | e⟩ <;> simpa [hh] using this

end

section
variable {Tree B : Type}

theorem CGradientBoost.BuildFrame.handlesReady {s s1 : CGradientBoost Tree B}
    (h : s.BuildFrame s1) (hr : s.HandlesReady) : s1.HandlesReady := by
  obtain ⟨e, a, b, c, d⟩ := h
  have hp : s1.params = s.params := by rw [e]
  have hfp : s1.fullProblem = s.fullProblem := by rw [e]
  have hhp : s1.fastHistProblem = s.fastHistProblem := by rw [e]
  have none_iff : ∀ (x y : Option B), x.isSome = y.isSome → y = none → x = none := by
    intro x y hxy hy
    subst hy
    cases x with
    | none => rfl
    | some v => simp at hxy
  unfold CGradientBoost.HandlesReady at hr ⊢
  rw [hp, hfp, hhp, a, b, c, d]
  cases htb : s.params.TreeBuilder <;> rw [htb] at hr <;> dsimp only at hr ⊢
  · exact ⟨hr.1, hr.2.1, none_iff _ _ b hr.2.2.1, none_iff _ _ d hr.2.2.2⟩
  · exact ⟨hr.1, hr.2.1, none_iff _ _ a hr.2.2.1, none_iff _ _ b hr.2.2.2.1,
      none_iff _ _ d hr.2.2.2.2⟩
  · exact hr
  · exact ⟨hr.1, hr.2.1, none_iff _ _ b hr.2.2⟩

theorem handlesReady_multi (s : CGradientBoost Tree B) (h : s.HandlesReady) :
    (s.fullMultiClassTreeBuilder.isSome = true ∨ s.fastHistMultiClassTreeBuilder.isSome = true) ↔
      s.isMultiTreesModel = true := by
  unfold CGradientBoost.HandlesReady at h
  unfold CGradientBoost.isMultiTreesModel
  cases htb : s.params.TreeBuilder <;> rw [htb] at h <;> dsimp only at h ⊢
  · simp [h.2.2.1, h.2.2.2]
  · simp [h.2.2.2.1, h.2.2.2.2]
  · simp [h.1]
  · simp [h.1]

theorem buildSingleBody_length (X : Collaborators Tree B) (gs hs w : List ℚ) (ws : ℚ) (i : Nat)
    (st : CGradientBoost Tree B × List Tree) :
    (buildSingleBody X gs hs w ws i st).2 = Outcome.ok () →
    (buildSingleBody X gs hs w ws i st).1.2.length = st.2.length + 1 := by
  unfold buildSingleBody
  split
  · rename_i g h g1 h1 e1 e2 e3 e4
    dsimp only
    generalize st.1.logSums g1 h1 = s1
    split
    · rename_i b hb
      split
      · intro hok; simp at hok
      · rename_i v hv
        rcases X.fullSingleBuild b (s1.buildView v.baseProblem) g g1 h h1 w ws with ⟨_ | e, b1⟩
        · intro _; simp
        · intro hok; simp at hok
    · rename_i hb
      split
      · rename_i b v hb2 hv
        rcases X.fastHistSingleBuild b (s1.buildView v.baseProblem) g h w with ⟨_ | e, b1⟩
        · intro _; simp
        · intro hok; simp at hok
      · intro hok; simp at hok
  · intro hok; simp at hok

theorem buildMulti_length (X : Collaborators Tree B) (s s1 : CGradientBoost Tree B)
    (gs hs w : List ℚ) (ws : ℚ) (cur trees : List Tree) :
    s.buildMulti X gs hs w ws cur = (s1, Outcome.ok trees) → trees.length = cur.length + 1 := by
  unfold CGradientBoost.buildMulti
  split
  · rename_i b hb
    split
    · intro h; simp at h
    · rename_i v hv
      rcases X.fullMultiBuild b (s.buildView v.baseProblem) s.gradients gs s.hessians hs w ws with
        ⟨_ | e, b1⟩
      · intro h
        simp only [Prod.mk.injEq, Outcome.ok.injEq] at h
        rw [← h.2]; simp
      · intro h; simp at h
  · rename_i hb
    split
    · rename_i b v hb2 hv
      rcases X.fastHistMultiBuild b (s.buildView v.baseProblem) s.gradients s.hessians w with
        ⟨_ | e, b1⟩
      · intro h
        simp only [Prod.mk.injEq, Outcome.ok.injEq] at h
        rw [← h.2]; simp
      · intro h; simp at h
    · intro h; simp at h

theorem buildTrees_length (X : Collaborators Tree B) (s s1 : CGradientBoost Tree B)
    (gs hs w : List ℚ) (ws : ℚ) (cur trees : List Tree)
    (h : s.buildTrees X gs hs w ws cur = (s1, Outcome.ok trees)) :
    trees.length = cur.length +
      (if s.fullMultiClassTreeBuilder.isSome = true ∨ s.fastHistMultiClassTreeBuilder.isSome = true
        then 1 else s.gradients.length) := by
  unfold CGradientBoost.buildTrees at h
  split_ifs at h with hc
  · rw [if_pos hc]; exact buildMulti_length X s s1 gs hs w ws cur trees h
  · rcases hres : forLoop (buildSingleBody X gs hs w ws) (List.range s.gradients.length) (s, cur)
      with ⟨st, _ | e⟩
    · rw [hres] at h
      simp only [Prod.mk.injEq, Outcome.ok.injEq] at h
      have := forLoop_range_partial (buildSingleBody X gs hs w ws) s.gradients.length
        (fun i st => st.2.length = cur.length + i)
        (fun i _ st hst hok => by
          have := buildSingleBody_length X gs hs w ws i st hok
          dsimp only at hst ⊢
          rw [this, hst]; omega)
        (s, cur) rfl (by rw [hres])
      rw [hres] at this
      rw [if_neg hc, ← h.2]; exact this
    · rw [hres] at h
      simp at h

end

section
variable {Tree B : Type}

theorem buildMulti_ok (X : Collaborators Tree B) (s : CGradientBoost Tree B)
    (gs hs w : List ℚ) (ws : ℚ) (cur : List Tree) (hb : X.BuildsSucceed) (hr : s.HandlesReady)
    (hm : s.isMultiTreesModel = true) :
    ∃ s1 trees, s.buildMulti X gs hs w ws cur = (s1, Outcome.ok trees) := by
  obtain ⟨_, hb2, _, hb4⟩ := hb
  unfold CGradientBoost.HandlesReady at hr
  unfold CGradientBoost.isMultiTreesModel at hm
  unfold CGradientBoost.buildMulti
  cases htb : s.params.TreeBuilder <;> rw [htb] at hr hm <;> dsimp only at hr hm
  · exact absurd hm (by simp)
  · exact absurd hm (by simp)
  · obtain ⟨b, hbb⟩ := Option.isSome_iff_exists.mp hr.1
    obtain ⟨v, hv⟩ := Option.isSome_iff_exists.mp hr.2
    rw [hbb, hv]
    dsimp only
    obtain ⟨t, ht⟩ := hb2 b (s.buildView v.baseProblem) s.gradients gs s.hessians hs w ws
    rcases hres : X.fullMultiBuild b (s.buildView v.baseProblem) s.gradients gs s.hessians hs w ws
      with ⟨o, b1⟩
    rw [hres] at ht
    dsimp only at ht
    subst ht
    exact ⟨_, _, rfl⟩
  · obtain ⟨b, hbb⟩ := Option.isSome_iff_exists.mp hr.1
    obtain ⟨v, hv⟩ := Option.isSome_iff_exists.mp hr.2.1
    rw [hr.2.2, hbb, hv]
    dsimp only
    obtain ⟨t, ht⟩ := hb4 b (s.buildView v.baseProblem) s.gradients s.hessians w
    rcases hres : X.fastHistMultiBuild b (s.buildView v.baseProblem) s.gradients s.hessians w
      with ⟨o, b1⟩
    rw [hres] at ht
    dsimp only at ht
    subst ht
    exact ⟨_, _, rfl⟩

theorem logSums_fields (s : CGradientBoost Tree B) (g h : ℚ) :
    (s.logSums g h).fullSingleClassTreeBuilder = s.fullSingleClassTreeBuilder ∧
    (s.logSums g h).fastHistSingleClassTreeBuilder = s.fastHistSingleClassTreeBuilder ∧
    (s.logSums g h).fullProblem = s.fullProblem ∧
    (s.logSums g h).fastHistProblem = s.fastHistProblem := by
  unfold CGradientBoost.logSums
  split <;> exact ⟨rfl, rfl, rfl, rfl⟩

theorem buildSingleBody_ok (X : Collaborators Tree B) (gs hs w : List ℚ) (ws : ℚ) (i : Nat)
    (st : CGradientBoost Tree B × List Tree) (hb : X.BuildsSucceed) (hr : st.1.HandlesReady)
    (hm : st.1.isMultiTreesModel = false) (hi : i < st.1.gradients.length)
    (hh : st.1.hessians.length = st.1.gradients.length)
    (hgs : gs.length = st.1.gradients.length) (hhs : hs.length = st.1.gradients.length) :
    (buildSingleBody X gs hs w ws i st).2 = Outcome.ok () := by
  obtain ⟨hb1, _, hb3, _⟩ := hb
  unfold buildSingleBody
  rw [List.getElem?_eq_getElem hi, List.getElem?_eq_getElem (by omega : i < st.1.hessians.length),
    List.getElem?_eq_getElem (by omega : i < gs.length),
    List.getElem?_eq_getElem (by omega : i < hs.length)]
  dsimp only
  obtain ⟨l1, l2, l3, l4⟩ := logSums_fields st.1 gs[i] hs[i]
  unfold CGradientBoost.HandlesReady at hr
  unfold CGradientBoost.isMultiTreesModel at hm
  cases htb : st.1.params.TreeBuilder <;> rw [htb] at hr hm <;> dsimp only at hr hm
  · obtain ⟨b, hbb⟩ := Option.isSome_iff_exists.mp hr.1
    obtain ⟨v, hv⟩ := Option.isSome_iff_exists.mp hr.2.1
    simp only [l1, l3, hbb, hv]
    obtain ⟨t, ht⟩ := hb1 b ((st.1.logSums gs[i] hs[i]).buildView v.baseProblem)
      (st.1.gradients[i]) gs[i] (st.1.hessians[i]) hs[i] w ws
    rcases hres : X.fullSingleBuild b ((st.1.logSums gs[i] hs[i]).buildView v.baseProblem)
      (st.1.gradients[i]) gs[i] (st.1.hessians[i]) hs[i] w ws with ⟨o, b1⟩
    rw [hres] at ht
    dsimp only at ht
    subst ht
    dsimp only
  · obtain ⟨b, hbb⟩ := Option.isSome_iff_exists.mp hr.1
    obtain ⟨v, hv⟩ := Option.isSome_iff_exists.mp hr.2.1
    have hnone := hr.2.2.1
    simp only [l1, l2, l4, hnone, hbb, hv]
    obtain ⟨t, ht⟩ := hb3 b ((st.1.logSums gs[i] hs[i]).buildView v.baseProblem)
      (st.1.gradients[i]) (st.1.hessians[i]) w
    rcases hres : X.fastHistSingleBuild b ((st.1.logSums gs[i] hs[i]).buildView v.baseProblem)
      (st.1.gradients[i]) (st.1.hessians[i]) w with ⟨o, b1⟩
    rw [hres] at ht
    dsimp only at ht
    subst ht
    dsimp only
  · exact absurd hm (Bool.noConfusion)
  · exact absurd hm (Bool.noConfusion)

theorem buildTrees_ok (X : Collaborators Tree B) (s : CGradientBoost Tree B)
    (gs hs w : List ℚ) (ws : ℚ) (cur : List Tree) (hb : X.BuildsSucceed) (hr : s.HandlesReady)
    (hh : s.hessians.length = s.gradients.length) (hgs : gs.length = s.gradients.length)
    (hhs : hs.length = s.gradients.length) :
    ∃ s1 trees, s.buildTrees X gs hs w ws cur = (s1, Outcome.ok trees) := by
  unfold CGradientBoost.buildTrees
  split_ifs with hc
  · exact buildMulti_ok X s gs hs w ws cur hb hr ((handlesReady_multi s hr).mp hc)
  · have hm : s.isMultiTreesModel = false := by
      have := (handlesReady_multi s hr).not.mp hc
      simpa using this
    obtain ⟨h1, h2⟩ := forLoop_ok (buildSingleBody X gs hs w ws)
      (fun st => s.BuildFrame st.1) (List.range s.gradients.length)
      (fun i hi st hst => by
        have hfr := buildSingleBody_buildFrame X gs hs w ws i st
        have hg : st.1.gradients = s.gradients := by rw [hst.1]
        have hhe : st.1.hessians = s.hessians := by rw [hst.1]
        have hp : st.1.params = s.params := by rw [hst.1]
        refine ⟨buildSingleBody_ok X gs hs w ws i st hb (hst.handlesReady hr) ?_ ?_ ?_ ?_ ?_,
          hst.trans hfr⟩
        · unfold CGradientBoost.isMultiTreesModel at hm ⊢
          rw [hp]; exact hm
        · rw [hg]; exact List.mem_range.mp hi
        · rw [hg, hhe]; exact hh
        · rw [hg]; exact hgs
        · rw [hg]; exact hhs)
      (s, cur) (CGradientBoost.BuildFrame.refl s)
    rcases hres : forLoop (buildSingleBody X gs hs w ws) (List.range s.gradients.length) (s, cur)
      with ⟨st, o⟩
    rw [hres] at h1
    dsimp only at h1
    subst h1
    exact ⟨_, _, rfl⟩

end

section
variable {Tree B : Type}

theorem appendBody_loop (trees : List Tree) (models : List (List Tree))
    (h : trees.length = models.length) :
    forLoop (appendBody trees) (List.range trees.length) models =
      (List.zipWith (fun e t => e ++ [t]) models trees, Outcome.ok ()) := by
  set T := List.zipWith (fun (e : List Tree) t => e ++ [t]) models trees with hT
  have lT : T.length = models.length := by simp [hT, h]
  have key := forLoop_range_steps (appendBody trees) trees.length
    (fun j => T.take j ++ models.drop j) ?_
  · have e1 : T.take trees.length ++ models.drop trees.length = T := by
      rw [List.take_of_length_le (by omega), List.drop_eq_nil_of_le (by omega), List.append_nil]
    simp only [List.take_zero, List.drop_zero, List.nil_append, e1] at key
    exact key
  · intro j hj
    have hjm : j < models.length := by omega
    have hjT : j < T.length := by omega
    have g1 := getElem?_take_append_drop T models j lT hjm
    have g1' : (T.take j ++ models.drop j)[j]? = some models[j] := g1
    have u1 := take_append_drop_set T models j hjT (by omega)
    simp only [List.get_eq_getElem] at u1
    have t1 : models[j] ++ [trees[j]] = T[j] := by
      simp only [hT, List.getElem_zipWith]
    simp only [appendBody, List.getElem?_eq_getElem hj, g1', t1, u1]

theorem CGradientBoost.BuildFrame.ready {s s1 : CGradientBoost Tree B}
    {bp : IMultivariateRegressionProblem} {cfg : CParams} {k : Nat} (h : s.BuildFrame s1)
    (hr : s.Ready bp cfg k) : s1.Ready bp cfg k := by
  have hh := h.handlesReady hr.handles
  obtain ⟨e, _⟩ := h
  have hm : s1.isMultiTreesModel = s.isMultiTreesModel := by
    unfold CGradientBoost.isMultiTreesModel
    have : s1.params = s.params := by rw [e]
    rw [this]
  exact
    { params := by rw [e]; exact hr.params
      baseProblem := by rw [e]; exact hr.baseProblem
      wellFormed := hr.wellFormed
      lossFunction := by rw [e]; exact hr.lossFunction
      modelsLength := by
        rw [hm]
        have : s1.models = s.models := by rw [e]
        rw [this]; exact hr.modelsLength
      ensembles := by rw [e]; exact hr.ensembles
      cacheLength := by rw [e]; exact hr.cacheLength
      cacheRows := by rw [e]; exact hr.cacheRows
      predicts := by rw [e]; exact hr.predicts
      answers := by rw [e]; exact hr.answers
      gradients := by rw [e]; exact hr.gradients
      hessians := by rw [e]; exact hr.hessians
      subsample := by rw [e]; exact hr.subsample
      subfeature := by rw [e]; exact hr.subfeature
      usedVectors := by rw [e]; exact hr.usedVectors
      handles := hh }

theorem CGradientBoost.BuildFrame.cacheInvariant {s s1 : CGradientBoost Tree B}
    (X : Collaborators Tree B) {bp : IMultivariateRegressionProblem} {k : Nat}
    (h : s.BuildFrame s1) (hi : s.CacheInvariant X bp k) : s1.CacheInvariant X bp k :=
  CacheInvariant.congr X s s1 bp k (by rw [h.1]) (by rw [h.1]) (by rw [h.1]) hi

theorem Ready.appendTrees {s : CGradientBoost Tree B} {bp : IMultivariateRegressionProblem}
    {cfg : CParams} {k : Nat} (hr : s.Ready bp cfg k) (trees : List Tree)
    (hl : trees.length = s.models.length) :
    CGradientBoost.Ready
      { s with models := List.zipWith (fun e t => e ++ [t]) s.models trees } bp cfg (k + 1) :=
  { params := hr.params
    baseProblem := hr.baseProblem
    wellFormed := hr.wellFormed
    lossFunction := hr.lossFunction
    modelsLength := by
      have : (List.zipWith (fun (e : List Tree) t => e ++ [t]) s.models trees).length =
          s.models.length := by simp [hl]
      rw [this]; exact hr.modelsLength
    ensembles := by
      intro e he
      obtain ⟨i, hi, rfl⟩ := List.getElem_of_mem he
      have hi1 : i < s.models.length := by simp at hi; omega
      simp only [List.getElem_zipWith, List.length_append, List.length_singleton]
      rw [hr.ensembles _ (List.getElem_mem hi1)]
    cacheLength := hr.cacheLength
    cacheRows := hr.cacheRows
    predicts := hr.predicts
    answers := hr.answers
    gradients := hr.gradients
    hessians := hr.hessians
    subsample := hr.subsample
    subfeature := hr.subfeature
    usedVectors := hr.usedVectors
    handles := hr.handles }

theorem CacheInvariant.append (X : Collaborators Tree B) {s : CGradientBoost Tree B}
    {bp : IMultivariateRegressionProblem} {cfg : CParams} {k : Nat} (hr : s.Ready bp cfg k)
    (hi : s.CacheInvariant X bp k) (trees : List Tree) (hl : trees.length = s.models.length) :
    CGradientBoost.CacheInvariant X
      { s with models := List.zipWith (fun e t => e ++ [t]) s.models trees } bp (k + 1) := by
  intro j r item hitem
  obtain ⟨h1, h2, h3, h4⟩ := hi j r item hitem
  refine ⟨h1, by omega, ?_, h4⟩
  rw [h3]
  unfold CGradientBoost.scoreUpTo CGradientBoost.ensembleOf CGradientBoost.outputOf
  have hmulti : CGradientBoost.isMultiTreesModel
      { s with models := List.zipWith (fun e t => e ++ [t]) s.models trees } =
      s.isMultiTreesModel := rfl
  rw [hmulti]
  dsimp only
  congr 3
  set idx := (if s.isMultiTreesModel = true then 0 else j) with hidx
  by_cases hlt : idx < s.models.length
  · have hlt2 : idx < (List.zipWith (fun (e : List Tree) t => e ++ [t]) s.models trees).length := by
      simp; omega
    rw [List.getElem?_eq_getElem hlt, List.getElem?_eq_getElem hlt2]
    simp only [Option.getD_some, List.getElem_zipWith]
    have hk : (s.models[idx]).length = k := hr.ensembles _ (List.getElem_mem _)
    rw [List.take_append_of_le_length (by omega)]
  · have hlt2 : ¬ idx < (List.zipWith (fun (e : List Tree) t => e ++ [t]) s.models trees).length := by
      simp; omega
    rw [List.getElem?_eq_none (not_lt.mp hlt), List.getElem?_eq_none (not_lt.mp hlt2)]

end

section
variable {Tree B : Type}

theorem logIteration_buildFrame (s : CGradientBoost Tree B) (n : Int) :
    s.BuildFrame (s.logIteration n) := by
  unfold CGradientBoost.logIteration
  split
  · exact ⟨rfl, rfl, rfl, rfl, rfl⟩
  · exact CGradientBoost.BuildFrame.refl s

/-- The step up to the builder calls, on a ready trainer. -/
theorem trainStepExecute_run (X : Collaborators Tree B) (s : CGradientBoost Tree B)
    (bp : IMultivariateRegressionProblem) (cfg : CParams) (k : Nat) (hR : s.Ready bp cfg k)
    (hinv : s.CacheInvariant X bp k) (hd : X.DrawsInRange) :
    ∃ (s1 : CGradientBoost Tree B) (sums : CStepSums),
      s.trainStepExecute X =
        s1.buildTrees X sums.gradientsSum sums.hessiansSum sums.weights sums.weightsSum [] ∧
      s1.Ready bp cfg k ∧ s1.CacheInvariant X bp k ∧
      (∀ v ∈ s1.usedVectors, 0 ≤ v ∧ v < bp.VectorCount) ∧
      (∀ v ∈ s1.usedVectors, ∀ (j : Nat) (item : CPredictionCacheItem),
        CArray.get2? s1.predictCache j v.toNat = some item → item.Step = (k : Int)) ∧
      (∀ (j r : Nat), (r : Int) ∉ s1.usedVectors →
        CArray.get2? s1.predictCache j r = CArray.get2? s.predictCache j r) ∧
      (s.params.Subsample = 1 → s1.usedVectors = s.usedVectors) ∧
      sums.gradientsSum.length = bp.ValueSize.toNat ∧
      sums.hessiansSum.length = bp.ValueSize.toNat := by
  have hm0 : 0 < s.models.length := by
    rw [hR.modelsLength]; split_ifs
    · exact Nat.one_pos
    · have := hR.wellFormed.1; omega
  obtain ⟨lf, hlf⟩ := Option.isSome_iff_exists.mp hR.lossFunction
  -- the state after the log line
  have hlog : ∃ sl, s.BuildFrame sl ∧
      s.trainStepExecute X = sl.executeStep X lf sl.baseProblem [] := by
    unfold CGradientBoost.trainStepExecute
    by_cases hl : s.logStream.isSome = true
    · simp only [hl, if_true, List.getElem?_eq_getElem hm0]
      have hf := logIteration_buildFrame s ((s.models[0]).length : Int)
      have : (s.logIteration ((s.models[0]).length : Int)).lossFunction = some lf := by
        rw [hf.1]; exact hlf
      rw [this]
      exact ⟨_, hf, rfl⟩
    · simp only [hl, if_false, Bool.false_eq_true]
      rw [hlf]
      exact ⟨s, CGradientBoost.BuildFrame.refl s, rfl⟩
  obtain ⟨sl, hfl, hexec⟩ := hlog
  have Rl : sl.Ready bp cfg k := hfl.ready hR
  have Il : sl.CacheInvariant X bp k := hfl.cacheInvariant X hinv
  have hcl : sl.predictCache = s.predictCache := by rw [hfl.1]
  have hul : sl.usedVectors = s.usedVectors := by rw [hfl.1]
  have hpl : sl.params = s.params := by rw [hfl.1]
  obtain ⟨s1, sums, e1, F1, R1, I1, v1, r1, u1, q1, g1, h1⟩ :=
    gatherStatistics_spec X sl lf bp cfg k Rl Il hd
  refine ⟨s1, sums, ?_, R1, I1, v1, r1, ?_, ?_, g1, h1⟩
  · rw [hexec]
    unfold CGradientBoost.executeStep
    have hne : sl.models.isEmpty = false := by
      have : 0 < sl.models.length := by
        rw [Rl.modelsLength]; split_ifs
        · exact Nat.one_pos
        · have := hR.wellFormed.1; omega
      cases hml : sl.models with
      | nil => rw [hml] at this; simp at this
      | cons a l => rfl
    simp only [hne, Bool.false_eq_true, if_false, List.isEmpty_nil, not_true_eq_false,
      Rl.baseProblem, e1]
  · intro j r hr
    rw [u1 j r hr, hcl]
  · intro h
    rw [q1 (by rw [hpl]; exact h), hul]

end

section
variable {Tree B : Type}

/-- What a successful `trainStep` on a ready trainer leaves. -/
theorem trainStep_result (X : Collaborators Tree B) (s : CGradientBoost Tree B)
    (bp : IMultivariateRegressionProblem) (cfg : CParams) (k : Nat) (hR : s.Ready bp cfg k)
    (hinv : s.CacheInvariant X bp k) (hd : X.DrawsInRange) (s2 : CGradientBoost Tree B)
    (b : Bool) (h : s.trainStep X = (s2, Outcome.ok b)) :
    s2.Ready bp cfg (k + 1) ∧ s2.CacheInvariant X bp (k + 1) ∧
    b = decide (((k + 1 : Nat) : Int) ≥ cfg.IterationsCount) ∧
    (∀ v ∈ s2.usedVectors, 0 ≤ v ∧ v < bp.VectorCount) ∧
    (∀ v ∈ s2.usedVectors, ∀ (j : Nat) (item : CPredictionCacheItem),
      CArray.get2? s2.predictCache j v.toNat = some item → item.Step = (k : Int)) ∧
    (∀ (j r : Nat), (r : Int) ∉ s2.usedVectors →
      CArray.get2? s2.predictCache j r = CArray.get2? s.predictCache j r) ∧
    (s.params.Subsample = 1 → s2.usedVectors = s.usedVectors) := by
  obtain ⟨s1, sums, hexec, R1, I1, v1, r1, u1, q1, g1, h1⟩ :=
    trainStepExecute_run X s bp cfg k hR hinv hd
  unfold CGradientBoost.trainStep CGradientBoost.trainStepTry at h
  rw [hexec] at h
  rcases hbt : s1.buildTrees X sums.gradientsSum sums.hessiansSum sums.weights sums.weightsSum []
    with ⟨sb, trees | e⟩
  · rw [hbt] at h
    dsimp only at h
    have hfr : s1.BuildFrame sb := by
      have := buildTrees_buildFrame X s1 sums.gradientsSum sums.hessiansSum sums.weights
        sums.weightsSum []
      rw [hbt] at this; exact this
    have Rb : sb.Ready bp cfg k := hfr.ready R1
    have Ib : sb.CacheInvariant X bp k := hfr.cacheInvariant X I1
    have hlen := buildTrees_length X s1 sb _ _ _ _ [] trees hbt
    have hcount : trees.length = sb.models.length := by
      rw [hlen, Rb.modelsLength]
      have hm : sb.isMultiTreesModel = s1.isMultiTreesModel := by
        unfold CGradientBoost.isMultiTreesModel
        have : sb.params = s1.params := by rw [hfr.1]
        rw [this]
      rw [hm]
      by_cases hmul : s1.isMultiTreesModel = true
      · rw [if_pos ((handlesReady_multi s1 R1.handles).mpr hmul), if_pos hmul]; simp
      · rw [if_neg ((handlesReady_multi s1 R1.handles).not.mpr hmul), if_neg hmul, R1.gradients]
        simp
    rw [appendBody_loop trees sb.models hcount] at h
    dsimp only at h
    have hm0 : 0 < (List.zipWith (fun (e : List Tree) t => e ++ [t]) sb.models trees).length := by
      have : 0 < sb.models.length := by
        rw [Rb.modelsLength]; split_ifs
        · exact Nat.one_pos
        · have := hR.wellFormed.1; omega
      simp; omega
    rw [List.getElem?_eq_getElem hm0] at h
    simp only [Prod.mk.injEq, Outcome.ok.injEq] at h
    obtain ⟨hs2, hb⟩ := h
    have Rn := Ready.appendTrees Rb trees hcount
    have In := CacheInvariant.append X Rb Ib trees hcount
    rw [hs2] at Rn In
    have hc2 : s2.predictCache = s1.predictCache := by rw [← hs2]; dsimp only; rw [hfr.1]
    have hu2 : s2.usedVectors = s1.usedVectors := by rw [← hs2]; dsimp only; rw [hfr.1]
    refine ⟨Rn, In, ?_, ?_, ?_, ?_, ?_⟩
    · rw [← hb]
      have hlen0 : ((List.zipWith (fun (e : List Tree) t => e ++ [t]) sb.models trees)[0]).length
          = k + 1 := by
        have := Ready.appendTrees Rb trees hcount
        exact this.ensembles _ (List.getElem_mem _)
      rw [hlen0]
      have hit : sb.params.fixed.IterationsCount = cfg.fixed.IterationsCount :=
        congrArg CParams.IterationsCount Rb.params
      have hit' : sb.params.IterationsCount = cfg.IterationsCount := hit
      rw [hit']
    · rw [hu2]; exact v1
    · rw [hu2, hc2]; exact r1
    · rw [hu2, hc2]; exact u1
    · rw [hu2]; exact q1
  · rw [hbt] at h
    simp at h

/-- A `trainStep` on a ready trainer returns when every builder call gives a tree. -/
theorem trainStep_ok (X : Collaborators Tree B) (s : CGradientBoost Tree B)
    (bp : IMultivariateRegressionProblem) (cfg : CParams) (k : Nat) (hR : s.Ready bp cfg k)
    (hinv : s.CacheInvariant X bp k) (hd : X.DrawsInRange) (hb : X.BuildsSucceed) :
    ∃ s2 b, s.trainStep X = (s2, Outcome.ok b) := by
  obtain ⟨s1, sums, hexec, R1, I1, v1, r1, u1, q1, g1, h1⟩ :=
    trainStepExecute_run X s bp cfg k hR hinv hd
  obtain ⟨sb, trees, hbt⟩ := buildTrees_ok X s1 sums.gradientsSum sums.hessiansSum sums.weights
    sums.weightsSum [] hb R1.handles (by rw [R1.hessians, R1.gradients])
    (by rw [g1, R1.gradients]) (by rw [h1, R1.gradients])
  have hfr : s1.BuildFrame sb := by
    have := buildTrees_buildFrame X s1 sums.gradientsSum sums.hessiansSum sums.weights
      sums.weightsSum []
    rw [hbt] at this; exact this
  have Rb : sb.Ready bp cfg k := hfr.ready R1
  have hlen := buildTrees_length X s1 sb _ _ _ _ [] trees hbt
  have hcount : trees.length = sb.models.length := by
    rw [hlen, Rb.modelsLength]
    have hm : sb.isMultiTreesModel = s1.isMultiTreesModel := by
      unfold CGradientBoost.isMultiTreesModel
      have : sb.params = s1.params := by rw [hfr.1]
      rw [this]
    rw [hm]
    by_cases hmul : s1.isMultiTreesModel = true
    · rw [if_pos ((handlesReady_multi s1 R1.handles).mpr hmul), if_pos hmul]; simp
    · rw [if_neg ((handlesReady_multi s1 R1.handles).not.mpr hmul), if_neg hmul, R1.gradients]
      simp
  have hm0 : 0 < (List.zipWith (fun (e : List Tree) t => e ++ [t]) sb.models trees).length := by
    have : 0 < sb.models.length := by
      rw [Rb.modelsLength]; split_ifs
      · exact Nat.one_pos
      · have := hR.wellFormed.1; omega
    simp; omega
  unfold CGradientBoost.trainStep CGradientBoost.trainStepTry
  rw [hexec, hbt]
  dsimp only
  rw [appendBody_loop trees sb.models hcount]
  dsimp only
  rw [List.getElem?_eq_getElem hm0]
  exact ⟨_, _, rfl⟩

end

theorem CArray.SetSize_nil {α : Type} (n : Int) (d : α) :
    CArray.SetSize ([] : List α) n d = List.replicate n.toNat d := by
  simp [CArray.SetSize]

theorem CArray.SetSize_length {α : Type} (arr : List α) (n : Int) (d : α) :
    (CArray.SetSize arr n d).length = n.toNat := by
  simp [CArray.SetSize]; omega

theorem freshPredictCache_nil (m n : Int) :
    freshPredictCache [] m n = List.replicate m.toNat (List.replicate n.toNat ⟨0, 0⟩) := by
  simp [freshPredictCache, CArray.SetSize, CArray.AddN]

theorem get2?_replicate {α : Type} (m n j r : Nat) (x y : α)
    (h : CArray.get2? (List.replicate m (List.replicate n x)) j r = some y) : y = x := by
  unfold CArray.get2? at h
  by_cases hj : j < m
  · rw [List.getElem?_replicate, if_pos hj] at h
    dsimp only at h
    by_cases hr : r < n
    · rw [List.getElem?_replicate, if_pos hr] at h
      exact (Option.some.inj h).symm
    · rw [List.getElem?_replicate, if_neg hr] at h
      exact absurd h (by simp)
  · rw [List.getElem?_replicate, if_neg hj] at h
    exact absurd h (by simp)

section
variable {Tree B : Type}

theorem createLossFunction_ok (s : CGradientBoost Tree B)
    (h : ∀ v, s.params.LossFunction ≠ TLossFunction.other v) :
    ∃ lf, s.createLossFunction = Outcome.ok lf := by
  unfold CGradientBoost.createLossFunction
  cases hl : s.params.LossFunction with
  | LF_Exponential => exact ⟨_, rfl⟩
  | LF_Binomial => exact ⟨_, rfl⟩
  | LF_SquaredHinge => exact ⟨_, rfl⟩
  | LF_L2 => exact ⟨_, rfl⟩
  | other v => exact absurd hl (h v)

theorem createFullTreeBuilder_result (X : Collaborators Tree B) (s s1 : CGradientBoost Tree B)
    (bp : IMultivariateRegressionProblem) (multi : Bool)
    (h : s.createFullTreeBuilder X bp multi = (s1, Outcome.ok ())) :
    s1 = { s with
      fullSingleClassTreeBuilder := s1.fullSingleClassTreeBuilder
      fullMultiClassTreeBuilder := s1.fullMultiClassTreeBuilder
      fullProblem := s1.fullProblem } ∧
    s1.fullProblem.isSome = true ∧
    (if multi then s1.fullMultiClassTreeBuilder.isSome = true ∧
        s1.fullSingleClassTreeBuilder = s.fullSingleClassTreeBuilder
      else s1.fullSingleClassTreeBuilder.isSome = true ∧
        s1.fullMultiClassTreeBuilder = s.fullMultiClassTreeBuilder) := by
  unfold CGradientBoost.createFullTreeBuilder at h
  dsimp only at h
  split at h
  · simp at h
  · split at h
    · simp at h
    · simp only [Prod.mk.injEq, and_true] at h
      subst h
      cases multi <;> exact ⟨rfl, rfl, by simp⟩

theorem createFastHistTreeBuilder_result (X : Collaborators Tree B)
    (s s1 : CGradientBoost Tree B) (bp : IMultivariateRegressionProblem) (multi : Bool)
    (h : s.createFastHistTreeBuilder X bp multi = (s1, Outcome.ok ())) :
    s1 = { s with
      fastHistSingleClassTreeBuilder := s1.fastHistSingleClassTreeBuilder
      fastHistMultiClassTreeBuilder := s1.fastHistMultiClassTreeBuilder
      fastHistProblem := s1.fastHistProblem } ∧
    s1.fastHistProblem.isSome = true ∧
    (if multi then s1.fastHistMultiClassTreeBuilder.isSome = true ∧
        s1.fastHistSingleClassTreeBuilder = s.fastHistSingleClassTreeBuilder
      else s1.fastHistSingleClassTreeBuilder.isSome = true ∧
        s1.fastHistMultiClassTreeBuilder = s.fastHistMultiClassTreeBuilder) := by
  unfold CGradientBoost.createFastHistTreeBuilder at h
  dsimp only at h
  split at h
  · simp at h
  · split at h
    · simp at h
    · simp only [Prod.mk.injEq, and_true] at h
      subst h
      cases multi <;> exact ⟨rfl, rfl, by simp⟩

/-- What a `createTreeBuilder` that returns leaves, when no handle was set. -/
theorem createTreeBuilder_result (X : Collaborators Tree B) (s s1 : CGradientBoost Tree B)
    (bp : IMultivariateRegressionProblem)
    (h : s.createTreeBuilder X bp = (s1, Outcome.ok ()))
    (h1 : s.fullSingleClassTreeBuilder = none) (h2 : s.fullMultiClassTreeBuilder = none)
    (h4 : s.fastHistMultiClassTreeBuilder = none) :
    s1 = { s with
      fullSingleClassTreeBuilder := s1.fullSingleClassTreeBuilder
      fullMultiClassTreeBuilder := s1.fullMultiClassTreeBuilder
      fastHistSingleClassTreeBuilder := s1.fastHistSingleClassTreeBuilder
      fastHistMultiClassTreeBuilder := s1.fastHistMultiClassTreeBuilder
      fullProblem := s1.fullProblem
      fastHistProblem := s1.fastHistProblem } ∧
    s1.HandlesReady := by
  unfold CGradientBoost.createTreeBuilder at h
  cases hk : s.params.TreeBuilder with
  | other v => rw [hk] at h; simp at h
  | GBTB_Full =>
    rw [hk] at h
    obtain ⟨q, hp, hb⟩ := createFullTreeBuilder_result X s s1 bp false h
    simp only [Bool.false_eq_true, if_false] at hb
    have hpar : s1.params = s.params := by rw [q]
    refine ⟨by rw [q], ?_⟩
    unfold CGradientBoost.HandlesReady
    rw [hpar, hk]
    refine ⟨hb.1, hp, by rw [hb.2]; exact h2, ?_⟩
    rw [q]; exact h4
  | GBTB_MultiFull =>
    rw [hk] at h
    obtain ⟨q, hp, hb⟩ := createFullTreeBuilder_result X s s1 bp true h
    simp only [if_true] at hb
    have hpar : s1.params = s.params := by rw [q]
    refine ⟨by rw [q], ?_⟩
    unfold CGradientBoost.HandlesReady
    rw [hpar, hk]
    exact ⟨hb.1, hp⟩
  | GBTB_FastHist =>
    rw [hk] at h
    obtain ⟨q, hp, hb⟩ := createFastHistTreeBuilder_result X s s1 bp false h
    simp only [Bool.false_eq_true, if_false] at hb
    have hpar : s1.params = s.params := by rw [q]
    refine ⟨by rw [q], ?_⟩
    unfold CGradientBoost.HandlesReady
    rw [hpar, hk]
    refine ⟨hb.1, hp, by rw [q]; exact h1, by rw [q]; exact h2, by rw [hb.2]; exact h4⟩
  | GBTB_MultiFastHist =>
    rw [hk] at h
    obtain ⟨q, hp, hb⟩ := createFastHistTreeBuilder_result X s s1 bp true h
    simp only [if_true] at hb
    have hpar : s1.params = s.params := by rw [q]
    refine ⟨by rw [q], ?_⟩
    unfold CGradientBoost.HandlesReady
    rw [hpar, hk]
    exact ⟨hb.1, hp, by rw [q]; exact h2⟩

theorem createTreeBuilder_ok (X : Collaborators Tree B) (s : CGradientBoost Tree B)
    (bp : IMultivariateRegressionProblem) (hcons : X.ConstructorsSucceed)
    (htb : ∀ v, s.params.TreeBuilder ≠ TGradientBoostTreeBuilder.other v) :
    ∃ s1, s.createTreeBuilder X bp = (s1, Outcome.ok ()) := by
  obtain ⟨c1, c2, c3, c4⟩ := hcons
  unfold CGradientBoost.createTreeBuilder
  cases hk : s.params.TreeBuilder with
  | other v => exact absurd hk (htb v)
  | GBTB_Full =>
    dsimp only
    unfold CGradientBoost.createFullTreeBuilder
    dsimp only
    obtain ⟨b, hb⟩ := c1 false _
    rw [hb, c2]
    exact ⟨_, rfl⟩
  | GBTB_MultiFull =>
    dsimp only
    unfold CGradientBoost.createFullTreeBuilder
    dsimp only
    obtain ⟨b, hb⟩ := c1 true _
    rw [hb, c2]
    exact ⟨_, rfl⟩
  | GBTB_FastHist =>
    dsimp only
    unfold CGradientBoost.createFastHistTreeBuilder
    dsimp only
    obtain ⟨b, hb⟩ := c3 false _ _
    rw [hb, c4]
    exact ⟨_, rfl⟩
  | GBTB_MultiFastHist =>
    dsimp only
    unfold CGradientBoost.createFastHistTreeBuilder
    dsimp only
    obtain ⟨b, hb⟩ := c3 true _ _
    rw [hb, c4]
    exact ⟨_, rfl⟩

end

section
variable {Tree B : Type}

theorem initializeState_result (s s0 : CGradientBoost Tree B)
    (bp bp1 : IMultivariateRegressionProblem) (hbp : s.baseProblem = some bp)
    (h : s.initializeState = (s0, Outcome.ok bp1)) :
    bp1 = bp ∧ 1 ≤ bp.ValueSize ∧ 0 < bp.VectorCount ∧ 0 < bp.FeatureCount ∧
    ∃ lf, s.createLossFunction = Outcome.ok lf ∧
      s0 = { s with
        lossFunction := some lf
        models := CArray.SetSize s.models (if s.isMultiTreesModel then 1 else bp.ValueSize) []
        predictCache :=
          if s.predictCache.length = 0 then
            freshPredictCache s.predictCache bp.ValueSize bp.VectorCount
          else s.predictCache
        predicts := CArray.SetSize s.predicts bp.ValueSize []
        answers := CArray.SetSize s.answers bp.ValueSize []
        gradients := CArray.SetSize s.gradients bp.ValueSize []
        hessians := CArray.SetSize s.hessians bp.ValueSize []
        usedVectors :=
          if s.params.Subsample = 1 then identityArray bp.VectorCount.toNat else s.usedVectors
        usedFeatures :=
          if s.params.Subfeature = 1 then identityArray bp.FeatureCount.toNat
          else s.usedFeatures
        featureNumbers :=
          if s.params.Subfeature = 1 then identityArray bp.FeatureCount.toNat
          else s.featureNumbers } := by
  unfold CGradientBoost.initializeState at h
  rw [hbp] at h
  dsimp only at h
  by_cases a1 : bp.ValueSize ≥ 1
  · by_cases a2 : bp.VectorCount > 0
    · by_cases a3 : bp.FeatureCount > 0
      · rw [if_neg (not_not.mpr a1), if_neg (not_not.mpr a2), if_neg (not_not.mpr a3)] at h
        rcases hl : s.createLossFunction with lf | e
        · rw [hl] at h
          simp only [Prod.mk.injEq, Outcome.ok.injEq] at h
          refine ⟨h.2.symm, by omega, by omega, by omega, lf, rfl, ?_⟩
          rw [← h.1, hbp]
        · rw [hl] at h
          simp at h
      · rw [if_neg (not_not.mpr a1), if_neg (not_not.mpr a2), if_pos a3] at h
        simp at h
    · rw [if_neg (not_not.mpr a1), if_pos a2] at h
      simp at h
  · rw [if_pos a1] at h
    simp at h

/-- What the first `initialize` of a trainer that holds no ensemble and no cache
leaves when it returns. -/
theorem initialize_fresh_result (X : Collaborators Tree B) (s s1 : CGradientBoost Tree B)
    (bp : IMultivariateRegressionProblem) (hinit : s.initialize X = (s1, Outcome.ok ()))
    (hbp : s.baseProblem = some bp) (hwf : bp.WellFormed)
    (hm : s.models = []) (hc : s.predictCache = [])
    (h1 : s.fullSingleClassTreeBuilder = none) (h2 : s.fullMultiClassTreeBuilder = none)
    (h4 : s.fastHistMultiClassTreeBuilder = none)
    (hss : 0 ≤ s.params.Subsample ∧ s.params.Subsample ≤ 1)
    (hsf : 0 ≤ s.params.Subfeature ∧ s.params.Subfeature ≤ 1) :
    s1.Ready bp s.params 0 ∧ s1.CacheInvariant X bp 0 ∧
      (∀ (j r : Nat) (item : CPredictionCacheItem),
        CArray.get2? s1.predictCache j r = some item → item = ⟨0, 0⟩) := by
  unfold CGradientBoost.initialize at hinit
  rcases hst : s.initializeState with ⟨s0, bp1 | e⟩
  · rw [hst] at hinit
    dsimp only at hinit
    obtain ⟨hbp1, _, _, _, lf, hlf, q0⟩ := initializeState_result s s0 bp bp1 hbp hst
    subst hbp1
    rcases hct : s0.createTreeBuilder X bp1 with ⟨sc, u | e⟩
    · rw [hct] at hinit
      simp only [Prod.mk.injEq, and_true] at hinit
      subst hinit
      have hp0 : s0.params = s.params := by rw [q0]
      obtain ⟨q1, hr1⟩ := createTreeBuilder_result X s0 sc bp1 hct (by rw [q0]; exact h1)
        (by rw [q0]; exact h2) (by rw [q0]; exact h4)
      have hp1 : sc.params = s.params := by rw [q1]; exact hp0
      have hmulti : sc.isMultiTreesModel = s.isMultiTreesModel := by
        unfold CGradientBoost.isMultiTreesModel; rw [hp1]
      have hmod : sc.models =
          List.replicate (if s.isMultiTreesModel then 1 else bp1.ValueSize).toNat [] := by
        rw [q1]; dsimp only; rw [q0]; dsimp only; rw [hm, CArray.SetSize_nil]
      have hcache : sc.predictCache = List.replicate bp1.ValueSize.toNat
          (List.replicate bp1.VectorCount.toNat ⟨0, 0⟩) := by
        rw [q1]; dsimp only; rw [q0]; dsimp only
        rw [hc, if_pos (by rfl : ([] : List (List CPredictionCacheItem)).length = 0),
          freshPredictCache_nil]
      have hzero : ∀ (j r : Nat) (item : CPredictionCacheItem),
          CArray.get2? sc.predictCache j r = some item → item = ⟨0, 0⟩ := by
        intro j r item hitem
        rw [hcache] at hitem
        exact get2?_replicate _ _ _ _ _ _ hitem
      refine ⟨?_, ?_, hzero⟩
      · exact
          { params := by rw [hp1]
            baseProblem := by rw [q1]; dsimp only; rw [q0]; exact hbp
            wellFormed := hwf
            lossFunction := by rw [q1]; dsimp only; rw [q0]; rfl
            modelsLength := by
              rw [hmod, hmulti, List.length_replicate]
              split_ifs <;> rfl
            ensembles := by
              intro e he
              rw [hmod] at he
              rw [List.eq_of_mem_replicate he]; rfl
            cacheLength := by rw [hcache, List.length_replicate]
            cacheRows := by
              intro row hrow
              rw [hcache] at hrow
              rw [List.eq_of_mem_replicate hrow, List.length_replicate]
            predicts := by rw [q1]; dsimp only; rw [q0]; exact CArray.SetSize_length _ _ _
            answers := by rw [q1]; dsimp only; rw [q0]; exact CArray.SetSize_length _ _ _
            gradients := by rw [q1]; dsimp only; rw [q0]; exact CArray.SetSize_length _ _ _
            hessians := by rw [q1]; dsimp only; rw [q0]; exact CArray.SetSize_length _ _ _
            subsample := by rw [hp1]; exact hss
            subfeature := by rw [hp1]; exact hsf
            usedVectors := by
              intro h
              rw [hp1] at h
              rw [q1]; dsimp only; rw [q0]; dsimp only; rw [if_pos h]
            handles := hr1 }
      · intro j r item hitem
        have hz := hzero j r item hitem
        subst hz
        refine ⟨le_refl _, le_refl _, ?_, ?_⟩
        · unfold CGradientBoost.scoreUpTo
          simp
        · intro j1 item1 hitem1
          rw [hzero j1 r item1 hitem1]
    · rw [hct] at hinit
      simp at hinit
  · rw [hst] at hinit
    simp at hinit

theorem initializeState_ok (s : CGradientBoost Tree B)
    (bp : IMultivariateRegressionProblem) (hbp : s.baseProblem = some bp) (hwf : bp.WellFormed)
    (hloss : ∀ v, s.params.LossFunction ≠ TLossFunction.other v) :
    ∃ s0, s.initializeState = (s0, Outcome.ok bp) ∧ s0.params = s.params := by
  obtain ⟨hvs, hvc, hfc, _⟩ := hwf
  obtain ⟨lf, hlf⟩ := createLossFunction_ok s hloss
  unfold CGradientBoost.initializeState
  rw [hbp]
  dsimp only
  rw [if_neg (not_not.mpr (by omega : bp.ValueSize ≥ 1)),
    if_neg (not_not.mpr (by omega : bp.VectorCount > 0)),
    if_neg (not_not.mpr (by omega : bp.FeatureCount > 0)), hlf]
  exact ⟨_, rfl, rfl⟩

/-- The first `initialize` returns when the problem is well formed, the two
enumerations hold known values and the constructors do not raise. -/
theorem initialize_fresh_ok (X : Collaborators Tree B) (s : CGradientBoost Tree B)
    (bp : IMultivariateRegressionProblem) (hbp : s.baseProblem = some bp) (hwf : bp.WellFormed)
    (hloss : ∀ v, s.params.LossFunction ≠ TLossFunction.other v)
    (htb : ∀ v, s.params.TreeBuilder ≠ TGradientBoostTreeBuilder.other v)
    (hcons : X.ConstructorsSucceed) :
    ∃ s1, s.initialize X = (s1, Outcome.ok ()) := by
  obtain ⟨s0, e0, hp0⟩ := initializeState_ok s bp hbp hwf hloss
  obtain ⟨s1, e1⟩ := createTreeBuilder_ok X s0 bp hcons (by rw [hp0]; exact htb)
  refine ⟨s1, ?_⟩
  unfold CGradientBoost.initialize
  rw [e0]
  dsimp only
  rw [e1]

end

section
variable {Tree B : Type}

/-! ## Runs of `TrainStep` -/

theorem construct_fresh (seed : CRandom) (p : CParams) (s0 : CGradientBoost Tree B)
    (h : CGradientBoost.construct seed p = Outcome.ok s0) :
    s0.params = p ∧ s0.baseProblem = none ∧ s0.models = [] ∧ s0.predictCache = [] ∧
    s0.fullSingleClassTreeBuilder = none ∧ s0.fullMultiClassTreeBuilder = none ∧
    s0.fastHistMultiClassTreeBuilder = none ∧
    (0 ≤ p.Subsample ∧ p.Subsample ≤ 1) ∧ (0 ≤ p.Subfeature ∧ p.Subfeature ≤ 1) ∧
    p.IterationsCount > 0 := by
  unfold CGradientBoost.construct processParams at h
  dsimp only at h
  split_ifs at h with a1 a2 a3
  simp only [Outcome.ok.injEq] at h
  subst h
  exact ⟨rfl, rfl, rfl, rfl, rfl, rfl, rfl, a2, a3, a1⟩

theorem CGradientBoost.Ready.stepCount {s : CGradientBoost Tree B}
    {bp : IMultivariateRegressionProblem} {cfg : CParams} {k : Nat} (hR : s.Ready bp cfg k) :
    s.stepCount = (k : Int) := by
  have hpos : 0 < s.models.length := by
    rw [hR.modelsLength]
    have := hR.wellFormed.1
    split_ifs <;> omega
  unfold CGradientBoost.stepCount
  rw [List.getElem?_eq_getElem hpos, Option.getD_some, hR.ensembles _ (List.getElem_mem hpos)]

/-- A call of `TrainStep` on a trainer that holds its adapted problem goes
straight to `trainStep`. -/
theorem TrainStep_ready (X : Collaborators Tree B) (s : CGradientBoost Tree B)
    (problem bp : IMultivariateRegressionProblem) (hbp : s.baseProblem = some bp) :
    s.TrainStep X problem = s.trainStep X := by
  unfold CGradientBoost.TrainStep CGradientBoost.prepareProblem
  rw [hbp]

/-- The first call of `TrainStep` on a trainer without ensembles and cache:
what holds when it returns. -/
theorem TrainStep_first_result (X : Collaborators Tree B) (s s2 : CGradientBoost Tree B)
    (problem : IMultivariateRegressionProblem) (b : Bool)
    (h : s.TrainStep X problem = (s2, Outcome.ok b))
    (hbp : s.baseProblem = none) (hwf : (X.notNullWeightsView problem).WellFormed)
    (hm : s.models = []) (hc : s.predictCache = [])
    (h1 : s.fullSingleClassTreeBuilder = none) (h2 : s.fullMultiClassTreeBuilder = none)
    (h4 : s.fastHistMultiClassTreeBuilder = none)
    (hss : 0 ≤ s.params.Subsample ∧ s.params.Subsample ≤ 1)
    (hsf : 0 ≤ s.params.Subfeature ∧ s.params.Subfeature ≤ 1) (hd : X.DrawsInRange) :
    s2.Ready (X.notNullWeightsView problem) s.params 1 ∧
    s2.CacheInvariant X (X.notNullWeightsView problem) 1 ∧
    b = decide ((1 : Int) ≥ s.params.IterationsCount) ∧
    (∀ (j r : Nat) (item : CPredictionCacheItem),
      CArray.get2? s2.predictCache j r = some item → item.Step = 0) := by
  unfold CGradientBoost.TrainStep CGradientBoost.prepareProblem at h
  rw [hbp] at h
  dsimp only at h
  rcases hi : CGradientBoost.initialize X
      { s with baseProblem := some (X.notNullWeightsView problem) } with ⟨s1, u | e⟩
  · rw [hi] at h
    dsimp only at h
    obtain ⟨R1, I1, z1⟩ := initialize_fresh_result X _ s1 (X.notNullWeightsView problem) hi rfl
      hwf hm hc h1 h2 h4 hss hsf
    obtain ⟨R2, I2, hb, _, hre, hun, _⟩ :=
      trainStep_result X s1 (X.notNullWeightsView problem) s.params 0 R1 I1 hd s2 b h
    refine ⟨R2, I2, by simpa using hb, ?_⟩
    intro j r item hitem
    by_cases hr : (r : Int) ∈ s2.usedVectors
    · simpa using hre _ hr j item (by simpa using hitem)
    · rw [hun j r hr] at hitem
      rw [z1 j r item hitem]
  · rw [hi] at h
    simp at h

/-- The first call of `TrainStep` returns when no constructor and no `Build`
call raises. -/
theorem TrainStep_first_ok (X : Collaborators Tree B) (s : CGradientBoost Tree B)
    (problem : IMultivariateRegressionProblem)
    (hbp : s.baseProblem = none) (hwf : (X.notNullWeightsView problem).WellFormed)
    (hm : s.models = []) (hc : s.predictCache = [])
    (h1 : s.fullSingleClassTreeBuilder = none) (h2 : s.fullMultiClassTreeBuilder = none)
    (h4 : s.fastHistMultiClassTreeBuilder = none)
    (hss : 0 ≤ s.params.Subsample ∧ s.params.Subsample ≤ 1)
    (hsf : 0 ≤ s.params.Subfeature ∧ s.params.Subfeature ≤ 1) (hd : X.DrawsInRange)
    (hloss : ∀ v, s.params.LossFunction ≠ TLossFunction.other v)
    (htb : ∀ v, s.params.TreeBuilder ≠ TGradientBoostTreeBuilder.other v)
    (hcons : X.ConstructorsSucceed) (hb : X.BuildsSucceed) :
    ∃ s2 b, s.TrainStep X problem = (s2, Outcome.ok b) := by
  obtain ⟨s1, hi⟩ := initialize_fresh_ok X
    { s with baseProblem := some (X.notNullWeightsView problem) } (X.notNullWeightsView problem)
    rfl hwf hloss htb hcons
  obtain ⟨R1, I1, _⟩ := initialize_fresh_result X _ s1 (X.notNullWeightsView problem) hi rfl
    hwf hm hc h1 h2 h4 hss hsf
  obtain ⟨s2, b, h⟩ := trainStep_ok X s1 (X.notNullWeightsView problem) s.params 0 R1 I1 hd hb
  refine ⟨s2, b, ?_⟩
  unfold CGradientBoost.TrainStep CGradientBoost.prepareProblem
  rw [hbp]
  dsimp only
  rw [hi]
  exact h

theorem TrainSteps_succ (X : Collaborators Tree B) (problem : IMultivariateRegressionProblem)
    (n : Nat) (s : CGradientBoost Tree B) :
    CGradientBoost.TrainSteps X problem (n + 1) s =
      (((CGradientBoost.TrainSteps X problem n s).1.TrainStep X problem).1,
        (CGradientBoost.TrainSteps X problem n s).2 ++
          [((CGradientBoost.TrainSteps X problem n s).1.TrainStep X problem).2]) := rfl

theorem refreshHistory_fst (X : Collaborators Tree B) (problem : IMultivariateRegressionProblem)
    (n : Nat) (s : CGradientBoost Tree B) :
    (CGradientBoost.refreshHistory X problem n s).1 =
      (CGradientBoost.TrainSteps X problem n s).1 := by
  induction n with
  | zero => rfl
  | succ n ih =>
    rw [TrainSteps_succ]
    show ((CGradientBoost.refreshHistory X problem n s).1.TrainStep X problem).1 = _
    rw [ih]

theorem refreshHistory_snd (X : Collaborators Tree B) (problem : IMultivariateRegressionProblem)
    (n : Nat) (s : CGradientBoost Tree B) (r : Int) :
    (CGradientBoost.refreshHistory X problem (n + 1) s).2 r =
      if r ∈ (CGradientBoost.TrainSteps X problem (n + 1) s).1.usedVectors then
        (CGradientBoost.TrainSteps X problem n s).1.stepCount
      else (CGradientBoost.refreshHistory X problem n s).2 r := by
  rw [TrainSteps_succ, ← refreshHistory_fst]
  rfl

/-- A run of `n` calls of `TrainStep` on a new trainer in which every call
returned: the state is ready with `n` trees in every ensemble, the cache
invariant holds, call `i` returned whether `i + 1` reaches `IterationsCount`,
and every cache entry carries the step recorded in the refresh history. -/
theorem trainSteps_run (X : Collaborators Tree B) (seed : CRandom) (params : CParams)
    (problem : IMultivariateRegressionProblem) (s0 : CGradientBoost Tree B)
    (hc : CGradientBoost.construct seed params = Outcome.ok s0)
    (hwf : (X.notNullWeightsView problem).WellFormed) (hd : X.DrawsInRange) (n : Nat)
    (hok : ∀ o ∈ (CGradientBoost.TrainSteps X problem n s0).2, ∃ b, o = Outcome.ok b) :
    (0 < n → (CGradientBoost.TrainSteps X problem n s0).1.Ready
        (X.notNullWeightsView problem) params n ∧
      (CGradientBoost.TrainSteps X problem n s0).1.CacheInvariant X
        (X.notNullWeightsView problem) n) ∧
    (CGradientBoost.TrainSteps X problem n s0).2 =
      (List.range n).map (fun i => Outcome.ok (decide (((i + 1 : Nat) : Int) ≥
        params.IterationsCount))) ∧
    (∀ (j r : Nat) (item : CPredictionCacheItem),
      CArray.get2? (CGradientBoost.TrainSteps X problem n s0).1.predictCache j r = some item →
        item.Step = (CGradientBoost.refreshHistory X problem n s0).2 (r : Int)) := by
  obtain ⟨f0, f1, f2, f3, f4, f5, f6, f7, f8, f9⟩ := construct_fresh seed params s0 hc
  induction n with
  | zero =>
    refine ⟨fun h => absurd h (by omega), rfl, ?_⟩
    intro j r item hitem
    change CArray.get2? s0.predictCache j r = some item at hitem
    rw [f3] at hitem
    simp [CArray.get2?] at hitem
  | succ n ih =>
    rw [TrainSteps_succ] at hok
    dsimp only at hok
    obtain ⟨ihR, ihO, ihH⟩ := ih (fun o ho => hok o (List.mem_append_left _ ho))
    obtain ⟨b, hb⟩ := hok _ (List.mem_append_right _ (List.mem_singleton_self _))
    have hcall : (CGradientBoost.TrainSteps X problem n s0).1.TrainStep X problem =
        ((CGradientBoost.TrainSteps X problem (n + 1) s0).1, Outcome.ok b) := by
      rw [TrainSteps_succ, ← hb]
    rcases Nat.eq_zero_or_pos n with hn | hn
    · subst hn
      change s0.TrainStep X problem = _ at hcall
      obtain ⟨R2, I2, hbb, hz⟩ := TrainStep_first_result X s0 _ problem b hcall f1 hwf f2 f3 f4
        f5 f6 (by rw [f0]; exact f7) (by rw [f0]; exact f8) hd
      rw [f0] at R2 hbb
      refine ⟨fun _ => ⟨R2, I2⟩, ?_, ?_⟩
      · rw [TrainSteps_succ]
        change [] ++ [(s0.TrainStep X problem).2] = _
        rw [hcall, hbb]
        rfl
      · intro j r item hitem
        rw [refreshHistory_snd, hz j r item hitem]
        change (0 : Int) = if _ then s0.stepCount else 0
        have : s0.stepCount = 0 := by
          unfold CGradientBoost.stepCount; rw [f2]; rfl
        rw [this, ite_self]
    · obtain ⟨R1, I1⟩ := ihR hn
      rw [TrainStep_ready X _ problem _ R1.baseProblem] at hcall
      obtain ⟨R2, I2, hbb, _, hre, hun, _⟩ := trainStep_result X _ _ params n R1 I1 hd _ b hcall
      refine ⟨fun _ => ⟨R2, I2⟩, ?_, ?_⟩
      · rw [TrainSteps_succ, TrainStep_ready X _ problem _ R1.baseProblem, hcall, ihO,
          List.range_succ, List.map_append, hbb]
        rfl
      · intro j r item hitem
        rw [refreshHistory_snd, R1.stepCount]
        by_cases hr : (r : Int) ∈ (CGradientBoost.TrainSteps X problem (n + 1) s0).1.usedVectors
        · rw [if_pos hr]
          exact hre _ hr j item (by simpa using hitem)
        · rw [if_neg hr]
          rw [hun j r hr] at hitem
          exact ihH j r item hitem

/-- Every call of a run of `TrainStep` on a new trainer returns when the
configuration names a known loss and builder, the problem is well formed and no
constructor and no `Build` call raises. -/
theorem trainSteps_all_ok (X : Collaborators Tree B) (seed : CRandom) (params : CParams)
    (problem : IMultivariateRegressionProblem) (s0 : CGradientBoost Tree B)
    (hc : CGradientBoost.construct seed params = Outcome.ok s0)
    (hwf : (X.notNullWeightsView problem).WellFormed) (hd : X.DrawsInRange)
    (hloss : ∀ v, params.LossFunction ≠ TLossFunction.other v)
    (htb : ∀ v, params.TreeBuilder ≠ TGradientBoostTreeBuilder.other v)
    (hcons : X.ConstructorsSucceed) (hb : X.BuildsSucceed) (n : Nat) :
    ∀ o ∈ (CGradientBoost.TrainSteps X problem n s0).2, ∃ b, o = Outcome.ok b := by
  obtain ⟨f0, f1, f2, f3, f4, f5, f6, f7, f8, f9⟩ := construct_fresh seed params s0 hc
  induction n with
  | zero => intro o ho; exact absurd ho (List.not_mem_nil _)
  | succ n ih =>
    intro o ho
    rw [TrainSteps_succ] at ho
    rcases List.mem_append.mp ho with ho | ho
    · exact ih o ho
    · rw [List.mem_singleton] at ho
      subst ho
      rcases Nat.eq_zero_or_pos n with hn | hn
      · subst hn
        obtain ⟨s2, b, h⟩ := TrainStep_first_ok X s0 problem f1 hwf f2 f3 f4 f5 f6
          (by rw [f0]; exact f7) (by rw [f0]; exact f8) hd (by rw [f0]; exact hloss)
          (by rw [f0]; exact htb) hcons hb
        refine ⟨b, ?_⟩
        change (s0.TrainStep X problem).2 = _
        rw [h]
      · obtain ⟨hR, _, _⟩ := trainSteps_run X seed params problem s0 hc hwf hd n ih
        obtain ⟨R1, I1⟩ := hR hn
        obtain ⟨s2, b, h⟩ := trainStep_ok X _ _ params n R1 I1 hd hb
        refine ⟨b, ?_⟩
        rw [TrainStep_ready X _ problem _ R1.baseProblem, h]

end

section
variable {Tree B : Type}

theorem steady_constructorsSucceed : steadyCollaborators.ConstructorsSucceed :=
  ⟨fun _ _ => ⟨0, rfl⟩, fun _ _ => rfl, fun _ _ _ => ⟨0, rfl⟩, fun _ _ _ => rfl⟩

theorem steady_buildsSucceed : steadyCollaborators.BuildsSucceed :=
  ⟨fun _ _ _ _ _ _ _ _ => ⟨_, rfl⟩, fun _ _ _ _ _ _ _ _ => ⟨_, rfl⟩,
    fun _ _ _ _ _ => ⟨_, rfl⟩, fun _ _ _ _ _ => ⟨_, rfl⟩⟩

theorem steady_drawsInRange : steadyCollaborators.DrawsInRange := lcgUniformInt_inRange

theorem demoProblem_wellFormed : demoProblem.WellFormed := by
  refine ⟨by decide, by decide, by decide, rfl, rfl, rfl, rfl, ?_, rfl⟩
  intro v hv
  simp only [demoProblem, List.mem_cons, List.mem_singleton, List.not_mem_nil, or_false] at hv
  rcases hv with h | h | h <;> subst h <;> rfl

theorem sampled_construct :
    CGradientBoost.construct ⟨7⟩ sampledParams = Outcome.ok sampledFresh := by
  decide!

/-- Claim C3: on a newly constructed trainer with `IterationsCount = N`, a well
formed problem, a known loss and builder kind, and constructors and `Build`
calls that never raise, the first `N` calls of `TrainStep` all return: call
number `i + 1` returns `true` exactly when `i + 1 = N`, so `false` on every
call before the last and `true` on the last; afterwards there is at least one
ensemble and every ensemble holds exactly `N` trees. -/
theorem trainStep_true_on_last_call (X : Collaborators Tree B) (seed : CRandom)
    (params : CParams) (problem : IMultivariateRegressionProblem) (s0 : CGradientBoost Tree B)
    (hc : CGradientBoost.construct seed params = Outcome.ok s0)
    (hwf : (X.notNullWeightsView problem).WellFormed) (hd : X.DrawsInRange)
    (hloss : ∀ v, params.LossFunction ≠ TLossFunction.other v)
    (htb : ∀ v, params.TreeBuilder ≠ TGradientBoostTreeBuilder.other v)
    (hcons : X.ConstructorsSucceed) (hb : X.BuildsSucceed) :
    (CGradientBoost.TrainSteps X problem params.IterationsCount.toNat s0).2 =
      (List.range params.IterationsCount.toNat).map
        (fun i => Outcome.ok (decide (i + 1 = params.IterationsCount.toNat))) ∧
    (CGradientBoost.TrainSteps X problem params.IterationsCount.toNat s0).1.models ≠ [] ∧
    ∀ e ∈ (CGradientBoost.TrainSteps X problem params.IterationsCount.toNat s0).1.models,
      e.length = params.IterationsCount.toNat := by
  have hpos : params.IterationsCount > 0 := (construct_fresh seed params s0 hc).2.2.2.2.2.2.2.2.2
  obtain ⟨hR, hO, _⟩ := trainSteps_run X seed params problem s0 hc hwf hd
    params.IterationsCount.toNat
    (trainSteps_all_ok X seed params problem s0 hc hwf hd hloss htb hcons hb _)
  obtain ⟨R, _⟩ := hR (by omega)
  refine ⟨?_, ?_, R.ensembles⟩
  · rw [hO]
    apply List.map_congr_left
    intro i hi
    rw [List.mem_range] at hi
    congr 1
    apply Bool.decide_congr
    constructor
    · intro h; omega
    · intro h; omega
  · intro hnil
    have := R.modelsLength
    rw [hnil] at this
    have hv := R.wellFormed.1
    simp only [List.length_nil] at this
    split_ifs at this
    omega

theorem trainStep_true_on_last_call_witness :
    (CGradientBoost.TrainSteps steadyCollaborators demoProblem 3 demoFresh).2 =
      (List.range 3).map (fun i => Outcome.ok (decide (i + 1 = 3))) ∧
    (CGradientBoost.TrainSteps steadyCollaborators demoProblem 3 demoFresh).1.models ≠ [] ∧
    ∀ e ∈ (CGradientBoost.TrainSteps steadyCollaborators demoProblem 3 demoFresh).1.models,
      e.length = 3 :=
  trainStep_true_on_last_call steadyCollaborators ⟨7⟩ demoParams demoProblem demoFresh rfl
    demoProblem_wellFormed steady_drawsInRange (fun _ h => TLossFunction.noConfusion h)
    (fun _ h => TGradientBoostTreeBuilder.noConfusion h) steady_constructorsSucceed
    steady_buildsSucceed

/-- Claim C4: after any number of calls of `TrainStep` on a newly constructed
trainer that all returned, every entry of the prediction cache holds the
learning rate times the sum of the outputs, on its row, of the trees of its
ensemble with index below its `Step`, and its `Step` is the ensemble length at
the start of the last step whose active set held the row; an entry of a row
that no step has refreshed holds step 0 and value 0. -/
theorem predictCache_invariant (X : Collaborators Tree B) (seed : CRandom)
    (params : CParams) (problem : IMultivariateRegressionProblem) (s0 : CGradientBoost Tree B)
    (n : Nat) (hc : CGradientBoost.construct seed params = Outcome.ok s0)
    (hwf : (X.notNullWeightsView problem).WellFormed) (hd : X.DrawsInRange)
    (hok : ∀ o ∈ (CGradientBoost.TrainSteps X problem n s0).2, ∃ b, o = Outcome.ok b) :
    ∀ (j r : Nat) (item : CPredictionCacheItem),
      CArray.get2? (CGradientBoost.TrainSteps X problem n s0).1.predictCache j r = some item →
        item.Value = (CGradientBoost.TrainSteps X problem n s0).1.scoreUpTo X
          (X.notNullWeightsView problem) j r item.Step ∧
        item.Step = (CGradientBoost.refreshHistory X problem n s0).2 (r : Int) ∧
        ((CGradientBoost.refreshHistory X problem n s0).2 (r : Int) = 0 →
          item = { Step := 0, Value := 0 }) := by
  intro j r item hitem
  obtain ⟨hR, _, hH⟩ := trainSteps_run X seed params problem s0 hc hwf hd n hok
  have hstep := hH j r item hitem
  rcases Nat.eq_zero_or_pos n with hn | hn
  · subst hn
    change CArray.get2? s0.predictCache j r = some item at hitem
    rw [(construct_fresh seed params s0 hc).2.2.2.1] at hitem
    simp [CArray.get2?] at hitem
  · obtain ⟨_, I⟩ := hR hn
    have hval := (I j r item hitem).2.2.1
    refine ⟨hval, hstep, ?_⟩
    intro hz
    rw [hz] at hstep
    have hv : item.Value = 0 := by
      rw [hval, hstep]
      simp [CGradientBoost.scoreUpTo]
    cases item
    simp only at hstep hv
    rw [hstep, hv]

theorem predictCache_invariant_witness :
    (CGradientBoost.TrainSteps steadyCollaborators demoProblem 3 sampledFresh).1.predictCache ≠ [] ∧
    ∀ (j r : Nat) (item : CPredictionCacheItem),
      CArray.get2? (CGradientBoost.TrainSteps steadyCollaborators demoProblem 3
          sampledFresh).1.predictCache j r = some item →
        item.Value = (CGradientBoost.TrainSteps steadyCollaborators demoProblem 3
          sampledFresh).1.scoreUpTo steadyCollaborators
          (steadyCollaborators.notNullWeightsView demoProblem) j r item.Step ∧
        item.Step = (CGradientBoost.refreshHistory steadyCollaborators demoProblem 3
          sampledFresh).2 (r : Int) ∧
        ((CGradientBoost.refreshHistory steadyCollaborators demoProblem 3
            sampledFresh).2 (r : Int) = 0 → item = { Step := 0, Value := 0 }) :=
  ⟨by decide!,
    predictCache_invariant steadyCollaborators ⟨7⟩ sampledParams demoProblem sampledFresh 3 sampled_construct
      demoProblem_wellFormed steady_drawsInRange
      (trainSteps_all_ok steadyCollaborators ⟨7⟩ sampledParams demoProblem sampledFresh sampled_construct
        demoProblem_wellFormed steady_drawsInRange (fun _ h => TLossFunction.noConfusion h)
        (fun _ h => TGradientBoostTreeBuilder.noConfusion h) steady_constructorsSucceed
        steady_buildsSucceed 3)⟩

end

section
variable {Tree B : Type}

/-! ## Failed steps -/

theorem createTreeBuilder_models (X : Collaborators Tree B) (s : CGradientBoost Tree B)
    (bp : IMultivariateRegressionProblem) : (s.createTreeBuilder X bp).1.models = s.models := by
  have hfull : ∀ multi, (s.createFullTreeBuilder X bp multi).1.models = s.models := by
    intro multi
    unfold CGradientBoost.createFullTreeBuilder
    dsimp only
    split
    · rfl
    · split
      · split <;> rfl
      · split <;> rfl
  have hfast : ∀ multi, (s.createFastHistTreeBuilder X bp multi).1.models = s.models := by
    intro multi
    unfold CGradientBoost.createFastHistTreeBuilder
    dsimp only
    split
    · rfl
    · split
      · split <;> rfl
      · split <;> rfl
  unfold CGradientBoost.createTreeBuilder
  split
  · exact hfull _
  · exact hfull _
  · exact hfast _
  · exact hfast _
  · rfl

theorem scoreUpTo_congr (X : Collaborators Tree B) (s s1 : CGradientBoost Tree B)
    (bp : IMultivariateRegressionProblem) (hm : s1.models = s.models)
    (hp : s1.params.fixed = s.params.fixed) (j r : Nat) (step : Int) :
    s1.scoreUpTo X bp j r step = s.scoreUpTo X bp j r step := by
  have hlr : s1.params.LearningRate = s.params.LearningRate := by
    have : s1.params.fixed.LearningRate = s.params.fixed.LearningRate :=
      congrArg CParams.LearningRate hp
    exact this
  have htb : s1.params.TreeBuilder = s.params.TreeBuilder := by
    have : s1.params.fixed.TreeBuilder = s.params.fixed.TreeBuilder :=
      congrArg CParams.TreeBuilder hp
    exact this
  have hmulti : s1.isMultiTreesModel = s.isMultiTreesModel := by
    unfold CGradientBoost.isMultiTreesModel; rw [htb]
  unfold CGradientBoost.scoreUpTo CGradientBoost.ensembleOf CGradientBoost.outputOf
  rw [hlr, hm, hmulti]

end

section
variable {Tree B : Type}

theorem getElem?_SetSize {α : Type} (arr : List α) (n : Int) (d : α) (j : Nat) (x : α)
    (h : (CArray.SetSize arr n d)[j]? = some x) :
    arr[j]? = some x ∨ (arr[j]? = none ∧ x = d) := by
  unfold CArray.SetSize at h
  by_cases hj : j < (arr.take n.toNat).length
  · rw [List.getElem?_append_left hj, List.getElem?_take_of_lt (by
      rw [List.length_take] at hj; omega)] at h
    exact Or.inl h
  · rw [List.getElem?_append_right (by omega)] at h
    have hx := List.getElem?_mem h
    rw [List.eq_of_mem_replicate hx]
    have hlt := (List.getElem?_eq_some_iff.mp h).1
    rw [List.length_replicate, List.length_take] at hlt
    rw [List.length_take] at hj
    exact Or.inr ⟨List.getElem?_eq_none (by omega), rfl⟩

theorem prepareProblem_models (X : Collaborators Tree B) (s s1 : CGradientBoost Tree B)
    (problem : IMultivariateRegressionProblem)
    (h : s.prepareProblem X problem = (s1, Outcome.ok ())) :
    (s.baseProblem.isSome → s1 = s) ∧
    (s.baseProblem = none → s1.models =
      CArray.SetSize s.models
        (if s.isMultiTreesModel then 1 else (X.notNullWeightsView problem).ValueSize) []) := by
  unfold CGradientBoost.prepareProblem at h
  rcases hbp : s.baseProblem with _ | bp
  · rw [hbp] at h
    dsimp only at h
    refine ⟨fun hs => by simp at hs, fun _ => ?_⟩
    unfold CGradientBoost.initialize at h
    rcases hst : CGradientBoost.initializeState
        { s with baseProblem := some (X.notNullWeightsView problem) } with ⟨s0, bp1 | e⟩
    · rw [hst] at h
      dsimp only at h
      obtain ⟨hb1, _, _, _, lf, _, q0⟩ :=
        initializeState_result _ s0 (X.notNullWeightsView problem) bp1 rfl hst
      subst hb1
      have hm := createTreeBuilder_models X s0 (X.notNullWeightsView problem)
      rcases hct : s0.createTreeBuilder X (X.notNullWeightsView problem) with ⟨sc, u | e⟩
      · rw [hct] at h hm
        simp only [Prod.mk.injEq, and_true] at h
        subst h
        rw [hm, q0]
        rfl
      · rw [hct] at h
        simp at h
    · rw [hst] at h
      simp at h
  · rw [hbp] at h
    simp only [Prod.mk.injEq, and_true] at h
    exact ⟨fun _ => h.symm, fun hn => by simp at hn⟩

/-- Claim C10: when the `try` block of `trainStep` raises, `trainStep` raises
the same exception and leaves the four tree-builder handles, `fullProblem`,
`fastHistProblem` and `baseProblem` null; the same holds for `initialize` when
`createTreeBuilder` raises; and on a trainer in that state `prepareProblem`,
the first statement of `TrainStep` and of the `Get...Model` methods, adapts the
problem it is given and runs `initialize`, so `TrainStep` is that
initialization followed by `trainStep`. -/
theorem exception_tears_down (X : Collaborators Tree B) (e : Exn) :
    (∀ s : CGradientBoost Tree B, (s.trainStepTry X).2 = Outcome.throw e →
      (s.trainStep X).2 = Outcome.throw e ∧ (s.trainStep X).1.TornDown) ∧
    (∀ (s s0 : CGradientBoost Tree B) (bp : IMultivariateRegressionProblem),
      s.initializeState = (s0, Outcome.ok bp) →
      (s0.createTreeBuilder X bp).2 = Outcome.throw e →
      ( s.initialize X).2 = Outcome.throw e ∧ ( s.initialize X).1.TornDown) ∧
    (∀ (t : CGradientBoost Tree B) (problem : IMultivariateRegressionProblem), t.TornDown →
      t.prepareProblem X problem = CGradientBoost.initialize X
        { t with baseProblem := some (X.notNullWeightsView problem) } ∧
      t.TrainStep X problem =
        match CGradientBoost.initialize X
          { t with baseProblem := some (X.notNullWeightsView problem) } with
        | (s1, Outcome.throw e1) => (s1, Outcome.throw e1)
        | (s1, Outcome.ok _) => s1.trainStep X) := by
  refine ⟨?_, ?_, ?_⟩
  · intro s h
    obtain ⟨h1, h2, _⟩ := trainStep_tornDown X s e h
    exact ⟨h1, h2⟩
  · intro s s0 bp h1 h2
    exact initialize_tornDown X s s0 bp e h1 h2
  · intro t problem ht
    have hp := prepareProblem_tornDown X t ht problem
    refine ⟨hp, ?_⟩
    unfold CGradientBoost.TrainStep
    rw [hp]

theorem exception_tears_down_witness :
    (((demoAfterOne 2).trainStep (demoCollaborators 2 false)).2 = Outcome.throw (Exn.raised 7) ∧
      ((demoAfterOne 2).trainStep (demoCollaborators 2 false)).1.TornDown) ∧
    (( CGradientBoost.initialize (demoCollaborators 0 true)
        { demoFresh with baseProblem := some demoProblem }).2 = Outcome.throw (Exn.raised 5) ∧
      ( CGradientBoost.initialize (demoCollaborators 0 true)
        { demoFresh with baseProblem := some demoProblem }).1.TornDown) :=
  ⟨(exception_tears_down (demoCollaborators 2 false) (Exn.raised 7)).1 (demoAfterOne 2)
      (by decide!),
    (exception_tears_down (demoCollaborators 0 true) (Exn.raised 5)).2.1
      { demoFresh with baseProblem := some demoProblem }
      (CGradientBoost.initializeState
        { demoFresh with baseProblem := some demoProblem }).1 demoProblem
      (by decide!) (by decide!)⟩

end

section
variable {Tree B : Type}

end

section
variable {Tree B : Type}

/-! ## Serialization -/

theorem loadCacheItems_store (row : List CPredictionCacheItem) (rest : List ArchiveItem) :
    loadCacheItems row.length ((row.map storeCacheItem).flatten ++ rest) = some (row, rest) := by
  induction row with
  | nil => rfl
  | cons item row ih =>
    show loadCacheItems (row.length + 1) (ArchiveItem.int item.Step ::
      ArchiveItem.double item.Value :: ((row.map storeCacheItem).flatten ++ rest)) = _
    rw [loadCacheItems, ih]

theorem loadCacheRows_store (rows : List (List CPredictionCacheItem)) (rest : List ArchiveItem) :
    loadCacheRows rows.length ((rows.map storeCacheRow).flatten ++ rest) = some (rows, rest) := by
  induction rows with
  | nil => rfl
  | cons row rows ih =>
    simp only [List.length_cons, List.map_cons, List.flatten_cons, storeCacheRow,
      List.cons_append, List.append_assoc]
    rw [loadCacheRows, if_neg (by omega), Int.toNat_ofNat, loadCacheItems_store]
    dsimp only
    rw [ih]

theorem loadPredictCache_store (cache : List (List CPredictionCacheItem))
    (rest : List ArchiveItem) :
    loadPredictCache (storePredictCache cache ++ rest) = some (cache, rest) := by
  simp only [storePredictCache, List.cons_append, loadPredictCache]
  rw [if_neg (by omega), Int.toNat_ofNat, loadCacheRows_store]

theorem loadTrees_store (X : Collaborators Tree B)
    (htree : ∀ t rest, X.loadTree (X.storeTree t ++ rest) = some (t, rest))
    (ensemble : List Tree) (rest : List ArchiveItem) :
    loadTrees X ensemble.length ((ensemble.map X.storeTree).flatten ++ rest) =
      some (ensemble, rest) := by
  induction ensemble with
  | nil => rfl
  | cons t ensemble ih =>
    simp only [List.length_cons, List.map_cons, List.flatten_cons, List.append_assoc]
    rw [loadTrees, htree]
    dsimp only
    rw [ih]

theorem loadEnsemble_loop (X : Collaborators Tree B)
    (htree : ∀ t rest, X.loadTree (X.storeTree t ++ rest) = some (t, rest))
    (models : List (List Tree)) (count : Nat) (hlen : ∀ e ∈ models, e.length = count)
    (rest : List ArchiveItem) :
    forLoop (loadEnsembleBody X count) (List.range models.length)
      (List.replicate models.length [],
        (models.map (fun ensemble => (ensemble.map X.storeTree).flatten)).flatten ++ rest) =
      ((models, rest), Outcome.ok ()) := by
  have h := forLoop_range_steps (loadEnsembleBody X count) models.length
    (fun i => (models.take i ++ (List.replicate models.length ([] : List Tree)).drop i,
      ((models.drop i).map (fun ensemble => (ensemble.map X.storeTree).flatten)).flatten ++ rest))
    (by
      intro i hi
      have hget : (models.take i ++ (List.replicate models.length ([] : List Tree)).drop i)[i]? =
          some [] := by
        rw [List.getElem?_append_right (by simp), List.getElem?_drop]
        simp only [List.length_take]
        rw [List.getElem?_replicate]
        rw [if_pos (by omega)]
      have hdrop : models.drop i = models[i] :: models.drop (i + 1) :=
        List.drop_eq_getElem_cons hi
      unfold loadEnsembleBody
      dsimp only
      rw [hget]
      dsimp only
      rw [hdrop, List.map_cons, List.flatten_cons, List.append_assoc]
      have hl := hlen _ (List.getElem_mem hi)
      have hld := loadTrees_store X htree models[i]
        (((models.drop (i + 1)).map (fun ensemble => (ensemble.map X.storeTree).flatten)).flatten
          ++ rest)
      rw [hl] at hld
      rw [hld]
      dsimp only
      have hset := take_append_drop_set models (List.replicate models.length ([] : List Tree)) i hi
        (List.length_replicate _ _)
      rw [List.get_eq_getElem] at hset
      rw [hset])
  simpa using h

end

section
variable {Tree B : Type}

theorem loadCache_store (s : CGradientBoost Tree B) (cache : List (List CPredictionCacheItem))
    (rest : List ArchiveItem) :
    s.loadCache (storePredictCache cache ++ rest) =
      (({ s with predictCache := cache }, rest), Outcome.ok ()) := by
  unfold CGradientBoost.loadCache
  rw [loadPredictCache_store]

/-- Claim C7: serialization round trip.  For a trainer whose ensembles all have
the length of ensemble 0, and a tree node whose own `Serialize` reads back what
it wrote, storing writes the ensemble count, then (when the count is positive)
the length of ensemble 0 and the trees ensemble by ensemble, iteration by
iteration, then the prediction cache; and loading what was written into a
trainer without ensembles gives a trainer with the same `models` (the same
number of ensembles, the same tree at every position) and the same
`predictCache` (the same `Step` and `Value` at every output and row), the rest
of the archive left to be read. -/
theorem serialize_round_trip (X : Collaborators Tree B) (s fresh : CGradientBoost Tree B)
    (htree : ∀ t rest, X.loadTree (X.storeTree t ++ rest) = some (t, rest))
    (hlen : ∀ e ∈ s.models, e.length = ((s.models[0]?).getD []).length)
    (hfresh : fresh.models = []) :
    ∃ written : List ArchiveItem,
      s.Serialize X ⟨true, []⟩ = ((s, ⟨true, written⟩), Outcome.ok ()) ∧
      written = ArchiveItem.int s.models.length ::
        ((if 0 < s.models.length then [ArchiveItem.int ((s.models[0]?).getD []).length]
          else []) ++
        ((s.models.map (fun ensemble => (ensemble.map X.storeTree).flatten)).flatten ++
          storePredictCache s.predictCache)) ∧
      ∀ rest : List ArchiveItem,
        fresh.Serialize X ⟨false, written ++ rest⟩ =
          (({ fresh with models := s.models, predictCache := s.predictCache }, ⟨false, rest⟩),
            Outcome.ok ()) := by
  rcases hm : s.models with _ | ⟨first, others⟩
  · refine ⟨_, ?_, rfl, ?_⟩
    · simp [CGradientBoost.Serialize, CGradientBoost.store, hm]
    · intro rest
      simp only [CGradientBoost.Serialize, List.length_nil, lt_irrefl, if_false, List.map_nil,
        List.flatten_nil, List.nil_append, List.cons_append, CGradientBoost.load, Nat.cast_zero,
        gt_iff_lt, Bool.false_eq_true]
      rw [loadCache_store, ← hfresh]
  · rw [hm] at hlen
    simp only [List.getElem?_cons_zero, Option.getD_some] at hlen ⊢
    have hpos : ((first :: others).length : Int) > 0 := by
      simp only [List.length_cons]; omega
    have hpos2 : 0 < (first :: others).length := Nat.succ_pos _
    refine ⟨_, ?_, rfl, ?_⟩
    · unfold CGradientBoost.Serialize CGradientBoost.store
      rw [hm]
      simp only [if_true, hpos, hpos2, List.getElem?_cons_zero, List.nil_append,
        List.singleton_append]
    · intro rest
      simp only [hpos2, if_true, CGradientBoost.Serialize, Bool.false_eq_true, if_false,
        List.cons_append, List.nil_append, List.append_assoc, CGradientBoost.load, hpos, hfresh,
        CArray.SetSize, List.take_nil, List.length_nil, Nat.sub_zero, Int.toNat_ofNat]
      by_cases hL : ((first.length : Nat) : Int) > 0
      · rw [if_pos hL, List.length_replicate,
          loadEnsemble_loop X htree (first :: others) first.length hlen]
        dsimp only
        rw [loadCache_store]
      · rw [if_neg hL]
        have hz : first.length = 0 := by omega
        have hall : first :: others = List.replicate (first :: others).length [] := by
          rw [List.eq_replicate_iff]
          refine ⟨rfl, fun e he => ?_⟩
          have := hlen e he
          rw [hz] at this
          exact List.length_eq_zero.mp this
        have hflat : ((first :: others).map
            (fun ensemble => (ensemble.map X.storeTree).flatten)).flatten = [] := by
          rw [List.flatten_eq_nil_iff]
          intro l hl
          obtain ⟨e, he, rfl⟩ := List.mem_map.mp hl
          have := hlen e he
          rw [hz] at this
          rw [List.length_eq_zero.mp this]
          rfl
        rw [hflat, List.nil_append, loadCache_store, ← hall]

theorem serialize_round_trip_witness :
    ∃ written : List ArchiveItem,
      (CGradientBoost.TrainSteps steadyCollaborators demoProblem 2 demoFresh).1.Serialize
        steadyCollaborators ⟨true, []⟩ =
        (((CGradientBoost.TrainSteps steadyCollaborators demoProblem 2 demoFresh).1,
          ⟨true, written⟩), Outcome.ok ()) ∧
      written = ArchiveItem.int
          (CGradientBoost.TrainSteps steadyCollaborators demoProblem 2 demoFresh).1.models.length ::
        ((if 0 < (CGradientBoost.TrainSteps steadyCollaborators demoProblem 2
            demoFresh).1.models.length then
          [ArchiveItem.int (((CGradientBoost.TrainSteps steadyCollaborators demoProblem 2
            demoFresh).1.models[0]?).getD []).length]
          else []) ++
        (((CGradientBoost.TrainSteps steadyCollaborators demoProblem 2 demoFresh).1.models.map
          (fun ensemble => (ensemble.map steadyCollaborators.storeTree).flatten)).flatten ++
          storePredictCache
            (CGradientBoost.TrainSteps steadyCollaborators demoProblem 2
              demoFresh).1.predictCache)) ∧
      ∀ rest : List ArchiveItem,
        demoFresh.Serialize steadyCollaborators ⟨false, written ++ rest⟩ =
          (({ demoFresh with
              models :=
                (CGradientBoost.TrainSteps steadyCollaborators demoProblem 2 demoFresh).1.models
              predictCache :=
                (CGradientBoost.TrainSteps steadyCollaborators demoProblem 2
                  demoFresh).1.predictCache }, ⟨false, rest⟩),
            Outcome.ok ()) :=
  serialize_round_trip steadyCollaborators
    (CGradientBoost.TrainSteps steadyCollaborators demoProblem 2 demoFresh).1 demoFresh
    (fun _ _ => rfl) (by decide!) rfl

end

/-! ## The mean loss and the shape of the statistics -/

section LossMeanTheorems

variable {K : Type} [LinearOrderedField K]

theorem sameShape_rows {α : Type} (predicts answers : List (List α))
    (h : predicts.map List.length = answers.map List.length) :
    predicts.length = answers.length ∧
    ∀ (i : Nat) (prow arow : List α), predicts[i]? = some prow → answers[i]? = some arow →
      prow.length = arow.length := by
  have hl : predicts.length = answers.length := by
    have := congrArg List.length h
    simpa using this
  refine ⟨hl, ?_⟩
  intro i prow arow hp ha
  have h1 : (predicts.map List.length)[i]? = some prow.length := by
    rw [List.getElem?_map, hp]; rfl
  have h2 : (answers.map List.length)[i]? = some arow.length := by
    rw [List.getElem?_map, ha]; rfl
  rw [h] at h1
  rw [h1] at h2
  exact Option.some.inj h2

theorem lossTerm_loop (term : K → K → K) (predicts answers : List (List K)) (i : Nat)
    (prow arow : List K) (hp : predicts[i]? = some prow) (ha : answers[i]? = some arow)
    (hle : prow.length ≤ arow.length) :
    forLoop (lossTermBody term predicts answers i) (List.range prow.length) 0 =
      ((List.zipWith term prow arow).sum, Outcome.ok ()) := by
  have hzl : (List.zipWith term prow arow).length = prow.length := by
    simp [List.length_zipWith]; omega
  have h := forLoop_range_steps (lossTermBody term predicts answers i) prow.length
    (fun j => ((List.zipWith term prow arow).take j).sum)
    (by
      intro j hj
      have hj2 : j < arow.length := by omega
      have g1 : CArray.get2? predicts i j = some prow[j] := by
        simp [CArray.get2?, hp, List.getElem?_eq_getElem hj]
      have g2 : CArray.get2? answers i j = some arow[j] := by
        simp [CArray.get2?, ha, List.getElem?_eq_getElem hj2]
      unfold lossTermBody
      rw [g1, g2]
      dsimp only
      have hjz : j < (List.zipWith term prow arow).length := by omega
      rw [List.sum_take_succ _ _ hjz, List.getElem_zipWith])
  simp only [List.take_zero, List.sum_nil] at h
  rw [h, List.take_of_length_le (by omega)]

theorem lossRow_loop (term : K → K → K) (predicts answers : List (List K))
    (hlen : predicts.length = answers.length)
    (hrows : ∀ (i : Nat) (prow arow : List K), predicts[i]? = some prow →
      answers[i]? = some arow → prow.length ≤ arow.length) :
    forLoop (lossRowBody term predicts answers) (List.range predicts.length) 0 =
      ((List.zipWith (fun prow arow => getMean (List.zipWith term prow arow).sum
          (prow.length : Int)) predicts answers).sum, Outcome.ok ()) := by
  have hzl : (List.zipWith (fun prow arow => getMean (List.zipWith term prow arow).sum
      (prow.length : Int)) predicts answers).length = predicts.length := by
    simp [List.length_zipWith, hlen]
  have h := forLoop_range_steps (lossRowBody term predicts answers) predicts.length
    (fun i => ((List.zipWith (fun prow arow => getMean (List.zipWith term prow arow).sum
      (prow.length : Int)) predicts answers).take i).sum)
    (by
      intro i hi
      have hi2 : i < answers.length := by omega
      have hp : predicts[i]? = some predicts[i] := List.getElem?_eq_getElem hi
      have ha : answers[i]? = some answers[i] := List.getElem?_eq_getElem hi2
      unfold lossRowBody
      rw [hp]
      dsimp only
      rw [lossTerm_loop term predicts answers i _ _ hp ha (hrows i _ _ hp ha)]
      dsimp only
      have hiz : i < (List.zipWith (fun prow arow => getMean (List.zipWith term prow arow).sum
          (prow.length : Int)) predicts answers).length := by omega
      rw [List.sum_take_succ _ _ hiz, List.getElem_zipWith])
  simp only [List.take_zero, List.sum_nil] at h
  rw [h, List.take_of_length_le (by omega)]

theorem getMean_eq_meanOrZero (values : List K) (n : Nat) (h : values.length = n) :
    getMean values.sum (n : Int) = meanOrZero values := by
  unfold getMean meanOrZero
  rw [h]
  by_cases hn : n = 0
  · simp [hn]
  · rw [if_pos (by exact_mod_cast hn), if_neg hn]
    simp

theorem calcLossMeanWith_eq (term : K → K → K) (predicts answers : List (List K))
    (hlen : predicts.length = answers.length)
    (hrows : ∀ (i : Nat) (prow arow : List K), predicts[i]? = some prow →
      answers[i]? = some arow → prow.length ≤ arow.length) :
    calcLossMeanWith term predicts answers =
      Outcome.ok (meanOfMeans term predicts answers) := by
  unfold calcLossMeanWith
  rw [if_neg (not_not.mpr hlen), lossRow_loop term predicts answers hlen hrows]
  dsimp only
  have hrow : List.zipWith (fun prow arow => getMean (List.zipWith term prow arow).sum
      (prow.length : Int)) predicts answers =
      List.zipWith (fun prow arow => meanOrZero (List.zipWith term prow arow))
        predicts answers := by
    apply List.ext_getElem
    · simp [List.length_zipWith]
    · intro i h1 h2
      simp only [List.length_zipWith] at h1
      have hi : i < predicts.length := by omega
      have hi2 : i < answers.length := by omega
      rw [List.getElem_zipWith, List.getElem_zipWith]
      have hle := hrows i _ _ (List.getElem?_eq_getElem hi) (List.getElem?_eq_getElem hi2)
      exact getMean_eq_meanOrZero _ _ (by simp [List.length_zipWith]; omega)
  rw [hrow]
  unfold meanOfMeans
  rw [getMean_eq_meanOrZero _ _ (by simp [List.length_zipWith, hlen])]

end LossMeanTheorems

theorem get2?_entryRows {K : Type} (f : K → K → K) (predicts answers : List (List K)) (i j : Nat)
    (p a : K) (hp : CArray.get2? predicts i j = some p)
    (ha : CArray.get2? answers i j = some a) :
    CArray.get2? (entryRows f predicts answers) i j = some (f p a) := by
  unfold CArray.get2? at hp ha ⊢
  rcases hpi : predicts[i]? with _ | prow
  · rw [hpi] at hp; simp at hp
  · rcases hai : answers[i]? with _ | arow
    · rw [hai] at ha; simp at ha
    · rw [hpi] at hp
      rw [hai] at ha
      dsimp only at hp ha
      have : (entryRows f predicts answers)[i]? = some (List.zipWith f prow arow) := by
        unfold entryRows
        rw [List.getElem?_zipWith, hpi, hai]
      rw [this]
      dsimp only
      rw [List.getElem?_zipWith, hp, ha]

theorem entryRows_lengths {K : Type} (f : K → K → K) (predicts answers : List (List K))
    (h : predicts.map List.length = answers.map List.length) :
    (entryRows f predicts answers).map List.length = predicts.map List.length := by
  obtain ⟨hl, hr⟩ := sameShape_rows predicts answers h
  apply List.ext_getElem
  · simp [entryRows, List.length_zipWith, hl]
  · intro i h1 h2
    simp only [List.length_map] at h2
    have hi2 : i < answers.length := by omega
    simp only [List.getElem_map, entryRows, List.getElem_zipWith, List.length_zipWith]
    have := hr i _ _ (List.getElem?_eq_getElem h2) (List.getElem?_eq_getElem hi2)
    omega

section LossClaims

variable {K : Type} [LinearOrderedField K]

/-- Claim C12: for the squared-hinge loss, with `t = -(2y-1)` for the target
`y` of a prediction `p`, `CalcGradientAndHessian` returns and writes at every
position the gradient `2*t*(t*p - 1)` and the Hessian `2*t^2` when `t*p < 1`,
and the gradient 0 and the Hessian `1e-16` otherwise; and `CalcLossMean`
returns the mean over the outputs of the mean over the rows of
`max(0, 1 - (2y-1)*p)^2`. -/
theorem squaredHinge_gradient_hessian_loss (exp log : K → K)
    (predicts answers gradients hessians : List (List K))
    (hshape : predicts.map List.length = answers.map List.length) :
    (∃ g h : List (List K),
      IGradientBoostingLossFunction.CalcGradientAndHessian exp
        IGradientBoostingLossFunction.CGradientBoostingSquaredHinge predicts answers
        gradients hessians = ((g, h), Outcome.ok ()) ∧
      ∀ (i j : Nat) (p y : K), CArray.get2? predicts i j = some p →
        CArray.get2? answers i j = some y →
        CArray.get2? g i j =
          some (if -(2 * y - 1) * p < 1 then 2 * (-(2 * y - 1)) * (-(2 * y - 1) * p - 1)
            else 0) ∧
        CArray.get2? h i j =
          some (if -(2 * y - 1) * p < 1 then 2 * (-(2 * y - 1)) ^ 2 else 1 / 10 ^ 16)) ∧
    IGradientBoostingLossFunction.CalcLossMean exp log
      IGradientBoostingLossFunction.CGradientBoostingSquaredHinge predicts answers =
      Outcome.ok (meanOfMeans (fun p y => (max 0 (1 - (2 * y - 1) * p)) ^ 2) predicts answers) := by
  obtain ⟨hlen, hrows⟩ := sameShape_rows predicts answers hshape
  have hle : ∀ (i : Nat) (prow arow : List K), predicts[i]? = some prow →
      answers[i]? = some arow → prow.length ≤ arow.length :=
    fun i prow arow hp ha => le_of_eq (hrows i prow arow hp ha)
  constructor
  · refine ⟨_, _, calcGradientAndHessianWith_eq _ predicts answers gradients hessians hlen hle,
      ?_⟩
    intro i j p y hp hy
    rw [get2?_entryRows _ predicts answers i j p y hp hy,
      get2?_entryRows _ predicts answers i j p y hp hy]
    simp only [IGradientBoostingLossFunction.entry, squaredHingeEntry, hessianFloor]
    constructor
    · split_ifs <;> rfl
    · split_ifs
      · congr 1; ring
      · rfl
  · unfold IGradientBoostingLossFunction.CalcLossMean
    rw [calcLossMeanWith_eq _ predicts answers hlen hle]
    have hf : IGradientBoostingLossFunction.term exp log
        IGradientBoostingLossFunction.CGradientBoostingSquaredHinge =
        fun (p y : K) => (max 0 (1 - (2 * y - 1) * p)) ^ 2 := by
      funext p y
      simp only [IGradientBoostingLossFunction.term, squaredHingeTerm]
      ring
    rw [hf]

/-- Claim C13: for each of the four loss classes, when `predicts` and `answers`
have different numbers of outputs, `CalcGradientAndHessian` fails by assertion
and leaves the gradient and Hessian arrays as they were, and `CalcLossMean`
fails by assertion. -/
theorem loss_size_mismatch_asserts (exp log : K → K) (lf : IGradientBoostingLossFunction)
    (predicts answers gradients hessians : List (List K))
    (h : predicts.length ≠ answers.length) :
    lf.CalcGradientAndHessian exp predicts answers gradients hessians =
      ((gradients, hessians), Outcome.throw Exn.assertion) ∧
    lf.CalcLossMean exp log predicts answers = Outcome.throw Exn.assertion := by
  constructor
  · unfold IGradientBoostingLossFunction.CalcGradientAndHessian calcGradientAndHessianWith
    rw [if_pos h]
  · unfold IGradientBoostingLossFunction.CalcLossMean calcLossMeanWith
    rw [if_pos h]

/-- Claim C19: for each of the four loss classes and predictions and targets of
the same shape, `CalcGradientAndHessian` returns and leaves `gradients` and
`hessians` with the shape of `predicts`, the same number of outputs and
`predicts[i].Size()` entries for every output, whatever the two arrays held
before the call. -/
theorem gradient_hessian_shape (exp : K → K) (lf : IGradientBoostingLossFunction)
    (predicts answers gradients hessians : List (List K))
    (hshape : predicts.map List.length = answers.map List.length) :
    ∃ g h : List (List K),
      lf.CalcGradientAndHessian exp predicts answers gradients hessians =
        ((g, h), Outcome.ok ()) ∧
      g.map List.length = predicts.map List.length ∧
      h.map List.length = predicts.map List.length := by
  obtain ⟨hlen, hrows⟩ := sameShape_rows predicts answers hshape
  exact ⟨_, _, calcGradientAndHessianWith_eq _ predicts answers gradients hessians hlen
      (fun i prow arow hp ha => le_of_eq (hrows i prow arow hp ha)),
    entryRows_lengths _ predicts answers hshape, entryRows_lengths _ predicts answers hshape⟩

end LossClaims

theorem squaredHinge_gradient_hessian_loss_witness :
    (∃ g h : List (List ℚ),
      IGradientBoostingLossFunction.CalcGradientAndHessian (fun _ => (1 : ℚ))
        IGradientBoostingLossFunction.CGradientBoostingSquaredHinge [[0], [3, 1]]
        [[1], [0, 1]] [[7, 7, 7]] [] = ((g, h), Outcome.ok ()) ∧
      ∀ (i j : Nat) (p y : ℚ), CArray.get2? [[0], [3, 1]] i j = some p →
        CArray.get2? [[1], [0, 1]] i j = some y →
        CArray.get2? g i j =
          some (if -(2 * y - 1) * p < 1 then 2 * (-(2 * y - 1)) * (-(2 * y - 1) * p - 1)
            else 0) ∧
        CArray.get2? h i j =
          some (if -(2 * y - 1) * p < 1 then 2 * (-(2 * y - 1)) ^ 2 else 1 / 10 ^ 16)) ∧
    IGradientBoostingLossFunction.CalcLossMean (fun _ => (1 : ℚ)) (fun _ => 0)
      IGradientBoostingLossFunction.CGradientBoostingSquaredHinge [[0], [3, 1]] [[1], [0, 1]] =
      Outcome.ok (meanOfMeans (fun p y => (max 0 (1 - (2 * y - 1) * p)) ^ 2) [[0], [3, 1]]
        [[1], [0, 1]]) :=
  squaredHinge_gradient_hessian_loss (fun _ => (1 : ℚ)) (fun _ => 0) [[0], [3, 1]]
    [[1], [0, 1]] [[7, 7, 7]] [] (by decide)

theorem loss_size_mismatch_asserts_witness :
    IGradientBoostingLossFunction.CalcGradientAndHessian (fun _ => (1 : ℚ))
      IGradientBoostingLossFunction.CGradientBoostingSquareLoss [[0], [3, 1]] [[1]]
      [[7, 7, 7]] [] = (([[7, 7, 7]], []), Outcome.throw Exn.assertion) ∧
    IGradientBoostingLossFunction.CalcLossMean (fun _ => (1 : ℚ)) (fun _ => 0)
      IGradientBoostingLossFunction.CGradientBoostingSquareLoss [[0], [3, 1]] [[1]] =
      Outcome.throw Exn.assertion :=
  loss_size_mismatch_asserts (fun _ => (1 : ℚ)) (fun _ => 0)
    IGradientBoostingLossFunction.CGradientBoostingSquareLoss [[0], [3, 1]] [[1]]
    [[7, 7, 7]] [] (by decide)

theorem gradient_hessian_shape_witness :
    ∃ g h : List (List ℚ),
      IGradientBoostingLossFunction.CalcGradientAndHessian (fun _ => (1 : ℚ))
        IGradientBoostingLossFunction.CGradientBoostingBinomialLossFunction [[0], [3, 1]]
        [[1], [0, 1]] [[7, 7, 7]] [] = ((g, h), Outcome.ok ()) ∧
      g.map List.length = [[(0 : ℚ)], [3, 1]].map List.length ∧
      h.map List.length = [[(0 : ℚ)], [3, 1]].map List.length :=
  gradient_hessian_shape (fun _ => (1 : ℚ))
    IGradientBoostingLossFunction.CGradientBoostingBinomialLossFunction [[0], [3, 1]]
    [[1], [0, 1]] [[7, 7, 7]] [] (by decide)

/-! ## The DLL loader -/

section DllLoaderTheorems

variable {D E : Type}

theorem freeVulkan_valid (X : DllClasses D E) (t : CDllLoader D E) (h : t.CountsValid)
    (hc : t.vulkanDllLinkCount > 0) : (CDllLoader.freeVulkan X t).CountsValid := by
  obtain ⟨a1, a2, a3, a4, a5⟩ := h
  unfold CDllLoader.freeVulkan
  dsimp only
  split_ifs
  · exact ⟨show (0 : Int) ≤ t.vulkanDllLinkCount - 1 by omega, a2, a3, a4, a5⟩
  · exact ⟨show (0 : Int) ≤ t.vulkanDllLinkCount - 1 by omega, a2, a3, a4, a5⟩

theorem freeCuda_valid (X : DllClasses D E) (t : CDllLoader D E) (h : t.CountsValid)
    (hc : t.cudaDllLinkCount > 0) : (CDllLoader.freeCuda X t).CountsValid := by
  obtain ⟨a1, a2, a3, a4, a5⟩ := h
  unfold CDllLoader.freeCuda
  dsimp only
  split_ifs
  · exact ⟨a1, show (0 : Int) ≤ t.cudaDllLinkCount - 1 by omega, a3, a4, rfl⟩
  · exact ⟨a1, show (0 : Int) ≤ t.cudaDllLinkCount - 1 by omega, a3, a4, a5⟩

theorem freeNccl_valid (X : DllClasses D E) (t : CDllLoader D E) (h : t.CountsValid)
    (hc : t.ncclDllLinkCount > 0) : (CDllLoader.freeNccl X t).CountsValid := by
  obtain ⟨a1, a2, a3, a4, a5⟩ := h
  unfold CDllLoader.freeNccl
  dsimp only
  split_ifs
  · exact ⟨a1, a2, show (0 : Int) ≤ t.ncclDllLinkCount - 1 by omega, a4, a5⟩
  · exact ⟨a1, a2, show (0 : Int) ≤ t.ncclDllLinkCount - 1 by omega, a4, a5⟩

theorem freeAvx_valid (X : DllClasses D E) (t : CDllLoader D E) (h : t.CountsValid)
    (hc : t.avxDllLinkCount > 0) : (CDllLoader.freeAvx X t).CountsValid := by
  obtain ⟨a1, a2, a3, a4, a5⟩ := h
  unfold CDllLoader.freeAvx
  dsimp only
  split_ifs
  · exact ⟨a1, a2, a3, show (0 : Int) ≤ t.avxDllLinkCount - 1 by omega, a5⟩
  · exact ⟨a1, a2, a3, show (0 : Int) ≤ t.avxDllLinkCount - 1 by omega, a5⟩

theorem loadVulkan_valid (cfg : CDllLoaderConfig) (X : DllClasses D E)
    (st : Int × CDllLoader D E) (h : st.2.CountsValid) :
    (CDllLoader.loadVulkan cfg X st).2.CountsValid := by
  obtain ⟨a1, a2, a3, a4, a5⟩ := h
  unfold CDllLoader.loadVulkan
  dsimp only
  split
  · exact ⟨a1, a2, a3, a4, a5⟩
  · exact ⟨show (0 : Int) ≤ st.2.vulkanDllLinkCount + 1 by omega, a2, a3, a4, a5⟩

theorem loadNccl_valid (cfg : CDllLoaderConfig) (X : DllClasses D E)
    (st : Int × CDllLoader D E) (h : st.2.CountsValid) :
    (CDllLoader.loadNccl cfg X st).2.CountsValid := by
  obtain ⟨a1, a2, a3, a4, a5⟩ := h
  unfold CDllLoader.loadNccl
  dsimp only
  split
  · exact ⟨a1, a2, a3, a4, a5⟩
  · exact ⟨a1, a2, show (0 : Int) ≤ st.2.ncclDllLinkCount + 1 by omega, a4, a5⟩

theorem loadAvx_valid (cfg : CDllLoaderConfig) (X : DllClasses D E)
    (st : Int × CDllLoader D E) (h : st.2.CountsValid) :
    (CDllLoader.loadAvx cfg X st).2.CountsValid := by
  obtain ⟨a1, a2, a3, a4, a5⟩ := h
  unfold CDllLoader.loadAvx
  dsimp only
  split
  · exact ⟨a1, a2, a3, a4, a5⟩
  · exact ⟨a1, a2, a3, show (0 : Int) ≤ st.2.avxDllLinkCount + 1 by omega, a5⟩

end DllLoaderTheorems

section
variable {Tree B : Type}

/-- Claim C17, counterexample: loading an archive whose stored ensemble count
is 0 does not empty the trainer.  The archive written by a new trainer, the
count 0 followed by an empty cache, loaded into a trainer that has trained one
step leaves its two ensembles of one tree each; and an archive with the count
0 followed by a cache of one entry, loaded into a new trainer, leaves that
entry in the prediction cache. -/
theorem load_count_zero_not_empty :
    (demoFresh.Serialize (demoCollaborators 3 false) ⟨true, []⟩).1.2.data =
      [ArchiveItem.int 0, ArchiveItem.int 0] ∧
    ((demoAfterOne 3).Serialize (demoCollaborators 3 false)
      ⟨false, [ArchiveItem.int 0, ArchiveItem.int 0]⟩).2 = Outcome.ok () ∧
    ((demoAfterOne 3).Serialize (demoCollaborators 3 false)
      ⟨false, [ArchiveItem.int 0, ArchiveItem.int 0]⟩).1.1.models = [[11 / 4], [1 / 4]] ∧
    (demoFresh.Serialize (demoCollaborators 3 false)
      ⟨false, [ArchiveItem.int 0, ArchiveItem.int 1, ArchiveItem.int 1, ArchiveItem.int 5,
        ArchiveItem.double 7]⟩).2 = Outcome.ok () ∧
    (demoFresh.Serialize (demoCollaborators 3 false)
      ⟨false, [ArchiveItem.int 0, ArchiveItem.int 1, ArchiveItem.int 1, ArchiveItem.int 5,
        ArchiveItem.double 7]⟩).1.1.predictCache = [[{ Step := 5, Value := 7 }]] := by
  decide!

/-- Claim C17, amended: loading an archive whose stored ensemble count is 0
leaves `models` as it was, so a trainer without ensembles has none afterwards,
and replaces the prediction cache by the cache stored in the archive, so the
cache is empty afterwards when the stored cache is empty. -/
theorem load_count_zero_keeps_models (X : Collaborators Tree B) (s : CGradientBoost Tree B) :
    (∀ rest : List ArchiveItem,
      (s.Serialize X ⟨false, ArchiveItem.int 0 :: rest⟩).1.1.models = s.models) ∧
    (∀ (cache : List (List CPredictionCacheItem)) (rest : List ArchiveItem),
      s.Serialize X ⟨false, ArchiveItem.int 0 :: (storePredictCache cache ++ rest)⟩ =
        (({ s with predictCache := cache }, ⟨false, rest⟩), Outcome.ok ())) ∧
    (∀ rest : List ArchiveItem, s.models = [] →
      (s.Serialize X ⟨false, ArchiveItem.int 0 :: (storePredictCache [] ++ rest)⟩).2 =
        Outcome.ok () ∧
      (s.Serialize X ⟨false, ArchiveItem.int 0 :: (storePredictCache [] ++ rest)⟩).1.1.models =
        [] ∧
      (s.Serialize X
        ⟨false, ArchiveItem.int 0 :: (storePredictCache [] ++ rest)⟩).1.1.predictCache = []) := by
  have hload : ∀ rest : List ArchiveItem,
      s.load X (ArchiveItem.int 0 :: rest) = s.loadCache rest := by
    intro rest
    unfold CGradientBoost.load
    simp
  have hfull : ∀ (cache : List (List CPredictionCacheItem)) (rest : List ArchiveItem),
      s.Serialize X ⟨false, ArchiveItem.int 0 :: (storePredictCache cache ++ rest)⟩ =
        (({ s with predictCache := cache }, ⟨false, rest⟩), Outcome.ok ()) := by
    intro cache rest
    unfold CGradientBoost.Serialize
    simp only [Bool.false_eq_true, if_false]
    rw [hload, loadCache_store]
  refine ⟨?_, hfull, ?_⟩
  · intro rest
    unfold CGradientBoost.Serialize
    simp only [Bool.false_eq_true, if_false]
    rw [hload]
    unfold CGradientBoost.loadCache
    split <;> rfl
  · intro rest hm
    rw [hfull]
    exact ⟨rfl, hm, rfl⟩

end

theorem load_count_zero_keeps_models_witness :
    (demoFresh.Serialize (demoCollaborators 3 false)
      ⟨false, ArchiveItem.int 0 :: (storePredictCache [] ++ [])⟩).2 = Outcome.ok () ∧
    (demoFresh.Serialize (demoCollaborators 3 false)
      ⟨false, ArchiveItem.int 0 :: (storePredictCache [] ++ [])⟩).1.1.models = [] ∧
    (demoFresh.Serialize (demoCollaborators 3 false)
      ⟨false, ArchiveItem.int 0 :: (storePredictCache [] ++ [])⟩).1.1.predictCache = [] :=
  (load_count_zero_keeps_models (demoCollaborators 3 false) demoFresh).2.2 [] rfl

/-! ## The adapted problem through a run -/

section
variable {Tree B : Type}

@[simp]
theorem setRandom_baseProblem (s : CGradientBoost Tree B) (r : CRandom) :
    (s.setRandom r).baseProblem = s.baseProblem := by
  unfold CGradientBoost.setRandom; split <;> rfl

theorem sampleVectors_baseProblem (X : Collaborators Tree B) (s : CGradientBoost Tree B) (n : Int) :
    (s.sampleVectors X n).1.baseProblem = s.baseProblem := by
  unfold CGradientBoost.sampleVectors
  split_ifs <;> simp

theorem sampleFeatures_baseProblem (X : Collaborators Tree B) (s : CGradientBoost Tree B) (n : Int) :
    (s.sampleFeatures X n).1.baseProblem = s.baseProblem := by
  unfold CGradientBoost.sampleFeatures
  split_ifs
  · rcases generateRandomArray X.uniformInt s.getRandom n
      (max (truncToInt (n * s.params.Subfeature)) 1) s.usedFeatures with ⟨⟨r, result⟩, _ | e⟩
    · dsimp only
      rcases forLoop clearBody (List.range n.toNat) _ with ⟨cleared, _ | e⟩
      · simp
      · simp
    · simp
  · rfl

theorem resizeBuffers_baseProblem (s : CGradientBoost Tree B) : s.resizeBuffers.1.baseProblem = s.baseProblem := by
  unfold CGradientBoost.resizeBuffers
  rfl

theorem buildPredictions_baseProblem (X : Collaborators Tree B) (s : CGradientBoost Tree B)
    (p : IMultivariateRegressionProblem) (m : List (List Tree)) (c : Int) :
    (s.buildPredictions X p m c).1.baseProblem = s.baseProblem := by
  unfold CGradientBoost.buildPredictions
  split_ifs <;> rfl

theorem computeStatistics_baseProblem (X : Collaborators Tree B) (s : CGradientBoost Tree B)
    (lf : IGradientBoostingLossFunction) (p : IMultivariateRegressionProblem) :
    (s.computeStatistics X lf p).1.baseProblem = s.baseProblem := by
  unfold CGradientBoost.computeStatistics
  rcases lf.CalcGradientAndHessian X.exp s.predicts s.answers s.gradients s.hessians with
    ⟨⟨g, h⟩, _ | e⟩
  · dsimp only
    rcases readWeights p s.usedVectors with _ | w
    · rfl
    · dsimp only
      rcases weightStatistics w s.usedVectors.length _ with ⟨st, _ | e⟩ <;> rfl
  · rfl

theorem gatherStatistics_baseProblem (X : Collaborators Tree B) (s : CGradientBoost Tree B)
    (lf : IGradientBoostingLossFunction) (p : IMultivariateRegressionProblem) :
    (s.gatherStatistics X lf p).1.baseProblem = s.baseProblem := by
  unfold CGradientBoost.gatherStatistics
  rcases hh1 : s.sampleVectors X p.VectorCount with ⟨s1, _ | e⟩
  all_goals have h1 : s1.baseProblem = s.baseProblem := by simpa [hh1] using sampleVectors_baseProblem X s p.VectorCount
  all_goals dsimp only
  · rcases hh2 : s1.sampleFeatures X p.FeatureCount with ⟨s2, _ | e⟩
    all_goals have h2 : s2.baseProblem = s.baseProblem := (by simpa [hh2] using sampleFeatures_baseProblem X s1 p.FeatureCount : s2.baseProblem = _).trans h1
    all_goals dsimp only
    · rcases s2.models[0]? with _ | ensemble
      · exact h2
      · dsimp only
        rcases hh3 : s2.resizeBuffers with ⟨s3, _ | e⟩
        all_goals have h3 : s3.baseProblem = s.baseProblem := (by simpa [hh3] using resizeBuffers_baseProblem s2 : s3.baseProblem = _).trans h2
        all_goals dsimp only
        · rcases hh4 : s3.buildPredictions X p s3.models (ensemble.length : Int) with ⟨s4, _ | e⟩
          all_goals have h4 : s4.baseProblem = s.baseProblem := (by simpa [hh4] using buildPredictions_baseProblem X s3 p s3.models (ensemble.length : Int) : s4.baseProblem = _).trans h3
          all_goals dsimp only
          · rw [computeStatistics_baseProblem, h4]
          · exact h4
        · exact h3
    · exact h2
  · exact h1

theorem executeStep_baseProblem (X : Collaborators Tree B) (s : CGradientBoost Tree B)
    (lf : IGradientBoostingLossFunction) (p : Option IMultivariateRegressionProblem)
    (cur : List Tree) : (s.executeStep X lf p cur).1.baseProblem = s.baseProblem := by
  unfold CGradientBoost.executeStep
  split_ifs
  all_goals try rfl
  rcases p with _ | problem
  · rfl
  · dsimp only
    rcases hh : s.gatherStatistics X lf problem with ⟨s1, sums | e⟩
    all_goals have h1 : s1.baseProblem = s.baseProblem := by simpa [hh] using gatherStatistics_baseProblem X s lf problem
    all_goals dsimp only
    · have hf := buildTrees_buildFrame X s1 sums.gradientsSum sums.hessiansSum sums.weights
        sums.weightsSum cur
      have : (s1.buildTrees X sums.gradientsSum sums.hessiansSum sums.weights
          sums.weightsSum cur).1.baseProblem = s1.baseProblem := by rw [hf.1]
      rw [this, h1]
    · exact h1

theorem trainStepExecute_baseProblem (X : Collaborators Tree B) (s : CGradientBoost Tree B) :
    (s.trainStepExecute X).1.baseProblem = s.baseProblem := by
  unfold CGradientBoost.trainStepExecute
  have hlog : ∀ n, (s.logIteration n).baseProblem = s.baseProblem := by
    intro n; unfold CGradientBoost.logIteration; split <;> rfl
  split
  · rfl
  · rename_i first hfirst
    dsimp only
    have h1 : (if s.logStream.isSome then s.logIteration first.length else s).baseProblem =
        s.baseProblem := by
      split_ifs
      · exact hlog _
      · rfl
    generalize (if s.logStream.isSome then s.logIteration first.length else s) = s1 at h1 ⊢
    rcases s1.lossFunction with _ | lf
    · exact h1
    · dsimp only
      rw [executeStep_baseProblem, h1]

/-- A `trainStep` that returns leaves the adapted problem in place. -/
theorem trainStep_baseProblem (X : Collaborators Tree B) (s s2 : CGradientBoost Tree B)
    (b : Bool) (h : s.trainStep X = (s2, Outcome.ok b)) : s2.baseProblem = s.baseProblem := by
  have hx := trainStepExecute_baseProblem X s
  unfold CGradientBoost.trainStep CGradientBoost.trainStepTry at h
  rcases hexec : s.trainStepExecute X with ⟨sx, cur | e⟩
  · rw [hexec] at h hx
    dsimp only at h hx
    rcases hloop : forLoop (appendBody cur) (List.range cur.length) sx.models with ⟨m, _ | e⟩
    · rw [hloop] at h
      dsimp only at h
      split at h
      · simp at h
      · simp only [Prod.mk.injEq, Outcome.ok.injEq] at h
        rw [← h.1]
        exact hx
    · rw [hloop] at h
      simp at h
  · rw [hexec] at h
    simp at h

theorem createTreeBuilder_baseProblem (X : Collaborators Tree B) (s : CGradientBoost Tree B)
    (bp : IMultivariateRegressionProblem) :
    (s.createTreeBuilder X bp).1.baseProblem = s.baseProblem := by
  have hfull : ∀ multi, (s.createFullTreeBuilder X bp multi).1.baseProblem = s.baseProblem := by
    intro multi
    unfold CGradientBoost.createFullTreeBuilder
    dsimp only
    split
    · rfl
    · split
      · split <;> rfl
      · split <;> rfl
  have hfast : ∀ multi,
      (s.createFastHistTreeBuilder X bp multi).1.baseProblem = s.baseProblem := by
    intro multi
    unfold CGradientBoost.createFastHistTreeBuilder
    dsimp only
    split
    · rfl
    · split
      · split <;> rfl
      · split <;> rfl
  unfold CGradientBoost.createTreeBuilder
  split
  · exact hfull _
  · exact hfull _
  · exact hfast _
  · exact hfast _
  · rfl

/-- A `prepareProblem` that returns leaves an adapted problem: the one the
trainer held, or the view of its argument when it held none. -/
theorem prepareProblem_baseProblem (X : Collaborators Tree B) (s s1 : CGradientBoost Tree B)
    (problem : IMultivariateRegressionProblem)
    (h : s.prepareProblem X problem = (s1, Outcome.ok ())) :
    s1.baseProblem = some ((s.baseProblem).getD (X.notNullWeightsView problem)) := by
  unfold CGradientBoost.prepareProblem at h
  rcases hbp : s.baseProblem with _ | bp
  · rw [hbp] at h
    dsimp only at h
    unfold CGradientBoost.initialize at h
    rcases hst : CGradientBoost.initializeState
        { s with baseProblem := some (X.notNullWeightsView problem) } with ⟨s0, bp1 | e⟩
    · rw [hst] at h
      dsimp only at h
      obtain ⟨hb1, _, _, _, lf, _, q0⟩ :=
        initializeState_result _ s0 (X.notNullWeightsView problem) bp1 rfl hst
      subst hb1
      have hm := createTreeBuilder_baseProblem X s0 (X.notNullWeightsView problem)
      rcases hct : s0.createTreeBuilder X (X.notNullWeightsView problem) with ⟨sc, u | e⟩
      · rw [hct] at h hm
        simp only [Prod.mk.injEq, and_true] at h
        subst h
        rw [hm, q0]
        rfl
      · rw [hct] at h
        simp at h
    · rw [hst] at h
      simp at h
  · rw [hbp] at h
    simp only [Prod.mk.injEq, and_true] at h
    rw [← h, hbp]
    rfl

/-- A `TrainStep` that returns leaves the adapted problem the trainer held, or
the view of its argument when it held none. -/
theorem TrainStep_baseProblem (X : Collaborators Tree B) (s s2 : CGradientBoost Tree B)
    (problem : IMultivariateRegressionProblem) (b : Bool)
    (h : s.TrainStep X problem = (s2, Outcome.ok b)) :
    s2.baseProblem = some ((s.baseProblem).getD (X.notNullWeightsView problem)) := by
  unfold CGradientBoost.TrainStep at h
  rcases hp : s.prepareProblem X problem with ⟨s1, u | e⟩
  · rw [hp] at h
    dsimp only at h
    rw [trainStep_baseProblem X s1 s2 b h]
    exact prepareProblem_baseProblem X s s1 problem hp
  · rw [hp] at h
    simp at h

end

section
variable {Tree B : Type}

theorem TrainStepsOn_cons (X : Collaborators Tree B) (p : IMultivariateRegressionProblem)
    (rest : List IMultivariateRegressionProblem) (s : CGradientBoost Tree B) :
    CGradientBoost.TrainStepsOn X (p :: rest) s =
      ((CGradientBoost.TrainStepsOn X rest (s.TrainStep X p).1).1,
        (s.TrainStep X p).2 :: (CGradientBoost.TrainStepsOn X rest (s.TrainStep X p).1).2) :=
  rfl

theorem TrainStepsOn_append (X : Collaborators Tree B)
    (ps qs : List IMultivariateRegressionProblem) (s : CGradientBoost Tree B) :
    CGradientBoost.TrainStepsOn X (ps ++ qs) s =
      ((CGradientBoost.TrainStepsOn X qs (CGradientBoost.TrainStepsOn X ps s).1).1,
        (CGradientBoost.TrainStepsOn X ps s).2 ++
          (CGradientBoost.TrainStepsOn X qs (CGradientBoost.TrainStepsOn X ps s).1).2) := by
  induction ps generalizing s with
  | nil => rfl
  | cons p ps ih =>
    rw [List.cons_append, TrainStepsOn_cons, TrainStepsOn_cons, ih]
    rfl

/-- On a trainer that holds its adapted problem, a sequence of calls that all
return does not depend on the problems passed, and the adapted problem stays. -/
theorem TrainStepsOn_sticky (X : Collaborators Tree B)
    (ps qs : List IMultivariateRegressionProblem) (t : CGradientBoost Tree B)
    (bp : IMultivariateRegressionProblem) (hbp : t.baseProblem = some bp)
    (hlen : ps.length = qs.length)
    (hok : ∀ o ∈ (CGradientBoost.TrainStepsOn X ps t).2, ∃ b, o = Outcome.ok b) :
    CGradientBoost.TrainStepsOn X ps t = CGradientBoost.TrainStepsOn X qs t ∧
    (CGradientBoost.TrainStepsOn X ps t).1.baseProblem = some bp := by
  induction ps generalizing qs t with
  | nil =>
    cases qs with
    | nil => exact ⟨rfl, hbp⟩
    | cons q qs => simp at hlen
  | cons p ps ih =>
    cases qs with
    | nil => simp at hlen
    | cons q qs =>
      have hpq : t.TrainStep X p = t.TrainStep X q := by
        rw [TrainStep_ready X t p bp hbp, TrainStep_ready X t q bp hbp]
      rw [TrainStepsOn_cons] at hok ⊢
      rw [TrainStepsOn_cons]
      dsimp only at hok
      obtain ⟨b, hb⟩ := hok _ (List.mem_cons_self _ _)
      have hcall : t.TrainStep X p = ((t.TrainStep X p).1, Outcome.ok b) :=
        Prod.ext rfl hb
      have hbp1 : (t.TrainStep X p).1.baseProblem = some bp := by
        rw [TrainStep_baseProblem X t _ p b hcall, hbp]
        rfl
      obtain ⟨i1, i2⟩ := ih qs (t.TrainStep X p).1 hbp1 (by simpa using hlen)
        (fun o ho => hok o (List.mem_cons_of_mem _ ho))
      refine ⟨?_, i2⟩
      rw [i1, hpq]

/-- Claim C16: sticky adaptation.  In a sequence of `TrainStep` calls on one
trainer that all return, the first with the problem `first` and the later ones
with any problems, the states and results are those of the sequence that passes
`first` every time; after every call `baseProblem` is the problem adapted by
the first call (the view of `first`, or the problem the trainer held before),
and on every such state `prepareProblem` with any problem returns the state
unchanged, without `initialize`, so that `TrainStep` is `trainStep`. -/
theorem adaptation_is_sticky (X : Collaborators Tree B) (s : CGradientBoost Tree B)
    (first : IMultivariateRegressionProblem) (later : List IMultivariateRegressionProblem)
    (hok : ∀ o ∈ (CGradientBoost.TrainStepsOn X (first :: later) s).2,
      ∃ b, o = Outcome.ok b) :
    CGradientBoost.TrainStepsOn X (first :: later) s =
      CGradientBoost.TrainStepsOn X (List.replicate (later.length + 1) first) s ∧
    ∀ k : Nat, k ≤ later.length →
      (CGradientBoost.TrainStepsOn X (first :: later.take k) s).1.baseProblem =
        some ((s.baseProblem).getD (X.notNullWeightsView first)) ∧
      ∀ other : IMultivariateRegressionProblem,
        (CGradientBoost.TrainStepsOn X (first :: later.take k) s).1.prepareProblem X other =
          ((CGradientBoost.TrainStepsOn X (first :: later.take k) s).1, Outcome.ok ()) ∧
        (CGradientBoost.TrainStepsOn X (first :: later.take k) s).1.TrainStep X other =
          (CGradientBoost.TrainStepsOn X (first :: later.take k) s).1.trainStep X := by
  have hsplit : ∀ o ∈ (CGradientBoost.TrainStepsOn X later (s.TrainStep X first).1).2,
      ∃ b, o = Outcome.ok b := by
    intro o ho
    apply hok
    rw [TrainStepsOn_cons]
    exact List.mem_cons_of_mem _ ho
  obtain ⟨b, hb⟩ := hok (s.TrainStep X first).2 (by
    rw [TrainStepsOn_cons]
    exact List.mem_cons_self _ _)
  have hbp1 : (s.TrainStep X first).1.baseProblem =
      some ((s.baseProblem).getD (X.notNullWeightsView first)) :=
    TrainStep_baseProblem X s _ first b (Prod.ext rfl hb)
  constructor
  · obtain ⟨e, _⟩ := TrainStepsOn_sticky X later (List.replicate later.length first)
      (s.TrainStep X first).1 _ hbp1 (by simp) hsplit
    rw [List.replicate_succ, TrainStepsOn_cons, TrainStepsOn_cons, e]
  · intro k hk
    have hpre : ∀ o ∈ (CGradientBoost.TrainStepsOn X (later.take k) (s.TrainStep X first).1).2,
        ∃ b, o = Outcome.ok b := by
      intro o ho
      apply hsplit
      have := TrainStepsOn_append X (later.take k) (later.drop k) (s.TrainStep X first).1
      rw [List.take_append_drop] at this
      rw [this]
      exact List.mem_append_left _ ho
    obtain ⟨_, hk2⟩ := TrainStepsOn_sticky X (later.take k) (later.take k)
      (s.TrainStep X first).1 _ hbp1 rfl hpre
    have hst : (CGradientBoost.TrainStepsOn X (first :: later.take k) s).1 =
        (CGradientBoost.TrainStepsOn X (later.take k) (s.TrainStep X first).1).1 := rfl
    rw [hst]
    refine ⟨hk2, fun other => ⟨?_, TrainStep_ready X _ other _ hk2⟩⟩
    unfold CGradientBoost.prepareProblem
    rw [hk2]

end

theorem adaptation_is_sticky_witness :
    CGradientBoost.TrainStepsOn steadyCollaborators
      [demoProblem, { demoProblem with Values := [[0, 0], [0, 0], [0, 0]] }] demoFresh =
      CGradientBoost.TrainStepsOn steadyCollaborators (List.replicate (1 + 1) demoProblem)
        demoFresh ∧
    (CGradientBoost.TrainStepsOn steadyCollaborators
      [demoProblem, { demoProblem with Values := [[0, 0], [0, 0], [0, 0]] }]
      demoFresh).1.baseProblem = some demoProblem :=
  have h := adaptation_is_sticky steadyCollaborators demoFresh demoProblem
    [{ demoProblem with Values := [[0, 0], [0, 0], [0, 0]] }] (by decide!)
  ⟨h.1, (h.2 1 (le_refl _)).1⟩

/-! ## The buffers that `buildPredictions` fills -/

theorem get2?_zipWith_set_self {α β : Type} (f : List α → β → α) (L : List (List α))
    (Q : List β) (j r : Nat) (hj : j < L.length) (hq : j < Q.length) (hr : r < (L[j]).length) :
    CArray.get2? (List.zipWith (fun row q => row.set r (f row q)) L Q) j r =
      some (f L[j] Q[j]) := by
  unfold CArray.get2?
  have hj2 : j < (List.zipWith (fun row q => row.set r (f row q)) L Q).length := by
    simp; omega
  rw [List.getElem?_eq_getElem hj2]
  simp only [List.getElem_zipWith]
  rw [List.getElem?_set_self hr]

section
variable {Tree B : Type}

/-- One row of `buildPredictions` in closed form. -/
theorem buildPredictionsRow_eq (X : Collaborators Tree B) (s : CGradientBoost Tree B)
    (bp : IMultivariateRegressionProblem) (cfg : CParams) (k : Nat) (hR : s.Ready bp cfg k)
    (hv : ∀ v ∈ s.usedVectors, 0 ≤ v ∧ v < bp.VectorCount) (i : Nat)
    (hi : i < s.usedVectors.length) (st : CPredictState) (hst : s.CacheLoop X bp k i st)
    (curStep : Int) :
    ∃ (preds value : List ℚ), preds.length = bp.ValueSize.toNat ∧
      bp.Values[(s.usedVectors[i]).toNat]? = some value ∧
      value.length = bp.ValueSize.toNat ∧
      (s.usedVectors[i]).toNat < bp.VectorCount.toNat ∧
      buildPredictionsRow X s.isMultiTreesModel s.params.LearningRate s.models bp s.usedVectors
        curStep i st =
      ({ predictCache := List.zipWith (fun row q =>
            row.set (s.usedVectors[i]).toNat
              { Step := curStep,
                Value := ((row[(s.usedVectors[i]).toNat]?).getD ⟨0, 0⟩).Value + q })
            st.predictCache preds,
         predicts := List.zipWith (fun row x => row.set i x) st.predicts
            (List.zipWith (fun row q => ((row[(s.usedVectors[i]).toNat]?).getD ⟨0, 0⟩).Value + q)
              st.predictCache preds),
         answers := List.zipWith (fun row v => row.set i v) st.answers value },
        Outcome.ok ()) := by
  obtain ⟨hvs, hvc, hfc, hmh, hmw, hrows, hvals, hvall, hwts⟩ := hR.wellFormed
  have huv := hv _ (List.getElem_mem hi)
  have hrn : (s.usedVectors[i]).toNat < bp.VectorCount.toNat := by omega
  have hrV : (s.usedVectors[i]).toNat < bp.Values.length := by omega
  have hrR : (s.usedVectors[i]).toNat < bp.Matrix.Rows.length := by omega
  have hvalue : (bp.Values[(s.usedVectors[i]).toNat]).length = bp.ValueSize.toNat :=
    hvall _ (List.getElem_mem _)
  have hm1 : 1 ≤ bp.ValueSize.toNat := by omega
  have hpreds := rowPredictions_eq X s st.predictCache bp.ValueSize.toNat bp.VectorCount.toNat
    (s.usedVectors[i]).toNat (bp.Matrix.Rows[(s.usedVectors[i]).toNat]) hm1 hR.modelsLength
    hst.cacheLength hst.cacheRows hrn
  refine ⟨(List.range bp.ValueSize.toNat).map (fun j =>
        predictRawOutput X (s.ensembleOf j)
          ((CArray.get2? st.predictCache (if s.isMultiTreesModel then 0 else j)
            (s.usedVectors[i]).toNat).getD ⟨0, 0⟩).Step
          s.params.LearningRate (bp.Matrix.Rows[(s.usedVectors[i]).toNat]) (s.outputOf j)),
    bp.Values[(s.usedVectors[i]).toNat], by simp, List.getElem?_eq_getElem hrV, hvalue,
    hrn, ?_⟩
  have hloop := cacheWrite_loop
    ((List.range bp.ValueSize.toNat).map (fun j =>
        predictRawOutput X (s.ensembleOf j)
          ((CArray.get2? st.predictCache (if s.isMultiTreesModel then 0 else j)
            (s.usedVectors[i]).toNat).getD ⟨0, 0⟩).Step
          s.params.LearningRate (bp.Matrix.Rows[(s.usedVectors[i]).toNat]) (s.outputOf j)))
    (bp.Values[(s.usedVectors[i]).toNat]) curStep (s.usedVectors[i]).toNat i bp.ValueSize.toNat
    st (by simp) hvalue
    hst.cacheLength (fun row hrow => by rw [hst.cacheRows row hrow]; exact hrn)
    hst.predictsLength (fun row hrow => by rw [hst.predictsRows row hrow]; exact hi)
    hst.answersLength (fun row hrow => by rw [hst.answersRows row hrow]; exact hi)
  unfold buildPredictionsRow
  rw [List.getElem?_eq_getElem hi]
  dsimp only
  rw [if_neg (not_lt.mpr huv.1)]
  rw [List.getElem?_eq_getElem hrV, List.getElem?_eq_getElem hrR]
  dsimp only
  rw [hpreds]
  dsimp only
  rw [hloop]

/-- One row of `buildPredictions` keeps the invariant of the two buffers. -/
theorem buildPredictionsRow_buffers (X : Collaborators Tree B) (s : CGradientBoost Tree B)
    (bp : IMultivariateRegressionProblem) (cfg : CParams) (k : Nat) (hR : s.Ready bp cfg k)
    (hv : ∀ v ∈ s.usedVectors, 0 ≤ v ∧ v < bp.VectorCount) (hnd : s.usedVectors.Nodup)
    (i : Nat) (hi : i < s.usedVectors.length) (st : CPredictState)
    (hst : s.CacheLoop X bp k i st) (hb : s.BufferLoop bp i st) :
    s.BufferLoop bp (i + 1)
      (buildPredictionsRow X s.isMultiTreesModel s.params.LearningRate s.models bp s.usedVectors
        (k : Int) i st).1 := by
  obtain ⟨preds, value, hpl, hval, hvl, hrn, hrow⟩ :=
    buildPredictionsRow_eq X s bp cfg k hR hv i hi st hst (k : Int)
  rw [hrow]
  dsimp only
  have huv := hv _ (List.getElem_mem hi)
  have hlenCP : st.predictCache.length = preds.length := by rw [hst.cacheLength, hpl]
  have hlenQ : (List.zipWith (fun (row : List CPredictionCacheItem) q =>
      ((row[(s.usedVectors[i]).toNat]?).getD ⟨0, 0⟩).Value + q) st.predictCache preds).length =
      bp.ValueSize.toNat := by
    simp [hst.cacheLength, hpl]
  intro i1 v hi1 hv1 j hj
  by_cases hlt : i1 < i
  · obtain ⟨item, target, g1, g2, g3, g4⟩ := hb i1 v hlt hv1 j hj
    have hi1len : i1 < s.usedVectors.length := by omega
    have hvi : v = s.usedVectors[i1] := by
      rw [List.getElem?_eq_getElem hi1len] at hv1
      exact (Option.some.inj hv1).symm
    have hvnn := hv _ (List.getElem_mem hi1len)
    have hne : v.toNat ≠ (s.usedVectors[i]).toNat := by
      intro h
      have h2 : s.usedVectors[i1] = s.usedVectors[i] := by
        rw [hvi] at h
        have a1 := Int.toNat_of_nonneg hvnn.1
        have a2 := Int.toNat_of_nonneg huv.1
        omega
      have := (List.Nodup.getElem_inj_iff hnd).mp h2
      omega
    refine ⟨item, target, ?_, ?_, g3, ?_⟩
    · rw [get2?_zipWith_set_ne
        (fun (row : List CPredictionCacheItem) q =>
          ({ Step := (k : Int),
             Value := ((row[(s.usedVectors[i]).toNat]?).getD ⟨0, 0⟩).Value + q } :
            CPredictionCacheItem))
        st.predictCache preds hlenCP j _ _ hne]
      exact g1
    · rw [get2?_zipWith_set_ne (fun (_ : List ℚ) (x : ℚ) => x) st.predicts _
        (by rw [hst.predictsLength, hlenQ]) j i i1 (by omega)]
      exact g2
    · rw [get2?_zipWith_set_ne (fun (_ : List ℚ) (x : ℚ) => x) st.answers value
        (by rw [hst.answersLength, hvl]) j i i1 (by omega)]
      exact g4
  · have hie : i1 = i := by omega
    subst hie
    have hvi : v = s.usedVectors[i1] := by
      rw [List.getElem?_eq_getElem hi] at hv1
      exact (Option.some.inj hv1).symm
    subst hvi
    have hjc : j < st.predictCache.length := by rw [hst.cacheLength]; exact hj
    have hjp : j < preds.length := by rw [hpl]; exact hj
    have hrc : (s.usedVectors[i1]).toNat < (st.predictCache[j]).length := by
      rw [hst.cacheRows _ (List.getElem_mem _)]; exact hrn
    have hjP : j < st.predicts.length := by rw [hst.predictsLength]; exact hj
    have hjA : j < st.answers.length := by rw [hst.answersLength]; exact hj
    have hjv : j < value.length := by rw [hvl]; exact hj
    refine ⟨_, value[j], get2?_zipWith_set_self
        (fun (row : List CPredictionCacheItem) q =>
          ({ Step := (k : Int),
             Value := ((row[(s.usedVectors[i1]).toNat]?).getD ⟨0, 0⟩).Value + q } :
            CPredictionCacheItem))
        st.predictCache preds j _ hjc hjp hrc, ?_, ?_, ?_⟩
    · rw [get2?_zipWith_set_self (fun (_ : List ℚ) (x : ℚ) => x) st.predicts _ j i1 hjP
        (by rw [hlenQ]; exact hj)
        (by rw [hst.predictsRows _ (List.getElem_mem _)]; exact hi)]
      simp only [List.getElem_zipWith]
    · rw [CArray.get2?_eq _ _ _ _ hval]
      exact List.getElem?_eq_getElem hjv
    · rw [get2?_zipWith_set_self (fun (_ : List ℚ) (x : ℚ) => x) st.answers value j i1 hjA hjv
        (by rw [hst.answersRows _ (List.getElem_mem _)]; exact hi)]

/-- What `buildPredictions` leaves in the cache and in the two buffers on a
ready trainer whose cache satisfies the invariant: column `i` of `predicts`
holds, for every output, the score of all trees on row `usedVectors[i]`, and
column `i` of `answers` holds the targets of that row. -/
theorem buildPredictions_values (X : Collaborators Tree B) (s : CGradientBoost Tree B)
    (bp : IMultivariateRegressionProblem) (cfg : CParams) (k : Nat) (hR : s.Ready bp cfg k)
    (hv : ∀ v ∈ s.usedVectors, 0 ≤ v ∧ v < bp.VectorCount) (hnd : s.usedVectors.Nodup)
    (hinv : s.CacheInvariant X bp k)
    (hpr : ∀ row ∈ s.predicts, row.length = s.usedVectors.length)
    (har : ∀ row ∈ s.answers, row.length = s.usedVectors.length) :
    ∃ s1, s.buildPredictions X bp s.models (k : Int) = (s1, Outcome.ok ()) ∧
      s1 = { s with predictCache := s1.predictCache, predicts := s1.predicts,
                    answers := s1.answers } ∧
      s.CacheLoop X bp k s.usedVectors.length
        { predictCache := s1.predictCache, predicts := s1.predicts, answers := s1.answers } ∧
      ∀ (i : Nat) (v : Int), s.usedVectors[i]? = some v → ∀ j : Nat, j < bp.ValueSize.toNat →
        ∃ target : ℚ, CArray.get2? bp.Values v.toNat j = some target ∧
          CArray.get2? s1.predicts j i = some (s.scoreUpTo X bp j v.toNat (k : Int)) ∧
          CArray.get2? s1.answers j i = some target ∧
          CArray.get2? s1.predictCache j v.toNat =
            some { Step := (k : Int), Value := s.scoreUpTo X bp j v.toNat (k : Int) } := by
  obtain ⟨hvs, hvc, hfc, hmh, hmw, hrows, hvals, hvall, hwts⟩ := hR.wellFormed
  have h0 : s.CacheLoop X bp k 0
      { predictCache := s.predictCache, predicts := s.predicts, answers := s.answers } :=
    { cacheLength := hR.cacheLength
      cacheRows := hR.cacheRows
      predictsLength := hR.predicts
      predictsRows := hpr
      answersLength := hR.answers
      answersRows := har
      invariant := hinv
      refreshed := fun i1 hi1 => absurd hi1 (Nat.not_lt_zero _)
      untouched := fun _ _ _ => rfl }
  obtain ⟨h1, h2, h3⟩ := forLoop_range_inv
    (buildPredictionsRow X s.isMultiTreesModel s.params.LearningRate s.models bp s.usedVectors
      (k : Int)) s.usedVectors.length
    (fun i st => s.CacheLoop X bp k i st ∧ s.BufferLoop bp i st)
    (fun i hi st hst =>
      ⟨(buildPredictionsRow_step X s bp cfg k hR hv i hi st hst.1).1,
        (buildPredictionsRow_step X s bp cfg k hR hv i hi st hst.1).2,
        buildPredictionsRow_buffers X s bp cfg k hR hv hnd i hi st hst.1 hst.2⟩) _
    ⟨h0, fun i1 v hi1 => absurd hi1 (Nat.not_lt_zero _)⟩
  unfold CGradientBoost.buildPredictions
  rw [if_neg (not_not.mpr hmh), if_neg (not_not.mpr hmw)]
  rcases hres : forLoop
    (buildPredictionsRow X s.isMultiTreesModel s.params.LearningRate s.models bp s.usedVectors
      (k : Int)) (List.range s.usedVectors.length)
    { predictCache := s.predictCache, predicts := s.predicts, answers := s.answers } with ⟨st, o⟩
  rw [hres] at h1 h2 h3
  dsimp only at h1 h2 h3
  subst h1
  refine ⟨_, rfl, rfl, h2, ?_⟩
  intro i v hvi j hj
  have hil : i < s.usedVectors.length := by
    by_contra hcon
    rw [List.getElem?_eq_none (not_lt.mp hcon)] at hvi
    exact absurd hvi (by simp)
  obtain ⟨item, target, g1, g2, g3, g4⟩ := h3 i v hil hvi j hj
  have hstep : item.Step = (k : Int) := h2.refreshed i hil v hvi j item g1
  have hvalue := (h2.invariant j v.toNat item g1).2.2.1
  have hscore : item.Value = s.scoreUpTo X bp j v.toNat (k : Int) := by
    rw [hvalue, hstep]
    rfl
  refine ⟨target, g3, by rw [← hscore]; exact g2, g4, ?_⟩
  dsimp only
  rw [g1]
  cases item
  simp only at hstep hscore
  rw [hstep, hscore]

end

/-! ## Finalization -/

theorem forLoop_congr {σ : Type} (f g : Nat → σ → σ × Outcome Unit) (idx : List Nat)
    (h : ∀ i ∈ idx, ∀ s, f i s = g i s) (s : σ) : forLoop f idx s = forLoop g idx s := by
  induction idx generalizing s with
  | nil => rfl
  | cons i rest ih =>
    simp only [forLoop]
    rw [h i (List.mem_cons_self _ _) s]
    rcases g i s with ⟨s1, _ | e⟩
    · exact ih (fun j hj => h j (List.mem_cons_of_mem _ hj)) s1
    · rfl

theorem fullResize_loop (n : Int) (predicts answers : List (List ℚ))
    (h : predicts.length = answers.length) :
    forLoop (fullResizeBody n) (List.range predicts.length) (predicts, answers) =
      ((predicts.map (fun p => CArray.SetSize p n 0),
        answers.map (fun a => CArray.SetSize a n 0)), Outcome.ok ()) := by
  have hstep := forLoop_range_steps (fullResizeBody n) predicts.length
    (fun i => ((predicts.map (fun p => CArray.SetSize p n 0)).take i ++ predicts.drop i,
      (answers.map (fun a => CArray.SetSize a n 0)).take i ++ answers.drop i))
    (by
      intro i hi
      have hi2 : i < answers.length := by omega
      have e1 := getElem?_take_append_drop (predicts.map (fun p => CArray.SetSize p n 0))
        predicts i (by simp) (by omega)
      have e2 := getElem?_take_append_drop (answers.map (fun a => CArray.SetSize a n 0))
        answers i (by simp) (by omega)
      have s1 := take_append_drop_set (predicts.map (fun p => CArray.SetSize p n 0)) predicts i
        (by simpa using hi) (by simp)
      have s2 := take_append_drop_set (answers.map (fun a => CArray.SetSize a n 0)) answers i
        (by simpa using hi2) (by simp)
      simp only [List.get_eq_getElem, List.getElem_map] at s1 s2 e1 e2
      unfold fullResizeBody
      dsimp only
      rw [e1]
      dsimp only
      rw [e2]
      dsimp only
      rw [s1, s2])
  simp only [List.take_zero, List.nil_append, List.drop_zero] at hstep
  rw [hstep]
  congr 2
  · rw [List.take_of_length_le (by simp), List.drop_eq_nil_of_le (le_refl _), List.append_nil]
  · rw [h, List.take_of_length_le (by simp), List.drop_eq_nil_of_le (le_refl _),
      List.append_nil]

section
variable {Tree B : Type}

theorem identityArray_getElem? (n i : Nat) (h : i < n) :
    (identityArray n)[i]? = some (i : Int) := by
  simp [identityArray, h]

/-- A row of `buildFullPredictions` is the row of `buildPredictions` for the
active set of all rows. -/
theorem buildFullPredictionsRow_eq (X : Collaborators Tree B) (multi : Bool)
    (learningRate : ℚ) (models : List (List Tree)) (problem : IMultivariateRegressionProblem)
    (step : Int) (n index : Nat) (h : index < n) (st : CPredictState) :
    buildFullPredictionsRow X multi learningRate models problem step index st =
      buildPredictionsRow X multi learningRate models problem (identityArray n) step index st := by
  unfold buildFullPredictionsRow buildPredictionsRow
  rw [identityArray_getElem? n index h]
  dsimp only
  rw [if_neg (by omega : ¬ ((index : Int) < 0))]
  simp only [Int.toNat_ofNat]

theorem scoreUpTo_all (X : Collaborators Tree B) (s : CGradientBoost Tree B)
    (bp : IMultivariateRegressionProblem) (j r k : Nat) (h : (s.ensembleOf j).length = k) :
    s.scoreUpTo X bp j r (k : Int) =
      s.params.LearningRate * ((s.ensembleOf j).map
        (fun t => X.treeOutput t ((bp.Matrix.Rows[r]?).getD []) (s.outputOf j))).sum := by
  unfold CGradientBoost.scoreUpTo
  rw [Int.toNat_ofNat, ← h, List.take_length]

/-- On a ready trainer whose cache satisfies the invariant, `buildFullPredictions`
returns, and for every output and every row of the problem it leaves the score
of all trees in `predicts` and in the cache, with the ensemble length as the
step, and the target in `answers`; the two buffers have one row per output and
one column per row of the problem. -/
theorem buildFullPredictions_spec (X : Collaborators Tree B) (s : CGradientBoost Tree B)
    (bp : IMultivariateRegressionProblem) (cfg : CParams) (k : Nat) (hR : s.Ready bp cfg k)
    (hinv : s.CacheInvariant X bp k) :
    ∃ s1, s.buildFullPredictions X bp s.models = (s1, Outcome.ok ()) ∧
      s1 = { s with predictCache := s1.predictCache, predicts := s1.predicts,
                    answers := s1.answers } ∧
      s1.predicts.length = bp.ValueSize.toNat ∧
      (∀ row ∈ s1.predicts, row.length = bp.VectorCount.toNat) ∧
      s1.answers.length = bp.ValueSize.toNat ∧
      (∀ row ∈ s1.answers, row.length = bp.VectorCount.toNat) ∧
      ∀ (j r : Nat), j < bp.ValueSize.toNat → r < bp.VectorCount.toNat →
        ∃ target : ℚ, CArray.get2? bp.Values r j = some target ∧
          CArray.get2? s1.predicts j r = some (s.scoreUpTo X bp j r (k : Int)) ∧
          CArray.get2? s1.answers j r = some target ∧
          CArray.get2? s1.predictCache j r =
            some { Step := (k : Int), Value := s.scoreUpTo X bp j r (k : Int) } := by
  obtain ⟨hvs, hvc, hfc, hmh, hmw, hrows, hvals, hvall, hwts⟩ := hR.wellFormed
  have hn : ((bp.VectorCount.toNat : Nat) : Int) = bp.VectorCount :=
    Int.toNat_of_nonneg (by omega)
  -- the trainer with all rows active and the two buffers resized
  have hresized : ∀ (L : List (List ℚ)),
      ∀ row ∈ L.map (fun p => CArray.SetSize p bp.VectorCount 0),
        row.length = (identityArray bp.VectorCount.toNat).length := by
    intro L row hrow
    obtain ⟨p, _, rfl⟩ := List.mem_map.mp hrow
    rw [identityArray_length, CArray.SetSize_length]
  have hR2 : CGradientBoost.Ready
      { s with usedVectors := identityArray bp.VectorCount.toNat,
               predicts := s.predicts.map (fun p => CArray.SetSize p bp.VectorCount 0),
               answers := s.answers.map (fun a => CArray.SetSize a bp.VectorCount 0) }
      bp cfg k :=
    { params := hR.params
      baseProblem := hR.baseProblem
      wellFormed := hR.wellFormed
      lossFunction := hR.lossFunction
      modelsLength := hR.modelsLength
      ensembles := hR.ensembles
      cacheLength := hR.cacheLength
      cacheRows := hR.cacheRows
      predicts := by rw [List.length_map]; exact hR.predicts
      answers := by rw [List.length_map]; exact hR.answers
      gradients := hR.gradients
      hessians := hR.hessians
      subsample := hR.subsample
      subfeature := hR.subfeature
      usedVectors := fun _ => rfl
      handles := hR.handles }
  obtain ⟨s1, e1, q1, c1, v1⟩ := buildPredictions_values X _ bp cfg k hR2
    (fun v hv => by
      have := (identity_mem bp.VectorCount.toNat v).mp hv
      omega)
    (identity_nodup _) hinv (hresized s.predicts) (hresized s.answers)
  have hm0 : 0 < s.models.length := by
    rw [hR.modelsLength]; split_ifs
    · exact Nat.one_pos
    · omega
  have hk : (s.models[0]).length = k := hR.ensembles _ (List.getElem_mem hm0)
  have hrun : s.buildFullPredictions X bp s.models =
      ({ s1 with usedVectors := s.usedVectors }, Outcome.ok ()) := by
    unfold CGradientBoost.buildFullPredictions
    rw [if_neg (not_not.mpr hmh), if_neg (not_not.mpr hmw),
      fullResize_loop bp.VectorCount s.predicts s.answers (by rw [hR.predicts, hR.answers])]
    dsimp only
    rw [List.getElem?_eq_getElem hm0]
    dsimp only
    rw [hk, forLoop_congr _
      (buildPredictionsRow X s.isMultiTreesModel s.params.LearningRate s.models bp
        (identityArray bp.VectorCount.toNat) (k : Int)) _
      (fun i hi st => buildFullPredictionsRow_eq X _ _ _ bp _ bp.VectorCount.toNat i
        (List.mem_range.mp hi) st)]
    unfold CGradientBoost.buildPredictions at e1
    rw [if_neg (not_not.mpr hmh), if_neg (not_not.mpr hmw)] at e1
    dsimp only at e1
    rw [identityArray_length] at e1
    have hmt : ∀ (a : List Int) (b c : List (List ℚ)),
        CGradientBoost.isMultiTreesModel
          { s with usedVectors := a, predicts := b, answers := c } = s.isMultiTreesModel :=
      fun _ _ _ => rfl
    simp only [hmt] at e1
    rcases hloop : forLoop (buildPredictionsRow X s.isMultiTreesModel s.params.LearningRate
        s.models bp (identityArray bp.VectorCount.toNat) (k : Int))
        (List.range bp.VectorCount.toNat)
        { predictCache := s.predictCache,
          predicts := s.predicts.map (fun p => CArray.SetSize p bp.VectorCount 0),
          answers := s.answers.map (fun a => CArray.SetSize a bp.VectorCount 0) } with ⟨st, o⟩
    rw [hloop] at e1
    dsimp only at e1
    simp only [Prod.mk.injEq] at e1
    obtain ⟨e3, e4⟩ := e1
    subst e4
    rw [← e3]
  refine ⟨_, hrun, congrArg (fun t : CGradientBoost Tree B => { t with usedVectors := s.usedVectors }) q1, c1.predictsLength, ?_, c1.answersLength, ?_, ?_⟩
  · intro row hrow
    rw [c1.predictsRows row hrow]
    exact identityArray_length _
  · intro row hrow
    rw [c1.answersRows row hrow]
    exact identityArray_length _
  · intro j r hj hr
    obtain ⟨target, t1, t2, t3, t4⟩ := v1 r (r : Int) (identityArray_getElem? _ r hr) j hj
    simp only [Int.toNat_ofNat] at t1 t2 t3 t4
    exact ⟨target, t1, t2, t3, t4⟩

end

section
variable {Tree B M P R : Type}

/-! ## Finalization -/

/-- On a ready trainer whose cache satisfies the invariant, the first two
statements of `getModel` return once `buildFullPredictions` has filled the two
buffers: the mean loss of the two full buffers is stored. -/
theorem finalLoss_run (X : Collaborators Tree B) (Y : ModelClasses Tree M P R)
    (s : CGradientBoost Tree B) (bp : IMultivariateRegressionProblem) (cfg : CParams) (k : Nat)
    (hR : s.Ready bp cfg k) (s1 : CGradientBoost Tree B)
    (hrun : s.buildFullPredictions X bp s.models = (s1, Outcome.ok ()))
    (hl : s1.lossFunction = s.lossFunction)
    (hp : s1.predicts.length = bp.ValueSize.toNat)
    (hpr : ∀ row ∈ s1.predicts, row.length = bp.VectorCount.toNat)
    (ha : s1.answers.length = bp.ValueSize.toNat)
    (har : ∀ row ∈ s1.answers, row.length = bp.VectorCount.toNat) :
    ∃ lossFunction : IGradientBoostingLossFunction, s.lossFunction = some lossFunction ∧
      lossFunction.CalcLossMean X.exp Y.log s1.predicts s1.answers =
        Outcome.ok (meanOfMeans (lossFunction.term X.exp Y.log) s1.predicts s1.answers) ∧
      s.finalLoss X Y =
        ({ s1 with loss := meanOfMeans (lossFunction.term X.exp Y.log) s1.predicts s1.answers },
          Outcome.ok bp) := by
  obtain ⟨lf, hlf⟩ := Option.isSome_iff_exists.mp hR.lossFunction
  have hcalc : lf.CalcLossMean X.exp Y.log s1.predicts s1.answers =
      Outcome.ok (meanOfMeans (lf.term X.exp Y.log) s1.predicts s1.answers) := by
    unfold IGradientBoostingLossFunction.CalcLossMean
    apply calcLossMeanWith_eq _ _ _ (by rw [hp, ha])
    intro i prow arow h1 h2
    rw [hpr prow (List.getElem?_mem h1), har arow (List.getElem?_mem h2)]
  refine ⟨lf, hlf, hcalc, ?_⟩
  unfold CGradientBoost.finalLoss
  rw [hR.baseProblem]
  dsimp only
  rw [hrun]
  dsimp only
  rw [hl, hlf]
  dsimp only
  rw [hcalc]

theorem createOutputRepresentation_fst (Y : ModelClasses Tree M P R) (s : CGradientBoost Tree B)
    (predictionSize : Int) :
    (s.createOutputRepresentation Y predictionSize).1 =
      { s with models := (Y.newGradientBoostModel s.models predictionSize s.params.LearningRate
          s.params.LossFunction).2 } := by
  unfold CGradientBoost.createOutputRepresentation
  dsimp only
  split <;> rfl

theorem getModel_run (X : Collaborators Tree B) (Y : ModelClasses Tree M P R)
    (checkCast : M → Outcome M) (s s1 : CGradientBoost Tree B)
    (bp : IMultivariateRegressionProblem)
    (hfinal : s.finalLoss X Y = (s1, Outcome.ok bp)) :
    (s.getModel X Y checkCast).1 =
      { s1.destroyTreeBuilder with
        predictCache := []
        models := (Y.newGradientBoostModel s1.models
          (if s1.isMultiTreesModel then bp.ValueSize else 1) s1.params.LearningRate
          s1.params.LossFunction).2 } ∧
    ∀ model : M,
      (CGradientBoost.createOutputRepresentation Y s1
        (if s1.isMultiTreesModel then bp.ValueSize else 1)).2 = Outcome.ok model →
      (s.getModel X Y checkCast).2 = checkCast model := by
  have hfst := createOutputRepresentation_fst Y
    ({ s1.destroyTreeBuilder with predictCache := [] } : CGradientBoost Tree B)
    (if s1.isMultiTreesModel then bp.ValueSize else 1)
  have hsnd : (CGradientBoost.createOutputRepresentation Y
      ({ s1.destroyTreeBuilder with predictCache := [] } : CGradientBoost Tree B)
      (if s1.isMultiTreesModel then bp.ValueSize else 1)).2 =
      (CGradientBoost.createOutputRepresentation Y s1
        (if s1.isMultiTreesModel then bp.ValueSize else 1)).2 := by
    unfold CGradientBoost.createOutputRepresentation
    dsimp only [CGradientBoost.destroyTreeBuilder]
    split <;> rfl
  unfold CGradientBoost.getModel
  rw [hfinal]
  dsimp only
  rcases hc : CGradientBoost.createOutputRepresentation Y
      ({ s1.destroyTreeBuilder with predictCache := [] } : CGradientBoost Tree B)
      (if s1.isMultiTreesModel then bp.ValueSize else 1) with ⟨s4, o⟩
  rw [hc] at hfst hsnd
  dsimp only at hfst hsnd
  subst hfst
  rw [← hsnd]
  cases o with
  | throw e => exact ⟨rfl, fun model h => Outcome.noConfusion h⟩
  | ok model0 =>
    refine ⟨rfl, fun model h => ?_⟩
    cases h
    rfl

/-- Claim C14: on a trainer between two steps whose cache satisfies the
prediction-cache invariant, `buildFullPredictions`, which `getModel` runs on
the whole problem, returns, and for every output `j` and every row `r` of the
problem, in the active set or not, it leaves in `predicts[j][r]` the learning
rate times the sum of the outputs on row `r` of all trees of the ensemble, in
`answers[j][r]` the target of row `r` for output `j`, and in
`predictCache[j][r]` that score with the ensemble length as `Step`; the two
buffers have one column per row of the problem, and the loss that `getModel`
stores is `CalcLossMean` over them. -/
theorem finalization_scores_whole_dataset (X : Collaborators Tree B)
    (Y : ModelClasses Tree M P R) (checkCast : M → Outcome M) (s : CGradientBoost Tree B)
    (bp : IMultivariateRegressionProblem) (cfg : CParams) (k : Nat)
    (hR : s.Ready bp cfg k) (hinv : s.CacheInvariant X bp k) :
    ∃ (s1 : CGradientBoost Tree B) (lossFunction : IGradientBoostingLossFunction) (loss : ℚ),
      s.buildFullPredictions X bp s.models = (s1, Outcome.ok ()) ∧
      s.lossFunction = some lossFunction ∧
      lossFunction.CalcLossMean X.exp Y.log s1.predicts s1.answers = Outcome.ok loss ∧
      s.finalLoss X Y = ({ s1 with loss := loss }, Outcome.ok bp) ∧
      (s.getModel X Y checkCast).1.loss = loss ∧
      s1.predicts.length = bp.ValueSize.toNat ∧
      (∀ row ∈ s1.predicts, row.length = bp.VectorCount.toNat) ∧
      s1.answers.length = bp.ValueSize.toNat ∧
      (∀ row ∈ s1.answers, row.length = bp.VectorCount.toNat) ∧
      ∀ (j r : Nat), j < bp.ValueSize.toNat → r < bp.VectorCount.toNat →
        ∃ target : ℚ, CArray.get2? bp.Values r j = some target ∧
          CArray.get2? s1.predicts j r = some (s.params.LearningRate *
            ((s.ensembleOf j).map (fun t =>
              X.treeOutput t ((bp.Matrix.Rows[r]?).getD []) (s.outputOf j))).sum) ∧
          CArray.get2? s1.answers j r = some target ∧
          CArray.get2? s1.predictCache j r = some
            { Step := ((s.ensembleOf j).length : Int)
              Value := s.params.LearningRate *
                ((s.ensembleOf j).map (fun t =>
                  X.treeOutput t ((bp.Matrix.Rows[r]?).getD []) (s.outputOf j))).sum } := by
  obtain ⟨s1, hrun, hframe, hp, hpr, ha, har, hvals⟩ := buildFullPredictions_spec X s bp cfg k hR hinv
  have hl : s1.lossFunction = s.lossFunction := by rw [hframe]
  obtain ⟨lf, hlf, hcalc, hfinal⟩ := finalLoss_run X Y s bp cfg k hR s1 hrun hl hp hpr ha har
  refine ⟨s1, lf, _, hrun, hlf, hcalc, hfinal, ?_, hp, hpr, ha, har, ?_⟩
  · rw [(getModel_run X Y checkCast s _ bp hfinal).1]
    rfl
  · intro j r hj hr
    obtain ⟨target, t1, t2, t3, t4⟩ := hvals j r hj hr
    have hlen := ensembleOf_length s bp cfg k hR j hj
    rw [scoreUpTo_all X s bp j r k hlen] at t2 t4
    rw [hlen]
    exact ⟨target, t1, t2, t3, t4⟩

theorem finalization_scores_whole_dataset_witness :
    (CGradientBoost.TrainSteps steadyCollaborators demoProblem 3 sampledFresh).1.usedVectors
      = [1] ∧
    ((CGradientBoost.TrainSteps steadyCollaborators demoProblem 3 sampledFresh).1.finalLoss
      steadyCollaborators demoModelClasses).1.loss = 523 / 768 ∧
    ∃ (s1 : CGradientBoost ℚ Nat) (lossFunction : IGradientBoostingLossFunction) (loss : ℚ),
      (CGradientBoost.TrainSteps steadyCollaborators demoProblem 3
        sampledFresh).1.buildFullPredictions steadyCollaborators demoProblem
        (CGradientBoost.TrainSteps steadyCollaborators demoProblem 3 sampledFresh).1.models =
        (s1, Outcome.ok ()) ∧
      (CGradientBoost.TrainSteps steadyCollaborators demoProblem 3
        sampledFresh).1.lossFunction = some lossFunction ∧
      lossFunction.CalcLossMean steadyCollaborators.exp demoModelClasses.log s1.predicts
        s1.answers = Outcome.ok loss ∧
      (CGradientBoost.TrainSteps steadyCollaborators demoProblem 3 sampledFresh).1.finalLoss
        steadyCollaborators demoModelClasses = ({ s1 with loss := loss }, Outcome.ok demoProblem) ∧
      ((CGradientBoost.TrainSteps steadyCollaborators demoProblem 3 sampledFresh).1.getModel
        steadyCollaborators demoModelClasses demoModelClasses.CheckCast_IModel).1.loss = loss ∧
      s1.predicts.length = demoProblem.ValueSize.toNat ∧
      (∀ row ∈ s1.predicts, row.length = demoProblem.VectorCount.toNat) ∧
      s1.answers.length = demoProblem.ValueSize.toNat ∧
      (∀ row ∈ s1.answers, row.length = demoProblem.VectorCount.toNat) ∧
      ∀ (j r : Nat), j < demoProblem.ValueSize.toNat → r < demoProblem.VectorCount.toNat →
        ∃ target : ℚ, CArray.get2? demoProblem.Values r j = some target ∧
          CArray.get2? s1.predicts j r = some ((CGradientBoost.TrainSteps steadyCollaborators demoProblem 3
              sampledFresh).1.params.LearningRate *
            (((CGradientBoost.TrainSteps steadyCollaborators demoProblem 3
                sampledFresh).1.ensembleOf j).map (fun t =>
              steadyCollaborators.treeOutput t ((demoProblem.Matrix.Rows[r]?).getD [])
                ((CGradientBoost.TrainSteps steadyCollaborators demoProblem 3
                  sampledFresh).1.outputOf j))).sum) ∧
          CArray.get2? s1.answers j r = some target ∧
          CArray.get2? s1.predictCache j r = some
            { Step := (((CGradientBoost.TrainSteps steadyCollaborators demoProblem 3
                sampledFresh).1.ensembleOf j).length : Int)
              Value := (CGradientBoost.TrainSteps steadyCollaborators demoProblem 3
                sampledFresh).1.params.LearningRate *
                (((CGradientBoost.TrainSteps steadyCollaborators demoProblem 3
                    sampledFresh).1.ensembleOf j).map (fun t =>
                  steadyCollaborators.treeOutput t ((demoProblem.Matrix.Rows[r]?).getD [])
                    ((CGradientBoost.TrainSteps steadyCollaborators demoProblem 3
                      sampledFresh).1.outputOf j))).sum } :=
  ⟨by decide!, by decide!,
    finalization_scores_whole_dataset steadyCollaborators demoModelClasses
      demoModelClasses.CheckCast_IModel _ demoProblem sampledParams 3
      ((trainSteps_run steadyCollaborators ⟨7⟩ sampledParams demoProblem sampledFresh
        sampled_construct demoProblem_wellFormed steady_drawsInRange 3
        (trainSteps_all_ok steadyCollaborators ⟨7⟩ sampledParams demoProblem sampledFresh
          sampled_construct demoProblem_wellFormed steady_drawsInRange
          (fun _ h => TLossFunction.noConfusion h)
          (fun _ h => TGradientBoostTreeBuilder.noConfusion h) steady_constructorsSucceed
          steady_buildsSucceed 3)).1 (by decide)).1
      ((trainSteps_run steadyCollaborators ⟨7⟩ sampledParams demoProblem sampledFresh
        sampled_construct demoProblem_wellFormed steady_drawsInRange 3
        (trainSteps_all_ok steadyCollaborators ⟨7⟩ sampledParams demoProblem sampledFresh
          sampled_construct demoProblem_wellFormed steady_drawsInRange
          (fun _ h => TLossFunction.noConfusion h)
          (fun _ h => TGradientBoostTreeBuilder.noConfusion h) steady_constructorsSucceed
          steady_buildsSucceed 3)).1 (by decide)).2⟩

end

section
variable {Tree B M P R : Type}

/-! ## The training loops -/

theorem TrainSteps_head (X : Collaborators Tree B) (problem : IMultivariateRegressionProblem)
    (n : Nat) (s : CGradientBoost Tree B) :
    CGradientBoost.TrainSteps X problem (n + 1) s =
      ((CGradientBoost.TrainSteps X problem n (s.TrainStep X problem).1).1,
        (s.TrainStep X problem).2 ::
          (CGradientBoost.TrainSteps X problem n (s.TrainStep X problem).1).2) := by
  induction n with
  | zero => rfl
  | succ n ih =>
    rw [TrainSteps_succ, ih, TrainSteps_succ]
    rfl

/-- The loop `while( !TrainStep( problem ) )` against a run whose first `n`
calls gave `false` and whose next call gave `true`: it ends after `n + 1`
calls in the state of the run, whenever the limit allows that many calls. -/
theorem whileNot_TrainSteps (X : Collaborators Tree B)
    (problem : IMultivariateRegressionProblem) (n : Nat) :
    ∀ (s : CGradientBoost Tree B) (limit : Nat), n + 1 ≤ limit →
      (CGradientBoost.TrainSteps X problem (n + 1) s).2 =
        List.replicate n (Outcome.ok false) ++ [Outcome.ok true] →
      whileNot (fun t => CGradientBoost.TrainStep X t problem) limit s =
        some (((CGradientBoost.TrainSteps X problem (n + 1) s).1, Outcome.ok ()), n + 1) := by
  induction n with
  | zero =>
    intro s limit hl hout
    obtain ⟨m, rfl⟩ : ∃ m, limit = m + 1 := ⟨limit - 1, by omega⟩
    rw [TrainSteps_head] at hout ⊢
    simp only [List.replicate_zero, List.nil_append, List.cons.injEq] at hout
    rcases hstep : s.TrainStep X problem with ⟨s1, o⟩
    rw [hstep] at hout
    obtain ⟨ho, _⟩ := hout
    simp only at ho
    subst ho
    unfold whileNot
    simp only [hstep]
    rfl
  | succ n ih =>
    intro s limit hl hout
    obtain ⟨m, rfl⟩ : ∃ m, limit = m + 1 := ⟨limit - 1, by omega⟩
    rw [TrainSteps_head] at hout ⊢
    rw [List.replicate_succ, List.cons_append, List.cons.injEq] at hout
    rcases hstep : s.TrainStep X problem with ⟨s1, o⟩
    rw [hstep] at hout
    obtain ⟨ho, hrest⟩ := hout
    simp only at ho hrest
    subst ho
    have h := ih s1 m (by omega) hrest
    unfold whileNot
    simp only [hstep]
    rw [h]

theorem createOutputRepresentation_ok (Y : ModelClasses Tree M P R) (s : CGradientBoost Tree B)
    (predictionSize : Int)
    (hrep : ∀ v, s.params.Representation ≠ TGradientBoostModelRepresentation.other v) :
    ∃ model : M, (s.createOutputRepresentation Y predictionSize).2 = Outcome.ok model := by
  unfold CGradientBoost.createOutputRepresentation
  dsimp only
  split
  · exact ⟨_, rfl⟩
  · exact ⟨_, rfl⟩
  · exact ⟨_, rfl⟩
  · rename_i v hv
    exact absurd hv (hrep v)

theorem createOutputRepresentation_congr (Y : ModelClasses Tree M P R)
    (s t : CGradientBoost Tree B) (predictionSize : Int) (hm : s.models = t.models)
    (hp : s.params = t.params) :
    (s.createOutputRepresentation Y predictionSize).2 =
      (t.createOutputRepresentation Y predictionSize).2 := by
  unfold CGradientBoost.createOutputRepresentation
  dsimp only
  rw [hm, hp]
  split <;> rfl

/-- On a ready trainer whose cache satisfies the invariant and whose
configuration asks for one of the three representations, `getModel` returns
the cast of the model that `createOutputRepresentation` builds from the
ensembles of the trainer. -/
theorem getModel_ready (X : Collaborators Tree B) (Y : ModelClasses Tree M P R)
    (s : CGradientBoost Tree B) (bp : IMultivariateRegressionProblem) (cfg : CParams) (k : Nat)
    (hR : s.Ready bp cfg k) (hinv : s.CacheInvariant X bp k)
    (hrep : ∀ v, s.params.Representation ≠ TGradientBoostModelRepresentation.other v) :
    ∃ model : M,
      (s.createOutputRepresentation Y (if s.isMultiTreesModel then bp.ValueSize else 1)).2 =
        Outcome.ok model ∧
      ∀ checkCast : M → Outcome M, (s.getModel X Y checkCast).2 = checkCast model := by
  obtain ⟨s1, hrun, hframe, hp, hpr, ha, har, _⟩ := buildFullPredictions_spec X s bp cfg k hR hinv
  have hl : s1.lossFunction = s.lossFunction := by rw [hframe]
  have hm : s1.models = s.models := by rw [hframe]
  have hpa : s1.params = s.params := by rw [hframe]
  have hmt : s1.isMultiTreesModel = s.isMultiTreesModel := by
    unfold CGradientBoost.isMultiTreesModel
    rw [hpa]
  obtain ⟨lf, _, _, hfinal⟩ := finalLoss_run X Y s bp cfg k hR s1 hrun hl hp hpr ha har
  obtain ⟨model, hmodel⟩ := createOutputRepresentation_ok Y s
    (if s.isMultiTreesModel then bp.ValueSize else 1) hrep
  refine ⟨model, hmodel, fun checkCast => ?_⟩
  apply (getModel_run X Y checkCast s _ bp hfinal).2 model
  rw [← hmodel]
  have hmt2 : CGradientBoost.isMultiTreesModel
      ({ s1 with loss := meanOfMeans (lf.term X.exp Y.log) s1.predicts s1.answers } :
        CGradientBoost Tree B) = s.isMultiTreesModel := hmt
  rw [hmt2]
  exact createOutputRepresentation_congr Y _ s _ hm hpa

/-- Claim C15: on a newly constructed trainer, with a problem whose adapted
form is well formed and collaborators whose constructors and `Build` calls
succeed, the loop `while( !TrainStep( problem ) )` of `TrainRegression`, of its
overload for `IRegressionProblem` and of `Train` ends after exactly
`IterationsCount` calls of `TrainStep`, whatever limit of at least that many
calls is given: after `i` calls ensemble 0 holds `i` trees, and the model
returned is the cast of the one built from the ensembles of the trainer at the
end of the loop, each of `IterationsCount` trees. -/
theorem train_loops_terminate (X : Collaborators Tree B) (Y : ModelClasses Tree M P R)
    (seed : CRandom) (params : CParams) (problem : IMultivariateRegressionProblem)
    (s0 : CGradientBoost Tree B) (limit : Nat)
    (hc : CGradientBoost.construct seed params = Outcome.ok s0)
    (hwf : (X.notNullWeightsView problem).WellFormed) (hd : X.DrawsInRange)
    (hloss : ∀ v, params.LossFunction ≠ TLossFunction.other v)
    (htb : ∀ v, params.TreeBuilder ≠ TGradientBoostTreeBuilder.other v)
    (hrep : ∀ v, params.Representation ≠ TGradientBoostModelRepresentation.other v)
    (hcons : X.ConstructorsSucceed) (hb : X.BuildsSucceed)
    (hlimit : params.IterationsCount.toNat ≤ limit) :
    (∀ i : Nat, i ≤ params.IterationsCount.toNat →
      (CGradientBoost.TrainSteps X problem i s0).1.stepCount = (i : Int)) ∧
    whileNot (fun t => CGradientBoost.TrainStep X t problem) limit s0 =
      some (((CGradientBoost.TrainSteps X problem params.IterationsCount.toNat s0).1,
        Outcome.ok ()), params.IterationsCount.toNat) ∧
    (CGradientBoost.TrainSteps X problem params.IterationsCount.toNat s0).1.models ≠ [] ∧
    (∀ e ∈ (CGradientBoost.TrainSteps X problem params.IterationsCount.toNat s0).1.models,
      e.length = params.IterationsCount.toNat) ∧
    ∃ model : M,
      (CGradientBoost.createOutputRepresentation Y
        (CGradientBoost.TrainSteps X problem params.IterationsCount.toNat s0).1
        (if (CGradientBoost.TrainSteps X problem
            params.IterationsCount.toNat s0).1.isMultiTreesModel
          then (X.notNullWeightsView problem).ValueSize else 1)).2 = Outcome.ok model ∧
      s0.TrainRegression X Y problem limit =
        some ((((CGradientBoost.TrainSteps X problem params.IterationsCount.toNat s0).1.getModel
            X Y Y.CheckCast_IMultivariateRegressionModel).1,
          Y.CheckCast_IMultivariateRegressionModel model), params.IterationsCount.toNat) ∧
      (∀ regression : R, Y.overUnivariate regression = problem →
        s0.TrainRegression_IRegressionProblem X Y regression limit =
          some ((((CGradientBoost.TrainSteps X problem
              params.IterationsCount.toNat s0).1.getModel X Y Y.CheckCast_IRegressionModel).1,
            Y.CheckCast_IRegressionModel model), params.IterationsCount.toNat)) ∧
      (∀ classification : P,
        (if Y.GetClassCount classification = 2 then Y.overBinaryClassification classification
          else Y.overClassification classification) = problem →
        s0.Train X Y classification limit =
          some ((((CGradientBoost.TrainSteps X problem
              params.IterationsCount.toNat s0).1.getModel X Y Y.CheckCast_IModel).1,
            Y.CheckCast_IModel model), params.IterationsCount.toNat)) := by
  have hfresh := construct_fresh seed params s0 hc
  have hpos : params.IterationsCount > 0 := hfresh.2.2.2.2.2.2.2.2.2
  have hallok := trainSteps_all_ok X seed params problem s0 hc hwf hd hloss htb hcons hb
  obtain ⟨n, hn⟩ : ∃ n, params.IterationsCount.toNat = n + 1 :=
    ⟨params.IterationsCount.toNat - 1, by omega⟩
  obtain ⟨hR, hO, _⟩ := trainSteps_run X seed params problem s0 hc hwf hd
    params.IterationsCount.toNat (hallok _)
  obtain ⟨R1, I1⟩ := hR (by omega)
  -- the outcomes of the run
  have hout : (CGradientBoost.TrainSteps X problem (n + 1) s0).2 =
      List.replicate n (Outcome.ok false) ++ [Outcome.ok true] := by
    rw [hn] at hO
    rw [hO, List.range_succ, List.map_append]
    congr 1
    · rw [List.eq_replicate_iff]
      refine ⟨by rw [List.length_map, List.length_range], ?_⟩
      intro o ho
      obtain ⟨i, hi, rfl⟩ := List.mem_map.mp ho
      rw [List.mem_range] at hi
      congr 1
      rw [decide_eq_false_iff_not]
      omega
    · simp only [List.map_cons, List.map_nil, List.cons.injEq, and_true]
      congr 1
      rw [decide_eq_true_eq]
      omega
  have hloop := whileNot_TrainSteps X problem n s0 limit (by omega) hout
  rw [← hn] at hloop
  have hrep1 : ∀ v, (CGradientBoost.TrainSteps X problem params.IterationsCount.toNat
      s0).1.params.Representation ≠ TGradientBoostModelRepresentation.other v := by
    intro v
    have := congrArg CParams.Representation R1.params
    change _ = params.Representation at this
    change (CGradientBoost.TrainSteps X problem params.IterationsCount.toNat
      s0).1.params.Representation = _ at this
    rw [this]
    exact hrep v
  obtain ⟨model, hmodel, hget⟩ := getModel_ready X Y _ _ params _ R1 I1 hrep1
  refine ⟨?_, hloop, ?_, R1.ensembles, model, hmodel, ?_, ?_, ?_⟩
  · intro i hi
    rcases Nat.eq_zero_or_pos i with h0 | h0
    · subst h0
      change s0.stepCount = 0
      unfold CGradientBoost.stepCount
      rw [hfresh.2.2.1]
      rfl
    · exact ((trainSteps_run X seed params problem s0 hc hwf hd i (hallok i)).1 h0).1.stepCount
  · intro hnil
    have h1 := R1.modelsLength
    rw [hnil] at h1
    have hv := R1.wellFormed.1
    simp only [List.length_nil] at h1
    split_ifs at h1
    omega
  · unfold CGradientBoost.TrainRegression
    rw [hloop]
    dsimp only
    unfold CGradientBoost.GetMultivariateRegressionModel CGradientBoost.prepareProblem
    rw [R1.baseProblem]
    dsimp only
    rw [← hget Y.CheckCast_IMultivariateRegressionModel]
  · intro regression hreg
    subst hreg
    have hstep : (fun t : CGradientBoost Tree B =>
        t.TrainStep_IRegressionProblem X Y regression) =
        (fun t => CGradientBoost.TrainStep X t (Y.overUnivariate regression)) := by
      funext t
      rfl
    unfold CGradientBoost.TrainRegression_IRegressionProblem
    rw [hstep, hloop]
    dsimp only
    unfold CGradientBoost.GetRegressionModel CGradientBoost.prepareProblem_IRegressionProblem
    rw [R1.baseProblem]
    dsimp only
    rw [← hget Y.CheckCast_IRegressionModel]
  · intro classification hcl
    subst hcl
    have hstep : (fun t : CGradientBoost Tree B => t.TrainStep_IProblem X Y classification) =
        (fun t => CGradientBoost.TrainStep X t
          (if Y.GetClassCount classification = 2 then Y.overBinaryClassification classification
            else Y.overClassification classification)) := by
      funext t
      rfl
    unfold CGradientBoost.Train
    rw [hstep, hloop]
    dsimp only
    unfold CGradientBoost.GetClassificationModel CGradientBoost.prepareProblem_IProblem
    rw [R1.baseProblem]
    dsimp only
    rw [← hget Y.CheckCast_IModel]

theorem train_loops_terminate_witness :
    demoParams.IterationsCount.toNat ≤ 10 ∧
    whileNot (fun t => CGradientBoost.TrainStep steadyCollaborators t demoProblem) 10 demoFresh =
      some (((CGradientBoost.TrainSteps steadyCollaborators demoProblem
        demoParams.IterationsCount.toNat demoFresh).1, Outcome.ok ()),
        demoParams.IterationsCount.toNat) ∧
    (∀ i : Nat, i ≤ demoParams.IterationsCount.toNat →
      (CGradientBoost.TrainSteps steadyCollaborators demoProblem i demoFresh).1.stepCount =
        (i : Int)) ∧
    (demoFresh.TrainRegression steadyCollaborators demoModelClasses demoProblem 10).map
      (fun r => (r.1.2, r.2)) =
        some (Outcome.ok [[11 / 4, 11 / 8, 11 / 16], [1 / 4, 1 / 8, 1 / 16]], 3) ∧
    (demoFresh.TrainRegression steadyCollaborators demoModelClasses demoProblem 2).map
      (fun r => (r.1.2, r.2)) = none :=
  ⟨by decide,
    (train_loops_terminate steadyCollaborators demoModelClasses ⟨7⟩ demoParams demoProblem
      demoFresh 10 rfl demoProblem_wellFormed steady_drawsInRange
      (fun _ h => TLossFunction.noConfusion h)
      (fun _ h => TGradientBoostTreeBuilder.noConfusion h)
      (fun _ h => TGradientBoostModelRepresentation.noConfusion h)
      steady_constructorsSucceed steady_buildsSucceed (by decide)).2.1,
    (train_loops_terminate steadyCollaborators demoModelClasses ⟨7⟩ demoParams demoProblem
      demoFresh 10 rfl demoProblem_wellFormed steady_drawsInRange
      (fun _ h => TLossFunction.noConfusion h)
      (fun _ h => TGradientBoostTreeBuilder.noConfusion h)
      (fun _ h => TGradientBoostModelRepresentation.noConfusion h)
      steady_constructorsSucceed steady_buildsSucceed (by decide)).1,
    by decide!, by decide!⟩

end

/-! ## A step without sampling -/

theorem tableOf_ext {α : Type} (L : List (List α)) (m n : Nat) (f : Nat → Nat → α)
    (hL : L.length = m) (hrows : ∀ row ∈ L, row.length = n)
    (h : ∀ j r, j < m → r < n → CArray.get2? L j r = some (f j r)) : L = tableOf m n f := by
  unfold tableOf
  apply List.ext_getElem
  · rw [hL, List.length_map, List.length_range]
  · intro j h1 h2
    rw [List.getElem_map, List.getElem_range]
    have hj : j < m := by rw [← hL]; exact h1
    have hrow := hrows _ (List.getElem_mem h1)
    apply List.ext_getElem
    · rw [hrow, List.length_map, List.length_range]
    · intro r g1 g2
      rw [List.getElem_map, List.getElem_range]
      have hr : r < n := by rw [← hrow]; exact g1
      have := h j r hj hr
      unfold CArray.get2? at this
      rw [List.getElem?_eq_getElem h1] at this
      dsimp only at this
      rw [List.getElem?_eq_getElem g1] at this
      exact Option.some.inj this

section
variable {Tree B : Type}

theorem sampleVectors_full (X : Collaborators Tree B) (s : CGradientBoost Tree B) (n : Int)
    (h : s.params.Subsample = 1) : s.sampleVectors X n = (s, Outcome.ok ()) := by
  unfold CGradientBoost.sampleVectors
  rw [if_neg (by rw [h]; exact lt_irrefl 1)]

theorem sampleFeatures_full (X : Collaborators Tree B) (s : CGradientBoost Tree B) (n : Int)
    (h : s.params.Subfeature = 1) : s.sampleFeatures X n = (s, Outcome.ok ()) := by
  unfold CGradientBoost.sampleFeatures
  rw [if_neg (by rw [h]; exact lt_irrefl 1)]

/-- Without sampling, the part of a step before the loss function leaves the
buffers and the cache of `scored`: every row of the problem is scored by all
`k` trees. -/
theorem gatherStatistics_full (X : Collaborators Tree B) (s : CGradientBoost Tree B)
    (lf : IGradientBoostingLossFunction) (bp : IMultivariateRegressionProblem) (cfg : CParams)
    (k : Nat) (hR : s.Ready bp cfg k) (hinv : s.CacheInvariant X bp k)
    (hss : s.params.Subsample = 1) (hsf : s.params.Subfeature = 1) :
    s.gatherStatistics X lf bp = CGradientBoost.computeStatistics X (s.scored X bp k) lf bp := by
  obtain ⟨hvs, hvc, hfc, hmh, hmw, hrows, hvals, hvall, hwts⟩ := hR.wellFormed
  have hm0 : 0 < s.models.length := by
    rw [hR.modelsLength]; split_ifs
    · exact Nat.one_pos
    · omega
  have hk : (s.models[0]).length = k := hR.ensembles _ (List.getElem_mem hm0)
  have huv : s.usedVectors = identityArray bp.VectorCount.toNat := hR.usedVectors hss
  have hresized : ∀ (L : List (List ℚ)),
      ∀ row ∈ L.map (fun p => CArray.SetSize p (s.usedVectors.length : Int) 0),
        row.length = s.usedVectors.length := by
    intro L row hrow
    obtain ⟨p, _, rfl⟩ := List.mem_map.mp hrow
    rw [CArray.SetSize_length, Int.toNat_ofNat]
  have hR2 : CGradientBoost.Ready
      { s with predicts := s.predicts.map (fun p => CArray.SetSize p (s.usedVectors.length : Int) 0),
               answers := s.answers.map (fun a => CArray.SetSize a (s.usedVectors.length : Int) 0),
               gradients := s.gradients.map (fun _ => []),
               hessians := s.hessians.map (fun _ => []) }
      bp cfg k :=
    { params := hR.params
      baseProblem := hR.baseProblem
      wellFormed := hR.wellFormed
      lossFunction := hR.lossFunction
      modelsLength := hR.modelsLength
      ensembles := hR.ensembles
      cacheLength := hR.cacheLength
      cacheRows := hR.cacheRows
      predicts := by rw [List.length_map]; exact hR.predicts
      answers := by rw [List.length_map]; exact hR.answers
      gradients := by rw [List.length_map]; exact hR.gradients
      hessians := by rw [List.length_map]; exact hR.hessians
      subsample := hR.subsample
      subfeature := hR.subfeature
      usedVectors := hR.usedVectors
      handles := hR.handles }
  obtain ⟨s1, e1, q1, c1, v1⟩ := buildPredictions_values X _ bp cfg k hR2
    (fun v hv => by
      change v ∈ s.usedVectors at hv
      rw [huv] at hv
      have := (identity_mem bp.VectorCount.toNat v).mp hv
      omega)
    (by change s.usedVectors.Nodup; rw [huv]; exact identity_nodup _) hinv
    (hresized s.predicts) (hresized s.answers)
  have hul : s.usedVectors.length = bp.VectorCount.toNat := by rw [huv, identityArray_length]
  -- the three tables
  have hP : s1.predicts = tableOf bp.ValueSize.toNat bp.VectorCount.toNat
      (fun j r => s.scoreUpTo X bp j r (k : Int)) := by
    apply tableOf_ext _ _ _ _ c1.predictsLength
    · intro row hrow; rw [c1.predictsRows row hrow]; exact hul
    · intro j r hj hr
      obtain ⟨target, t1, t2, t3, t4⟩ := v1 r (r : Int)
        (by change s.usedVectors[r]? = _; rw [huv]; exact identityArray_getElem? _ r hr) j hj
      simp only [Int.toNat_ofNat] at t2
      exact t2
  have hA : s1.answers = tableOf bp.ValueSize.toNat bp.VectorCount.toNat
      (fun j r => (CArray.get2? bp.Values r j).getD 0) := by
    apply tableOf_ext _ _ _ _ c1.answersLength
    · intro row hrow; rw [c1.answersRows row hrow]; exact hul
    · intro j r hj hr
      obtain ⟨target, t1, t2, t3, t4⟩ := v1 r (r : Int)
        (by change s.usedVectors[r]? = _; rw [huv]; exact identityArray_getElem? _ r hr) j hj
      simp only [Int.toNat_ofNat] at t1 t3
      rw [t3, t1]
      rfl
  have hC : s1.predictCache = tableOf bp.ValueSize.toNat bp.VectorCount.toNat
      (fun j r => { Step := (k : Int), Value := s.scoreUpTo X bp j r (k : Int) }) := by
    apply tableOf_ext _ _ _ _ c1.cacheLength c1.cacheRows
    intro j r hj hr
    obtain ⟨target, t1, t2, t3, t4⟩ := v1 r (r : Int)
      (by change s.usedVectors[r]? = _; rw [huv]; exact identityArray_getElem? _ r hr) j hj
    simp only [Int.toNat_ofNat] at t4
    exact t4
  have hs1 : s1 = s.scored X bp k := by
    rw [q1]
    unfold CGradientBoost.scored
    rw [hP, hA, hC]
    dsimp only
    rw [List.map_const', List.map_const', hR.gradients, hR.hessians]
  unfold CGradientBoost.gatherStatistics
  rw [sampleVectors_full X s _ hss]
  dsimp only
  rw [sampleFeatures_full X s _ hsf]
  dsimp only
  rw [List.getElem?_eq_getElem hm0]
  dsimp only
  unfold CGradientBoost.resizeBuffers
  rw [resizeBody_loop s.usedVectors.length _ s.predicts.length rfl
    (by rw [hR.answers, hR.predicts]) (by rw [hR.gradients, hR.predicts])
    (by rw [hR.hessians, hR.predicts])]
  dsimp only
  rw [hk, e1]
  dsimp only
  rw [hs1]

end

/-! ## Two trainers on the same step -/

theorem forLoop_rel {σ : Type} (body : Nat → σ → σ × Outcome Unit) (Rel : σ → σ → Prop)
    (h : ∀ i a b, Rel a b → Rel (body i a).1 (body i b).1 ∧ (body i b).2 = (body i a).2)
    (idx : List Nat) (a b : σ) (hab : Rel a b) :
    Rel (forLoop body idx a).1 (forLoop body idx b).1 ∧
      (forLoop body idx b).2 = (forLoop body idx a).2 := by
  induction idx generalizing a b with
  | nil => exact ⟨hab, rfl⟩
  | cons i rest ih =>
    obtain ⟨h1, h2⟩ := h i a b hab
    rcases ha : body i a with ⟨a1, oa⟩
    rcases hb : body i b with ⟨b1, ob⟩
    rw [ha, hb] at h1 h2
    dsimp only at h1 h2
    subst h2
    cases ob with
    | ok u =>
      simp only [forLoop, ha, hb]
      exact ih a1 b1 h1
    | throw e =>
      simp only [forLoop, ha, hb]
      exact ⟨h1, trivial⟩

section
variable {Tree B : Type}

theorem CGradientBoost.Agree.flip {s t : CGradientBoost Tree B} (h : s.Agree t) : t.Agree s :=
  ⟨h.params.symm, h.lossFunction.symm, h.models.symm, h.predictCache.symm, h.usedVectors.symm,
    h.usedFeatures.symm, h.featureNumbers.symm, h.baseProblem.symm, h.fullProblem.symm,
    h.fastHistProblem.symm, h.fullSingle.symm, h.fullMulti.symm, h.fastHistSingle.symm,
    h.fastHistMulti.symm⟩

theorem CGradientBoost.Agree.chain {s t u : CGradientBoost Tree B} (h1 : s.Agree t)
    (h2 : t.Agree u) : s.Agree u :=
  ⟨h2.params.trans h1.params, h2.lossFunction.trans h1.lossFunction,
    h2.models.trans h1.models, h2.predictCache.trans h1.predictCache,
    h2.usedVectors.trans h1.usedVectors, h2.usedFeatures.trans h1.usedFeatures,
    h2.featureNumbers.trans h1.featureNumbers, h2.baseProblem.trans h1.baseProblem,
    h2.fullProblem.trans h1.fullProblem, h2.fastHistProblem.trans h1.fastHistProblem,
    h2.fullSingle.trans h1.fullSingle, h2.fullMulti.trans h1.fullMulti,
    h2.fastHistSingle.trans h1.fastHistSingle, h2.fastHistMulti.trans h1.fastHistMulti⟩

theorem CGradientBoost.SameBuffers.swap {s t : CGradientBoost Tree B} (h : s.SameBuffers t) :
    t.SameBuffers s :=
  ⟨h.predicts.symm, h.answers.symm, h.gradients.symm, h.hessians.symm⟩

theorem CGradientBoost.SameBuffers.join {s t u : CGradientBoost Tree B} (h1 : s.SameBuffers t)
    (h2 : t.SameBuffers u) : s.SameBuffers u :=
  ⟨h2.predicts.trans h1.predicts, h2.answers.trans h1.answers,
    h2.gradients.trans h1.gradients, h2.hessians.trans h1.hessians⟩

/-- The builder calls of a step change nothing that `Agree` and `SameBuffers`
look at. -/
theorem CGradientBoost.BuildFrame.agree {s s1 : CGradientBoost Tree B} (h : s.BuildFrame s1) :
    s.Agree s1 ∧ s.SameBuffers s1 := by
  obtain ⟨q, h1, h2, h3, h4⟩ := h
  refine ⟨⟨?_, ?_, ?_, ?_, ?_, ?_, ?_, ?_, ?_, ?_, h1, h2, h3, h4⟩, ⟨?_, ?_, ?_, ?_⟩⟩
  all_goals rw [q]

theorem scored_agree (X : Collaborators Tree B) (s t : CGradientBoost Tree B)
    (bp : IMultivariateRegressionProblem) (k : Nat) (h : s.Agree t) :
    (s.scored X bp k).Agree (t.scored X bp k) ∧
      (s.scored X bp k).SameBuffers (t.scored X bp k) := by
  have hsc : ∀ j r, t.scoreUpTo X bp j r (k : Int) = s.scoreUpTo X bp j r (k : Int) :=
    fun j r => scoreUpTo_congr X s t bp h.models h.params j r _
  have h1 : (fun j r => t.scoreUpTo X bp j r (k : Int)) =
      (fun j r => s.scoreUpTo X bp j r (k : Int)) := by
    funext j r; exact hsc j r
  have h2 : (fun j r => ({ Step := (k : Int), Value := t.scoreUpTo X bp j r (k : Int) } :
      CPredictionCacheItem)) =
      (fun j r => { Step := (k : Int), Value := s.scoreUpTo X bp j r (k : Int) }) := by
    funext j r; rw [hsc j r]
  refine ⟨⟨h.params, h.lossFunction, h.models, ?_, h.usedVectors, h.usedFeatures,
    h.featureNumbers, h.baseProblem, h.fullProblem, h.fastHistProblem, h.fullSingle,
    h.fullMulti, h.fastHistSingle, h.fastHistMulti⟩, ⟨?_, rfl, rfl, rfl⟩⟩
  · unfold CGradientBoost.scored
    dsimp only
    rw [h2]
  · unfold CGradientBoost.scored
    dsimp only
    rw [h1]

theorem computeStatistics_frame (X : Collaborators Tree B) (s : CGradientBoost Tree B)
    (lf : IGradientBoostingLossFunction) (p : IMultivariateRegressionProblem) :
    (s.computeStatistics X lf p).1 =
      { s with gradients := (s.computeStatistics X lf p).1.gradients,
               hessians := (s.computeStatistics X lf p).1.hessians } := by
  unfold CGradientBoost.computeStatistics
  rcases lf.CalcGradientAndHessian X.exp s.predicts s.answers s.gradients s.hessians with
    ⟨⟨g, h⟩, _ | e⟩
  · dsimp only
    rcases readWeights p s.usedVectors with _ | w
    · rfl
    · dsimp only
      rcases weightStatistics w s.usedVectors.length _ with ⟨st, _ | e⟩ <;> rfl
  · rfl

theorem computeStatistics_agree (X : Collaborators Tree B) (s t : CGradientBoost Tree B)
    (lf : IGradientBoostingLossFunction) (p : IMultivariateRegressionProblem)
    (h : s.Agree t) (hb : s.SameBuffers t) :
    (s.computeStatistics X lf p).1.Agree (t.computeStatistics X lf p).1 ∧
      (s.computeStatistics X lf p).1.SameBuffers (t.computeStatistics X lf p).1 ∧
      (t.computeStatistics X lf p).2 = (s.computeStatistics X lf p).2 := by
  have key : (t.computeStatistics X lf p).1.gradients = (s.computeStatistics X lf p).1.gradients ∧
      (t.computeStatistics X lf p).1.hessians = (s.computeStatistics X lf p).1.hessians ∧
      (t.computeStatistics X lf p).2 = (s.computeStatistics X lf p).2 := by
    unfold CGradientBoost.computeStatistics
    rw [hb.predicts, hb.answers, hb.gradients, hb.hessians]
    rcases lf.CalcGradientAndHessian X.exp s.predicts s.answers s.gradients s.hessians with
      ⟨⟨g, g1⟩, _ | e⟩
    · dsimp only
      rw [h.usedVectors]
      rcases readWeights p s.usedVectors with _ | w
      · exact ⟨rfl, rfl, rfl⟩
      · dsimp only
        rcases weightStatistics w s.usedVectors.length _ with ⟨st, _ | e⟩ <;>
          exact ⟨rfl, rfl, rfl⟩
    · exact ⟨rfl, rfl, rfl⟩
  have fs := computeStatistics_frame X s lf p
  have ft := computeStatistics_frame X t lf p
  refine ⟨⟨?_, ?_, ?_, ?_, ?_, ?_, ?_, ?_, ?_, ?_, ?_, ?_, ?_, ?_⟩, ⟨?_, ?_, key.1, key.2.1⟩,
    key.2.2⟩
  all_goals rw [fs, ft]
  · exact h.params
  · exact h.lossFunction
  · exact h.models
  · exact h.predictCache
  · exact h.usedVectors
  · exact h.usedFeatures
  · exact h.featureNumbers
  · exact h.baseProblem
  · exact h.fullProblem
  · exact h.fastHistProblem
  · exact h.fullSingle
  · exact h.fullMulti
  · exact h.fastHistSingle
  · exact h.fastHistMulti
  · exact hb.predicts
  · exact hb.answers

end

section
variable {Tree B : Type}

theorem buildView_agree (s t : CGradientBoost Tree B) (h : s.Agree t)
    (p : IMultivariateRegressionProblem) : t.buildView p = s.buildView p := by
  unfold CGradientBoost.buildView
  rw [h.usedVectors, h.usedFeatures, h.featureNumbers]

theorem isSome_none_of_eq {α β : Type} {a : Option α} {b : Option β}
    (h : b.isSome = a.isSome) (ha : a = none) : b = none := by
  rw [ha] at h
  cases b with
  | none => rfl
  | some x => simp at h

theorem isSome_some_of_eq {α β : Type} {a : Option α} {b : Option β} (x : α)
    (h : b.isSome = a.isSome) (ha : a = some x) : ∃ y, b = some y := by
  rw [ha] at h
  cases b with
  | none => simp at h
  | some y => exact ⟨y, rfl⟩

/-- With a deterministic builder, the single-output builder call of two
trainers that agree gives the same tree or the same exception. -/
theorem buildSingleBody_agree (X : Collaborators Tree B) (hdet : X.Deterministic)
    (gs hs w : List ℚ) (ws : ℚ) (i : Nat) (a b : CGradientBoost Tree B × List Tree)
    (h : a.1.Agree b.1) (hb : a.1.SameBuffers b.1) (hc : b.2 = a.2) :
    (buildSingleBody X gs hs w ws i b).1.2 = (buildSingleBody X gs hs w ws i a).1.2 ∧
      (buildSingleBody X gs hs w ws i b).2 = (buildSingleBody X gs hs w ws i a).2 := by
  obtain ⟨d1, d2, d3, d4⟩ := hdet
  obtain ⟨a1, a2⟩ := a
  obtain ⟨b1, b2⟩ := b
  dsimp only at h hb hc
  subst hc
  unfold buildSingleBody
  dsimp only
  rw [hb.gradients, hb.hessians]
  rcases a1.gradients[i]? with _ | g
  · exact ⟨rfl, rfl⟩
  rcases a1.hessians[i]? with _ | h0
  · exact ⟨rfl, rfl⟩
  rcases gs[i]? with _ | g1
  · exact ⟨rfl, rfl⟩
  rcases hs[i]? with _ | h1
  · exact ⟨rfl, rfl⟩
  dsimp only
  have ha := (logSums_buildFrame a1 g1 h1).agree.1
  have hbb := (logSums_buildFrame b1 g1 h1).agree.1
  have hl : (a1.logSums g1 h1).Agree (b1.logSums g1 h1) := (ha.flip.chain h).chain hbb
  generalize a1.logSums g1 h1 = sa at hl ⊢
  generalize b1.logSums g1 h1 = sb at hl ⊢
  have hview := buildView_agree sa sb hl
  rcases hfa : sa.fullSingleClassTreeBuilder with _ | ba
  · rw [isSome_none_of_eq hl.fullSingle hfa]
    dsimp only
    rcases hha : sa.fastHistSingleClassTreeBuilder with _ | ba
    · rw [isSome_none_of_eq hl.fastHistSingle hha]
      exact ⟨rfl, rfl⟩
    · obtain ⟨bb, hhb⟩ := isSome_some_of_eq ba hl.fastHistSingle hha
      rw [hhb, hl.fastHistProblem]
      rcases sa.fastHistProblem with _ | v
      · exact ⟨rfl, rfl⟩
      · dsimp only
        rw [hview]
        have hd := d3 ba bb (sa.buildView v.baseProblem) g h0 w
        revert hd
        rcases X.fastHistSingleBuild ba (sa.buildView v.baseProblem) g h0 w with ⟨oa, ba1⟩
        rcases X.fastHistSingleBuild bb (sa.buildView v.baseProblem) g h0 w with ⟨ob, bb1⟩
        intro hd
        dsimp only at hd
        subst hd
        cases oa <;> exact ⟨rfl, rfl⟩
  · obtain ⟨bb, hfb⟩ := isSome_some_of_eq ba hl.fullSingle hfa
    rw [hfb, hl.fullProblem]
    dsimp only
    rcases sa.fullProblem with _ | v
    · exact ⟨rfl, rfl⟩
    · dsimp only
      rw [hview]
      have hd := d1 ba bb (sa.buildView v.baseProblem) g g1 h0 h1 w ws
      revert hd
      rcases X.fullSingleBuild ba (sa.buildView v.baseProblem) g g1 h0 h1 w ws with ⟨oa, ba1⟩
      rcases X.fullSingleBuild bb (sa.buildView v.baseProblem) g g1 h0 h1 w ws with ⟨ob, bb1⟩
      intro hd
      dsimp only at hd
      subst hd
      cases oa <;> exact ⟨rfl, rfl⟩

theorem buildMulti_agree (X : Collaborators Tree B) (hdet : X.Deterministic)
    (s t : CGradientBoost Tree B) (gs hs w : List ℚ) (ws : ℚ) (cur : List Tree)
    (h : s.Agree t) (hb : s.SameBuffers t) :
    (t.buildMulti X gs hs w ws cur).2 = (s.buildMulti X gs hs w ws cur).2 := by
  obtain ⟨d1, d2, d3, d4⟩ := hdet
  have hview := buildView_agree s t h
  unfold CGradientBoost.buildMulti
  rw [hb.gradients, hb.hessians]
  rcases hfa : s.fullMultiClassTreeBuilder with _ | ba
  · rw [isSome_none_of_eq h.fullMulti hfa]
    dsimp only
    rcases hha : s.fastHistMultiClassTreeBuilder with _ | ba
    · rw [isSome_none_of_eq h.fastHistMulti hha]
    · obtain ⟨bb, hhb⟩ := isSome_some_of_eq ba h.fastHistMulti hha
      rw [hhb, h.fastHistProblem]
      rcases s.fastHistProblem with _ | v
      · rfl
      · dsimp only
        rw [hview]
        have hd := d4 ba bb (s.buildView v.baseProblem) s.gradients s.hessians w
        revert hd
        rcases X.fastHistMultiBuild ba (s.buildView v.baseProblem) s.gradients s.hessians w with
          ⟨oa, ba1⟩
        rcases X.fastHistMultiBuild bb (s.buildView v.baseProblem) s.gradients s.hessians w with
          ⟨ob, bb1⟩
        intro hd
        dsimp only at hd
        subst hd
        cases oa <;> rfl
  · obtain ⟨bb, hfb⟩ := isSome_some_of_eq ba h.fullMulti hfa
    rw [hfb, h.fullProblem]
    dsimp only
    rcases s.fullProblem with _ | v
    · rfl
    · dsimp only
      rw [hview]
      have hd := d2 ba bb (s.buildView v.baseProblem) s.gradients gs s.hessians hs w ws
      revert hd
      rcases X.fullMultiBuild ba (s.buildView v.baseProblem) s.gradients gs s.hessians hs w ws
        with ⟨oa, ba1⟩
      rcases X.fullMultiBuild bb (s.buildView v.baseProblem) s.gradients gs s.hessians hs w ws
        with ⟨ob, bb1⟩
      intro hd
      dsimp only at hd
      subst hd
      cases oa <;> rfl

/-- With a deterministic builder, the closing block of `executeStep` gives two
trainers that agree the same trees or the same exception, and leaves them in
agreement. -/
theorem buildTrees_agree (X : Collaborators Tree B) (hdet : X.Deterministic)
    (s t : CGradientBoost Tree B) (gs hs w : List ℚ) (ws : ℚ) (cur : List Tree)
    (h : s.Agree t) (hb : s.SameBuffers t) :
    (s.buildTrees X gs hs w ws cur).1.Agree (t.buildTrees X gs hs w ws cur).1 ∧
      (s.buildTrees X gs hs w ws cur).1.SameBuffers (t.buildTrees X gs hs w ws cur).1 ∧
      (t.buildTrees X gs hs w ws cur).2 = (s.buildTrees X gs hs w ws cur).2 := by
  have fs := (buildTrees_buildFrame X s gs hs w ws cur).agree
  have ft := (buildTrees_buildFrame X t gs hs w ws cur).agree
  refine ⟨(fs.1.flip.chain h).chain ft.1, (fs.2.swap.join hb).join ft.2, ?_⟩
  unfold CGradientBoost.buildTrees
  rw [h.fullMulti, h.fastHistMulti, hb.gradients]
  split_ifs
  · exact buildMulti_agree X hdet s t gs hs w ws cur h hb
  · have key := forLoop_rel (buildSingleBody X gs hs w ws)
      (fun a b => a.1.Agree b.1 ∧ a.1.SameBuffers b.1 ∧ b.2 = a.2)
      (fun i a b hab => by
        obtain ⟨h1, h2, h3⟩ := hab
        have fa := (buildSingleBody_buildFrame X gs hs w ws i a).agree
        have fb := (buildSingleBody_buildFrame X gs hs w ws i b).agree
        have hx := buildSingleBody_agree X hdet gs hs w ws i a b h1 h2 h3
        exact ⟨⟨(fa.1.flip.chain h1).chain fb.1, (fa.2.swap.join h2).join fb.2, hx.1⟩, hx.2⟩)
      (List.range s.gradients.length) (s, cur) (t, cur) ⟨h, hb, rfl⟩
    obtain ⟨⟨_, _, k3⟩, k4⟩ := key
    revert k3 k4
    rcases forLoop (buildSingleBody X gs hs w ws) (List.range s.gradients.length) (s, cur) with
      ⟨sa, oa⟩
    rcases forLoop (buildSingleBody X gs hs w ws) (List.range s.gradients.length) (t, cur) with
      ⟨sb, ob⟩
    intro k3 k4
    subst k3
    cases ob with
    | ok u => dsimp only; rw [k4]
    | throw e => rfl

end

section
variable {Tree B : Type}

/-- On a ready trainer the first statements of the `try` block of `trainStep`
write the log line, if a log is set, and call `executeStep` on the adapted
problem. -/
theorem trainStepExecute_log (X : Collaborators Tree B) (s : CGradientBoost Tree B)
    (bp : IMultivariateRegressionProblem) (cfg : CParams) (k : Nat) (hR : s.Ready bp cfg k)
    (lf : IGradientBoostingLossFunction) (hlf : s.lossFunction = some lf) :
    ∃ sl, s.BuildFrame sl ∧ s.trainStepExecute X = sl.executeStep X lf (some bp) [] := by
  have hm0 : 0 < s.models.length := by
    rw [hR.modelsLength]; split_ifs
    · exact Nat.one_pos
    · have := hR.wellFormed.1; omega
  unfold CGradientBoost.trainStepExecute
  by_cases hl : s.logStream.isSome = true
  · simp only [hl, if_true, List.getElem?_eq_getElem hm0]
    have hf := logIteration_buildFrame s ((s.models[0]).length : Int)
    have h1 : (s.logIteration ((s.models[0]).length : Int)).lossFunction = some lf := by
      rw [hf.1]; exact hlf
    have h2 : (s.logIteration ((s.models[0]).length : Int)).baseProblem = some bp := by
      rw [hf.1]; exact hR.baseProblem
    rw [h1, h2]
    exact ⟨_, hf, rfl⟩
  · simp only [hl, if_false, Bool.false_eq_true]
    rw [hlf, hR.baseProblem]
    exact ⟨s, CGradientBoost.BuildFrame.refl s, rfl⟩

theorem CGradientBoost.Agree.setModels {s t : CGradientBoost Tree B} (h : s.Agree t)
    (m : List (List Tree)) :
    CGradientBoost.Agree { s with models := m } { t with models := m } :=
  ⟨h.params, h.lossFunction, rfl, h.predictCache, h.usedVectors, h.usedFeatures,
    h.featureNumbers, h.baseProblem, h.fullProblem, h.fastHistProblem, h.fullSingle,
    h.fullMulti, h.fastHistSingle, h.fastHistMulti⟩

theorem CGradientBoost.Agree.destroy {s t : CGradientBoost Tree B} (h : s.Agree t) :
    s.destroyTreeBuilder.Agree t.destroyTreeBuilder :=
  ⟨h.params, h.lossFunction, h.models, h.predictCache, h.usedVectors, h.usedFeatures,
    h.featureNumbers, rfl, rfl, rfl, rfl, rfl, rfl, rfl⟩

/-- Without sampling and with a deterministic builder, the step of two ready
trainers that agree gives the same trees or the same exception, and leaves them
in agreement, with the same buffers. -/
theorem trainStepExecute_agree (X : Collaborators Tree B) (hdet : X.Deterministic)
    (s t : CGradientBoost Tree B) (bp : IMultivariateRegressionProblem) (cfg cfg1 : CParams)
    (k : Nat) (hRs : s.Ready bp cfg k) (hRt : t.Ready bp cfg1 k)
    (hinv : s.CacheInvariant X bp k) (h : s.Agree t)
    (hss : s.params.Subsample = 1) (hsf : s.params.Subfeature = 1) :
    (s.trainStepExecute X).1.Agree (t.trainStepExecute X).1 ∧
      (s.trainStepExecute X).1.SameBuffers (t.trainStepExecute X).1 ∧
      (t.trainStepExecute X).2 = (s.trainStepExecute X).2 := by
  obtain ⟨lf, hlf⟩ := Option.isSome_iff_exists.mp hRs.lossFunction
  obtain ⟨sl, fsl, es⟩ := trainStepExecute_log X s bp cfg k hRs lf hlf
  obtain ⟨tl, ftl, et⟩ := trainStepExecute_log X t bp cfg1 k hRt lf (h.lossFunction.trans hlf)
  have hinvt : t.CacheInvariant X bp k :=
    CacheInvariant.congr X s t bp k h.predictCache h.models h.params hinv
  have Rsl := fsl.ready hRs
  have Rtl := ftl.ready hRt
  have Isl := fsl.cacheInvariant X hinv
  have Itl := ftl.cacheInvariant X hinvt
  have hl : sl.Agree tl := (fsl.agree.1.flip.chain h).chain ftl.agree.1
  have hps : sl.params = s.params := by rw [fsl.1]
  have hpt : tl.params = t.params := by rw [ftl.1]
  have hsst : t.params.Subsample = 1 := by
    have : t.params.fixed.Subsample = s.params.fixed.Subsample := congrArg CParams.Subsample h.params
    exact this.trans hss
  have hsft : t.params.Subfeature = 1 := by
    have : t.params.fixed.Subfeature = s.params.fixed.Subfeature :=
      congrArg CParams.Subfeature h.params
    exact this.trans hsf
  have gs := gatherStatistics_full X sl lf bp cfg k Rsl Isl (by rw [hps]; exact hss)
    (by rw [hps]; exact hsf)
  have gt := gatherStatistics_full X tl lf bp cfg1 k Rtl Itl (by rw [hpt]; exact hsst)
    (by rw [hpt]; exact hsft)
  have nonempty : ∀ (u : CGradientBoost Tree B) (c : CParams), u.Ready bp c k →
      u.models.isEmpty = false := by
    intro u c hu
    have : 0 < u.models.length := by
      rw [hu.modelsLength]; split_ifs
      · exact Nat.one_pos
      · have := hu.wellFormed.1; omega
    cases hml : u.models with
    | nil => rw [hml] at this; simp at this
    | cons a l => rfl
  have hsc := scored_agree X sl tl bp k hl
  obtain ⟨c1, c2, c3⟩ := computeStatistics_agree X _ _ lf bp hsc.1 hsc.2
  rw [es, et]
  unfold CGradientBoost.executeStep
  simp only [nonempty sl cfg Rsl, nonempty tl cfg1 Rtl, Bool.false_eq_true, if_false,
    List.isEmpty_nil, not_true_eq_false, gs, gt]
  revert c1 c2 c3
  rcases CGradientBoost.computeStatistics X (sl.scored X bp k) lf bp with ⟨s1, sums | e⟩ <;>
  rcases CGradientBoost.computeStatistics X (tl.scored X bp k) lf bp with ⟨t1, sumt | e1⟩ <;>
  intro c1 c2 c3
  · dsimp only at c1 c2 c3 ⊢
    cases c3
    exact buildTrees_agree X hdet s1 t1 _ _ _ _ [] c1 c2
  · exact Outcome.noConfusion c3
  · exact Outcome.noConfusion c3
  · dsimp only at c1 c2 c3 ⊢
    cases c3
    exact ⟨c1, c2, rfl⟩

/-- Without sampling, the statistics part of the step of two ready trainers
that agree leaves the same predictions, answers, gradients, Hessians and cache
and gives the same sums. -/
theorem gatherStatistics_agree (X : Collaborators Tree B)
    (s t : CGradientBoost Tree B) (bp : IMultivariateRegressionProblem) (cfg cfg1 : CParams)
    (k : Nat) (hRs : s.Ready bp cfg k) (hRt : t.Ready bp cfg1 k)
    (hinv : s.CacheInvariant X bp k) (h : s.Agree t)
    (hss : s.params.Subsample = 1) (hsf : s.params.Subfeature = 1)
    (lf : IGradientBoostingLossFunction) :
    (s.gatherStatistics X lf bp).1.Agree (t.gatherStatistics X lf bp).1 ∧
      (s.gatherStatistics X lf bp).1.SameBuffers (t.gatherStatistics X lf bp).1 ∧
      (t.gatherStatistics X lf bp).2 = (s.gatherStatistics X lf bp).2 := by
  have hinvt : t.CacheInvariant X bp k :=
    CacheInvariant.congr X s t bp k h.predictCache h.models h.params hinv
  have hsst : t.params.Subsample = 1 := by
    have : t.params.fixed.Subsample = s.params.fixed.Subsample := congrArg CParams.Subsample h.params
    exact this.trans hss
  have hsft : t.params.Subfeature = 1 := by
    have : t.params.fixed.Subfeature = s.params.fixed.Subfeature :=
      congrArg CParams.Subfeature h.params
    exact this.trans hsf
  rw [gatherStatistics_full X s lf bp cfg k hRs hinv hss hsf,
    gatherStatistics_full X t lf bp cfg1 k hRt hinvt hsst hsft]
  have hsc := scored_agree X s t bp k h
  exact computeStatistics_agree X _ _ lf bp hsc.1 hsc.2

/-- Without sampling and with a deterministic builder, `trainStep` on two
ready trainers that agree returns the same value or raises the same exception,
and leaves them in agreement, with the same buffers. -/
theorem trainStep_agree (X : Collaborators Tree B) (hdet : X.Deterministic)
    (s t : CGradientBoost Tree B) (bp : IMultivariateRegressionProblem) (cfg cfg1 : CParams)
    (k : Nat) (hRs : s.Ready bp cfg k) (hRt : t.Ready bp cfg1 k)
    (hinv : s.CacheInvariant X bp k) (h : s.Agree t)
    (hss : s.params.Subsample = 1) (hsf : s.params.Subfeature = 1) :
    (s.trainStep X).1.Agree (t.trainStep X).1 ∧
      (s.trainStep X).1.SameBuffers (t.trainStep X).1 ∧
      (t.trainStep X).2 = (s.trainStep X).2 := by
  have key := trainStepExecute_agree X hdet s t bp cfg cfg1 k hRs hRt hinv h hss hsf
  unfold CGradientBoost.trainStep CGradientBoost.trainStepTry
  revert key
  rcases s.trainStepExecute X with ⟨s2, cur | e⟩ <;>
  rcases t.trainStepExecute X with ⟨t2, cur1 | e1⟩ <;>
  intro key <;> obtain ⟨k1, k2, k3⟩ := key
  · dsimp only at k1 k2 k3 ⊢
    cases k3
    rw [k1.models]
    rcases forLoop (appendBody cur) (List.range cur.length) s2.models with ⟨m, _ | e⟩
    · dsimp only
      have hit : t2.params.IterationsCount = s2.params.IterationsCount := by
        have : t2.params.fixed.IterationsCount = s2.params.fixed.IterationsCount :=
          congrArg CParams.IterationsCount k1.params
        exact this
      rw [hit]
      rcases m[0]? with _ | ensemble
      · exact ⟨k1.setModels m, ⟨k2.predicts, k2.answers, k2.gradients, k2.hessians⟩, rfl⟩
      · exact ⟨k1.setModels m, ⟨k2.predicts, k2.answers, k2.gradients, k2.hessians⟩, rfl⟩
    · exact ⟨(k1.setModels m).destroy, ⟨k2.predicts, k2.answers, k2.gradients, k2.hessians⟩,
        rfl⟩
  · exact Outcome.noConfusion k3
  · exact Outcome.noConfusion k3
  · dsimp only at k1 k2 k3 ⊢
    cases k3
    exact ⟨k1.destroy, ⟨k2.predicts, k2.answers, k2.gradients, k2.hessians⟩, rfl⟩

end

section
variable {Tree B : Type}

/-! ## What a run without feature sampling keeps -/

theorem CGradientBoost.Agree.kept {s t : CGradientBoost Tree B} (h : s.Agree t) : s.Kept t :=
  ⟨h.params, h.lossFunction, h.usedFeatures, h.featureNumbers, h.fullProblem,
    h.fastHistProblem, h.fullSingle, h.fullMulti, h.fastHistSingle, h.fastHistMulti⟩

theorem CGradientBoost.Kept.next {s t u : CGradientBoost Tree B} (h1 : s.Kept t)
    (h2 : t.Kept u) : s.Kept u :=
  ⟨h2.params.trans h1.params, h2.lossFunction.trans h1.lossFunction,
    h2.usedFeatures.trans h1.usedFeatures, h2.featureNumbers.trans h1.featureNumbers,
    h2.fullProblem.trans h1.fullProblem, h2.fastHistProblem.trans h1.fastHistProblem,
    h2.fullSingle.trans h1.fullSingle, h2.fullMulti.trans h1.fullMulti,
    h2.fastHistSingle.trans h1.fastHistSingle, h2.fastHistMulti.trans h1.fastHistMulti⟩

theorem createLossFunction_congr (s t : CGradientBoost Tree B)
    (h : t.params.fixed = s.params.fixed) : t.createLossFunction = s.createLossFunction := by
  have hl : t.params.LossFunction = s.params.LossFunction := by
    have : t.params.fixed.LossFunction = s.params.fixed.LossFunction :=
      congrArg CParams.LossFunction h
    exact this
  unfold CGradientBoost.createLossFunction
  rw [hl]

theorem CGradientBoost.Settled.of_kept {s t : CGradientBoost Tree B}
    {bp : IMultivariateRegressionProblem} (hs : s.Settled bp) (h : s.Kept t) : t.Settled bp := by
  have htb : t.params.TreeBuilder = s.params.TreeBuilder := by
    have : t.params.fixed.TreeBuilder = s.params.fixed.TreeBuilder :=
      congrArg CParams.TreeBuilder h.params
    exact this
  have htc : t.params.ThreadCount = s.params.ThreadCount := by
    have : t.params.fixed.ThreadCount = s.params.fixed.ThreadCount :=
      congrArg CParams.ThreadCount h.params
    exact this
  have hmb : t.params.MaxBins = s.params.MaxBins := by
    have : t.params.fixed.MaxBins = s.params.fixed.MaxBins := congrArg CParams.MaxBins h.params
    exact this
  obtain ⟨lf, h1, h2⟩ := hs.lossFunction
  exact
    { lossFunction := ⟨lf, by rw [createLossFunction_congr s t h.params]; exact h1,
        h.lossFunction.trans h2⟩
      usedFeatures := h.usedFeatures.trans hs.usedFeatures
      featureNumbers := h.featureNumbers.trans hs.featureNumbers
      fullSingle := by rw [h.fullSingle, htb]; exact hs.fullSingle
      fullMulti := by rw [h.fullMulti, htb]; exact hs.fullMulti
      fastHistSingle := by rw [h.fastHistSingle, htb]; exact hs.fastHistSingle
      fastHistMulti := by rw [h.fastHistMulti, htb]; exact hs.fastHistMulti
      fullProblem := by rw [h.fullProblem, htb, htc]; exact hs.fullProblem
      fastHistProblem := by rw [h.fastHistProblem, htb, htc, hmb]; exact hs.fastHistProblem }

/-- Two settled trainers on the same problem with the same configuration,
ensembles, cache and active rows agree. -/
theorem CGradientBoost.Settled.agreeWith {s t : CGradientBoost Tree B}
    {bp : IMultivariateRegressionProblem} (hs : s.Settled bp) (ht : t.Settled bp)
    (hp : t.params.fixed = s.params.fixed) (hm : t.models = s.models)
    (hc : t.predictCache = s.predictCache) (hu : t.usedVectors = s.usedVectors)
    (hb : t.baseProblem = s.baseProblem) : s.Agree t := by
  have htb : t.params.TreeBuilder = s.params.TreeBuilder := by
    have : t.params.fixed.TreeBuilder = s.params.fixed.TreeBuilder :=
      congrArg CParams.TreeBuilder hp
    exact this
  have htc : t.params.ThreadCount = s.params.ThreadCount := by
    have : t.params.fixed.ThreadCount = s.params.fixed.ThreadCount :=
      congrArg CParams.ThreadCount hp
    exact this
  have hmb : t.params.MaxBins = s.params.MaxBins := by
    have : t.params.fixed.MaxBins = s.params.fixed.MaxBins := congrArg CParams.MaxBins hp
    exact this
  obtain ⟨lf, h1, h2⟩ := hs.lossFunction
  obtain ⟨lf1, g1, g2⟩ := ht.lossFunction
  have hlf : lf1 = lf := by
    rw [createLossFunction_congr s t hp, h1] at g1
    exact (Outcome.ok.inj g1).symm
  exact
    { params := hp
      lossFunction := by rw [g2, h2, hlf]
      models := hm
      predictCache := hc
      usedVectors := hu
      usedFeatures := ht.usedFeatures.trans hs.usedFeatures.symm
      featureNumbers := ht.featureNumbers.trans hs.featureNumbers.symm
      baseProblem := hb
      fullProblem := by rw [ht.fullProblem, hs.fullProblem, htb, htc]
      fastHistProblem := by rw [ht.fastHistProblem, hs.fastHistProblem, htb, htc, hmb]
      fullSingle := by rw [ht.fullSingle, hs.fullSingle, htb]
      fullMulti := by rw [ht.fullMulti, hs.fullMulti, htb]
      fastHistSingle := by rw [ht.fastHistSingle, hs.fastHistSingle, htb]
      fastHistMulti := by rw [ht.fastHistMulti, hs.fastHistMulti, htb] }

theorem scored_kept (X : Collaborators Tree B) (s : CGradientBoost Tree B)
    (bp : IMultivariateRegressionProblem) (k : Nat) : s.Kept (s.scored X bp k) :=
  ⟨rfl, rfl, rfl, rfl, rfl, rfl, rfl, rfl, rfl, rfl⟩

theorem computeStatistics_kept (X : Collaborators Tree B) (s : CGradientBoost Tree B)
    (lf : IGradientBoostingLossFunction) (p : IMultivariateRegressionProblem) :
    s.Kept (s.computeStatistics X lf p).1 := by
  have f := computeStatistics_frame X s lf p
  refine ⟨?_, ?_, ?_, ?_, ?_, ?_, ?_, ?_, ?_, ?_⟩
  all_goals rw [f]

/-- Without sampling, a step on a ready trainer keeps the loss function, the
feature sets, the problem views and the kinds of the tree builders. -/
theorem trainStepExecute_kept (X : Collaborators Tree B) (s : CGradientBoost Tree B)
    (bp : IMultivariateRegressionProblem) (cfg : CParams) (k : Nat) (hR : s.Ready bp cfg k)
    (hinv : s.CacheInvariant X bp k) (hss : s.params.Subsample = 1)
    (hsf : s.params.Subfeature = 1) : s.Kept (s.trainStepExecute X).1 := by
  obtain ⟨lf, hlf⟩ := Option.isSome_iff_exists.mp hR.lossFunction
  obtain ⟨sl, fsl, es⟩ := trainStepExecute_log X s bp cfg k hR lf hlf
  have Rsl := fsl.ready hR
  have Isl := fsl.cacheInvariant X hinv
  have hps : sl.params = s.params := by rw [fsl.1]
  have gs := gatherStatistics_full X sl lf bp cfg k Rsl Isl (by rw [hps]; exact hss)
    (by rw [hps]; exact hsf)
  have hne : sl.models.isEmpty = false := by
    have : 0 < sl.models.length := by
      rw [Rsl.modelsLength]; split_ifs
      · exact Nat.one_pos
      · have := hR.wellFormed.1; omega
    cases hml : sl.models with
    | nil => rw [hml] at this; simp at this
    | cons a l => rfl
  have k1 : s.Kept (CGradientBoost.computeStatistics X (sl.scored X bp k) lf bp).1 :=
    (fsl.agree.1.kept.next (scored_kept X sl bp k)).next (computeStatistics_kept X _ lf bp)
  rw [es]
  unfold CGradientBoost.executeStep
  simp only [hne, Bool.false_eq_true, if_false, List.isEmpty_nil, not_true_eq_false, gs]
  revert k1
  rcases CGradientBoost.computeStatistics X (sl.scored X bp k) lf bp with ⟨s1, sums | e⟩ <;>
  intro k1
  · dsimp only at k1 ⊢
    exact k1.next (buildTrees_buildFrame X s1 _ _ _ _ []).agree.1.kept
  · exact k1

theorem trainStep_kept (X : Collaborators Tree B) (s : CGradientBoost Tree B)
    (bp : IMultivariateRegressionProblem) (cfg : CParams) (k : Nat) (hR : s.Ready bp cfg k)
    (hinv : s.CacheInvariant X bp k) (hss : s.params.Subsample = 1)
    (hsf : s.params.Subfeature = 1) (s2 : CGradientBoost Tree B) (b : Bool)
    (h : s.trainStep X = (s2, Outcome.ok b)) : s.Kept s2 := by
  have key := trainStepExecute_kept X s bp cfg k hR hinv hss hsf
  unfold CGradientBoost.trainStep CGradientBoost.trainStepTry at h
  revert key h
  rcases s.trainStepExecute X with ⟨sx, cur | e⟩ <;> intro h key
  · dsimp only at key h
    rcases hloop : forLoop (appendBody cur) (List.range cur.length) sx.models with ⟨m, _ | e⟩
    · rw [hloop] at h
      dsimp only at h
      split at h
      · simp at h
      · simp only [Prod.mk.injEq, Outcome.ok.injEq] at h
        rw [← h.1]
        exact ⟨key.params, key.lossFunction, key.usedFeatures, key.featureNumbers,
          key.fullProblem, key.fastHistProblem, key.fullSingle, key.fullMulti,
          key.fastHistSingle, key.fastHistMulti⟩
    · rw [hloop] at h
      simp at h
  · simp at h

end

section
variable {Tree B : Type}

theorem createFullTreeBuilder_exact (X : Collaborators Tree B) (s s1 : CGradientBoost Tree B)
    (bp : IMultivariateRegressionProblem) (multi : Bool)
    (h : s.createFullTreeBuilder X bp multi = (s1, Outcome.ok ())) :
    s1.fullProblem = some ⟨s.params.ThreadCount, bp⟩ ∧
    s1.fastHistProblem = s.fastHistProblem ∧
    s1.fastHistSingleClassTreeBuilder = s.fastHistSingleClassTreeBuilder ∧
    s1.fastHistMultiClassTreeBuilder = s.fastHistMultiClassTreeBuilder ∧
    (if multi then s1.fullMultiClassTreeBuilder.isSome = true ∧
        s1.fullSingleClassTreeBuilder = s.fullSingleClassTreeBuilder
      else s1.fullSingleClassTreeBuilder.isSome = true ∧
        s1.fullMultiClassTreeBuilder = s.fullMultiClassTreeBuilder) := by
  unfold CGradientBoost.createFullTreeBuilder at h
  dsimp only at h
  split at h
  · simp at h
  · split at h
    · simp at h
    · simp only [Prod.mk.injEq, and_true] at h
      subst h
      cases multi <;> exact ⟨rfl, rfl, rfl, rfl, by simp⟩

theorem createFastHistTreeBuilder_exact (X : Collaborators Tree B)
    (s s1 : CGradientBoost Tree B) (bp : IMultivariateRegressionProblem) (multi : Bool)
    (h : s.createFastHistTreeBuilder X bp multi = (s1, Outcome.ok ())) :
    s1.fastHistProblem = some ⟨s.params.ThreadCount, s.params.MaxBins, bp⟩ ∧
    s1.fullProblem = s.fullProblem ∧
    s1.fullSingleClassTreeBuilder = s.fullSingleClassTreeBuilder ∧
    s1.fullMultiClassTreeBuilder = s.fullMultiClassTreeBuilder ∧
    (if multi then s1.fastHistMultiClassTreeBuilder.isSome = true ∧
        s1.fastHistSingleClassTreeBuilder = s.fastHistSingleClassTreeBuilder
      else s1.fastHistSingleClassTreeBuilder.isSome = true ∧
        s1.fastHistMultiClassTreeBuilder = s.fastHistMultiClassTreeBuilder) := by
  unfold CGradientBoost.createFastHistTreeBuilder at h
  dsimp only at h
  split at h
  · simp at h
  · split at h
    · simp at h
    · simp only [Prod.mk.injEq, and_true] at h
      subst h
      cases multi <;> exact ⟨rfl, rfl, rfl, rfl, by simp⟩

/-- A `createTreeBuilder` that returns on a trainer without tree builders and
problem views sets the builder and the view of the configured kind only. -/
theorem createTreeBuilder_exact (X : Collaborators Tree B) (s s1 : CGradientBoost Tree B)
    (bp : IMultivariateRegressionProblem)
    (h : s.createTreeBuilder X bp = (s1, Outcome.ok ()))
    (h1 : s.fullSingleClassTreeBuilder = none) (h2 : s.fullMultiClassTreeBuilder = none)
    (h3 : s.fastHistSingleClassTreeBuilder = none) (h4 : s.fastHistMultiClassTreeBuilder = none)
    (h5 : s.fullProblem = none) (h6 : s.fastHistProblem = none) :
    s1.fullSingleClassTreeBuilder.isSome =
      decide (s.params.TreeBuilder = TGradientBoostTreeBuilder.GBTB_Full) ∧
    s1.fullMultiClassTreeBuilder.isSome =
      decide (s.params.TreeBuilder = TGradientBoostTreeBuilder.GBTB_MultiFull) ∧
    s1.fastHistSingleClassTreeBuilder.isSome =
      decide (s.params.TreeBuilder = TGradientBoostTreeBuilder.GBTB_FastHist) ∧
    s1.fastHistMultiClassTreeBuilder.isSome =
      decide (s.params.TreeBuilder = TGradientBoostTreeBuilder.GBTB_MultiFastHist) ∧
    s1.fullProblem =
      (if s.params.TreeBuilder = TGradientBoostTreeBuilder.GBTB_Full ∨
          s.params.TreeBuilder = TGradientBoostTreeBuilder.GBTB_MultiFull
        then some ⟨s.params.ThreadCount, bp⟩ else none) ∧
    s1.fastHistProblem =
      (if s.params.TreeBuilder = TGradientBoostTreeBuilder.GBTB_FastHist ∨
          s.params.TreeBuilder = TGradientBoostTreeBuilder.GBTB_MultiFastHist
        then some ⟨s.params.ThreadCount, s.params.MaxBins, bp⟩ else none) := by
  unfold CGradientBoost.createTreeBuilder at h
  cases hk : s.params.TreeBuilder with
  | other v => rw [hk] at h; simp at h
  | GBTB_Full =>
    rw [hk] at h
    obtain ⟨e1, e2, e3, e4, e5⟩ := createFullTreeBuilder_exact X s s1 bp false h
    simp only [Bool.false_eq_true, if_false] at e5
    rw [e1, e2, e3, e4, e5.1, e5.2, h2, h3, h4, h6]
    simp
  | GBTB_MultiFull =>
    rw [hk] at h
    obtain ⟨e1, e2, e3, e4, e5⟩ := createFullTreeBuilder_exact X s s1 bp true h
    simp only [if_true] at e5
    rw [e1, e2, e3, e4, e5.1, e5.2, h1, h3, h4, h6]
    simp
  | GBTB_FastHist =>
    rw [hk] at h
    obtain ⟨e1, e2, e3, e4, e5⟩ := createFastHistTreeBuilder_exact X s s1 bp false h
    simp only [Bool.false_eq_true, if_false] at e5
    rw [e1, e2, e3, e4, e5.1, e5.2, h1, h2, h4, h5]
    simp
  | GBTB_MultiFastHist =>
    rw [hk] at h
    obtain ⟨e1, e2, e3, e4, e5⟩ := createFastHistTreeBuilder_exact X s s1 bp true h
    simp only [if_true] at e5
    rw [e1, e2, e3, e4, e5.1, e5.2, h1, h2, h3, h5]
    simp

/-- The fields that an `initialize` that returns leaves, on a trainer without
tree builders and problem views. -/
theorem initialize_fields (X : Collaborators Tree B) (u u1 : CGradientBoost Tree B)
    (bp : IMultivariateRegressionProblem) (hinit : u.initialize X = (u1, Outcome.ok ()))
    (hbp : u.baseProblem = some bp)
    (h1 : u.fullSingleClassTreeBuilder = none) (h2 : u.fullMultiClassTreeBuilder = none)
    (h3 : u.fastHistSingleClassTreeBuilder = none) (h4 : u.fastHistMultiClassTreeBuilder = none)
    (h5 : u.fullProblem = none) (h6 : u.fastHistProblem = none) :
    u1.params = u.params ∧ u1.baseProblem = some bp ∧
    (∃ lf, u.createLossFunction = Outcome.ok lf ∧ u1.lossFunction = some lf) ∧
    u1.models = CArray.SetSize u.models (if u.isMultiTreesModel then 1 else bp.ValueSize) [] ∧
    u1.predictCache = (if u.predictCache.length = 0 then
        freshPredictCache u.predictCache bp.ValueSize bp.VectorCount else u.predictCache) ∧
    u1.predicts = CArray.SetSize u.predicts bp.ValueSize [] ∧
    u1.answers = CArray.SetSize u.answers bp.ValueSize [] ∧
    u1.gradients = CArray.SetSize u.gradients bp.ValueSize [] ∧
    u1.hessians = CArray.SetSize u.hessians bp.ValueSize [] ∧
    u1.usedVectors =
      (if u.params.Subsample = 1 then identityArray bp.VectorCount.toNat else u.usedVectors) ∧
    u1.usedFeatures =
      (if u.params.Subfeature = 1 then identityArray bp.FeatureCount.toNat
        else u.usedFeatures) ∧
    u1.featureNumbers =
      (if u.params.Subfeature = 1 then identityArray bp.FeatureCount.toNat
        else u.featureNumbers) ∧
    u1.HandlesReady ∧
    u1.fullSingleClassTreeBuilder.isSome =
      decide (u.params.TreeBuilder = TGradientBoostTreeBuilder.GBTB_Full) ∧
    u1.fullMultiClassTreeBuilder.isSome =
      decide (u.params.TreeBuilder = TGradientBoostTreeBuilder.GBTB_MultiFull) ∧
    u1.fastHistSingleClassTreeBuilder.isSome =
      decide (u.params.TreeBuilder = TGradientBoostTreeBuilder.GBTB_FastHist) ∧
    u1.fastHistMultiClassTreeBuilder.isSome =
      decide (u.params.TreeBuilder = TGradientBoostTreeBuilder.GBTB_MultiFastHist) ∧
    u1.fullProblem =
      (if u.params.TreeBuilder = TGradientBoostTreeBuilder.GBTB_Full ∨
          u.params.TreeBuilder = TGradientBoostTreeBuilder.GBTB_MultiFull
        then some ⟨u.params.ThreadCount, bp⟩ else none) ∧
    u1.fastHistProblem =
      (if u.params.TreeBuilder = TGradientBoostTreeBuilder.GBTB_FastHist ∨
          u.params.TreeBuilder = TGradientBoostTreeBuilder.GBTB_MultiFastHist
        then some ⟨u.params.ThreadCount, u.params.MaxBins, bp⟩ else none) := by
  unfold CGradientBoost.initialize at hinit
  rcases hst : u.initializeState with ⟨s0, bp1 | e⟩
  · rw [hst] at hinit
    dsimp only at hinit
    obtain ⟨hbp1, _, _, _, lf, hlf, q0⟩ := initializeState_result u s0 bp bp1 hbp hst
    subst hbp1
    rcases hct : s0.createTreeBuilder X bp1 with ⟨sc, v | e⟩
    · rw [hct] at hinit
      simp only [Prod.mk.injEq, and_true] at hinit
      subst hinit
      have hp0 : s0.params = u.params := by rw [q0]
      obtain ⟨q1, hr1⟩ := createTreeBuilder_result X s0 sc bp1 hct (by rw [q0]; exact h1)
        (by rw [q0]; exact h2) (by rw [q0]; exact h4)
      obtain ⟨x1, x2, x3, x4, x5, x6⟩ := createTreeBuilder_exact X s0 sc bp1 hct
        (by rw [q0]; exact h1) (by rw [q0]; exact h2) (by rw [q0]; exact h3)
        (by rw [q0]; exact h4) (by rw [q0]; exact h5) (by rw [q0]; exact h6)
      rw [hp0] at x1 x2 x3 x4 x5 x6
      refine ⟨?_, ?_, ⟨lf, hlf, ?_⟩, ?_, ?_, ?_, ?_, ?_, ?_, ?_, ?_, ?_, hr1, x1, x2, x3, x4, x5,
        x6⟩
      all_goals rw [q1]
      all_goals dsimp only
      all_goals rw [q0]
      exact hbp
    · rw [hct] at hinit
      simp at hinit
  · rw [hst] at hinit
    simp at hinit

theorem CArray.SetSize_same {α : Type} (arr : List α) (n : Int) (d : α)
    (h : arr.length = n.toNat) : CArray.SetSize arr n d = arr := by
  unfold CArray.SetSize
  rw [← h, List.take_length, Nat.sub_self, List.replicate_zero, List.append_nil]

/-- What `initialize` leaves of a trainer without sampling that holds `k` trees
in every ensemble and a cache of the size of the problem, and no tree builder:
a ready and settled trainer with the same ensembles and the same cache. -/
theorem initialize_restored (X : Collaborators Tree B) (u u1 : CGradientBoost Tree B)
    (bp : IMultivariateRegressionProblem) (k : Nat)
    (hinit : u.initialize X = (u1, Outcome.ok ()))
    (hbp : u.baseProblem = some bp) (hwf : bp.WellFormed)
    (h1 : u.fullSingleClassTreeBuilder = none) (h2 : u.fullMultiClassTreeBuilder = none)
    (h3 : u.fastHistSingleClassTreeBuilder = none) (h4 : u.fastHistMultiClassTreeBuilder = none)
    (h5 : u.fullProblem = none) (h6 : u.fastHistProblem = none)
    (hss : u.params.Subsample = 1) (hsf : u.params.Subfeature = 1)
    (hml : u.models.length = if u.isMultiTreesModel then 1 else bp.ValueSize.toNat)
    (hens : ∀ e ∈ u.models, e.length = k)
    (hcl : u.predictCache.length = bp.ValueSize.toNat)
    (hcr : ∀ row ∈ u.predictCache, row.length = bp.VectorCount.toNat) :
    u1.Ready bp u.params k ∧ u1.Settled bp ∧ u1.models = u.models ∧
      u1.predictCache = u.predictCache ∧ u1.params = u.params := by
  obtain ⟨f1, f2, ⟨lf, f3, f4⟩, f5, f6, f7, f8, f9, f10, f11, f12, f13, f14, f15, f16, f17,
    f18, f19, f20⟩ := initialize_fields X u u1 bp hinit hbp h1 h2 h3 h4 h5 h6
  have hvs := hwf.1
  have hmulti : u1.isMultiTreesModel = u.isMultiTreesModel := by
    unfold CGradientBoost.isMultiTreesModel; rw [f1]
  have hm : u1.models = u.models := by
    rw [f5]
    apply CArray.SetSize_same
    rw [hml]
    split_ifs <;> rfl
  have hc : u1.predictCache = u.predictCache := by
    rw [f6, if_neg]
    rw [hcl]
    omega
  refine ⟨?_, ?_, hm, hc, f1⟩
  · exact
      { params := by rw [f1]
        baseProblem := f2
        wellFormed := hwf
        lossFunction := by rw [f4]; rfl
        modelsLength := by rw [hm, hmulti]; exact hml
        ensembles := by rw [hm]; exact hens
        cacheLength := by rw [hc]; exact hcl
        cacheRows := by rw [hc]; exact hcr
        predicts := by rw [f7]; exact CArray.SetSize_length _ _ _
        answers := by rw [f8]; exact CArray.SetSize_length _ _ _
        gradients := by rw [f9]; exact CArray.SetSize_length _ _ _
        hessians := by rw [f10]; exact CArray.SetSize_length _ _ _
        subsample := by rw [f1, hss]; exact ⟨zero_le_one, le_refl 1⟩
        subfeature := by rw [f1, hsf]; exact ⟨zero_le_one, le_refl 1⟩
        usedVectors := fun _ => by rw [f11, if_pos hss]
        handles := f14 }
  · exact
      { lossFunction := ⟨lf, by rw [createLossFunction_congr u u1 (by rw [f1])]; exact f3, f4⟩
        usedFeatures := by rw [f12, if_pos hsf]
        featureNumbers := by rw [f13, if_pos hsf]
        fullSingle := by rw [f1]; exact f15
        fullMulti := by rw [f1]; exact f16
        fastHistSingle := by rw [f1]; exact f17
        fastHistMulti := by rw [f1]; exact f18
        fullProblem := by rw [f1]; exact f19
        fastHistProblem := by rw [f1]; exact f20 }

/-- The first `initialize` of a run without feature sampling leaves a settled
trainer. -/
theorem initialize_settled (X : Collaborators Tree B) (u u1 : CGradientBoost Tree B)
    (bp : IMultivariateRegressionProblem) (hinit : u.initialize X = (u1, Outcome.ok ()))
    (hbp : u.baseProblem = some bp)
    (h1 : u.fullSingleClassTreeBuilder = none) (h2 : u.fullMultiClassTreeBuilder = none)
    (h3 : u.fastHistSingleClassTreeBuilder = none) (h4 : u.fastHistMultiClassTreeBuilder = none)
    (h5 : u.fullProblem = none) (h6 : u.fastHistProblem = none)
    (hsf : u.params.Subfeature = 1) : u1.Settled bp ∧ u1.params = u.params := by
  obtain ⟨f1, f2, ⟨lf, f3, f4⟩, f5, f6, f7, f8, f9, f10, f11, f12, f13, f14, f15, f16, f17,
    f18, f19, f20⟩ := initialize_fields X u u1 bp hinit hbp h1 h2 h3 h4 h5 h6
  refine ⟨?_, f1⟩
  exact
    { lossFunction := ⟨lf, by rw [createLossFunction_congr u u1 (by rw [f1])]; exact f3, f4⟩
      usedFeatures := by rw [f12, if_pos hsf]
      featureNumbers := by rw [f13, if_pos hsf]
      fullSingle := by rw [f1]; exact f15
      fullMulti := by rw [f1]; exact f16
      fastHistSingle := by rw [f1]; exact f17
      fastHistMulti := by rw [f1]; exact f18
      fullProblem := by rw [f1]; exact f19
      fastHistProblem := by rw [f1]; exact f20 }

end

section
variable {Tree B : Type}

theorem construct_fresh_views (seed : CRandom) (p : CParams) (s0 : CGradientBoost Tree B)
    (h : CGradientBoost.construct seed p = Outcome.ok s0) :
    s0.fastHistSingleClassTreeBuilder = none ∧ s0.fullProblem = none ∧
      s0.fastHistProblem = none := by
  unfold CGradientBoost.construct processParams at h
  dsimp only at h
  split_ifs at h
  simp only [Outcome.ok.injEq] at h
  subst h
  exact ⟨rfl, rfl, rfl⟩

theorem CGradientBoost.Ready.sampling {s : CGradientBoost Tree B} {bp : IMultivariateRegressionProblem}
    {cfg : CParams} {k : Nat} (hR : s.Ready bp cfg k) :
    s.params.Subsample = cfg.Subsample ∧ s.params.Subfeature = cfg.Subfeature := by
  have h1 : s.params.fixed.Subsample = cfg.fixed.Subsample :=
    congrArg CParams.Subsample hR.params
  have h2 : s.params.fixed.Subfeature = cfg.fixed.Subfeature :=
    congrArg CParams.Subfeature hR.params
  exact ⟨h1, h2⟩

/-- In a run without sampling in which every call returned, the trainer is
settled after every call. -/
theorem trainSteps_settled (X : Collaborators Tree B) (seed : CRandom) (params : CParams)
    (problem : IMultivariateRegressionProblem) (s0 : CGradientBoost Tree B)
    (hc : CGradientBoost.construct seed params = Outcome.ok s0)
    (hwf : (X.notNullWeightsView problem).WellFormed) (hd : X.DrawsInRange)
    (hss : params.Subsample = 1) (hsf : params.Subfeature = 1) (n : Nat)
    (hok : ∀ o ∈ (CGradientBoost.TrainSteps X problem (n + 1) s0).2, ∃ b, o = Outcome.ok b) :
    (CGradientBoost.TrainSteps X problem (n + 1) s0).1.Settled (X.notNullWeightsView problem) := by
  obtain ⟨f0, f1, f2, f3, f4, f5, f6, f7, f8, f9⟩ := construct_fresh seed params s0 hc
  obtain ⟨g1, g2, g3⟩ := construct_fresh_views seed params s0 hc
  induction n with
  | zero =>
    obtain ⟨b, hb⟩ := hok (s0.TrainStep X problem).2 (by
      rw [TrainSteps_succ]
      exact List.mem_append_right _ (List.mem_singleton_self _))
    change (s0.TrainStep X problem).1.Settled _
    rcases hstep : s0.TrainStep X problem with ⟨s2, o⟩
    rw [hstep] at hb
    dsimp only at hb ⊢
    subst hb
    unfold CGradientBoost.TrainStep CGradientBoost.prepareProblem at hstep
    rw [f1] at hstep
    dsimp only at hstep
    rcases hi : CGradientBoost.initialize X
      { s0 with baseProblem := some (X.notNullWeightsView problem) } with ⟨s1, u | e⟩
    · rw [hi] at hstep
      dsimp only at hstep
      obtain ⟨R1, I1, _⟩ := initialize_fresh_result X _ s1 (X.notNullWeightsView problem) hi rfl
        hwf f2 f3 f4 f5 f6 (by rw [f0]; exact f7) (by rw [f0]; exact f8)
      obtain ⟨S1, hp1⟩ := initialize_settled X _ s1 (X.notNullWeightsView problem) hi rfl
        f4 f5 g1 f6 g2 g3 (by change s0.params.Subfeature = 1; rw [f0]; exact hsf)
      have hp1' : s1.params = s0.params := hp1
      exact S1.of_kept (trainStep_kept X s1 _ _ 0 R1 I1 (by rw [hp1', f0]; exact hss)
        (by rw [hp1', f0]; exact hsf) s2 b hstep)
    · rw [hi] at hstep
      simp at hstep
  | succ n ih =>
    have hprev : ∀ o ∈ (CGradientBoost.TrainSteps X problem (n + 1) s0).2,
        ∃ b, o = Outcome.ok b := by
      intro o ho
      apply hok o
      rw [TrainSteps_succ]
      exact List.mem_append_left _ ho
    have S := ih hprev
    obtain ⟨hR, _, _⟩ := trainSteps_run X seed params problem s0 hc hwf hd (n + 1) hprev
    obtain ⟨R1, I1⟩ := hR (Nat.succ_pos n)
    obtain ⟨b, hb⟩ := hok ((CGradientBoost.TrainSteps X problem (n + 1) s0).1.TrainStep X
        problem).2 (by
      rw [TrainSteps_succ]
      exact List.mem_append_right _ (List.mem_singleton_self _))
    rw [TrainSteps_succ]
    dsimp only
    rw [TrainStep_ready X _ problem _ R1.baseProblem] at hb ⊢
    rcases hstep : (CGradientBoost.TrainSteps X problem (n + 1) s0).1.trainStep X with ⟨s2, o⟩
    rw [hstep] at hb
    dsimp only at hb ⊢
    subst hb
    exact S.of_kept (trainStep_kept X _ _ params (n + 1) R1 I1
      (by rw [R1.sampling.1]; exact hss) (by rw [R1.sampling.2]; exact hsf) s2 b hstep)

end

section
variable {Tree B : Type}

/-! ## Resuming from a checkpoint -/

/-- Whether `createTreeBuilder` returns depends on the configuration and on the
active sets only. -/
theorem createTreeBuilder_outcome_congr (X : Collaborators Tree B)
    (s t : CGradientBoost Tree B) (bp : IMultivariateRegressionProblem)
    (hp : t.params = s.params) (hv : t.buildView bp = s.buildView bp) :
    (t.createTreeBuilder X bp).2 = (s.createTreeBuilder X bp).2 := by
  unfold CGradientBoost.createTreeBuilder
  rw [hp]
  cases s.params.TreeBuilder with
  | other v => rfl
  | GBTB_Full =>
    dsimp only
    unfold CGradientBoost.createFullTreeBuilder
    dsimp only
    rw [hp, hv]
    rcases X.newFullTreeBuilder false _ with b | e
    · dsimp only
      rcases X.newFullProblem s.params.ThreadCount (s.buildView bp) with _ | e <;> rfl
    · rfl
  | GBTB_MultiFull =>
    dsimp only
    unfold CGradientBoost.createFullTreeBuilder
    dsimp only
    rw [hp, hv]
    rcases X.newFullTreeBuilder true _ with b | e
    · dsimp only
      rcases X.newFullProblem s.params.ThreadCount (s.buildView bp) with _ | e <;> rfl
    · rfl
  | GBTB_FastHist =>
    dsimp only
    unfold CGradientBoost.createFastHistTreeBuilder
    dsimp only
    rw [hp, hv]
    rcases X.newFastHistTreeBuilder false _ _ with b | e
    · dsimp only
      rcases X.newFastHistProblem s.params.ThreadCount s.params.MaxBins (s.buildView bp) with
        _ | e <;> rfl
    · rfl
  | GBTB_MultiFastHist =>
    dsimp only
    unfold CGradientBoost.createFastHistTreeBuilder
    dsimp only
    rw [hp, hv]
    rcases X.newFastHistTreeBuilder true _ _ with b | e
    · dsimp only
      rcases X.newFastHistProblem s.params.ThreadCount s.params.MaxBins (s.buildView bp) with
        _ | e <;> rfl
    · rfl

/-- Without sampling, `initialize` returns on a trainer whenever it returned on
another trainer with the same configuration and the same adapted problem. -/
theorem initialize_ok_congr (X : Collaborators Tree B) (u v u1 : CGradientBoost Tree B)
    (bp : IMultivariateRegressionProblem) (hinit : u.initialize X = (u1, Outcome.ok ()))
    (hbu : u.baseProblem = some bp) (hbv : v.baseProblem = some bp)
    (hp : v.params = u.params) (hss : u.params.Subsample = 1) (hsf : u.params.Subfeature = 1) :
    ∃ v1, v.initialize X = (v1, Outcome.ok ()) := by
  unfold CGradientBoost.initialize at hinit ⊢
  rcases hst : u.initializeState with ⟨s0, bp1 | e⟩
  · rw [hst] at hinit
    dsimp only at hinit
    obtain ⟨hbp1, a1, a2, a3, lf, hlf, q0⟩ := initializeState_result u s0 bp bp1 hbu hst
    subst hbp1
    have hlfv : v.createLossFunction = Outcome.ok lf := by
      rw [createLossFunction_congr u v (by rw [hp])]; exact hlf
    have hsv : ∃ t0, v.initializeState = (t0, Outcome.ok bp1) ∧ t0.params = v.params ∧
        t0.usedVectors = identityArray bp1.VectorCount.toNat ∧
        t0.usedFeatures = identityArray bp1.FeatureCount.toNat ∧
        t0.featureNumbers = identityArray bp1.FeatureCount.toNat := by
      unfold CGradientBoost.initializeState
      rw [hbv]
      dsimp only
      rw [if_neg (not_not.mpr (by omega : bp1.ValueSize ≥ 1)),
        if_neg (not_not.mpr (by omega : bp1.VectorCount > 0)),
        if_neg (not_not.mpr (by omega : bp1.FeatureCount > 0)), hlfv]
      refine ⟨_, rfl, rfl, ?_, ?_, ?_⟩
      · dsimp only; rw [hp, if_pos hss]
      · dsimp only; rw [hp, if_pos hsf]
      · dsimp only; rw [hp, if_pos hsf]
    obtain ⟨t0, ht0, hpt, hv1, hv2, hv3⟩ := hsv
    rw [ht0]
    dsimp only
    have hview : t0.buildView bp1 = s0.buildView bp1 := by
      unfold CGradientBoost.buildView
      rw [hv1, hv2, hv3, q0]
      dsimp only
      simp only [hss, hsf, if_true]
    have hps : t0.params = s0.params := by rw [hpt, hp, q0]
    have hout := createTreeBuilder_outcome_congr X s0 t0 bp1 hps hview
    rcases hcu : s0.createTreeBuilder X bp1 with ⟨sc, w | e⟩
    · rw [hcu] at hout
      rcases hcv : t0.createTreeBuilder X bp1 with ⟨tc, w1 | e1⟩
      · exact ⟨tc, rfl⟩
      · rw [hcv] at hout
        exact Outcome.noConfusion hout
    · rw [hcu] at hinit
      simp at hinit
  · rw [hst] at hinit
    simp at hinit

/-- Storing a trainer whose ensembles all have the length of ensemble 0 and
loading what was written into a trainer without ensembles gives that trainer
with the stored ensembles and the stored cache. -/
theorem serialize_then_load (X : Collaborators Tree B) (s fresh : CGradientBoost Tree B)
    (htree : ∀ t rest, X.loadTree (X.storeTree t ++ rest) = some (t, rest))
    (hlen : ∀ e ∈ s.models, e.length = ((s.models[0]?).getD []).length)
    (hfresh : fresh.models = []) :
    ∃ written : List ArchiveItem,
      s.Serialize X ⟨true, []⟩ = ((s, ⟨true, written⟩), Outcome.ok ()) ∧
      written = ArchiveItem.int s.models.length ::
        ((if 0 < s.models.length then [ArchiveItem.int ((s.models[0]?).getD []).length]
          else []) ++
        ((s.models.map (fun ensemble => (ensemble.map X.storeTree).flatten)).flatten ++
          storePredictCache s.predictCache)) ∧
      ∀ rest : List ArchiveItem,
        fresh.Serialize X ⟨false, written ++ rest⟩ =
          (({ fresh with models := s.models, predictCache := s.predictCache }, ⟨false, rest⟩),
            Outcome.ok ()) := by
  rcases hm : s.models with _ | ⟨first, others⟩
  · refine ⟨_, ?_, rfl, ?_⟩
    · simp [CGradientBoost.Serialize, CGradientBoost.store, hm]
    · intro rest
      simp only [CGradientBoost.Serialize, List.length_nil, lt_irrefl, if_false, List.map_nil,
        List.flatten_nil, List.nil_append, List.cons_append, CGradientBoost.load, Nat.cast_zero,
        gt_iff_lt, Bool.false_eq_true]
      rw [loadCache_store, ← hfresh]
  · rw [hm] at hlen
    simp only [List.getElem?_cons_zero, Option.getD_some] at hlen ⊢
    have hpos : ((first :: others).length : Int) > 0 := by
      simp only [List.length_cons]; omega
    have hpos2 : 0 < (first :: others).length := Nat.succ_pos _
    refine ⟨_, ?_, rfl, ?_⟩
    · unfold CGradientBoost.Serialize CGradientBoost.store
      rw [hm]
      simp only [if_true, hpos, hpos2, List.getElem?_cons_zero, List.nil_append,
        List.singleton_append]
    · intro rest
      simp only [hpos2, if_true, CGradientBoost.Serialize, Bool.false_eq_true, if_false,
        List.cons_append, List.nil_append, List.append_assoc, CGradientBoost.load, hpos, hfresh,
        CArray.SetSize, List.take_nil, List.length_nil, Nat.sub_zero, Int.toNat_ofNat]
      by_cases hL : ((first.length : Nat) : Int) > 0
      · rw [if_pos hL, List.length_replicate,
          loadEnsemble_loop X htree (first :: others) first.length hlen]
        dsimp only
        rw [loadCache_store]
      · rw [if_neg hL]
        have hz : first.length = 0 := by omega
        have hall : first :: others = List.replicate (first :: others).length [] := by
          rw [List.eq_replicate_iff]
          refine ⟨rfl, fun e he => ?_⟩
          have := hlen e he
          rw [hz] at this
          exact List.length_eq_zero.mp this
        have hflat : ((first :: others).map
            (fun ensemble => (ensemble.map X.storeTree).flatten)).flatten = [] := by
          rw [List.flatten_eq_nil_iff]
          intro l hl
          obtain ⟨e, he, rfl⟩ := List.mem_map.mp hl
          have := hlen e he
          rw [hz] at this
          rw [List.length_eq_zero.mp this]
          rfl
        rw [hflat, List.nil_append, loadCache_store, ← hall]

/-- Claim C18: resuming from a checkpoint.  Without sampling
(`Subsample = Subfeature = 1`) and with a deterministic tree builder, take a
trainer after `k + 1` calls of `TrainStep` that returned, store it, and load
what was written into a newly constructed trainer with the same configuration.
Loading restores the ensembles and the cache; the `initialize` of the next
`TrainStep` on the same problem returns and keeps the restored ensembles and
the restored, non-empty cache; the statistics part of the step leaves the same
predictions, answers, gradients and Hessians and gives the same sums as on the
original trainer; and the call of `TrainStep` returns the same value, or raises
the same exception, as the next call on the original trainer and ends with the
same ensembles, cache and buffers. -/
theorem resume_from_checkpoint (X : Collaborators Tree B) (seed seed1 : CRandom)
    (params : CParams) (problem : IMultivariateRegressionProblem)
    (s0 fresh : CGradientBoost Tree B) (k : Nat)
    (hc : CGradientBoost.construct seed params = Outcome.ok s0)
    (hc1 : CGradientBoost.construct seed1 params = Outcome.ok fresh)
    (hwf : (X.notNullWeightsView problem).WellFormed) (hd : X.DrawsInRange)
    (hss : params.Subsample = 1) (hsf : params.Subfeature = 1) (hdet : X.Deterministic)
    (htree : ∀ t rest, X.loadTree (X.storeTree t ++ rest) = some (t, rest))
    (hok : ∀ o ∈ (CGradientBoost.TrainSteps X problem (k + 1) s0).2, ∃ b, o = Outcome.ok b) :
    ∃ (written : List ArchiveItem) (restored resumed : CGradientBoost Tree B),
      (CGradientBoost.TrainSteps X problem (k + 1) s0).1.Serialize X ⟨true, []⟩ =
        (((CGradientBoost.TrainSteps X problem (k + 1) s0).1, ⟨true, written⟩), Outcome.ok ()) ∧
      fresh.Serialize X ⟨false, written⟩ = ((restored, ⟨false, []⟩), Outcome.ok ()) ∧
      restored.models = (CGradientBoost.TrainSteps X problem (k + 1) s0).1.models ∧
      restored.predictCache = (CGradientBoost.TrainSteps X problem (k + 1) s0).1.predictCache ∧
      restored.prepareProblem X problem = (resumed, Outcome.ok ()) ∧
      resumed.models = (CGradientBoost.TrainSteps X problem (k + 1) s0).1.models ∧
      resumed.predictCache = (CGradientBoost.TrainSteps X problem (k + 1) s0).1.predictCache ∧
      resumed.predictCache ≠ [] ∧
      resumed.lossFunction = (CGradientBoost.TrainSteps X problem (k + 1) s0).1.lossFunction ∧
      (∀ lf : IGradientBoostingLossFunction,
        (resumed.gatherStatistics X lf (X.notNullWeightsView problem)).2 =
          ((CGradientBoost.TrainSteps X problem (k + 1) s0).1.gatherStatistics X lf
            (X.notNullWeightsView problem)).2 ∧
        (resumed.gatherStatistics X lf (X.notNullWeightsView problem)).1.predicts =
          ((CGradientBoost.TrainSteps X problem (k + 1) s0).1.gatherStatistics X lf
            (X.notNullWeightsView problem)).1.predicts ∧
        (resumed.gatherStatistics X lf (X.notNullWeightsView problem)).1.answers =
          ((CGradientBoost.TrainSteps X problem (k + 1) s0).1.gatherStatistics X lf
            (X.notNullWeightsView problem)).1.answers ∧
        (resumed.gatherStatistics X lf (X.notNullWeightsView problem)).1.gradients =
          ((CGradientBoost.TrainSteps X problem (k + 1) s0).1.gatherStatistics X lf
            (X.notNullWeightsView problem)).1.gradients ∧
        (resumed.gatherStatistics X lf (X.notNullWeightsView problem)).1.hessians =
          ((CGradientBoost.TrainSteps X problem (k + 1) s0).1.gatherStatistics X lf
            (X.notNullWeightsView problem)).1.hessians) ∧
      (restored.TrainStep X problem).2 =
        ((CGradientBoost.TrainSteps X problem (k + 1) s0).1.TrainStep X problem).2 ∧
      (restored.TrainStep X problem).1.models =
        ((CGradientBoost.TrainSteps X problem (k + 1) s0).1.TrainStep X problem).1.models ∧
      (restored.TrainStep X problem).1.predictCache =
        ((CGradientBoost.TrainSteps X problem (k + 1) s0).1.TrainStep X problem).1.predictCache ∧
      (restored.TrainStep X problem).1.predicts =
        ((CGradientBoost.TrainSteps X problem (k + 1) s0).1.TrainStep X problem).1.predicts ∧
      (restored.TrainStep X problem).1.answers =
        ((CGradientBoost.TrainSteps X problem (k + 1) s0).1.TrainStep X problem).1.answers ∧
      (restored.TrainStep X problem).1.gradients =
        ((CGradientBoost.TrainSteps X problem (k + 1) s0).1.TrainStep X problem).1.gradients ∧
      (restored.TrainStep X problem).1.hessians =
        ((CGradientBoost.TrainSteps X problem (k + 1) s0).1.TrainStep X problem).1.hessians := by
  obtain ⟨f0, f1, f2, f3, f4, f5, f6, f7, f8, f9⟩ := construct_fresh seed params s0 hc
  obtain ⟨g0, g1, g2, g3, g4, g5, g6, _, _, _⟩ := construct_fresh seed1 params fresh hc1
  obtain ⟨v1, v2, v3⟩ := construct_fresh_views seed1 params fresh hc1
  -- the original trainer
  obtain ⟨hR, _, _⟩ := trainSteps_run X seed params problem s0 hc hwf hd (k + 1) hok
  obtain ⟨RS, IS⟩ := hR (Nat.succ_pos k)
  have SS := trainSteps_settled X seed params problem s0 hc hwf hd hss hsf k hok
  generalize (CGradientBoost.TrainSteps X problem (k + 1) s0).1 = S at RS IS SS ⊢
  have hSss : S.params.Subsample = 1 := by rw [RS.sampling.1]; exact hss
  have hSsf : S.params.Subfeature = 1 := by rw [RS.sampling.2]; exact hsf
  have hvs := hwf.1
  -- the first `initialize` of the original run returned
  have hfirst : ∃ u1, CGradientBoost.initialize X
      { s0 with baseProblem := some (X.notNullWeightsView problem) } = (u1, Outcome.ok ()) := by
    obtain ⟨b, hb⟩ := hok (s0.TrainStep X problem).2 (by
      rw [TrainSteps_head]
      exact List.mem_cons_self _ _)
    unfold CGradientBoost.TrainStep CGradientBoost.prepareProblem at hb
    rw [f1] at hb
    dsimp only at hb
    rcases hi : CGradientBoost.initialize X
      { s0 with baseProblem := some (X.notNullWeightsView problem) } with ⟨u1, u | e⟩
    · exact ⟨u1, rfl⟩
    · rw [hi] at hb
      simp at hb
  obtain ⟨u1, hu1⟩ := hfirst
  -- storing and loading
  have hlen : ∀ e ∈ S.models, e.length = ((S.models[0]?).getD []).length := by
    intro e he
    have h1 := RS.stepCount
    unfold CGradientBoost.stepCount at h1
    rw [RS.ensembles e he]
    exact (Int.ofNat_inj.mp h1).symm
  obtain ⟨written, hw1, _, hw2⟩ := serialize_then_load X S fresh htree hlen g2
  have hload := hw2 []
  rw [List.append_nil] at hload
  -- `initialize` on the restored trainer
  obtain ⟨t1, ht1⟩ := initialize_ok_congr X
    { s0 with baseProblem := some (X.notNullWeightsView problem) }
    ({ ({ fresh with models := S.models, predictCache := S.predictCache } :
        CGradientBoost Tree B) with
      baseProblem := some (X.notNullWeightsView problem) }) u1 (X.notNullWeightsView problem)
    hu1 rfl rfl (by change fresh.params = s0.params; rw [g0, f0])
    (by change s0.params.Subsample = 1; rw [f0]; exact hss)
    (by change s0.params.Subfeature = 1; rw [f0]; exact hsf)
  have hmultiS : S.isMultiTreesModel = fresh.isMultiTreesModel := by
    unfold CGradientBoost.isMultiTreesModel
    have : S.params.fixed.TreeBuilder = params.fixed.TreeBuilder :=
      congrArg CParams.TreeBuilder RS.params
    have h2 : S.params.TreeBuilder = params.TreeBuilder := this
    rw [h2, g0]
  obtain ⟨RT, ST, hm, hcache, hpar⟩ := initialize_restored X _ t1 (X.notNullWeightsView problem)
    (k + 1) ht1 rfl hwf g4 g5 v1 g6 v2 v3
    (by change fresh.params.Subsample = 1; rw [g0]; exact hss)
    (by change fresh.params.Subfeature = 1; rw [g0]; exact hsf)
    (by
      change S.models.length = if fresh.isMultiTreesModel then 1 else _
      rw [RS.modelsLength, hmultiS])
    RS.ensembles RS.cacheLength RS.cacheRows
  have hm1 : t1.models = S.models := hm
  have hc2 : t1.predictCache = S.predictCache := hcache
  have hp1 : t1.params = fresh.params := hpar
  have hpf : t1.params.fixed = S.params.fixed := by rw [hp1, g0, RS.params]
  have hTss : t1.params.Subsample = 1 := by rw [hp1, g0]; exact hss
  have hagree : S.Agree t1 := SS.agreeWith ST hpf hm1 hc2
    ((RT.usedVectors hTss).trans (RS.usedVectors hSss).symm)
    (RT.baseProblem.trans RS.baseProblem.symm)
  have hprep : CGradientBoost.prepareProblem X
      ({ fresh with models := S.models, predictCache := S.predictCache } :
        CGradientBoost Tree B) problem = (t1, Outcome.ok ()) := by
    unfold CGradientBoost.prepareProblem
    have : ({ fresh with models := S.models, predictCache := S.predictCache } :
        CGradientBoost Tree B).baseProblem = none := g1
    rw [this]
    dsimp only
    rw [ht1]
  have hstepT : CGradientBoost.TrainStep X
      ({ fresh with models := S.models, predictCache := S.predictCache } :
        CGradientBoost Tree B) problem = t1.trainStep X := by
    unfold CGradientBoost.TrainStep
    rw [hprep]
  have hstepS : S.TrainStep X problem = S.trainStep X :=
    TrainStep_ready X S problem _ RS.baseProblem
  obtain ⟨a1, a2, a3⟩ := trainStep_agree X hdet S t1 (X.notNullWeightsView problem) params
    _ (k + 1) RS RT IS hagree hSss hSsf
  refine ⟨written, _, t1, hw1, hload, rfl, rfl, hprep, hm1, hc2, ?_, hagree.lossFunction, ?_, ?_,
    ?_, ?_, ?_, ?_, ?_, ?_⟩
  · intro hnil
    have := RT.cacheLength
    rw [hnil] at this
    simp only [List.length_nil] at this
    omega
  · intro lf
    obtain ⟨b1, b2, b3⟩ := gatherStatistics_agree X S t1 (X.notNullWeightsView problem) params _
      (k + 1) RS RT IS hagree hSss hSsf lf
    exact ⟨b3, b2.predicts, b2.answers, b2.gradients, b2.hessians⟩
  · rw [hstepT, hstepS]; exact a3
  · rw [hstepT, hstepS]; exact a1.models
  · rw [hstepT, hstepS]; exact a1.predictCache
  · rw [hstepT, hstepS]; exact a2.predicts
  · rw [hstepT, hstepS]; exact a2.answers
  · rw [hstepT, hstepS]; exact a2.gradients
  · rw [hstepT, hstepS]; exact a2.hessians

theorem resume_from_checkpoint_witness :
    demoParams.Subsample = 1 ∧ demoParams.Subfeature = 1 ∧
    ((CGradientBoost.TrainSteps steadyCollaborators demoProblem (1 + 1) demoFresh).1.TrainStep
      steadyCollaborators demoProblem).2 = Outcome.ok true ∧
    ((CGradientBoost.TrainSteps steadyCollaborators demoProblem (1 + 1) demoFresh).1.TrainStep
      steadyCollaborators demoProblem).1.models =
        [[11 / 4, 11 / 8, 11 / 16], [1 / 4, 1 / 8, 1 / 16]] ∧
    ∃ (written : List ArchiveItem) (restored : CGradientBoost ℚ Nat),
      (CGradientBoost.TrainSteps steadyCollaborators demoProblem (1 + 1) demoFresh).1.Serialize
        steadyCollaborators ⟨true, []⟩ =
        (((CGradientBoost.TrainSteps steadyCollaborators demoProblem (1 + 1) demoFresh).1,
          ⟨true, written⟩), Outcome.ok ()) ∧
      CGradientBoost.Serialize steadyCollaborators
        ({ demoFresh with defaultRandom := ⟨11⟩ } : CGradientBoost ℚ Nat) ⟨false, written⟩ =
        ((restored, ⟨false, []⟩), Outcome.ok ()) ∧
      (restored.TrainStep steadyCollaborators demoProblem).2 =
        ((CGradientBoost.TrainSteps steadyCollaborators demoProblem (1 + 1) demoFresh).1.TrainStep
          steadyCollaborators demoProblem).2 ∧
      (restored.TrainStep steadyCollaborators demoProblem).1.models =
        ((CGradientBoost.TrainSteps steadyCollaborators demoProblem (1 + 1) demoFresh).1.TrainStep
          steadyCollaborators demoProblem).1.models ∧
      (restored.TrainStep steadyCollaborators demoProblem).1.predictCache =
        ((CGradientBoost.TrainSteps steadyCollaborators demoProblem (1 + 1) demoFresh).1.TrainStep
          steadyCollaborators demoProblem).1.predictCache :=
  ⟨rfl, rfl, by decide!, by decide!,
    match resume_from_checkpoint steadyCollaborators ⟨7⟩ ⟨11⟩ demoParams demoProblem demoFresh
      ({ demoFresh with defaultRandom := ⟨11⟩ } : CGradientBoost ℚ Nat) 1 rfl rfl
      demoProblem_wellFormed steady_drawsInRange rfl rfl
      ⟨fun _ _ _ _ _ _ _ _ _ => rfl, fun _ _ _ _ _ _ _ _ _ => rfl, fun _ _ _ _ _ _ => rfl,
        fun _ _ _ _ _ _ => rfl⟩
      (fun _ _ => rfl)
      (trainSteps_all_ok steadyCollaborators ⟨7⟩ demoParams demoProblem demoFresh rfl
        demoProblem_wellFormed steady_drawsInRange (fun _ h => TLossFunction.noConfusion h)
        (fun _ h => TGradientBoostTreeBuilder.noConfusion h) steady_constructorsSucceed
        steady_buildsSucceed (1 + 1)) with
    | ⟨written, restored, _, h⟩ =>
      ⟨written, restored, h.1, h.2.1, h.2.2.2.2.2.2.2.2.2.2.1, h.2.2.2.2.2.2.2.2.2.2.2.1,
        h.2.2.2.2.2.2.2.2.2.2.2.2.1⟩⟩

end

/-! ## The sample sizes -/

theorem truncToInt_bounds_le (n : Int) (q : ℚ) (hn : 1 ≤ n) (h0 : 0 ≤ q) (h1 : q ≤ 1) :
    1 ≤ max (truncToInt ((n : ℚ) * q)) 1 ∧ max (truncToInt ((n : ℚ) * q)) 1 ≤ n := by
  have hnq : (0 : ℚ) ≤ (n : ℚ) * q := mul_nonneg (by exact_mod_cast (by omega : 0 ≤ n)) h0
  have hle : (n : ℚ) * q ≤ n := by
    have : (0 : ℚ) < n := by exact_mod_cast (by omega : 0 < n)
    nlinarith
  simp only [truncToInt, hnq, if_true]
  have hfl : Int.floor ((n : ℚ) * q) ≤ n := by
    have := Int.floor_mono hle
    rwa [Int.floor_intCast] at this
  exact ⟨le_max_right _ _, max_le hfl hn⟩

section
variable {Tree B : Type}

/-- Claim C25: for a configuration accepted by the constructor and counts
`vectorCount >= 1` and `featureCount >= 1`, the sample sizes
`max( static_cast<int>( vectorCount * Subsample ), 1 )` and
`max( static_cast<int>( featureCount * Subfeature ), 1 )` that `executeStep`
passes to `generateRandomArray` satisfy `1 <= k <= n`, so neither of the two
assertions at the top of `generateRandomArray` fails: with draws in the
requested range the two calls return, whatever the generator state and the
previous content of the array. -/
theorem sample_sizes_in_range (X : Collaborators Tree B) (seed : CRandom) (params : CParams)
    (s0 : CGradientBoost Tree B) (hc : CGradientBoost.construct seed params = Outcome.ok s0)
    (vectorCount featureCount : Int) (hv : 1 ≤ vectorCount) (hf : 1 ≤ featureCount)
    (hd : X.DrawsInRange) :
    (1 ≤ max (truncToInt (vectorCount * s0.params.Subsample)) 1 ∧
      max (truncToInt (vectorCount * s0.params.Subsample)) 1 ≤ vectorCount) ∧
    (1 ≤ max (truncToInt (featureCount * s0.params.Subfeature)) 1 ∧
      max (truncToInt (featureCount * s0.params.Subfeature)) 1 ≤ featureCount) ∧
    (∀ (random : CRandom) (result : List Int),
      (generateRandomArray X.uniformInt random vectorCount
        (max (truncToInt (vectorCount * s0.params.Subsample)) 1) result).2 = Outcome.ok ()) ∧
    (∀ (random : CRandom) (result : List Int),
      (generateRandomArray X.uniformInt random featureCount
        (max (truncToInt (featureCount * s0.params.Subfeature)) 1) result).2 = Outcome.ok ()) := by
  obtain ⟨hp, _, _, _, _, _, _, hss, hsf, _⟩ := construct_fresh seed params s0 hc
  rw [hp]
  have bv := truncToInt_bounds_le vectorCount params.Subsample hv hss.1 hss.2
  have bf := truncToInt_bounds_le featureCount params.Subfeature hf hsf.1 hsf.2
  refine ⟨bv, bf, ?_, ?_⟩
  · intro random result
    obtain ⟨r, uv, hgen, _⟩ := generateRandomArray_valid X.uniformInt random vectorCount _ result
      hv bv.1 bv.2 hd
    rw [hgen]
  · intro random result
    obtain ⟨r, uv, hgen, _⟩ := generateRandomArray_valid X.uniformInt random featureCount _ result
      hf bf.1 bf.2 hd
    rw [hgen]

end

theorem sample_sizes_in_range_witness :
    (1 ≤ max (truncToInt (3 * sampledFresh.params.Subsample)) 1 ∧
      max (truncToInt (3 * sampledFresh.params.Subsample)) 1 ≤ 3) ∧
    (1 ≤ max (truncToInt (1 * sampledFresh.params.Subfeature)) 1 ∧
      max (truncToInt (1 * sampledFresh.params.Subfeature)) 1 ≤ 1) ∧
    (∀ (random : CRandom) (result : List Int),
      (generateRandomArray steadyCollaborators.uniformInt random 3
        (max (truncToInt (3 * sampledFresh.params.Subsample)) 1) result).2 = Outcome.ok ()) ∧
    (∀ (random : CRandom) (result : List Int),
      (generateRandomArray steadyCollaborators.uniformInt random 1
        (max (truncToInt (1 * sampledFresh.params.Subfeature)) 1) result).2 = Outcome.ok ()) := by
  have h := sample_sizes_in_range steadyCollaborators ⟨7⟩ sampledParams sampledFresh
    sampled_construct 3 1 (by decide) (by decide) steady_drawsInRange
  simpa using h

/-! ## Where the squared-hinge gradient and loss vanish -/

section
variable {K : Type} [LinearOrderedField K]

/-- For a target in `{0, 1}` the squared-hinge gradient is zero exactly when
`(2y-1)*p <= -1`, and the squared-hinge loss term is zero exactly when
`(2y-1)*p >= 1`: the two never vanish at the same prediction. -/
theorem squaredHinge_zero_sets (p y : K) (hy : y = 0 ∨ y = 1) :
    ((squaredHingeEntry p y).1 = 0 ↔ (2 * y - 1) * p ≤ -1) ∧
    (squaredHingeTerm p y = 0 ↔ 1 ≤ (2 * y - 1) * p) ∧
    ¬ ((squaredHingeEntry p y).1 = 0 ∧ squaredHingeTerm p y = 0) := by
  have e0 : (squaredHingeEntry p 0).1 = if p < 1 then 2 * (p - 1) else 0 := by
    unfold squaredHingeEntry
    dsimp only
    have h1 : (-(2 * (0 : K) - 1)) = 1 := by ring
    rw [h1, one_mul]
    split_ifs <;> simp
  have e1 : (squaredHingeEntry p 1).1 = if -p < 1 then 2 * (p + 1) else 0 := by
    unfold squaredHingeEntry
    dsimp only
    have h1 : (-(2 * (1 : K) - 1)) = -1 := by ring
    rw [h1]
    have h2 : (-1 : K) * p = -p := by ring
    rw [h2]
    split_ifs
    · show (2 : K) * -1 * (-p - 1) = 2 * (p + 1)
      ring
    · rfl
  have key : ((squaredHingeEntry p y).1 = 0 ↔ (2 * y - 1) * p ≤ -1) ∧
      (squaredHingeTerm p y = 0 ↔ 1 ≤ (2 * y - 1) * p) := by
    constructor
    · rcases hy with h | h <;> subst h
      · rw [e0]
        split_ifs with c
        · constructor
          · intro hg; linarith
          · intro hle; linarith
        · constructor
          · intro _; linarith [not_lt.mp c]
          · intro _; rfl
      · rw [e1]
        split_ifs with c
        · constructor
          · intro hg; linarith
          · intro hle; linarith
        · constructor
          · intro _; linarith [not_lt.mp c]
          · intro _; rfl
    · unfold squaredHingeTerm
      dsimp only
      constructor
      · intro h
        have h0 : max (0 : K) (1 - (2 * y - 1) * p) = 0 := mul_self_eq_zero.mp h
        have := le_max_right (0 : K) (1 - (2 * y - 1) * p)
        rw [h0] at this
        linarith
      · intro h
        have : max (0 : K) (1 - (2 * y - 1) * p) = 0 := max_eq_left (by linarith)
        rw [this]; ring
  refine ⟨key.1, key.2, ?_⟩
  rintro ⟨h1, h2⟩
  have a := key.1.mp h1
  have b := key.2.mp h2
  linarith

end

/-- Claim C26, evaluated at the failing inputs: for the target 1 and the
prediction 2 the squared-hinge loss term and the mean loss are 0 while
`CalcGradientAndHessian` writes the gradient 6; for the target 1 and the
prediction -2 the gradient is 0 while the loss term and the mean loss are 9. -/
theorem squaredHinge_gradient_loss_disagree :
    IGradientBoostingLossFunction.CalcGradientAndHessian (fun _ => (1 : ℚ))
      IGradientBoostingLossFunction.CGradientBoostingSquaredHinge [[2]] [[1]] [] [] =
      (([[6]], [[2]]), Outcome.ok ()) ∧
    IGradientBoostingLossFunction.CalcLossMean (fun _ => (1 : ℚ)) (fun _ => (0 : ℚ))
      IGradientBoostingLossFunction.CGradientBoostingSquaredHinge [[2]] [[1]] = Outcome.ok 0 ∧
    squaredHingeTerm (2 : ℚ) 1 = 0 ∧
    IGradientBoostingLossFunction.CalcGradientAndHessian (fun _ => (1 : ℚ))
      IGradientBoostingLossFunction.CGradientBoostingSquaredHinge [[-2]] [[1]] [] [] =
      (([[0]], [[hessianFloor]]), Outcome.ok ()) ∧
    IGradientBoostingLossFunction.CalcLossMean (fun _ => (1 : ℚ)) (fun _ => (0 : ℚ))
      IGradientBoostingLossFunction.CGradientBoostingSquaredHinge [[-2]] [[1]] = Outcome.ok 9 ∧
    squaredHingeTerm (-2 : ℚ) 1 = 9 := by
  decide!

/-! ## The sign of the mean loss -/

theorem lossTerm_loop_nonneg {K : Type} [LinearOrderedField K] (term : K → K → K)
    (hterm : ∀ p a, 0 ≤ term p a) (predicts answers : List (List K)) (i : Nat) (idx : List Nat)
    (sum : K) (h : 0 ≤ sum) :
    0 ≤ (forLoop (lossTermBody term predicts answers i) idx sum).1 := by
  apply forLoop_preserves (lossTermBody term predicts answers i) (fun x => 0 ≤ x) _ idx sum h
  intro j x hx
  unfold lossTermBody
  rcases CArray.get2? predicts i j with _ | p
  · exact hx
  · rcases CArray.get2? answers i j with _ | a
    · exact hx
    · exact add_nonneg hx (hterm p a)

theorem getMean_nonneg {K : Type} [LinearOrderedField K] (sum : K) (n : Nat) (h : 0 ≤ sum) :
    0 ≤ getMean sum (n : Int) := by
  unfold getMean
  split_ifs
  · apply div_nonneg h
    exact_mod_cast Nat.zero_le n
  · exact le_refl _

/-- A mean loss whose per-example term is never negative is never negative. -/
theorem calcLossMeanWith_nonneg {K : Type} [LinearOrderedField K] (term : K → K → K)
    (hterm : ∀ p a, 0 ≤ term p a) (predicts answers : List (List K)) (v : K)
    (h : calcLossMeanWith term predicts answers = Outcome.ok v) : 0 ≤ v := by
  unfold calcLossMeanWith at h
  split_ifs at h
  have key : 0 ≤ (forLoop (lossRowBody term predicts answers) (List.range predicts.length) 0).1 := by
    apply forLoop_preserves (lossRowBody term predicts answers) (fun x => 0 ≤ x) _ _ 0 (le_refl _)
    intro i x hx
    unfold lossRowBody
    rcases predicts[i]? with _ | row
    · exact hx
    · dsimp only
      have hs := lossTerm_loop_nonneg term hterm predicts answers i (List.range row.length) 0
        (le_refl _)
      revert hs
      rcases forLoop (lossTermBody term predicts answers i) (List.range row.length) 0 with
        ⟨sum, _ | e⟩ <;> intro hs
      · exact add_nonneg hx (getMean_nonneg sum row.length hs)
      · exact hx
  rcases hres : forLoop (lossRowBody term predicts answers) (List.range predicts.length) 0 with
    ⟨overall, _ | e⟩
  · rw [hres] at h key
    simp only [Outcome.ok.injEq] at h
    rw [← h]
    exact getMean_nonneg overall predicts.length key
  · rw [hres] at h
    simp at h

/-- The exponential, squared-hinge and L2 mean losses are never negative,
whatever the predictions and the targets. -/
theorem calcLossMean_nonneg (lf : IGradientBoostingLossFunction)
    (hlf : lf ≠ IGradientBoostingLossFunction.CGradientBoostingBinomialLossFunction)
    (predicts answers : List (List ℝ)) (v : ℝ)
    (h : lf.CalcLossMean Real.exp Real.log predicts answers = Outcome.ok v) : 0 ≤ v := by
  unfold IGradientBoostingLossFunction.CalcLossMean at h
  apply calcLossMeanWith_nonneg _ _ predicts answers v h
  intro p a
  cases lf with
  | CGradientBoostingBinomialLossFunction => exact absurd rfl hlf
  | CGradientBoostingExponentialLossFunction =>
    exact le_of_lt (Real.exp_pos _)
  | CGradientBoostingSquaredHinge =>
    exact mul_self_nonneg _
  | CGradientBoostingSquareLoss =>
    show 0 ≤ (a - p) * (a - p) / 2
    exact div_nonneg (mul_self_nonneg _) (by norm_num)

/-- Claim C27, evaluated at the failing input: for the binomial loss with the
single prediction 1 and the single target 1 (over the reals, with the real
exponential and logarithm) `CalcLossMean` returns `log( 1 + exp( -1 ) ) - 1`,
which is negative. -/
theorem binomial_loss_mean_negative :
    IGradientBoostingLossFunction.CalcLossMean Real.exp Real.log
        IGradientBoostingLossFunction.CGradientBoostingBinomialLossFunction [[1]] [[1]] =
      Outcome.ok (Real.log (1 + Real.exp (-1)) - 1) ∧
    Real.log (1 + Real.exp (-1)) - 1 < 0 := by
  constructor
  · unfold IGradientBoostingLossFunction.CalcLossMean
    rw [calcLossMeanWith_eq _ [[1]] [[1]] rfl (by
      intro i prow arow hp ha
      match i with
      | 0 => simp at hp ha; subst hp; subst ha; simp
      | i + 1 => simp at hp)]
    congr 1
    simp only [meanOfMeans, meanOrZero, IGradientBoostingLossFunction.term, binomialTerm,
      MaxExpArgument, List.zipWith_cons_cons, List.zipWith_nil_right, List.length_cons,
      List.length_nil, List.sum_cons, List.sum_nil]
    have : min (-1 : ℝ) 30 = -1 := min_eq_left (by norm_num)
    rw [this]
    norm_num
  · have h1 : Real.exp (-1) < 1 := by
      have := Real.exp_lt_exp.mpr (by norm_num : (-1 : ℝ) < 0)
      rwa [Real.exp_zero] at this
    have h2 : Real.log (1 + Real.exp (-1)) ≤ (1 + Real.exp (-1)) - 1 :=
      Real.log_le_sub_one_of_pos (by positivity)
    linarith

/-! ## Link counts and handles of the DLL loader -/

/-- Claim C28, evaluated at the failing input: a `Load` of one kind that
succeeds followed by a `Load` of the same kind whose library load fails leaves
the handle null while the link count is 1. -/
theorem load_failure_drops_linked_handle :
    CDllLoader.run demoDllConfig demoDllClasses [DllCall.Load 1]
      (CDllLoader.initial [true, false]) =
      some { (CDllLoader.initial [false] : CDllLoader DllClass (List Bool)) with
        vulkanDll := some DllClass.CVulkanDll, vulkanDllLinkCount := 1 } ∧
    CDllLoader.run demoDllConfig demoDllClasses [DllCall.Load 1, DllCall.Load 1]
      (CDllLoader.initial [true, false]) =
      some { (CDllLoader.initial [] : CDllLoader DllClass (List Bool)) with
        vulkanDll := none, vulkanDllLinkCount := 1 } := by
  decide!

section
variable {D E : Type}

theorem freeVulkan_linked (X : DllClasses D E) (t : CDllLoader D E) (h : t.HandlesLinked)
    (hc : t.vulkanDllLinkCount > 0) : (CDllLoader.freeVulkan X t).HandlesLinked := by
  obtain ⟨hv, b1, b2, b3, b4⟩ := h
  refine ⟨freeVulkan_valid X t hv hc, ?_⟩
  unfold CDllLoader.freeVulkan
  dsimp only
  split_ifs with c
  · exact ⟨fun h => by simp at h, b2, b3, b4⟩
  · exact ⟨fun _ => not_le.mp c, b2, b3, b4⟩

theorem freeCuda_linked (X : DllClasses D E) (t : CDllLoader D E) (h : t.HandlesLinked)
    (hc : t.cudaDllLinkCount > 0) : (CDllLoader.freeCuda X t).HandlesLinked := by
  obtain ⟨hv, b1, b2, b3, b4⟩ := h
  refine ⟨freeCuda_valid X t hv hc, ?_⟩
  unfold CDllLoader.freeCuda
  dsimp only
  split_ifs with c
  · exact ⟨b1, fun h => by simp at h, b3, b4⟩
  · exact ⟨b1, fun _ => not_le.mp c, b3, b4⟩

theorem freeNccl_linked (X : DllClasses D E) (t : CDllLoader D E) (h : t.HandlesLinked)
    (hc : t.ncclDllLinkCount > 0) : (CDllLoader.freeNccl X t).HandlesLinked := by
  obtain ⟨hv, b1, b2, b3, b4⟩ := h
  refine ⟨freeNccl_valid X t hv hc, ?_⟩
  unfold CDllLoader.freeNccl
  dsimp only
  split_ifs with c
  · exact ⟨b1, b2, fun h => by simp at h, b4⟩
  · exact ⟨b1, b2, fun _ => not_le.mp c, b4⟩

theorem freeAvx_linked (X : DllClasses D E) (t : CDllLoader D E) (h : t.HandlesLinked)
    (hc : t.avxDllLinkCount > 0) : (CDllLoader.freeAvx X t).HandlesLinked := by
  obtain ⟨hv, b1, b2, b3, b4⟩ := h
  refine ⟨freeAvx_valid X t hv hc, ?_⟩
  unfold CDllLoader.freeAvx
  dsimp only
  split_ifs with c
  · exact ⟨b1, b2, b3, fun h => by simp at h⟩
  · exact ⟨b1, b2, b3, fun _ => not_le.mp c⟩

theorem Free_linked (cfg : CDllLoaderConfig) (X : DllClasses D E) (s : CDllLoader D E)
    (dll : Int) (h : s.HandlesLinked) : (s.Free cfg X dll).HandlesLinked := by
  have k1 : ∀ t : CDllLoader D E, t.HandlesLinked →
      (if cfg.NEOML_USE_VULKAN = true ∧ Int.land dll cfg.VULKAN_DLL ≠ 0 ∧
        t.vulkanDllLinkCount > 0 then CDllLoader.freeVulkan X t else t).HandlesLinked := by
    intro t ht
    split_ifs with c
    · exact freeVulkan_linked X t ht c.2.2
    · exact ht
  have k2 : ∀ t : CDllLoader D E, t.HandlesLinked →
      (if cfg.NEOML_USE_CUDA = true ∧ Int.land dll cfg.CUDA_DLL ≠ 0 ∧
        t.cudaDllLinkCount > 0 then CDllLoader.freeCuda X t else t).HandlesLinked := by
    intro t ht
    split_ifs with c
    · exact freeCuda_linked X t ht c.2.2
    · exact ht
  have k3 : ∀ t : CDllLoader D E, t.HandlesLinked →
      (if cfg.NEOML_USE_NCCL = true ∧ Int.land dll cfg.NCCL_DLL ≠ 0 ∧
        t.ncclDllLinkCount > 0 then CDllLoader.freeNccl X t else t).HandlesLinked := by
    intro t ht
    split_ifs with c
    · exact freeNccl_linked X t ht c.2.2
    · exact ht
  have k4 : ∀ t : CDllLoader D E, t.HandlesLinked →
      (if cfg.NEOML_USE_AVX = true ∧ Int.land dll cfg.AVX_DLL ≠ 0 ∧
        t.avxDllLinkCount > 0 then CDllLoader.freeAvx X t else t).HandlesLinked := by
    intro t ht
    split_ifs with c
    · exact freeAvx_linked X t ht c.2.2
    · exact ht
  unfold CDllLoader.Free
  by_cases hd : dll ≠ 0
  · rw [if_pos hd]
    exact k4 _ (k3 _ (k2 _ (k1 s h)))
  · rw [if_neg hd]
    exact h

theorem loadVulkan_linked (cfg : CDllLoaderConfig) (X : DllClasses D E)
    (st : Int × CDllLoader D E) (h : st.2.HandlesLinked) :
    (CDllLoader.loadVulkan cfg X st).2.HandlesLinked := by
  obtain ⟨hv, b1, b2, b3, b4⟩ := h
  refine ⟨loadVulkan_valid cfg X st hv, ?_⟩
  have a1 := hv.1
  unfold CDllLoader.loadVulkan
  dsimp only
  split
  · exact ⟨fun h => by simp at h, b2, b3, b4⟩
  · exact ⟨fun _ => show (0 : Int) < st.2.vulkanDllLinkCount + 1 by omega, b2, b3, b4⟩

theorem loadNccl_linked (cfg : CDllLoaderConfig) (X : DllClasses D E)
    (st : Int × CDllLoader D E) (h : st.2.HandlesLinked) :
    (CDllLoader.loadNccl cfg X st).2.HandlesLinked := by
  obtain ⟨hv, b1, b2, b3, b4⟩ := h
  refine ⟨loadNccl_valid cfg X st hv, ?_⟩
  have a1 := hv.2.2.1
  unfold CDllLoader.loadNccl
  dsimp only
  split
  · exact ⟨b1, b2, fun h => by simp at h, b4⟩
  · exact ⟨b1, b2, fun _ => show (0 : Int) < st.2.ncclDllLinkCount + 1 by omega, b4⟩

theorem loadAvx_linked (cfg : CDllLoaderConfig) (X : DllClasses D E)
    (st : Int × CDllLoader D E) (h : st.2.HandlesLinked) :
    (CDllLoader.loadAvx cfg X st).2.HandlesLinked := by
  obtain ⟨hv, b1, b2, b3, b4⟩ := h
  refine ⟨loadAvx_valid cfg X st hv, ?_⟩
  have a1 := hv.2.2.2.1
  unfold CDllLoader.loadAvx
  dsimp only
  split
  · exact ⟨b1, b2, b3, fun h => by simp at h⟩
  · exact ⟨b1, b2, b3, fun _ => show (0 : Int) < st.2.avxDllLinkCount + 1 by omega⟩

theorem loadCuda_linked (cfg : CDllLoaderConfig) (X : DllClasses D E)
    (st : Int × CDllLoader D E) (h : st.2.HandlesLinked) :
    ∃ r, CDllLoader.loadCuda cfg X st = some r ∧ r.2.HandlesLinked := by
  obtain ⟨hv, b1, b2, b3, b4⟩ := h
  have hv0 := hv
  obtain ⟨a1, a2, a3, a4, a5⟩ := hv
  have hcreated : ∃ (a b : D) (w : E), CDllLoader.cudaObjects X st.2 = (a, some b, w) := by
    unfold CDllLoader.cudaObjects
    rcases hc : st.2.cusparseDll with _ | d
    · exact ⟨_, _, _, rfl⟩
    · rw [hc] at a5
      obtain ⟨b, hb⟩ := Option.isSome_iff_exists.mp a5.symm
      exact ⟨d, b, _, by rw [hb]⟩
  obtain ⟨a, b, w, hcr⟩ := hcreated
  have hdrop : ∀ (a1 b1 : D) (w1 : E), ∃ s1,
      CDllLoader.dropCuda X st.2 a1 (some b1) w1 = some s1 ∧ s1.HandlesLinked := by
    intro x y w1
    exact ⟨_, rfl, ⟨a1, a2, a3, a4, rfl⟩, b1, fun h => by simp at h, b3, b4⟩
  unfold CDllLoader.loadCuda
  dsimp only
  rw [hcr]
  dsimp only
  rcases hl : X.Load a w with ⟨⟨ok, a'⟩, w1⟩
  cases ok
  · dsimp only
    obtain ⟨s1, e1, v1⟩ := hdrop a' b w1
    rw [e1]
    exact ⟨_, rfl, v1⟩
  · dsimp only
    rcases hl2 : X.Load b w1 with ⟨⟨ok2, b'⟩, w2⟩
    cases ok2
    · dsimp only
      obtain ⟨s1, e1, v1⟩ := hdrop a' b' w2
      rw [e1]
      exact ⟨_, rfl, v1⟩
    · dsimp only
      exact ⟨_, rfl, ⟨a1, show (0 : Int) ≤ st.2.cudaDllLinkCount + 1 by omega, a3, a4, rfl⟩,
        b1, fun _ => show (0 : Int) < st.2.cudaDllLinkCount + 1 by omega, b3, b4⟩

theorem Load_linked (cfg : CDllLoaderConfig) (X : DllClasses D E) (s : CDllLoader D E)
    (dll : Int) (h : s.HandlesLinked) :
    ∃ r, s.Load cfg X dll = some r ∧ r.2.HandlesLinked := by
  unfold CDllLoader.Load
  by_cases hd : dll ≠ 0
  · rw [if_pos hd]
    dsimp only
    have v1 : (if cfg.NEOML_USE_VULKAN = true ∧ Int.land dll cfg.VULKAN_DLL ≠ 0 then
        CDllLoader.loadVulkan cfg X (0, s) else (0, s)).2.HandlesLinked := by
      split_ifs
      · exact loadVulkan_linked cfg X _ h
      · exact h
    generalize (if cfg.NEOML_USE_VULKAN = true ∧ Int.land dll cfg.VULKAN_DLL ≠ 0 then
        CDllLoader.loadVulkan cfg X (0, s) else (0, s)) = st1 at v1 ⊢
    have v2 : ∃ st2, (if cfg.NEOML_USE_CUDA = true ∧ Int.land dll cfg.CUDA_DLL ≠ 0 then
        CDllLoader.loadCuda cfg X st1 else some st1) = some st2 ∧ st2.2.HandlesLinked := by
      split_ifs
      · exact loadCuda_linked cfg X st1 v1
      · exact ⟨st1, rfl, v1⟩
    obtain ⟨st2, e2, v2⟩ := v2
    rw [e2]
    dsimp only
    refine ⟨_, rfl, ?_⟩
    have v3 : (if cfg.NEOML_USE_NCCL = true ∧ Int.land dll cfg.NCCL_DLL ≠ 0 then
        CDllLoader.loadNccl cfg X st2 else st2).2.HandlesLinked := by
      split_ifs
      · exact loadNccl_linked cfg X _ v2
      · exact v2
    generalize (if cfg.NEOML_USE_NCCL = true ∧ Int.land dll cfg.NCCL_DLL ≠ 0 then
        CDllLoader.loadNccl cfg X st2 else st2) = st3 at v3 ⊢
    split_ifs
    · exact loadAvx_linked cfg X _ v3
    · exact v3
  · rw [if_neg hd]
    exact ⟨_, rfl, h⟩

/-- The half of the reference-count invariant that holds: after every sequence
of `Load` and `Free` calls from the initial state, a handle that is set has a
positive link count. -/
theorem run_linked (cfg : CDllLoaderConfig) (X : DllClasses D E) (calls : List DllCall)
    (s : CDllLoader D E) (h : s.HandlesLinked) :
    ∃ s1, CDllLoader.run cfg X calls s = some s1 ∧ s1.HandlesLinked := by
  induction calls generalizing s with
  | nil => exact ⟨s, rfl, h⟩
  | cons call rest ih =>
    cases call with
    | Load dll =>
      obtain ⟨r, e, v⟩ := Load_linked cfg X s dll h
      obtain ⟨s1, e1, v1⟩ := ih r.2 v
      refine ⟨s1, ?_, v1⟩
      unfold CDllLoader.run
      rw [e]
      exact e1
    | Free dll =>
      obtain ⟨s1, e1, v1⟩ := ih _ (Free_linked cfg X s dll h)
      exact ⟨s1, by unfold CDllLoader.run; exact e1, v1⟩

theorem initial_linked (world : E) : (CDllLoader.initial world : CDllLoader D E).HandlesLinked :=
  ⟨⟨le_refl _, le_refl _, le_refl _, le_refl _, rfl⟩, fun h => by simp [CDllLoader.initial] at h,
    fun h => by simp [CDllLoader.initial] at h, fun h => by simp [CDllLoader.initial] at h,
    fun h => by simp [CDllLoader.initial] at h⟩

end

/-! ## The weighting pass -/

theorem set_getElem_same {α : Type} (l : List α) (i : Nat) (h : i < l.length) :
    l.set i (l.get ⟨i, h⟩) = l := by
  apply List.ext_getElem
  · simp
  · intro k h1 h2
    simp only [List.getElem_set, List.get_eq_getElem]
    split_ifs with c
    · subst c; rfl
    · rfl

theorem weightEntry_loop (W : List ℚ) (i : Nat) (st : CStatistics) (R H : List ℚ) (a b : ℚ)
    (hg : st.gradients[i]? = some R) (hh : st.hessians[i]? = some H)
    (hgs : st.gradientsSum[i]? = some a) (hhs : st.hessiansSum[i]? = some b)
    (hR : R.length = W.length) (hH : H.length = W.length) :
    forLoop (weightEntryBody W i) (List.range W.length) st =
      ({ gradients := st.gradients.set i (List.zipWith (fun x w => x * w) R W),
         hessians := st.hessians.set i (List.zipWith (fun x w => x * w) H W),
         gradientsSum := st.gradientsSum.set i (a + (List.zipWith (fun x w => x * w) R W).sum),
         hessiansSum := st.hessiansSum.set i (b + (List.zipWith (fun x w => x * w) H W).sum) },
        Outcome.ok ()) := by
  set ZR := List.zipWith (fun x w => x * w) R W with hZR
  set ZH := List.zipWith (fun x w => x * w) H W with hZH
  have lZR : ZR.length = W.length := by simp [hZR, hR]
  have lZH : ZH.length = W.length := by simp [hZH, hH]
  obtain ⟨hig, eg⟩ := List.getElem?_eq_some_iff.mp hg
  obtain ⟨hih, eh⟩ := List.getElem?_eq_some_iff.mp hh
  obtain ⟨higs, egs⟩ := List.getElem?_eq_some_iff.mp hgs
  obtain ⟨hihs, ehs⟩ := List.getElem?_eq_some_iff.mp hhs
  have key := forLoop_range_steps (weightEntryBody W i) W.length
    (fun j => ({ gradients := st.gradients.set i (ZR.take j ++ R.drop j),
                 hessians := st.hessians.set i (ZH.take j ++ H.drop j),
                 gradientsSum := st.gradientsSum.set i (a + (ZR.take j).sum),
                 hessiansSum := st.hessiansSum.set i (b + (ZH.take j).sum) } : CStatistics)) ?_
  · have e0 : ({ gradients := st.gradients.set i (ZR.take 0 ++ R.drop 0),
                 hessians := st.hessians.set i (ZH.take 0 ++ H.drop 0),
                 gradientsSum := st.gradientsSum.set i (a + (ZR.take 0).sum),
                 hessiansSum := st.hessiansSum.set i (b + (ZH.take 0).sum) } : CStatistics) = st := by
      have f1 : st.gradients.set i R = st.gradients := by
        rw [← eg]; exact set_getElem_same _ i hig
      have f2 : st.hessians.set i H = st.hessians := by
        rw [← eh]; exact set_getElem_same _ i hih
      have f3 : st.gradientsSum.set i a = st.gradientsSum := by
        rw [← egs]; exact set_getElem_same _ i higs
      have f4 : st.hessiansSum.set i b = st.hessiansSum := by
        rw [← ehs]; exact set_getElem_same _ i hihs
      simp only [List.take_zero, List.drop_zero, List.nil_append, List.sum_nil, add_zero,
        f1, f2, f3, f4]
    rw [e0] at key
    rw [key]
    congr 2
    · rw [List.take_of_length_le (by omega), List.drop_eq_nil_of_le (by omega), List.append_nil]
    · rw [List.take_of_length_le (by omega), List.drop_eq_nil_of_le (by omega), List.append_nil]
    · rw [List.take_of_length_le (by omega)]
    · rw [List.take_of_length_le (by omega)]
  · intro j hj
    have hjR : j < R.length := by omega
    have hjH : j < H.length := by omega
    have hjZR : j < ZR.length := by omega
    have hjZH : j < ZH.length := by omega
    have g1 : (ZR.take j ++ R.drop j)[j]? = some R[j] :=
      getElem?_take_append_drop ZR R j (by omega) hjR
    have g2 : (ZH.take j ++ H.drop j)[j]? = some H[j] :=
      getElem?_take_append_drop ZH H j (by omega) hjH
    have l1 : j < (ZR.take j ++ R.drop j).length := by simp; omega
    have l2 : j < (ZH.take j ++ H.drop j).length := by simp; omega
    have u1 := take_append_drop_set ZR R j hjZR (by omega)
    have u2 := take_append_drop_set ZH H j hjZH (by omega)
    simp only [List.get_eq_getElem] at u1 u2
    have z1 : ZR[j] = R[j] * W[j] := by simp only [hZR, List.getElem_zipWith]
    have z2 : ZH[j] = H[j] * W[j] := by simp only [hZH, List.getElem_zipWith]
    have s1 : a + (ZR.take j).sum + R[j] * W[j] = a + (ZR.take (j + 1)).sum := by
      rw [List.sum_take_succ ZR j hjZR, z1]; ring
    have s2 : b + (ZH.take j).sum + H[j] * W[j] = b + (ZH.take (j + 1)).sum := by
      rw [List.sum_take_succ ZH j hjZH, z2]; ring
    have r1 : CArray.get2? (st.gradients.set i (ZR.take j ++ R.drop j)) i j = some R[j] := by
      rw [CArray.get2?_eq _ _ _ (ZR.take j ++ R.drop j) (by simp [hig])]
      exact g1
    have r2 : CArray.get2? (st.hessians.set i (ZH.take j ++ H.drop j)) i j = some H[j] := by
      rw [CArray.get2?_eq _ _ _ (ZH.take j ++ H.drop j) (by simp [hih])]
      exact g2
    simp only [weightEntryBody, r1, r2, List.getElem?_eq_getElem hj,
      CArray.set2?_set _ _ _ _ _ hig l1, CArray.set2?_set _ _ _ _ _ hih l2]
    have q1 : (st.gradientsSum.set i (a + (ZR.take j).sum))[i]? = some (a + (ZR.take j).sum) := by
      simp [higs]
    have q2 : (st.hessiansSum.set i (b + (ZH.take j).sum))[i]? = some (b + (ZH.take j).sum) := by
      simp [hihs]
    simp only [q1, q2, List.set_set, ← z1, ← z2, u1, u2]
    rw [z1, z2, s1, s2]

theorem weightStatistics_eq (W : List ℚ) (st : CStatistics) (m : Nat)
    (hg : st.gradients.length = m) (hh : st.hessians.length = m)
    (hgs : st.gradientsSum.length = m) (hhs : st.hessiansSum.length = m)
    (hgr : ∀ row ∈ st.gradients, row.length = W.length)
    (hhr : ∀ row ∈ st.hessians, row.length = W.length) :
    weightStatistics W W.length st =
      ({ gradients := st.gradients.map (fun R => List.zipWith (fun x w => x * w) R W),
         hessians := st.hessians.map (fun R => List.zipWith (fun x w => x * w) R W),
         gradientsSum := List.zipWith (fun a R => a + (List.zipWith (fun x w => x * w) R W).sum)
           st.gradientsSum st.gradients,
         hessiansSum := List.zipWith (fun a R => a + (List.zipWith (fun x w => x * w) R W).sum)
           st.hessiansSum st.hessians },
        Outcome.ok ()) := by
  set GZ := st.gradients.map (fun R => List.zipWith (fun x w => x * w) R W) with hGZ
  set HZ := st.hessians.map (fun R => List.zipWith (fun x w => x * w) R W) with hHZ
  set SZ := List.zipWith (fun a R => a + (List.zipWith (fun x w => x * w) R W).sum)
    st.gradientsSum st.gradients with hSZ
  set TZ := List.zipWith (fun a R => a + (List.zipWith (fun x w => x * w) R W).sum)
    st.hessiansSum st.hessians with hTZ
  have lGZ : GZ.length = m := by simp [hGZ, hg]
  have lHZ : HZ.length = m := by simp [hHZ, hh]
  have lSZ : SZ.length = m := by simp [hSZ, hg, hgs]
  have lTZ : TZ.length = m := by simp [hTZ, hh, hhs]
  unfold weightStatistics
  rw [hg]
  have key := forLoop_range_steps
    (fun i st1 => forLoop (weightEntryBody W i) (List.range W.length) st1) m
    (fun i => ({ gradients := GZ.take i ++ st.gradients.drop i,
                 hessians := HZ.take i ++ st.hessians.drop i,
                 gradientsSum := SZ.take i ++ st.gradientsSum.drop i,
                 hessiansSum := TZ.take i ++ st.hessiansSum.drop i } : CStatistics)) ?_
  · simp only [List.take_zero, List.drop_zero, List.nil_append] at key
    rw [key]
    congr 2
    · rw [List.take_of_length_le (by omega), List.drop_eq_nil_of_le (by omega), List.append_nil]
    · rw [List.take_of_length_le (by omega), List.drop_eq_nil_of_le (by omega), List.append_nil]
    · rw [List.take_of_length_le (by omega), List.drop_eq_nil_of_le (by omega), List.append_nil]
    · rw [List.take_of_length_le (by omega), List.drop_eq_nil_of_le (by omega), List.append_nil]
  · intro i hi
    have hig : i < st.gradients.length := by omega
    have hih : i < st.hessians.length := by omega
    have higs : i < st.gradientsSum.length := by omega
    have hihs : i < st.hessiansSum.length := by omega
    have g1 : (GZ.take i ++ st.gradients.drop i)[i]? = some st.gradients[i] :=
      getElem?_take_append_drop GZ st.gradients i (by omega) hig
    have g2 : (HZ.take i ++ st.hessians.drop i)[i]? = some st.hessians[i] :=
      getElem?_take_append_drop HZ st.hessians i (by omega) hih
    have g3 : (SZ.take i ++ st.gradientsSum.drop i)[i]? = some st.gradientsSum[i] :=
      getElem?_take_append_drop SZ st.gradientsSum i (by omega) higs
    have g4 : (TZ.take i ++ st.hessiansSum.drop i)[i]? = some st.hessiansSum[i] :=
      getElem?_take_append_drop TZ st.hessiansSum i (by omega) hihs
    have step := weightEntry_loop W i
      ({ gradients := GZ.take i ++ st.gradients.drop i,
         hessians := HZ.take i ++ st.hessians.drop i,
         gradientsSum := SZ.take i ++ st.gradientsSum.drop i,
         hessiansSum := TZ.take i ++ st.hessiansSum.drop i } : CStatistics)
      st.gradients[i] st.hessians[i] st.gradientsSum[i] st.hessiansSum[i] g1 g2 g3 g4
      (hgr _ (List.getElem_mem _)) (hhr _ (List.getElem_mem _))
    dsimp only at step ⊢
    rw [step]
    have u1 := take_append_drop_set GZ st.gradients i (by omega) (by omega)
    have u2 := take_append_drop_set HZ st.hessians i (by omega) (by omega)
    have u3 := take_append_drop_set SZ st.gradientsSum i (by omega) (by omega)
    have u4 := take_append_drop_set TZ st.hessiansSum i (by omega) (by omega)
    have z1 : GZ.get ⟨i, by omega⟩ = List.zipWith (fun x w => x * w) st.gradients[i] W := by
      simp only [hGZ, List.get_eq_getElem, List.getElem_map]
    have z2 : HZ.get ⟨i, by omega⟩ = List.zipWith (fun x w => x * w) st.hessians[i] W := by
      simp only [hHZ, List.get_eq_getElem, List.getElem_map]
    have z3 : SZ.get ⟨i, by omega⟩ = st.gradientsSum[i] +
        (List.zipWith (fun x w => x * w) st.gradients[i] W).sum := by
      simp only [hSZ, List.get_eq_getElem, List.getElem_zipWith]
    have z4 : TZ.get ⟨i, by omega⟩ = st.hessiansSum[i] +
        (List.zipWith (fun x w => x * w) st.hessians[i] W).sum := by
      simp only [hTZ, List.get_eq_getElem, List.getElem_zipWith]
    rw [← z3, ← z4, ← z1, ← z2, u1, u2, u3, u4]

theorem foldl_add_eq_sum (l : List ℚ) (a : ℚ) :
    l.foldl (fun acc w => acc + w) a = a + l.sum := by
  induction l generalizing a with
  | nil => simp
  | cons x rest ih => simp only [List.foldl_cons, List.sum_cons, ih]; ring


section
variable {Tree B : Type}

theorem readWeights_eq (bp : IMultivariateRegressionProblem) (uv : List Int)
    (hw : bp.Weights.length = bp.VectorCount.toNat)
    (hv : ∀ v ∈ uv, 0 ≤ v ∧ v < bp.VectorCount) :
    readWeights bp uv = some (uv.map (fun v => (bp.Weights[v.toNat]?).getD 0)) ∧
    ∀ (j : Nat) (v : Int), uv[j]? = some v →
      (uv.map (fun v => (bp.Weights[v.toNat]?).getD 0))[j]? = CArray.get? bp.Weights v := by
  have hget : ∀ v ∈ uv, CArray.get? bp.Weights v = some ((bp.Weights[v.toNat]?).getD 0) := by
    intro v hvm
    have := hv v hvm
    have hlt : v.toNat < bp.Weights.length := by omega
    simp [CArray.get?, this.1, List.getElem?_eq_getElem hlt]
  constructor
  · unfold readWeights
    exact collectAll_map_some _ _ _ hget
  · intro j v hj
    rw [List.getElem?_map, hj, Option.map_some', hget v (List.getElem?_mem hj)]

/-- The statistics of a step in closed form: the entries of the loss function
times the weights, the sums of the rows, and the sum of the weights. -/
theorem computeStatistics_eq (X : Collaborators Tree B) (s : CGradientBoost Tree B)
    (lf : IGradientBoostingLossFunction) (bp : IMultivariateRegressionProblem) (m : Nat)
    (hw : bp.Weights.length = bp.VectorCount.toNat)
    (hv : ∀ v ∈ s.usedVectors, 0 ≤ v ∧ v < bp.VectorCount)
    (hp : s.predicts.length = m) (ha : s.answers.length = m)
    (hpr : ∀ row ∈ s.predicts, row.length = s.usedVectors.length)
    (har : ∀ row ∈ s.answers, row.length = s.usedVectors.length) :
    s.computeStatistics X lf bp =
      ({ s with
          gradients := (entryRows (fun p a => ((lf.entry X.exp) p a).1) s.predicts s.answers).map
            (fun R => List.zipWith (fun x w => x * w) R
              (s.usedVectors.map (fun v => (bp.Weights[v.toNat]?).getD 0)))
          hessians := (entryRows (fun p a => ((lf.entry X.exp) p a).2) s.predicts s.answers).map
            (fun R => List.zipWith (fun x w => x * w) R
              (s.usedVectors.map (fun v => (bp.Weights[v.toNat]?).getD 0))) },
        Outcome.ok
          { gradientsSum :=
              ((entryRows (fun p a => ((lf.entry X.exp) p a).1) s.predicts s.answers).map
                (fun R => List.zipWith (fun x w => x * w) R
                  (s.usedVectors.map (fun v => (bp.Weights[v.toNat]?).getD 0)))).map List.sum
            hessiansSum :=
              ((entryRows (fun p a => ((lf.entry X.exp) p a).2) s.predicts s.answers).map
                (fun R => List.zipWith (fun x w => x * w) R
                  (s.usedVectors.map (fun v => (bp.Weights[v.toNat]?).getD 0)))).map List.sum
            weights := s.usedVectors.map (fun v => (bp.Weights[v.toNat]?).getD 0)
            weightsSum := (s.usedVectors.map (fun v => (bp.Weights[v.toNat]?).getD 0)).sum }) := by
  set W := s.usedVectors.map (fun v => (bp.Weights[v.toNat]?).getD 0) with hW
  have lW : W.length = s.usedVectors.length := by simp [hW]
  unfold CGradientBoost.computeStatistics IGradientBoostingLossFunction.CalcGradientAndHessian
  rw [calcGradientAndHessianWith_eq _ _ _ _ _ (hp.trans ha.symm)
    (fun i prow arow h1 h2 => by
      rw [hpr _ (List.getElem?_mem h1), har _ (List.getElem?_mem h2)])]
  dsimp only
  rw [(readWeights_eq bp s.usedVectors hw hv).1]
  dsimp only
  obtain ⟨g1, g2⟩ := entryRows_shape (fun p a => ((lf.entry X.exp) p a).1) s.predicts s.answers m
    s.usedVectors.length hp ha hpr har
  obtain ⟨k1, k2⟩ := entryRows_shape (fun p a => ((lf.entry X.exp) p a).2) s.predicts s.answers m
    s.usedVectors.length hp ha hpr har
  rw [← hW, ← lW]
  rw [weightStatistics_eq W _ m g1 k1 (by simp [CArray.AddN, g1]) (by simp [CArray.AddN, g1])
    (by rw [lW]; exact g2) (by rw [lW]; exact k2)]
  dsimp only
  have hz : ∀ (G : List (List ℚ)), G.length = m →
      List.zipWith (fun a R => a + (List.zipWith (fun x w => x * w) R W).sum)
        (CArray.AddN [] 0 ((m : Nat) : Int)) G =
      (G.map (fun R => List.zipWith (fun x w => x * w) R W)).map List.sum := by
    intro G hG
    apply List.ext_getElem
    · simp [CArray.AddN, hG]
    · intro i h1 h2
      simp [CArray.AddN]
  rw [g1, hz _ g1, hz _ k1, foldl_add_eq_sum, zero_add]

end

section
variable {Tree B : Type}

theorem get2?_weighted (G : List (List ℚ)) (W : List ℚ) (i j : Nat) (g w : ℚ)
    (hg : CArray.get2? G i j = some g) (hw : W[j]? = some w) :
    CArray.get2? (G.map (fun R => List.zipWith (fun x w => x * w) R W)) i j = some (g * w) := by
  unfold CArray.get2? at hg ⊢
  rcases hrow : G[i]? with _ | row
  · rw [hrow] at hg; simp at hg
  · rw [hrow] at hg
    dsimp only at hg
    rw [List.getElem?_map, hrow]
    dsimp only [Option.map_some']
    obtain ⟨h1, e1⟩ := List.getElem?_eq_some_iff.mp hg
    obtain ⟨h2, e2⟩ := List.getElem?_eq_some_iff.mp hw
    rw [List.getElem?_eq_some_iff]
    refine ⟨by simp; omega, ?_⟩
    simp [e1, e2]

/-- Claim C21: the statistics of `executeStep`.  On buffers `predicts` and
`answers` with a row of `usedVectors.Size()` entries per output and an active
set of valid rows, the call of the loss function, the reading of the weights
and the weighting pass return, and afterwards, for every output `i` and every
active position `j`, `gradients[i][j]` and `hessians[i][j]` are the gradient and
the Hessian that `CalcGradientAndHessian` wrote there times the weight of the
row `usedVectors[j]`; `gradientsSum[i]` and `hessiansSum[i]` are the sums of the
rows `gradients[i]` and `hessians[i]`; `weights[j]` is the weight of the row
`usedVectors[j]` and `weightsSum` is the sum of `weights`. -/
theorem weighted_statistics (X : Collaborators Tree B) (s : CGradientBoost Tree B)
    (lf : IGradientBoostingLossFunction) (bp : IMultivariateRegressionProblem) (m : Nat)
    (hw : bp.Weights.length = bp.VectorCount.toNat)
    (hv : ∀ v ∈ s.usedVectors, 0 ≤ v ∧ v < bp.VectorCount)
    (hp : s.predicts.length = m) (ha : s.answers.length = m)
    (hpr : ∀ row ∈ s.predicts, row.length = s.usedVectors.length)
    (har : ∀ row ∈ s.answers, row.length = s.usedVectors.length) :
    ∃ (G H : List (List ℚ)) (s1 : CGradientBoost Tree B) (sums : CStepSums),
      lf.CalcGradientAndHessian X.exp s.predicts s.answers s.gradients s.hessians =
        ((G, H), Outcome.ok ()) ∧
      s.computeStatistics X lf bp = (s1, Outcome.ok sums) ∧
      s1.usedVectors = s.usedVectors ∧
      sums.weights.length = s.usedVectors.length ∧
      (∀ (j : Nat) (v : Int), s.usedVectors[j]? = some v →
        sums.weights[j]? = CArray.get? bp.Weights v) ∧
      (∀ i j : Nat, i < m → j < s.usedVectors.length →
        ∃ g h w : ℚ, CArray.get2? G i j = some g ∧ CArray.get2? H i j = some h ∧
          sums.weights[j]? = some w ∧
          CArray.get2? s1.gradients i j = some (g * w) ∧
          CArray.get2? s1.hessians i j = some (h * w)) ∧
      s1.gradients.length = m ∧ s1.hessians.length = m ∧
      (∀ row ∈ s1.gradients, row.length = s.usedVectors.length) ∧
      (∀ row ∈ s1.hessians, row.length = s.usedVectors.length) ∧
      sums.gradientsSum = s1.gradients.map List.sum ∧
      sums.hessiansSum = s1.hessians.map List.sum ∧
      sums.weightsSum = sums.weights.sum := by
  have hcalc := calcGradientAndHessianWith_eq (lf.entry X.exp) s.predicts s.answers s.gradients
    s.hessians (hp.trans ha.symm) (fun i prow arow h1 h2 => by
      rw [hpr _ (List.getElem?_mem h1), har _ (List.getElem?_mem h2)])
  obtain ⟨g1, g2⟩ := entryRows_shape (fun p a => ((lf.entry X.exp) p a).1) s.predicts s.answers m
    s.usedVectors.length hp ha hpr har
  obtain ⟨k1, k2⟩ := entryRows_shape (fun p a => ((lf.entry X.exp) p a).2) s.predicts s.answers m
    s.usedVectors.length hp ha hpr har
  obtain ⟨_, hweights⟩ := readWeights_eq bp s.usedVectors hw hv
  refine ⟨_, _, _, _, hcalc, computeStatistics_eq X s lf bp m hw hv hp ha hpr har, rfl,
    by simp, hweights, ?_, by simp [g1], by simp [k1], ?_, ?_, rfl, rfl, rfl⟩
  · intro i j hi hj
    have e1 : ∀ (L : List (List ℚ)), L.length = m → (∀ row ∈ L, row.length = s.usedVectors.length) →
        ∃ x, CArray.get2? L i j = some x := by
      intro L hL hrows
      have hiL : i < L.length := by omega
      have hjL : j < (L[i]).length := by rw [hrows _ (List.getElem_mem _)]; exact hj
      exact ⟨_, by
        rw [CArray.get2?_eq _ _ _ _ (List.getElem?_eq_getElem hiL)]
        exact List.getElem?_eq_getElem hjL⟩
    obtain ⟨g, hg⟩ := e1 _ g1 g2
    obtain ⟨h, hh⟩ := e1 _ k1 k2
    have hjw : j < (s.usedVectors.map (fun v => (bp.Weights[v.toNat]?).getD 0)).length := by
      simpa using hj
    exact ⟨g, h, _, hg, hh, List.getElem?_eq_getElem hjw,
      get2?_weighted _ _ i j g _ hg (List.getElem?_eq_getElem hjw),
      get2?_weighted _ _ i j h _ hh (List.getElem?_eq_getElem hjw)⟩
  · intro row hrow
    simp only [List.mem_map] at hrow
    obtain ⟨R, hR, rfl⟩ := hrow
    simp [g2 R hR]
  · intro row hrow
    simp only [List.mem_map] at hrow
    obtain ⟨R, hR, rfl⟩ := hrow
    simp [k2 R hR]

end

theorem weighted_statistics_witness :
    ∃ (s1 : CGradientBoost ℚ Nat) (sums : CStepSums),
      (demoAfterOne 3).computeStatistics (demoCollaborators 3 false)
        IGradientBoostingLossFunction.CGradientBoostingSquareLoss demoProblem =
        (s1, Outcome.ok sums) ∧
      sums.weights.length = (demoAfterOne 3).usedVectors.length ∧
      s1.gradients.length = 2 ∧
      sums.gradientsSum = s1.gradients.map List.sum ∧
      sums.hessiansSum = s1.hessians.map List.sum ∧
      sums.weightsSum = sums.weights.sum := by
  obtain ⟨G, H, s1, sums, _, h2, _, h4, _, _, h7, _, _, _, h11, h12, h13⟩ :=
    weighted_statistics (demoCollaborators 3 false) (demoAfterOne 3)
      IGradientBoostingLossFunction.CGradientBoostingSquareLoss demoProblem 2
      (by decide) (by decide!) (by decide!) (by decide!) (by decide!) (by decide!)
  exact ⟨s1, sums, h2, h4, h7, h11, h12, h13⟩

section
variable {Tree B : Type}

/-- Claim C22: on a trainer between two steps whose active set holds valid
rows and whose buffers have a column per active row, `buildPredictions` called
with `curStep` the ensemble length returns; for every row outside the active
set and every output the cache entry, its `Step` and its `Value`, is the one
from before the call; and for every active row the entry of every output
exists and has `Step` equal to that ensemble length. -/
theorem buildPredictions_touches_active_rows (X : Collaborators Tree B)
    (s : CGradientBoost Tree B) (bp : IMultivariateRegressionProblem) (cfg : CParams) (k : Nat)
    (hR : s.Ready bp cfg k) (hv : ∀ v ∈ s.usedVectors, 0 ≤ v ∧ v < bp.VectorCount)
    (hinv : s.CacheInvariant X bp k)
    (hpr : ∀ row ∈ s.predicts, row.length = s.usedVectors.length)
    (har : ∀ row ∈ s.answers, row.length = s.usedVectors.length) :
    s.stepCount = (k : Int) ∧
    ∃ s1, s.buildPredictions X bp s.models s.stepCount = (s1, Outcome.ok ()) ∧
      s1.usedVectors = s.usedVectors ∧
      (∀ (j r : Nat), (r : Int) ∉ s.usedVectors →
        CArray.get2? s1.predictCache j r = CArray.get2? s.predictCache j r) ∧
      (∀ v ∈ s.usedVectors, ∀ j : Nat, j < bp.ValueSize.toNat →
        ∃ item : CPredictionCacheItem,
          CArray.get2? s1.predictCache j v.toNat = some item ∧ item.Step = s.stepCount) := by
  have hk := hR.stepCount
  refine ⟨hk, ?_⟩
  rw [hk]
  obtain ⟨s1, e1, q1, L⟩ := buildPredictions_spec X s bp cfg k hR hv hinv hpr har
  refine ⟨s1, e1, by rw [q1], L.untouched, ?_⟩
  intro v hvm j hj
  obtain ⟨i, hi, hiv⟩ := List.getElem_of_mem hvm
  have hjc : j < s1.predictCache.length := by rw [L.cacheLength]; exact hj
  have hvalid := hv v hvm
  have hrow : v.toNat < (s1.predictCache[j]).length := by
    rw [L.cacheRows _ (List.getElem_mem _)]; omega
  have hitem : CArray.get2? s1.predictCache j v.toNat = some (s1.predictCache[j])[v.toNat] := by
    rw [CArray.get2?_eq _ _ _ _ (List.getElem?_eq_getElem hjc)]
    exact List.getElem?_eq_getElem hrow
  refine ⟨_, hitem, ?_⟩
  exact L.refreshed i hi v (by rw [List.getElem?_eq_getElem hi, hiv]) j _ hitem

end

theorem sampled_after_one_ready :
    (CGradientBoost.TrainSteps steadyCollaborators demoProblem 1 sampledFresh).1.Ready
      (steadyCollaborators.notNullWeightsView demoProblem) sampledParams 1 ∧
    (CGradientBoost.TrainSteps steadyCollaborators demoProblem 1 sampledFresh).1.CacheInvariant
      steadyCollaborators (steadyCollaborators.notNullWeightsView demoProblem) 1 :=
  (trainSteps_run steadyCollaborators ⟨7⟩ sampledParams demoProblem sampledFresh sampled_construct
    demoProblem_wellFormed steady_drawsInRange 1
    (trainSteps_all_ok steadyCollaborators ⟨7⟩ sampledParams demoProblem sampledFresh
      sampled_construct demoProblem_wellFormed steady_drawsInRange
      (fun _ h => TLossFunction.noConfusion h)
      (fun _ h => TGradientBoostTreeBuilder.noConfusion h) steady_constructorsSucceed
      steady_buildsSucceed 1)).1 (by decide)

theorem buildPredictions_touches_active_rows_witness :
    (CGradientBoost.TrainSteps steadyCollaborators demoProblem 1 sampledFresh).1.usedVectors =
      [0] ∧
    ((CGradientBoost.TrainSteps steadyCollaborators demoProblem 1 sampledFresh).1.stepCount =
      ((1 : Nat) : Int) ∧
    ∃ s1, (CGradientBoost.TrainSteps steadyCollaborators demoProblem 1
        sampledFresh).1.buildPredictions steadyCollaborators
        (steadyCollaborators.notNullWeightsView demoProblem)
        (CGradientBoost.TrainSteps steadyCollaborators demoProblem 1 sampledFresh).1.models
        (CGradientBoost.TrainSteps steadyCollaborators demoProblem 1 sampledFresh).1.stepCount =
        (s1, Outcome.ok ()) ∧
      s1.usedVectors =
        (CGradientBoost.TrainSteps steadyCollaborators demoProblem 1 sampledFresh).1.usedVectors ∧
      (∀ (j r : Nat), (r : Int) ∉
          (CGradientBoost.TrainSteps steadyCollaborators demoProblem 1 sampledFresh).1.usedVectors →
        CArray.get2? s1.predictCache j r = CArray.get2?
          (CGradientBoost.TrainSteps steadyCollaborators demoProblem 1
            sampledFresh).1.predictCache j r) ∧
      (∀ v ∈ (CGradientBoost.TrainSteps steadyCollaborators demoProblem 1
          sampledFresh).1.usedVectors,
        ∀ j : Nat, j < (steadyCollaborators.notNullWeightsView demoProblem).ValueSize.toNat →
        ∃ item : CPredictionCacheItem,
          CArray.get2? s1.predictCache j v.toNat = some item ∧ item.Step =
            (CGradientBoost.TrainSteps steadyCollaborators demoProblem 1
              sampledFresh).1.stepCount)) :=
  ⟨by decide!,
    buildPredictions_touches_active_rows steadyCollaborators
      (CGradientBoost.TrainSteps steadyCollaborators demoProblem 1 sampledFresh).1
      (steadyCollaborators.notNullWeightsView demoProblem) sampledParams 1
      sampled_after_one_ready.1 (by decide!) sampled_after_one_ready.2 (by decide!) (by decide!)⟩

/-! ## The numbering of the sampled features -/

theorem generateRandomArray_ok_bounds (uniformInt : UniformIntFn) (random : CRandom) (n k : Int)
    (result : List Int) (h : (generateRandomArray uniformInt random n k result).2 = Outcome.ok ()) :
    1 ≤ k ∧ k ≤ n := by
  unfold generateRandomArray at h
  split_ifs at h with h1 h2
  all_goals exact ⟨by omega, by omega⟩

theorem clearBody_cleared (n : Nat) (fn : List Int) (hlen : fn.length = n) :
    (forLoop clearBody (List.range n) fn).2 = Outcome.ok () ∧
    (forLoop clearBody (List.range n) fn).1.length = n ∧
    ∀ f : Nat, f < n → (forLoop clearBody (List.range n) fn).1[f]? = some NotFound := by
  have := forLoop_range_inv clearBody n
    (fun i l => l.length = n ∧ ∀ f : Nat, f < i → l[f]? = some NotFound)
    (fun i hi l hl => by
      obtain ⟨h1, h2⟩ := hl
      have hil : i < l.length := by omega
      simp only [clearBody, CArray.set?, Int.toNat_ofNat, Int.ofNat_nonneg, hil, true_and,
        if_true, Nat.cast_nonneg, and_self]
      refine ⟨by simp [h1], ?_⟩
      intro f hf
      by_cases hfi : f = i
      · subst hfi
        simp [hil]
      · rw [List.getElem?_set_ne (fun h => hfi h.symm)]
        exact h2 f (by omega))
    fn ⟨hlen, fun f hf => absurd hf (Nat.not_lt_zero _)⟩
  exact ⟨this.1, this.2.1, this.2.2⟩

theorem renumberBody_numbered (uf : List Int) (n : Nat) (fn : List Int) (hlen : fn.length = n)
    (hvalid : ∀ v ∈ uf, 0 ≤ v ∧ v < (n : Int)) (hnd : uf.Nodup)
    (hclear : ∀ f : Nat, f < n → fn[f]? = some NotFound) :
    (forLoop (renumberBody uf) (List.range uf.length) fn).2 = Outcome.ok () ∧
    (forLoop (renumberBody uf) (List.range uf.length) fn).1.length = n ∧
    (∀ (i : Nat) (f : Int), uf[i]? = some f →
      (forLoop (renumberBody uf) (List.range uf.length) fn).1[f.toNat]? = some (i : Int)) ∧
    (∀ f : Nat, f < n → (f : Int) ∉ uf →
      (forLoop (renumberBody uf) (List.range uf.length) fn).1[f]? = some NotFound) := by
  have := forLoop_range_inv (renumberBody uf) uf.length
    (fun i l => l.length = n ∧
      (∀ (i1 : Nat) (f : Int), i1 < i → uf[i1]? = some f → l[f.toNat]? = some (i1 : Int)) ∧
      (∀ f : Nat, f < n → (∀ i1 : Nat, i1 < i → uf[i1]? ≠ some (f : Int)) →
        l[f]? = some NotFound))
    (fun i hi l hl => by
      obtain ⟨h1, h2, h3⟩ := hl
      have hv := hvalid _ (List.getElem_mem hi)
      have hil : uf[i].toNat < l.length := by omega
      simp only [renumberBody, List.getElem?_eq_getElem hi, CArray.set?, hv.1, hil, true_and,
        if_true, and_self]
      refine ⟨by simp [h1], ?_, ?_⟩
      · intro i1 f hi1 hf
        by_cases hii : i1 = i
        · subst hii
          rw [List.getElem?_eq_getElem hi] at hf
          simp only [Option.some.injEq] at hf
          subst hf
          simp [hil]
        · have hi1' : i1 < i := by omega
          have hi1l : i1 < uf.length := by omega
          rw [List.getElem?_eq_getElem hi1l] at hf
          simp only [Option.some.injEq] at hf
          have hne : uf[i1] ≠ uf[i] := by
            intro heq
            exact hii ((hnd.getElem_inj_iff).mp heq)
          have hv1 := hvalid _ (List.getElem_mem hi1l)
          have hnat : uf[i].toNat ≠ f.toNat := by
            rw [← hf]
            intro h
            apply hne
            omega
          rw [List.getElem?_set_ne hnat]
          exact h2 i1 f hi1' (by rw [List.getElem?_eq_getElem hi1l, hf])
      · intro f hf hall
        have hnat : uf[i].toNat ≠ f := by
          intro h
          apply hall i (Nat.lt_succ_self i)
          rw [List.getElem?_eq_getElem hi]
          congr 1
          omega
        rw [List.getElem?_set_ne hnat]
        exact h3 f hf (fun i1 hi1 => hall i1 (by omega)))
    fn ⟨hlen, fun i1 f hi1 => absurd hi1 (Nat.not_lt_zero _), fun f hf _ => hclear f hf⟩
  refine ⟨this.1, this.2.1, ?_, ?_⟩
  · intro i f hf
    have hi : i < uf.length := (List.getElem?_eq_some_iff.mp hf).1
    exact this.2.2.1 i f hi hf
  · intro f hf hmem
    apply this.2.2.2 f hf
    intro i1 _ h
    exact hmem (List.getElem?_mem h)

section
variable {Tree B : Type}

/-- What the block `if( params.Subfeature < 1.0 )` of `executeStep` leaves when
it returns: `featureNumbers` is the inverse of the renumbering `usedFeatures`. -/
theorem sampleFeatures_numbered (X : Collaborators Tree B) (s s1 : CGradientBoost Tree B)
    (fc : Int) (hd : X.DrawsInRange) (hsf : s.params.Subfeature < 1)
    (h : s.sampleFeatures X fc = (s1, Outcome.ok ())) :
    s1.FeaturesNumbered fc ∧ (∀ f ∈ s1.usedFeatures, 0 ≤ f ∧ f < fc) ∧ s1.usedFeatures.Nodup := by
  unfold CGradientBoost.sampleFeatures at h
  rw [if_pos hsf] at h
  have hb := generateRandomArray_ok_bounds X.uniformInt s.getRandom fc
    (max (truncToInt (fc * s.params.Subfeature)) 1) s.usedFeatures
  rcases hgen : generateRandomArray X.uniformInt s.getRandom fc
      (max (truncToInt (fc * s.params.Subfeature)) 1) s.usedFeatures with ⟨⟨r, uf⟩, _ | e⟩
  · rw [hgen] at h hb
    obtain ⟨hk1, hkn⟩ := hb rfl
    have hfc : 1 ≤ fc := le_trans hk1 hkn
    obtain ⟨r1, uf1, hgen1, hvalid, hnodup⟩ := generateRandomArray_valid X.uniformInt s.getRandom
      fc _ s.usedFeatures hfc hk1 hkn hd
    rw [hgen] at hgen1
    simp only [Prod.mk.injEq, and_true] at hgen1
    obtain ⟨_, huf⟩ := hgen1
    subst huf
    dsimp only at h
    have hn : ((fc.toNat : Nat) : Int) = fc := Int.toNat_of_nonneg (by omega)
    have hres : (if ((s.setRandom r).featureNumbers.length : Int) ≠ fc then
        CArray.SetSize (s.setRandom r).featureNumbers fc 0
        else (s.setRandom r).featureNumbers).length = fc.toNat := by
      split_ifs with h0
      · have := CArray.length_SetSize (s.setRandom r).featureNumbers fc.toNat (0 : Int)
        rw [hn] at this; exact this
      · have h' : ((s.setRandom r).featureNumbers.length : Int) = fc := not_not.mp h0
        omega
    obtain ⟨hc1, hc2, hc3⟩ := clearBody_cleared fc.toNat _ hres
    rcases hcl : forLoop clearBody (List.range fc.toNat)
      (if ((s.setRandom r).featureNumbers.length : Int) ≠ fc then
        CArray.SetSize (s.setRandom r).featureNumbers fc 0
        else (s.setRandom r).featureNumbers) with ⟨cleared, o⟩
    rw [hcl] at hc1 hc2 hc3 h
    dsimp only at hc1 hc2 hc3
    subst hc1
    dsimp only at h
    obtain ⟨hr1, hr2, hr3, hr4⟩ := renumberBody_numbered uf fc.toNat cleared hc2
      (fun v hv => by have := hvalid v hv; omega) hnodup hc3
    rcases hrn : forLoop (renumberBody uf) (List.range uf.length) cleared with ⟨numbered, o⟩
    rw [hrn] at hr1 hr2 hr3 hr4 h
    dsimp only at hr1 hr2 hr3 hr4
    simp only [Prod.mk.injEq] at h
    obtain ⟨hs1, _⟩ := h
    subst hs1
    refine ⟨⟨?_, ?_, ?_⟩, hvalid, hnodup⟩
    · show ((numbered.length : Nat) : Int) = fc
      rw [hr2]; exact hn
    · intro i f hf
      have hfv := hvalid f (List.getElem?_mem hf)
      show CArray.get? numbered f = some (i : Int)
      unfold CArray.get?
      rw [if_pos hfv.1]
      exact hr3 i f hf
    · intro f h0 h1 hmem
      show CArray.get? numbered f = some NotFound
      unfold CArray.get?
      rw [if_pos h0]
      apply hr4 f.toNat (by omega)
      rw [Int.toNat_of_nonneg h0]
      exact hmem
  · rw [hgen] at h
    simp at h

end

/-! ## What the parts of a step write, whatever their outcome -/

section
variable {Tree B : Type}

theorem setRandom_stepFrame (s : CGradientBoost Tree B) (r : CRandom) (uv uf fn : List Int)
    (c : List (List CPredictionCacheItem)) :
    s.StepFrame { s.setRandom r with usedVectors := uv, usedFeatures := uf, featureNumbers := fn,
                                     predictCache := c } := by
  unfold CGradientBoost.setRandom CGradientBoost.StepFrame
  split <;> exact ⟨rfl, rfl⟩

theorem sampleVectors_stepFrame (X : Collaborators Tree B) (s : CGradientBoost Tree B) (n : Int) :
    s.StepFrame (s.sampleVectors X n).1 := by
  unfold CGradientBoost.sampleVectors
  split_ifs
  · rcases generateRandomArray X.uniformInt s.getRandom n
      (max (truncToInt (n * s.params.Subsample)) 1) s.usedVectors with ⟨⟨r, result⟩, o⟩
    dsimp only
    exact setRandom_stepFrame s r _ _ _ _
  · exact CGradientBoost.StepFrame.same s

theorem sampleFeatures_stepFrame (X : Collaborators Tree B) (s : CGradientBoost Tree B) (n : Int) :
    s.StepFrame (s.sampleFeatures X n).1 := by
  unfold CGradientBoost.sampleFeatures
  split_ifs
  · rcases generateRandomArray X.uniformInt s.getRandom n
      (max (truncToInt (n * s.params.Subfeature)) 1) s.usedFeatures with ⟨⟨r, result⟩, _ | e⟩
    · dsimp only
      rcases forLoop clearBody (List.range n.toNat) _ with ⟨cleared, _ | e⟩
      · exact setRandom_stepFrame s r _ _ _ _
      · exact setRandom_stepFrame s r _ _ _ _
    · exact setRandom_stepFrame s r _ _ _ _
  · exact CGradientBoost.StepFrame.same s

theorem resizeBuffers_stepFrame (s : CGradientBoost Tree B) : s.StepFrame s.resizeBuffers.1 :=
  ⟨rfl, rfl⟩

theorem buildPredictions_stepFrame (X : Collaborators Tree B) (s : CGradientBoost Tree B)
    (p : IMultivariateRegressionProblem) (m : List (List Tree)) (c : Int) :
    s.StepFrame (s.buildPredictions X p m c).1 := by
  unfold CGradientBoost.buildPredictions
  split_ifs
  all_goals first
    | exact CGradientBoost.StepFrame.same s
    | exact ⟨rfl, rfl⟩

theorem computeStatistics_stepFrame (X : Collaborators Tree B) (s : CGradientBoost Tree B)
    (lf : IGradientBoostingLossFunction) (p : IMultivariateRegressionProblem) :
    s.StepFrame (s.computeStatistics X lf p).1 := by
  have h := computeStatistics_frame X s lf p
  generalize (s.computeStatistics X lf p).1 = t at h ⊢
  rw [h]
  exact ⟨rfl, rfl⟩

theorem CArray.set2?_length {α : Type} (L L1 : List (List α)) (i j : Nat) (v : α)
    (h : CArray.set2? L i j v = some L1) : L1.length = L.length := by
  unfold CArray.set2? at h
  split at h
  · split_ifs at h
    simp only [Option.some.injEq] at h
    rw [← h, List.length_set]
  · simp at h

theorem sampleVectors_predicts (X : Collaborators Tree B) (s : CGradientBoost Tree B) (n : Int) :
    (s.sampleVectors X n).1.predicts = s.predicts := by
  unfold CGradientBoost.sampleVectors
  split_ifs
  · rcases generateRandomArray X.uniformInt s.getRandom n
      (max (truncToInt (n * s.params.Subsample)) 1) s.usedVectors with ⟨⟨r, result⟩, o⟩
    dsimp only
    unfold CGradientBoost.setRandom
    split <;> rfl
  · rfl

theorem sampleFeatures_predicts (X : Collaborators Tree B) (s : CGradientBoost Tree B) (n : Int) :
    (s.sampleFeatures X n).1.predicts = s.predicts := by
  unfold CGradientBoost.sampleFeatures
  split_ifs
  · rcases generateRandomArray X.uniformInt s.getRandom n
      (max (truncToInt (n * s.params.Subfeature)) 1) s.usedFeatures with ⟨⟨r, result⟩, _ | e⟩
    · dsimp only
      rcases forLoop clearBody (List.range n.toNat) _ with ⟨cleared, _ | e⟩
      all_goals dsimp only
      all_goals unfold CGradientBoost.setRandom
      all_goals split <;> rfl
    · dsimp only
      unfold CGradientBoost.setRandom
      split <;> rfl
  · rfl

theorem resizeBuffers_predictsLength (s : CGradientBoost Tree B) :
    s.resizeBuffers.1.predicts.length = s.predicts.length := by
  unfold CGradientBoost.resizeBuffers
  have := forLoop_preserves (resizeBody s.usedVectors.length)
    (fun b => b.predicts.length = s.predicts.length)
    (fun i b hb => by
      unfold resizeBody
      rcases b.predicts[i]? with _ | p
      · exact hb
      · dsimp only
        rcases b.answers[i]? with _ | a
        · simpa using hb
        · dsimp only
          rcases b.gradients[i]? with _ | g
          · simpa using hb
          · dsimp only
            rcases b.hessians[i]? with _ | h
            · simpa using hb
            · simpa using hb)
    (List.range s.predicts.length)
    { predicts := s.predicts, answers := s.answers, gradients := s.gradients,
      hessians := s.hessians } rfl
  exact this

theorem cacheWriteBody_predictsLength (predictions value : List ℚ) (curStep : Int)
    (usedVector index j : Nat) (st : CPredictState) :
    (cacheWriteBody predictions value curStep usedVector index j st).1.predicts.length =
      st.predicts.length := by
  unfold cacheWriteBody
  rcases predictions[j]? with _ | q
  · rfl
  · rcases CArray.get2? st.predictCache j usedVector with _ | item
    · rfl
    · dsimp only
      rcases CArray.set2? st.predictCache j usedVector _ with _ | cache
      · rfl
      · dsimp only
        rcases hset : CArray.set2? st.predicts j index (item.Value + q) with _ | predicts
        · rfl
        · dsimp only
          have hl := CArray.set2?_length _ _ _ _ _ hset
          rcases value[j]? with _ | v
          · exact hl
          · dsimp only
            rcases CArray.set2? st.answers j index v with _ | answers
            · exact hl
            · exact hl

theorem buildPredictions_predictsLength (X : Collaborators Tree B) (s : CGradientBoost Tree B)
    (p : IMultivariateRegressionProblem) (m : List (List Tree)) (c : Int) :
    (s.buildPredictions X p m c).1.predicts.length = s.predicts.length := by
  unfold CGradientBoost.buildPredictions
  split_ifs
  all_goals try rfl
  have := forLoop_preserves
    (buildPredictionsRow X s.isMultiTreesModel s.params.LearningRate m p s.usedVectors c)
    (fun st => st.predicts.length = s.predicts.length)
    (fun i st hst => by
      unfold buildPredictionsRow
      rcases s.usedVectors[i]? with _ | v
      · exact hst
      · dsimp only
        split_ifs
        · exact hst
        · rcases p.Values[v.toNat]? with _ | value
          · exact hst
          · rcases p.Matrix.Rows[v.toNat]? with _ | vector
            · exact hst
            · dsimp only
              rcases rowPredictions X s.isMultiTreesModel s.params.LearningRate m st.predictCache
                p.ValueSize.toNat v.toNat vector with _ | predictions
              · exact hst
              · dsimp only
                exact forLoop_preserves _ (fun st1 => st1.predicts.length = s.predicts.length)
                  (fun j st1 h1 => (cacheWriteBody_predictsLength _ _ _ _ _ j st1).trans h1)
                  _ st hst)
    (List.range s.usedVectors.length)
    { predictCache := s.predictCache, predicts := s.predicts, answers := s.answers } rfl
  exact this

theorem calcEntryBody_length {K : Type} [LinearOrderedField K] (entry : K → K → K × K)
    (predicts answers : List (List K)) (i j : Nat) (st : List (List K) × List (List K)) :
    (calcEntryBody entry predicts answers i j st).1.1.length = st.1.length := by
  unfold calcEntryBody
  rcases CArray.get2? predicts i j with _ | p
  · rfl
  · rcases CArray.get2? answers i j with _ | a
    · rfl
    · dsimp only
      rcases hg : CArray.set2? st.1 i j (entry p a).1 with _ | g
      · rfl
      · rcases CArray.set2? st.2 i j (entry p a).2 with _ | h
        · rfl
        · exact CArray.set2?_length _ _ _ _ _ hg

theorem calcGradientAndHessianWith_length {K : Type} [LinearOrderedField K]
    (entry : K → K → K × K) (predicts answers gradients hessians : List (List K))
    (h : (calcGradientAndHessianWith entry predicts answers gradients hessians).2 = Outcome.ok ()) :
    (calcGradientAndHessianWith entry predicts answers gradients hessians).1.1.length =
      predicts.length := by
  unfold calcGradientAndHessianWith at h ⊢
  split_ifs at h ⊢
  exact forLoop_preserves (calcRowBody entry predicts answers)
    (fun st => st.1.length = predicts.length)
    (fun i st hst => by
      unfold calcRowBody
      rcases predicts[i]? with _ | row
      · exact hst
      · rcases st.1[i]? with _ | g
        · exact hst
        · rcases st.2[i]? with _ | h1
          · exact hst
          · dsimp only
            exact forLoop_preserves _ (fun st1 => st1.1.length = predicts.length)
              (fun j st1 h1 => (calcEntryBody_length entry predicts answers i j st1).trans h1)
              (List.range row.length)
              (st.1.set i (CArray.SetSize g row.length 0), st.2.set i (CArray.SetSize h1 row.length 0))
              (by simpa using hst))
    _ _ (CArray.length_SetSize _ _ _)

theorem weightEntryBody_length (weights : List ℚ) (i j : Nat) (st : CStatistics) :
    (weightEntryBody weights i j st).1.gradients.length = st.gradients.length := by
  unfold weightEntryBody
  rcases CArray.get2? st.gradients i j with _ | g
  · rfl
  · rcases weights[j]? with _ | w
    · rfl
    · rcases st.gradientsSum[i]? with _ | gs
      · rfl
      · dsimp only
        rcases hset : CArray.set2? st.gradients i j (g * w) with _ | gradients
        · rfl
        · dsimp only
          have hl := CArray.set2?_length _ _ _ _ _ hset
          rcases CArray.get2? st.hessians i j with _ | h
          · exact hl
          · rcases (st.hessiansSum)[i]? with _ | hs
            · exact hl
            · dsimp only
              rcases CArray.set2? st.hessians i j (h * w) with _ | hessians
              · exact hl
              · exact hl

theorem weightStatistics_length (weights : List ℚ) (count : Nat) (st : CStatistics) :
    (weightStatistics weights count st).1.gradients.length = st.gradients.length := by
  unfold weightStatistics
  exact forLoop_preserves _ (fun st1 => st1.gradients.length = st.gradients.length)
    (fun i st1 h1 => forLoop_preserves _ (fun st2 => st2.gradients.length = st.gradients.length)
      (fun j st2 h2 => (weightEntryBody_length weights i j st2).trans h2) _ st1 h1)
    _ st rfl

theorem computeStatistics_gradientsLength (X : Collaborators Tree B) (s s1 : CGradientBoost Tree B)
    (lf : IGradientBoostingLossFunction) (p : IMultivariateRegressionProblem) (sums : CStepSums)
    (h : s.computeStatistics X lf p = (s1, Outcome.ok sums)) :
    s1.gradients.length = s.predicts.length := by
  unfold CGradientBoost.computeStatistics at h
  have hc := calcGradientAndHessianWith_length (lf.entry X.exp) s.predicts s.answers s.gradients
    s.hessians
  unfold IGradientBoostingLossFunction.CalcGradientAndHessian at h
  rcases hcalc : calcGradientAndHessianWith (lf.entry X.exp) s.predicts s.answers s.gradients
    s.hessians with ⟨⟨g, h0⟩, _ | e⟩
  · rw [hcalc] at h hc
    dsimp only at h hc
    have hg := hc rfl
    rcases hw : readWeights p s.usedVectors with _ | w
    · rw [hw] at h
      simp at h
    · rw [hw] at h
      dsimp only at h
      have hl := weightStatistics_length w s.usedVectors.length
        { gradients := g, hessians := h0, gradientsSum := CArray.AddN [] 0 (g.length : Int),
          hessiansSum := CArray.AddN [] 0 (g.length : Int) }
      rcases hst : weightStatistics w s.usedVectors.length
        { gradients := g, hessians := h0, gradientsSum := CArray.AddN [] 0 (g.length : Int),
          hessiansSum := CArray.AddN [] 0 (g.length : Int) } with ⟨st, _ | e⟩
      · rw [hst] at h hl
        simp only [Prod.mk.injEq, Outcome.ok.injEq] at h
        rw [← h.1]
        exact hl.trans hg
      · rw [hst] at h
        simp at h
  · rw [hcalc] at h
    simp at h

theorem gatherStatistics_rel (X : Collaborators Tree B)
    (R : CGradientBoost Tree B → CGradientBoost Tree B → Prop)
    (htrans : ∀ a b c, R a b → R b c → R a c)
    (h1 : ∀ s n, R s (CGradientBoost.sampleVectors X s n).1)
    (h2 : ∀ s n, R s (CGradientBoost.sampleFeatures X s n).1)
    (h3 : ∀ s : CGradientBoost Tree B, R s s.resizeBuffers.1)
    (h4 : ∀ s p m c, R s (CGradientBoost.buildPredictions X s p m c).1)
    (h5 : ∀ s lf p, R s (CGradientBoost.computeStatistics X s lf p).1)
    (s : CGradientBoost Tree B) (lf : IGradientBoostingLossFunction)
    (p : IMultivariateRegressionProblem) : R s (s.gatherStatistics X lf p).1 := by
  unfold CGradientBoost.gatherStatistics
  have r1 := h1 s p.VectorCount
  rcases hh1 : s.sampleVectors X p.VectorCount with ⟨s1, _ | e⟩
  all_goals rw [hh1] at r1
  all_goals dsimp only at r1 ⊢
  · have r2 := htrans _ _ _ r1 (h2 s1 p.FeatureCount)
    rcases hh2 : s1.sampleFeatures X p.FeatureCount with ⟨s2, _ | e⟩
    all_goals rw [hh2] at r2
    all_goals dsimp only at r2 ⊢
    · rcases s2.models[0]? with _ | ensemble
      · exact r2
      · dsimp only
        have r3 := htrans _ _ _ r2 (h3 s2)
        rcases hh3 : s2.resizeBuffers with ⟨s3, _ | e⟩
        all_goals rw [hh3] at r3
        all_goals dsimp only at r3 ⊢
        · have r4 := htrans _ _ _ r3 (h4 s3 p s3.models (ensemble.length : Int))
          rcases hh4 : s3.buildPredictions X p s3.models (ensemble.length : Int) with ⟨s4, _ | e⟩
          all_goals rw [hh4] at r4
          all_goals dsimp only at r4 ⊢
          · exact htrans _ _ _ r4 (h5 s4 lf p)
          · exact r4
        · exact r3
    · exact r2
  · exact r1

theorem gatherStatistics_stepFrame (X : Collaborators Tree B) (s : CGradientBoost Tree B)
    (lf : IGradientBoostingLossFunction) (p : IMultivariateRegressionProblem) :
    s.StepFrame (s.gatherStatistics X lf p).1 :=
  gatherStatistics_rel X (fun a b => a.StepFrame b)
    (fun _ _ _ h1 h2 => h1.andThen h2) (sampleVectors_stepFrame X) (sampleFeatures_stepFrame X)
    resizeBuffers_stepFrame (buildPredictions_stepFrame X) (computeStatistics_stepFrame X) s lf p

theorem gatherStatistics_predictsLength (X : Collaborators Tree B) (s : CGradientBoost Tree B)
    (lf : IGradientBoostingLossFunction) (p : IMultivariateRegressionProblem) :
    (s.gatherStatistics X lf p).1.predicts.length = s.predicts.length :=
  gatherStatistics_rel X (fun a b => b.predicts.length = a.predicts.length)
    (fun _ _ _ h1 h2 => h2.trans h1)
    (fun s n => congrArg List.length (sampleVectors_predicts X s n))
    (fun s n => congrArg List.length (sampleFeatures_predicts X s n))
    resizeBuffers_predictsLength (buildPredictions_predictsLength X)
    (fun s lf p => by
      show (CGradientBoost.computeStatistics X s lf p).1.predicts.length = s.predicts.length
      rw [computeStatistics_frame X s lf p]) s lf p

/-- The fields that `sampleFeatures` leaves alone are left alone by the rest of
the statistics part of a step. -/
theorem gatherStatistics_tail (X : Collaborators Tree B) (s s5 : CGradientBoost Tree B)
    (lf : IGradientBoostingLossFunction) (p : IMultivariateRegressionProblem) (sums : CStepSums)
    (h : s.gatherStatistics X lf p = (s5, Outcome.ok sums)) :
    ∃ s1 s2, s.sampleVectors X p.VectorCount = (s1, Outcome.ok ()) ∧
      s1.sampleFeatures X p.FeatureCount = (s2, Outcome.ok ()) ∧
      s5.usedFeatures = s2.usedFeatures ∧ s5.featureNumbers = s2.featureNumbers ∧
      s5.gradients.length = s.predicts.length := by
  have hlen : s5.predicts.length = s.predicts.length := by
    have := gatherStatistics_predictsLength X s lf p
    rw [h] at this; exact this
  unfold CGradientBoost.gatherStatistics at h
  rcases e1 : s.sampleVectors X p.VectorCount with ⟨s1, _ | e⟩
  · rw [e1] at h
    dsimp only at h
    rcases e2 : s1.sampleFeatures X p.FeatureCount with ⟨s2, _ | e⟩
    · rw [e2] at h
      dsimp only at h
      refine ⟨s1, s2, rfl, e2, ?_⟩
      rcases hm0 : s2.models[0]? with _ | ensemble
      · rw [hm0] at h
        simp at h
      · rw [hm0] at h
        dsimp only at h
        have f3 := resizeBuffers_stepFrame s2
        rcases e3 : s2.resizeBuffers with ⟨s3, _ | e⟩
        · rw [e3] at h f3
          dsimp only at h f3
          have f4 := buildPredictions_stepFrame X s3 p s3.models (ensemble.length : Int)
          rcases e4 : s3.buildPredictions X p s3.models (ensemble.length : Int) with ⟨s4, _ | e⟩
          · rw [e4] at h f4
            dsimp only at h f4
            have f5 := computeStatistics_frame X s4 lf p
            have g5 := computeStatistics_gradientsLength X s4 s5 lf p sums h
            rw [h] at f5
            dsimp only at f5
            have k3 : s3.usedFeatures = s2.usedFeatures ∧
                s3.featureNumbers = s2.featureNumbers := by
              have := congrArg Prod.fst e3
              unfold CGradientBoost.resizeBuffers at this
              dsimp only at this
              rw [← this]
              exact ⟨rfl, rfl⟩
            have k4 : s4.usedFeatures = s3.usedFeatures ∧
                s4.featureNumbers = s3.featureNumbers := by
              have := congrArg Prod.fst e4
              unfold CGradientBoost.buildPredictions at this
              split_ifs at this
              all_goals dsimp only at this
              all_goals rw [← this]
              all_goals exact ⟨rfl, rfl⟩
            have u5 : s5.usedFeatures = s2.usedFeatures := by rw [f5]; exact k4.1.trans k3.1
            have n5 : s5.featureNumbers = s2.featureNumbers := by rw [f5]; exact k4.2.trans k3.2
            have p5 : s5.predicts = s4.predicts := by rw [f5]
            refine ⟨u5, n5, ?_⟩
            rw [g5, ← p5, hlen]
          · rw [e4] at h
            simp at h
        · rw [e3] at h
          simp at h
    · rw [e2] at h
      simp at h
  · rw [e1] at h
    simp at h

end

section
variable {Tree B : Type}

theorem executeStep_features (X : Collaborators Tree B) (s sx : CGradientBoost Tree B)
    (lf : IGradientBoostingLossFunction) (p : IMultivariateRegressionProblem)
    (cur trees : List Tree) (h : s.executeStep X lf (some p) cur = (sx, Outcome.ok trees)) :
    ∃ s1 s2, s.sampleVectors X p.VectorCount = (s1, Outcome.ok ()) ∧
      s1.sampleFeatures X p.FeatureCount = (s2, Outcome.ok ()) ∧
      sx.usedFeatures = s2.usedFeatures ∧ sx.featureNumbers = s2.featureNumbers := by
  unfold CGradientBoost.executeStep at h
  split_ifs at h
  all_goals try (simp at h; done)
  dsimp only at h
  rcases hg : s.gatherStatistics X lf p with ⟨s5, sums | e⟩
  · rw [hg] at h
    dsimp only at h
    obtain ⟨s1, s2, e1, e2, u5, n5, _⟩ := gatherStatistics_tail X s s5 lf p sums hg
    have hf := buildTrees_buildFrame X s5 sums.gradientsSum sums.hessiansSum sums.weights
      sums.weightsSum cur
    rw [h] at hf
    have hf1 : s5.BuildFrame sx := hf
    replace hf := hf1
    refine ⟨s1, s2, e1, e2, ?_, ?_⟩
    · rw [hf.1]; exact u5
    · rw [hf.1]; exact n5
  · rw [hg] at h
    simp at h

theorem trainStepExecute_features (X : Collaborators Tree B) (s sx : CGradientBoost Tree B)
    (bp : IMultivariateRegressionProblem) (trees : List Tree)
    (hbp : s.baseProblem = some bp) (h : s.trainStepExecute X = (sx, Outcome.ok trees)) :
    ∃ sl s1 s2 : CGradientBoost Tree B, sl.params = s.params ∧
      sl.sampleVectors X bp.VectorCount = (s1, Outcome.ok ()) ∧
      s1.sampleFeatures X bp.FeatureCount = (s2, Outcome.ok ()) ∧
      sx.usedFeatures = s2.usedFeatures ∧ sx.featureNumbers = s2.featureNumbers := by
  unfold CGradientBoost.trainStepExecute at h
  have hlog : ∀ n, (s.logIteration n).params = s.params ∧
      (s.logIteration n).baseProblem = s.baseProblem := by
    intro n; unfold CGradientBoost.logIteration; split <;> exact ⟨rfl, rfl⟩
  rcases hm : (if s.logStream.isSome = true then s.models[0]? else some []) with _ | first
  · rw [hm] at h
    simp at h
  · rw [hm] at h
    dsimp only at h
    have h1 : (if s.logStream.isSome then s.logIteration first.length else s).params = s.params ∧
        (if s.logStream.isSome then s.logIteration first.length else s).baseProblem =
          s.baseProblem := by
      split_ifs
      · exact hlog _
      · exact ⟨rfl, rfl⟩
    generalize (if s.logStream.isSome then s.logIteration first.length else s) = sl at h1 h
    rcases hlf : sl.lossFunction with _ | lf
    · rw [hlf] at h
      simp at h
    · rw [hlf] at h
      dsimp only at h
      rw [h1.2, hbp] at h
      obtain ⟨s1, s2, e1, e2, u, n⟩ := executeStep_features X sl sx lf bp [] trees h
      exact ⟨sl, s1, s2, h1.1, e1, e2, u, n⟩

/-- Claim C23: a `trainStep` that returns on a trainer that holds its adapted
problem and samples the features (`Subfeature < 1`), with draws in the requested
range, leaves `featureNumbers` with `featureCount` entries, the entry of
`usedFeatures[i]` being `i` for every position `i` of `usedFeatures`, and the
entry of every feature of `[0, featureCount)` that `usedFeatures` does not hold
being `NotFound`; `usedFeatures` holds distinct features of `[0, featureCount)`. -/
theorem featureNumbers_inverts_usedFeatures (X : Collaborators Tree B)
    (s s2 : CGradientBoost Tree B) (bp : IMultivariateRegressionProblem) (b : Bool)
    (hd : X.DrawsInRange) (hbp : s.baseProblem = some bp) (hsf : s.params.Subfeature < 1)
    (h : s.trainStep X = (s2, Outcome.ok b)) :
    (s2.featureNumbers.length : Int) = bp.FeatureCount ∧
    (∀ (i : Nat) (f : Int), s2.usedFeatures[i]? = some f →
      CArray.get? s2.featureNumbers f = some (i : Int)) ∧
    (∀ f : Int, 0 ≤ f → f < bp.FeatureCount → f ∉ s2.usedFeatures →
      CArray.get? s2.featureNumbers f = some NotFound) ∧
    (∀ f ∈ s2.usedFeatures, 0 ≤ f ∧ f < bp.FeatureCount) ∧ s2.usedFeatures.Nodup := by
  unfold CGradientBoost.trainStep CGradientBoost.trainStepTry at h
  rcases hexec : s.trainStepExecute X with ⟨sx, cur | e⟩
  · rw [hexec] at h
    dsimp only at h
    obtain ⟨sl, s1, sf, hp, e1, e2, u, n⟩ := trainStepExecute_features X s sx bp cur hbp hexec
    have hfix : s1.params.fixed = sl.params.fixed := by
      have := (sampleVectors_stepFrame X sl bp.VectorCount).2
      rw [e1] at this; exact this
    have hsub : s1.params.Subfeature < 1 := by
      have h1 : s1.params.fixed.Subfeature = sl.params.fixed.Subfeature :=
        congrArg CParams.Subfeature hfix
      have h2 : s1.params.Subfeature = sl.params.Subfeature := h1
      rw [h2, hp]; exact hsf
    obtain ⟨⟨n1, n2, n3⟩, hvalid, hnodup⟩ :=
      sampleFeatures_numbered X s1 sf bp.FeatureCount hd hsub e2
    rcases hloop : forLoop (appendBody cur) (List.range cur.length) sx.models with ⟨m, _ | e⟩
    · rw [hloop] at h
      dsimp only at h
      split at h
      · simp at h
      · simp only [Prod.mk.injEq, Outcome.ok.injEq] at h
        rw [← h.1]
        dsimp only
        rw [u, n]
        exact ⟨n1, n2, n3, hvalid, hnodup⟩
    · rw [hloop] at h
      simp at h
  · rw [hexec] at h
    simp at h

end

theorem featureNumbers_inverts_usedFeatures_witness :
    ((featureFresh.TrainStep steadyCollaborators wideProblem).1.trainStep
      steadyCollaborators).1.usedFeatures = [1, 2] ∧
    ((featureFresh.TrainStep steadyCollaborators wideProblem).1.trainStep
      steadyCollaborators).1.featureNumbers = [-1, 0, 1] ∧
    (((featureFresh.TrainStep steadyCollaborators wideProblem).1.trainStep
      steadyCollaborators).1.featureNumbers.length : Int) = wideProblem.FeatureCount ∧
    (∀ (i : Nat) (f : Int),
      ((featureFresh.TrainStep steadyCollaborators wideProblem).1.trainStep
        steadyCollaborators).1.usedFeatures[i]? = some f →
      CArray.get? ((featureFresh.TrainStep steadyCollaborators wideProblem).1.trainStep
        steadyCollaborators).1.featureNumbers f = some (i : Int)) ∧
    (∀ f : Int, 0 ≤ f → f < wideProblem.FeatureCount →
      f ∉ ((featureFresh.TrainStep steadyCollaborators wideProblem).1.trainStep
        steadyCollaborators).1.usedFeatures →
      CArray.get? ((featureFresh.TrainStep steadyCollaborators wideProblem).1.trainStep
        steadyCollaborators).1.featureNumbers f = some NotFound) :=
  have h := featureNumbers_inverts_usedFeatures steadyCollaborators
    (featureFresh.TrainStep steadyCollaborators wideProblem).1
    ((featureFresh.TrainStep steadyCollaborators wideProblem).1.trainStep steadyCollaborators).1
    wideProblem false steady_drawsInRange (by decide!) (by decide!)
    (Prod.ext rfl (by decide!))
  ⟨by decide!, by decide!, h.1, h.2.1, h.2.2.1⟩

/-! ## The lengths of the ensembles -/

section
variable {Tree B : Type}

theorem forLoop_stops {σ : Type} (body : Nat → σ → σ × Outcome Unit) (idx : List Nat) (s : σ)
    (h : ∀ i ∈ idx.head?, ∃ e, body i s = (s, Outcome.throw e)) :
    (forLoop body idx s).1 = s := by
  cases idx with
  | nil => rfl
  | cons i rest =>
    obtain ⟨e, he⟩ := h i (by simp)
    simp only [forLoop, he]

/-- The appending loop of `trainStep` when there is a tree for every ensemble:
every ensemble gets one tree, also when the loop then fails on a tree without
an ensemble. -/
theorem appendBody_loop_all (trees : List Tree) (models : List (List Tree))
    (h : models.length ≤ trees.length) :
    (forLoop (appendBody trees) (List.range trees.length) models).1 =
      List.zipWith (fun e t => e ++ [t]) models trees := by
  obtain ⟨extra, hextra⟩ : ∃ extra, trees.length = models.length + extra :=
    ⟨trees.length - models.length, by omega⟩
  have hz : List.zipWith (fun (e : List Tree) t => e ++ [t]) models trees =
      List.zipWith (fun (e : List Tree) t => e ++ [t]) models (trees.take models.length) := by
    apply List.ext_getElem
    · simp
    · intro i h1 h2
      simp [List.getElem_take]
  have hfirst : forLoop (appendBody trees) (List.range models.length) models =
      (List.zipWith (fun e t => e ++ [t]) models trees, Outcome.ok ()) := by
    have hlen : (trees.take models.length).length = models.length := by simp; omega
    have := appendBody_loop (trees.take models.length) models hlen
    rw [hlen] at this
    rw [hz, ← this]
    apply forLoop_congr
    intro i hi m
    have hi' : i < models.length := List.mem_range.mp hi
    unfold appendBody
    rw [List.getElem?_take_of_lt hi']
  rw [hextra, List.range_add, forLoop_append, hfirst]
  dsimp only
  apply forLoop_stops
  intro i hi
  have hi0 : i = models.length := by
    cases extra with
    | zero => simp at hi
    | succ n =>
      simp [List.range_succ_eq_map] at hi
      omega
  subst hi0
  refine ⟨Exn.assertion, ?_⟩
  unfold appendBody
  have hnone : (List.zipWith (fun (e : List Tree) t => e ++ [t]) models trees)[models.length]? =
      none := by
    apply List.getElem?_eq_none
    simp
  rw [hnone]
  rcases trees[models.length]? with _ | t <;> rfl

theorem zipWith_sameLengths (models : List (List Tree)) (trees : List Tree)
    (h : ∀ e1 ∈ models, ∀ e2 ∈ models, e1.length = e2.length) :
    ∀ e1 ∈ List.zipWith (fun (e : List Tree) t => e ++ [t]) models trees,
      ∀ e2 ∈ List.zipWith (fun (e : List Tree) t => e ++ [t]) models trees,
        e1.length = e2.length := by
  intro e1 h1 e2 h2
  obtain ⟨i, hi, rfl⟩ := List.getElem_of_mem h1
  obtain ⟨j, hj, rfl⟩ := List.getElem_of_mem h2
  simp only [List.getElem_zipWith, List.length_append, List.length_singleton]
  simp only [List.length_zipWith] at hi hj
  rw [h _ (List.getElem_mem (by omega : i < models.length)) _
    (List.getElem_mem (by omega : j < models.length))]

theorem CGradientBoost.Steady.self (s : CGradientBoost Tree B) : s.Steady s :=
  ⟨rfl, rfl, rfl, rfl, rfl, rfl⟩

theorem CGradientBoost.Steady.followedBy {s t u : CGradientBoost Tree B} (h1 : s.Steady t)
    (h2 : t.Steady u) : s.Steady u :=
  ⟨h2.1.trans h1.1, h2.2.1.trans h1.2.1, h2.2.2.1.trans h1.2.2.1,
    h2.2.2.2.1.trans h1.2.2.2.1, h2.2.2.2.2.1.trans h1.2.2.2.2.1,
    h2.2.2.2.2.2.trans h1.2.2.2.2.2⟩

theorem CGradientBoost.BuildFrame.steady {s t : CGradientBoost Tree B} (h : s.BuildFrame t) :
    s.Steady t := by
  obtain ⟨e, _, h2, _, h4⟩ := h
  exact ⟨by rw [e], by rw [e], by rw [e], by rw [e], h2, h4⟩

theorem CGradientBoost.Steady.multiTrees {s t : CGradientBoost Tree B} (h : s.Steady t) :
    t.isMultiTreesModel = s.isMultiTreesModel := by
  have h1 : t.params.fixed.TreeBuilder = s.params.fixed.TreeBuilder :=
    congrArg CParams.TreeBuilder h.2.2.1
  have h2 : t.params.TreeBuilder = s.params.TreeBuilder := h1
  unfold CGradientBoost.isMultiTreesModel
  rw [h2]

theorem gatherStatistics_steady (X : Collaborators Tree B) (s : CGradientBoost Tree B)
    (lf : IGradientBoostingLossFunction) (p : IMultivariateRegressionProblem) :
    s.Steady (s.gatherStatistics X lf p).1 := by
  have hf := gatherStatistics_stepFrame X s lf p
  have hl := gatherStatistics_predictsLength X s lf p
  generalize (s.gatherStatistics X lf p).1 = t at hf hl
  exact ⟨hf.models, hl, hf.2, hf.baseProblem, by rw [hf.1], by rw [hf.1]⟩

theorem executeStep_steady (X : Collaborators Tree B) (s : CGradientBoost Tree B)
    (lf : IGradientBoostingLossFunction) (p : Option IMultivariateRegressionProblem)
    (cur : List Tree) : s.Steady (s.executeStep X lf p cur).1 := by
  unfold CGradientBoost.executeStep
  split_ifs
  all_goals try exact CGradientBoost.Steady.self s
  rcases p with _ | problem
  · exact CGradientBoost.Steady.self s
  · dsimp only
    have h1 := gatherStatistics_steady X s lf problem
    rcases hh : s.gatherStatistics X lf problem with ⟨s1, sums | e⟩
    all_goals rw [hh] at h1
    all_goals dsimp only at h1 ⊢
    · exact h1.followedBy (buildTrees_buildFrame X s1 sums.gradientsSum sums.hessiansSum
        sums.weights sums.weightsSum cur).steady
    · exact h1

theorem logIteration_steady (s : CGradientBoost Tree B) (n : Int) :
    s.Steady (s.logIteration n) := by
  unfold CGradientBoost.logIteration
  split <;> exact ⟨rfl, rfl, rfl, rfl, rfl, rfl⟩

theorem trainStepExecute_steady (X : Collaborators Tree B) (s : CGradientBoost Tree B) :
    s.Steady (s.trainStepExecute X).1 := by
  unfold CGradientBoost.trainStepExecute
  split
  · exact CGradientBoost.Steady.self s
  · rename_i first hfirst
    dsimp only
    have h1 : s.Steady (if s.logStream.isSome then s.logIteration first.length else s) := by
      split_ifs
      · exact logIteration_steady s _
      · exact CGradientBoost.Steady.self s
    generalize (if s.logStream.isSome then s.logIteration first.length else s) = s1 at h1 ⊢
    rcases s1.lossFunction with _ | lf
    · exact h1
    · dsimp only
      exact h1.followedBy (executeStep_steady X s1 lf s1.baseProblem [])

/-- The number of trees of a step that returns: one when a multi-output tree
builder is set, one per row of `predicts` otherwise. -/
theorem executeStep_count (X : Collaborators Tree B) (s sx : CGradientBoost Tree B)
    (lf : IGradientBoostingLossFunction) (p : Option IMultivariateRegressionProblem)
    (trees : List Tree) (h : s.executeStep X lf p [] = (sx, Outcome.ok trees)) :
    trees.length =
      if s.fullMultiClassTreeBuilder.isSome = true ∨ s.fastHistMultiClassTreeBuilder.isSome = true
        then 1 else s.predicts.length := by
  unfold CGradientBoost.executeStep at h
  split_ifs at h
  all_goals try (simp at h; done)
  rcases p with _ | problem
  · simp at h
  · dsimp only at h
    rcases hg : s.gatherStatistics X lf problem with ⟨s5, sums | e⟩
    · rw [hg] at h
      dsimp only at h
      obtain ⟨_, _, _, _, _, _, g5⟩ := gatherStatistics_tail X s s5 lf problem sums hg
      have hst := gatherStatistics_steady X s lf problem
      rw [hg] at hst
      have hlen := buildTrees_length X s5 sx _ _ _ _ [] trees h
      rw [hlen, g5]
      have e5 : s5.fullMultiClassTreeBuilder.isSome = s.fullMultiClassTreeBuilder.isSome :=
        hst.2.2.2.2.1
      have e6 : s5.fastHistMultiClassTreeBuilder.isSome =
          s.fastHistMultiClassTreeBuilder.isSome := hst.2.2.2.2.2
      rw [e5, e6]
      simp
    · rw [hg] at h
      simp at h

theorem trainStepExecute_count (X : Collaborators Tree B) (s sx : CGradientBoost Tree B)
    (trees : List Tree) (h : s.trainStepExecute X = (sx, Outcome.ok trees)) :
    trees.length =
      if s.fullMultiClassTreeBuilder.isSome = true ∨ s.fastHistMultiClassTreeBuilder.isSome = true
        then 1 else s.predicts.length := by
  unfold CGradientBoost.trainStepExecute at h
  rcases hm : (if s.logStream.isSome = true then s.models[0]? else some []) with _ | first
  · rw [hm] at h
    simp at h
  · rw [hm] at h
    dsimp only at h
    have h1 : s.Steady (if s.logStream.isSome then s.logIteration first.length else s) := by
      split_ifs
      · exact logIteration_steady s _
      · exact CGradientBoost.Steady.self s
    generalize (if s.logStream.isSome then s.logIteration first.length else s) = sl at h1 h
    rcases hlf : sl.lossFunction with _ | lf
    · rw [hlf] at h
      simp at h
    · rw [hlf] at h
      dsimp only at h
      rw [executeStep_count X sl sx lf sl.baseProblem trees h, h1.2.1, h1.2.2.2.2.1,
        h1.2.2.2.2.2]

end

section
variable {Tree B : Type}

theorem CGradientBoost.Aligned.destroyed {s t : CGradientBoost Tree B} {M : Int}
    (h : s.Aligned M) (hm : t.SameLengths) (hl : t.models.length = s.models.length)
    (hp : t.predicts.length = s.predicts.length) (hf : t.params.fixed = s.params.fixed) :
    t.destroyTreeBuilder.Aligned M := by
  have hmulti : t.isMultiTreesModel = s.isMultiTreesModel := by
    have h1 : t.params.fixed.TreeBuilder = s.params.fixed.TreeBuilder :=
      congrArg CParams.TreeBuilder hf
    have h2 : t.params.TreeBuilder = s.params.TreeBuilder := h1
    unfold CGradientBoost.isMultiTreesModel
    rw [h2]
  refine ⟨hm, ?_, fun h0 => by simp [CGradientBoost.destroyTreeBuilder] at h0,
    fun _ => ⟨rfl, rfl⟩⟩
  show (t.models = [] ∧ t.predicts = []) ∨ (1 ≤ M ∧
    t.models.length = (if t.isMultiTreesModel then 1 else M).toNat ∧ t.predicts.length = M.toNat)
  rcases h.2.1 with ⟨a, b⟩ | ⟨a, b, c⟩
  · left
    rw [a] at hl
    rw [b] at hp
    exact ⟨List.length_eq_zero.mp hl, List.length_eq_zero.mp hp⟩
  · right
    rw [hmulti, hl, hp]
    exact ⟨a, b, c⟩

theorem CGradientBoost.Aligned.carried {s t : CGradientBoost Tree B} {M : Int}
    (h : s.Aligned M) (hm : t.SameLengths) (hl : t.models.length = s.models.length)
    (hp : t.predicts.length = s.predicts.length) (hf : t.params.fixed = s.params.fixed)
    (hb : t.baseProblem = s.baseProblem)
    (h1 : t.fullMultiClassTreeBuilder.isSome = s.fullMultiClassTreeBuilder.isSome)
    (h2 : t.fastHistMultiClassTreeBuilder.isSome = s.fastHistMultiClassTreeBuilder.isSome) :
    t.Aligned M := by
  have hmulti : t.isMultiTreesModel = s.isMultiTreesModel := by
    have h1 : t.params.fixed.TreeBuilder = s.params.fixed.TreeBuilder :=
      congrArg CParams.TreeBuilder hf
    have h2 : t.params.TreeBuilder = s.params.TreeBuilder := h1
    unfold CGradientBoost.isMultiTreesModel
    rw [h2]
  refine ⟨hm, ?_, ?_, ?_⟩
  · rcases h.2.1 with ⟨a, b⟩ | ⟨a, b, c⟩
    · left
      rw [a] at hl
      rw [b] at hp
      exact ⟨List.length_eq_zero.mp hl, List.length_eq_zero.mp hp⟩
    · right
      rw [hmulti, hl, hp]
      exact ⟨a, b, c⟩
  · rw [h1, h2, hmulti]
    exact h.2.2.1
  · intro h0
    rw [hb] at h0
    obtain ⟨a, b⟩ := h.2.2.2 h0
    rw [a] at h1
    rw [b] at h2
    constructor
    · rcases hx : t.fullMultiClassTreeBuilder with _ | x
      · rfl
      · rw [hx] at h1; simp at h1
    · rcases hx : t.fastHistMultiClassTreeBuilder with _ | x
      · rfl
      · rw [hx] at h2; simp at h2

/-- A `trainStep` keeps the ensembles at the same length, whatever its outcome. -/
theorem trainStep_aligned (X : Collaborators Tree B) (s : CGradientBoost Tree B) (M : Int)
    (h : s.Aligned M) : (s.trainStep X).1.Aligned M := by
  have hst := trainStepExecute_steady X s
  have hcount := trainStepExecute_count X s
  unfold CGradientBoost.trainStep CGradientBoost.trainStepTry
  rcases hexec : s.trainStepExecute X with ⟨sx, cur | e⟩
  · rw [hexec] at hst
    dsimp only at hst ⊢
    have hc := hcount sx cur hexec
    obtain ⟨q1, q2, q3, q4, q5, q6⟩ := hst
    -- there is a tree for every ensemble
    have hle : sx.models.length ≤ cur.length := by
      rw [q1, hc]
      rcases h.2.1 with ⟨a, b⟩ | ⟨a, b, c⟩
      · rw [a]; exact Nat.zero_le _
      · split_ifs with hmulti
        · rw [b, h.2.2.1 hmulti]
          simp
        · rw [b, c]
          split_ifs
          · omega
          · exact le_refl _
    have hall := appendBody_loop_all cur sx.models hle
    have hsame : ∀ e1 ∈ (forLoop (appendBody cur) (List.range cur.length) sx.models).1,
        ∀ e2 ∈ (forLoop (appendBody cur) (List.range cur.length) sx.models).1,
          e1.length = e2.length := by
      rw [hall]
      apply zipWith_sameLengths
      rw [q1]
      exact h.1
    have hlen : (forLoop (appendBody cur) (List.range cur.length) sx.models).1.length =
        s.models.length := by
      rw [hall, List.length_zipWith, q1]
      rw [q1] at hle
      omega
    rcases hloop : forLoop (appendBody cur) (List.range cur.length) sx.models with ⟨m, _ | e⟩
    · rw [hloop] at hsame hlen
      dsimp only at hsame hlen ⊢
      have key : CGradientBoost.Aligned { sx with models := m } M :=
        h.carried hsame hlen q2 q3 q4 q5 q6
      rcases m[0]? with _ | ensemble
      · exact key
      · exact key
    · rw [hloop] at hsame hlen
      dsimp only at hsame hlen ⊢
      exact h.destroyed (t := { sx with models := m }) hsame hlen q2 q3
  · rw [hexec] at hst
    dsimp only at hst ⊢
    obtain ⟨q1, q2, q3, q4, q5, q6⟩ := hst
    exact h.destroyed (by unfold CGradientBoost.SameLengths; rw [q1]; exact h.1)
      (by rw [q1]) q2 q3

end

section
variable {Tree B : Type}

theorem createFullTreeBuilder_keeps (X : Collaborators Tree B) (s : CGradientBoost Tree B)
    (bp : IMultivariateRegressionProblem) (multi : Bool) :
    (s.createFullTreeBuilder X bp multi).1.models = s.models ∧
    (s.createFullTreeBuilder X bp multi).1.predicts = s.predicts ∧
    (s.createFullTreeBuilder X bp multi).1.params = s.params ∧
    (s.createFullTreeBuilder X bp multi).1.fastHistMultiClassTreeBuilder =
      s.fastHistMultiClassTreeBuilder ∧
    (multi = false → (s.createFullTreeBuilder X bp multi).1.fullMultiClassTreeBuilder =
      s.fullMultiClassTreeBuilder) := by
  unfold CGradientBoost.createFullTreeBuilder
  dsimp only
  split
  · exact ⟨rfl, rfl, rfl, rfl, fun _ => rfl⟩
  · split
    · cases multi
      · exact ⟨rfl, rfl, rfl, rfl, fun _ => rfl⟩
      · exact ⟨rfl, rfl, rfl, rfl, fun h => by simp at h⟩
    · cases multi
      · exact ⟨rfl, rfl, rfl, rfl, fun _ => rfl⟩
      · exact ⟨rfl, rfl, rfl, rfl, fun h => by simp at h⟩

theorem createFastHistTreeBuilder_keeps (X : Collaborators Tree B) (s : CGradientBoost Tree B)
    (bp : IMultivariateRegressionProblem) (multi : Bool) :
    (s.createFastHistTreeBuilder X bp multi).1.models = s.models ∧
    (s.createFastHistTreeBuilder X bp multi).1.predicts = s.predicts ∧
    (s.createFastHistTreeBuilder X bp multi).1.params = s.params ∧
    (s.createFastHistTreeBuilder X bp multi).1.fullMultiClassTreeBuilder =
      s.fullMultiClassTreeBuilder ∧
    (multi = false → (s.createFastHistTreeBuilder X bp multi).1.fastHistMultiClassTreeBuilder =
      s.fastHistMultiClassTreeBuilder) := by
  unfold CGradientBoost.createFastHistTreeBuilder
  dsimp only
  split
  · exact ⟨rfl, rfl, rfl, rfl, fun _ => rfl⟩
  · split
    · cases multi
      · exact ⟨rfl, rfl, rfl, rfl, fun _ => rfl⟩
      · exact ⟨rfl, rfl, rfl, rfl, fun h => by simp at h⟩
    · cases multi
      · exact ⟨rfl, rfl, rfl, rfl, fun _ => rfl⟩
      · exact ⟨rfl, rfl, rfl, rfl, fun h => by simp at h⟩

/-- What `createTreeBuilder` keeps, whatever its outcome: the ensembles, the
buffer `predicts` and the configuration; and it sets a multi-output tree
builder only for a multi-output builder kind. -/
theorem createTreeBuilder_keeps (X : Collaborators Tree B) (s : CGradientBoost Tree B)
    (bp : IMultivariateRegressionProblem)
    (h2 : s.fullMultiClassTreeBuilder = none) (h4 : s.fastHistMultiClassTreeBuilder = none) :
    (s.createTreeBuilder X bp).1.models = s.models ∧
    (s.createTreeBuilder X bp).1.predicts = s.predicts ∧
    (s.createTreeBuilder X bp).1.params = s.params ∧
    (((s.createTreeBuilder X bp).1.fullMultiClassTreeBuilder.isSome ∨
        (s.createTreeBuilder X bp).1.fastHistMultiClassTreeBuilder.isSome) →
      s.isMultiTreesModel = true) := by
  unfold CGradientBoost.createTreeBuilder CGradientBoost.isMultiTreesModel
  cases hk : s.params.TreeBuilder with
  | other v =>
    dsimp only
    refine ⟨rfl, rfl, rfl, ?_⟩
    rw [h2, h4]
    simp
  | GBTB_Full =>
    dsimp only
    obtain ⟨a, b, c, d, e⟩ := createFullTreeBuilder_keeps X s bp false
    refine ⟨a, b, c, ?_⟩
    rw [d, e rfl, h2, h4]
    simp
  | GBTB_MultiFull =>
    dsimp only
    obtain ⟨a, b, c, d, e⟩ := createFullTreeBuilder_keeps X s bp true
    exact ⟨a, b, c, fun _ => rfl⟩
  | GBTB_FastHist =>
    dsimp only
    obtain ⟨a, b, c, d, e⟩ := createFastHistTreeBuilder_keeps X s bp false
    refine ⟨a, b, c, ?_⟩
    rw [d, e rfl, h2, h4]
    simp
  | GBTB_MultiFastHist =>
    dsimp only
    obtain ⟨a, b, c, d, e⟩ := createFastHistTreeBuilder_keeps X s bp true
    exact ⟨a, b, c, fun _ => rfl⟩

theorem initializeState_throw (s : CGradientBoost Tree B) (e : Exn)
    (h : s.initializeState.2 = Outcome.throw e) : s.initializeState.1 = s := by
  revert h
  unfold CGradientBoost.initializeState
  rcases s.baseProblem with _ | bp
  · intro _; rfl
  · dsimp only
    by_cases c1 : ¬ (bp.ValueSize ≥ 1)
    · rw [if_pos c1]; intro _; rfl
    · rw [if_neg c1]
      by_cases c2 : ¬ (bp.VectorCount > 0)
      · rw [if_pos c2]; intro _; rfl
      · rw [if_neg c2]
        by_cases c3 : ¬ (bp.FeatureCount > 0)
        · rw [if_pos c3]; intro _; rfl
        · rw [if_neg c3]
          rcases s.createLossFunction with lf | e1
          · dsimp only
            intro h
            cases h
          · intro _; rfl

/-- The method `initialize` on a trainer without multi-output tree builder keeps
the ensembles at the same length, whatever its outcome. -/
theorem initialize_aligned (X : Collaborators Tree B) (u : CGradientBoost Tree B)
    (bp : IMultivariateRegressionProblem) (hbp : u.baseProblem = some bp)
    (hm : u.SameLengths)
    (hsize : (u.models = [] ∧ u.predicts = []) ∨
      (1 ≤ bp.ValueSize ∧
        u.models.length = (if u.isMultiTreesModel then 1 else bp.ValueSize).toNat ∧
        u.predicts.length = bp.ValueSize.toNat))
    (h2 : u.fullMultiClassTreeBuilder = none) (h4 : u.fastHistMultiClassTreeBuilder = none) :
    ( u.initialize X).1.Aligned bp.ValueSize := by
  unfold CGradientBoost.initialize
  have hthrow := initializeState_throw u
  rcases hst : u.initializeState with ⟨s0, bp1 | e⟩
  · dsimp only
    obtain ⟨hb1, hvs, _, _, lf, _, q0⟩ := initializeState_result u s0 bp bp1 hbp hst
    subst hb1
    have hmulti0 : s0.isMultiTreesModel = u.isMultiTreesModel := by
      unfold CGradientBoost.isMultiTreesModel; rw [q0]
    have hmodels : s0.models =
        CArray.SetSize u.models (if u.isMultiTreesModel then 1 else bp1.ValueSize) [] := by
      rw [q0]
    have hpredicts : s0.predicts = CArray.SetSize u.predicts bp1.ValueSize [] := by rw [q0]
    have hl0 : s0.models.length = (if u.isMultiTreesModel then 1 else bp1.ValueSize).toNat := by
      rw [hmodels, CArray.SetSize_length]
    have hp0 : s0.predicts.length = bp1.ValueSize.toNat := by
      rw [hpredicts, CArray.SetSize_length]
    have hsame0 : s0.SameLengths := by
      unfold CGradientBoost.SameLengths
      rw [hmodels]
      rcases hsize with ⟨a, _⟩ | ⟨_, b, _⟩
      · rw [a, CArray.SetSize_nil]
        intro e1 h1 e2 h2
        rw [List.eq_of_mem_replicate h1, List.eq_of_mem_replicate h2]
      · rw [CArray.SetSize_same _ _ _ b]
        exact hm
    have hf2 : s0.fullMultiClassTreeBuilder = none := by rw [q0]; exact h2
    have hf4 : s0.fastHistMultiClassTreeBuilder = none := by rw [q0]; exact h4
    obtain ⟨k1, k2, k3, k4⟩ := createTreeBuilder_keeps X s0 bp1 hf2 hf4
    have base : s0.Aligned bp1.ValueSize :=
      ⟨hsame0, Or.inr ⟨hvs, by rw [hl0, hmulti0], hp0⟩,
        fun h => by rw [hf2, hf4] at h; simp at h, fun _ => ⟨hf2, hf4⟩⟩
    rcases hct : s0.createTreeBuilder X bp1 with ⟨s2, _ | e⟩
    · rw [hct] at k1 k2 k3 k4
      dsimp only at k1 k2 k3 k4 ⊢
      have hmulti2 : s2.isMultiTreesModel = s0.isMultiTreesModel := by
        unfold CGradientBoost.isMultiTreesModel; rw [k3]
      refine ⟨?_, Or.inr ⟨hvs, by rw [k1, hl0, hmulti2, hmulti0], by rw [k2, hp0]⟩, ?_, ?_⟩
      · unfold CGradientBoost.SameLengths; rw [k1]; exact hsame0
      · intro h; rw [hmulti2]; exact k4 h
      · intro h0
        have hb2 := createTreeBuilder_baseProblem X s0 bp1
        rw [hct] at hb2
        dsimp only at hb2
        rw [hb2, q0] at h0
        dsimp only at h0
        rw [hbp] at h0
        simp at h0
    · rw [hct] at k1 k2 k3 k4
      dsimp only at k1 k2 k3 k4 ⊢
      exact base.destroyed (by unfold CGradientBoost.SameLengths; rw [k1]; exact hsame0)
        (by rw [k1]) (by rw [k2]) (by rw [k3])
  · dsimp only
    have := hthrow e (by rw [hst])
    rw [hst] at this
    dsimp only at this
    rw [this]
    refine ⟨hm, ?_, fun h => by rw [h2, h4] at h; simp at h, fun h0 => by rw [hbp] at h0; simp at h0⟩
    exact hsize

/-- A `TrainStep` on a problem with `M` outputs keeps the ensembles at the same
length, whatever its outcome. -/
theorem TrainStep_aligned (X : Collaborators Tree B) (s : CGradientBoost Tree B)
    (problem : IMultivariateRegressionProblem) (M : Int)
    (hM : (X.notNullWeightsView problem).ValueSize = M) (h : s.Aligned M) :
    (s.TrainStep X problem).1.Aligned M := by
  unfold CGradientBoost.TrainStep CGradientBoost.prepareProblem
  rcases hbp : s.baseProblem with _ | bp
  · dsimp only
    obtain ⟨a2, a4⟩ := h.2.2.2 hbp
    have hmulti : CGradientBoost.isMultiTreesModel
        { s with baseProblem := some (X.notNullWeightsView problem) } = s.isMultiTreesModel := rfl
    have key := initialize_aligned X { s with baseProblem := some (X.notNullWeightsView problem) }
      (X.notNullWeightsView problem) rfl h.1 (by rw [hmulti, hM]; exact h.2.1) a2 a4
    rw [hM] at key
    rcases hinit : CGradientBoost.initialize X
        { s with baseProblem := some (X.notNullWeightsView problem) } with ⟨s1, _ | e⟩
    · rw [hinit] at key
      dsimp only at key ⊢
      exact trainStep_aligned X s1 M key
    · rw [hinit] at key
      exact key
  · dsimp only
    exact trainStep_aligned X s M h

theorem TrainStepsOn_aligned (X : Collaborators Tree B) (M : Int)
    (problems : List IMultivariateRegressionProblem)
    (hM : ∀ p ∈ problems, (X.notNullWeightsView p).ValueSize = M) (s : CGradientBoost Tree B)
    (h : s.Aligned M) : (CGradientBoost.TrainStepsOn X problems s).1.Aligned M := by
  induction problems generalizing s with
  | nil => exact h
  | cons p rest ih =>
    rw [TrainStepsOn_cons]
    exact ih (fun q hq => hM q (List.mem_cons_of_mem _ hq)) _
      (TrainStep_aligned X s p M (hM p (List.mem_cons_self _ _)) h)

theorem construct_aligned (seed : CRandom) (params : CParams) (s0 : CGradientBoost Tree B)
    (hc : CGradientBoost.construct seed params = Outcome.ok s0) (M : Int) : s0.Aligned M := by
  unfold CGradientBoost.construct processParams at hc
  dsimp only at hc
  split_ifs at hc
  simp only [Outcome.ok.injEq] at hc
  subst hc
  exact ⟨fun e1 h1 => by simp at h1, Or.inl ⟨rfl, rfl⟩, fun h => by simp at h,
    fun _ => ⟨rfl, rfl⟩⟩

end

section
variable {Tree B : Type}

theorem TrainSteps_aligned (X : Collaborators Tree B) (problem : IMultivariateRegressionProblem)
    (n : Nat) (s : CGradientBoost Tree B)
    (h : s.Aligned (X.notNullWeightsView problem).ValueSize) :
    (CGradientBoost.TrainSteps X problem n s).1.Aligned (X.notNullWeightsView problem).ValueSize := by
  induction n with
  | zero => exact h
  | succ n ih =>
    rw [TrainSteps_succ]
    exact TrainStep_aligned X _ problem _ rfl ih

theorem sameLengths_stepCount {s : CGradientBoost Tree B} (h : s.SameLengths) :
    ∀ e ∈ s.models, (e.length : Int) = s.stepCount := by
  intro e he
  unfold CGradientBoost.stepCount
  rcases hm : s.models with _ | ⟨first, rest⟩
  · rw [hm] at he; simp at he
  · have := h e he first (by rw [hm]; exact List.mem_cons_self _ _)
    simp [this]

/-- Claim C24, amended: in every state reached from a newly constructed trainer
by `TrainStep` calls, successful or failed, on problems that all have the same
number of outputs, all the ensembles of `models` have the same length, which is
the step count `models[0].Size()`; in particular after any number of calls on
one problem. -/
theorem ensembles_same_length (X : Collaborators Tree B) (seed : CRandom) (params : CParams)
    (s0 : CGradientBoost Tree B) (hc : CGradientBoost.construct seed params = Outcome.ok s0)
    (outputs : Int) (problems : List IMultivariateRegressionProblem)
    (hM : ∀ p ∈ problems, (X.notNullWeightsView p).ValueSize = outputs) :
    (∀ e1 ∈ (CGradientBoost.TrainStepsOn X problems s0).1.models,
      ∀ e2 ∈ (CGradientBoost.TrainStepsOn X problems s0).1.models, e1.length = e2.length) ∧
    (∀ e ∈ (CGradientBoost.TrainStepsOn X problems s0).1.models,
      (e.length : Int) = (CGradientBoost.TrainStepsOn X problems s0).1.stepCount) ∧
    (∀ (problem : IMultivariateRegressionProblem) (n : Nat),
      (∀ e1 ∈ (CGradientBoost.TrainSteps X problem n s0).1.models,
        ∀ e2 ∈ (CGradientBoost.TrainSteps X problem n s0).1.models, e1.length = e2.length) ∧
      (∀ e ∈ (CGradientBoost.TrainSteps X problem n s0).1.models,
        (e.length : Int) = (CGradientBoost.TrainSteps X problem n s0).1.stepCount)) := by
  have h1 := (TrainStepsOn_aligned X outputs problems hM s0
    (construct_aligned seed params s0 hc outputs)).1
  refine ⟨h1, sameLengths_stepCount h1, ?_⟩
  intro problem n
  have h2 := (TrainSteps_aligned X problem n s0 (construct_aligned seed params s0 hc _)).1
  exact ⟨h2, sameLengths_stepCount h2⟩

end

/-- Claim C24, counterexample: the first `TrainStep` on a problem with two
outputs returns, the second fails in the tree builder, which tears the trainer
down, and the third is given a problem with three outputs: `initialize` runs
again and resizes `models` to three ensembles, so the trainer is left with two
ensembles of one tree and one empty ensemble. -/
theorem ensemble_lengths_differ :
    (CGradientBoost.TrainStepsOn (demoCollaborators 2 false)
      [demoProblem, demoProblem, threeOutputProblem] demoFresh).2 =
      [Outcome.ok false, Outcome.throw (Exn.raised 7), Outcome.throw Exn.assertion] ∧
    (CGradientBoost.TrainStepsOn (demoCollaborators 2 false)
      [demoProblem, demoProblem] demoFresh).1.models = [[11 / 4], [1 / 4]] ∧
    (CGradientBoost.TrainStepsOn (demoCollaborators 2 false)
      [demoProblem, demoProblem, threeOutputProblem] demoFresh).1.models =
      [[11 / 4], [1 / 4], []] := by
  decide!

theorem ensembles_same_length_witness :
    (CGradientBoost.TrainStepsOn (demoCollaborators 2 false)
      [demoProblem, demoProblem, demoProblem] demoFresh).2 =
      [Outcome.ok false, Outcome.throw (Exn.raised 7), Outcome.ok false] ∧
    (∀ e1 ∈ (CGradientBoost.TrainStepsOn (demoCollaborators 2 false)
        [demoProblem, demoProblem, demoProblem] demoFresh).1.models,
      ∀ e2 ∈ (CGradientBoost.TrainStepsOn (demoCollaborators 2 false)
        [demoProblem, demoProblem, demoProblem] demoFresh).1.models, e1.length = e2.length) :=
  ⟨by decide!,
    (ensembles_same_length (demoCollaborators 2 false) ⟨7⟩ demoParams demoFresh rfl 2
      [demoProblem, demoProblem, demoProblem] (by
        intro p hp
        simp only [List.mem_cons, List.mem_singleton, List.not_mem_nil, or_false, or_self] at hp
        subst hp
        rfl)).1⟩

/-! ## Failed steps and the ensembles -/

section
variable {Tree B : Type}

/-- Claim C8, amended: when a part of `executeStep` (the tree builder included)
raises during a `TrainStep` call, the call raises the same exception and
`models` is what the step started from, that is what `prepareProblem` left: no
tree of the failed step is kept, also when the builder of a later output fails
after the builders of earlier outputs have given their trees.  On a trainer
that holds its adapted problem `models` is exactly what it was before the call;
on a trainer that holds none, `initialize` has resized `models` to
`isMultiTreesModel() ? 1 : modelCount` for the problem given, so `models` is
what it was before the call when it had that size already, and otherwise the
ensembles beyond that size are dropped and the missing ones are added empty;
in every case an ensemble after the call is the ensemble at that position
before the call or an empty ensemble at a position that had none. -/
theorem failed_step_keeps_ensembles (X : Collaborators Tree B) (s s1 : CGradientBoost Tree B)
    (problem : IMultivariateRegressionProblem) (e : Exn)
    (hprep : s.prepareProblem X problem = (s1, Outcome.ok ()))
    (hfail : (s1.trainStepExecute X).2 = Outcome.throw e) :
    (s.TrainStep X problem).2 = Outcome.throw e ∧
    (s.TrainStep X problem).1.models = s1.models ∧
    (s.baseProblem.isSome → (s.TrainStep X problem).1.models = s.models) ∧
    (s.baseProblem = none → (s.TrainStep X problem).1.models =
      CArray.SetSize s.models
        (if s.isMultiTreesModel then 1 else (X.notNullWeightsView problem).ValueSize) []) ∧
    (s.models.length =
        (if s.isMultiTreesModel then 1 else (X.notNullWeightsView problem).ValueSize).toNat →
      (s.TrainStep X problem).1.models = s.models) ∧
    (∀ (j : Nat) (ensemble : List Tree),
      (s.TrainStep X problem).1.models[j]? = some ensemble →
        s.models[j]? = some ensemble ∨ (s.models[j]? = none ∧ ensemble = [])) := by
  have htry : s1.trainStepTry X = ((s1.trainStepExecute X).1, Outcome.throw e) := by
    unfold CGradientBoost.trainStepTry
    rcases hx : s1.trainStepExecute X with ⟨sx, cur | e1⟩
    · rw [hx] at hfail; simp at hfail
    · rw [hx] at hfail
      simp only [Outcome.throw.injEq] at hfail
      rw [hfail]
  obtain ⟨t1, _, t3⟩ := trainStep_tornDown X s1 e (by rw [htry])
  have hstep : s.TrainStep X problem = s1.trainStep X := by
    unfold CGradientBoost.TrainStep
    rw [hprep]
  have hmodels : (s.TrainStep X problem).1.models = s1.models := by
    rw [hstep, t3, htry]
    exact trainStepExecute_models X s1
  obtain ⟨p1, p2⟩ := prepareProblem_models X s s1 problem hprep
  refine ⟨by rw [hstep]; exact t1, hmodels, fun hs => by rw [hmodels, p1 hs],
    fun hn => by rw [hmodels, p2 hn], ?_, ?_⟩
  · intro hlen
    rw [hmodels]
    rcases hbp : s.baseProblem with _ | bp
    · rw [p2 hbp]
      exact CArray.SetSize_same _ _ _ hlen
    · rw [p1 (by rw [hbp]; rfl)]
  · intro j ensemble hj
    rw [hmodels] at hj
    rcases hbp : s.baseProblem with _ | bp
    · rw [p2 hbp] at hj
      exact getElem?_SetSize _ _ _ _ _ hj
    · rw [p1 (by rw [hbp]; rfl)] at hj
      exact Or.inl hj

end

theorem failed_step_keeps_ensembles_witness :
    ((demoAfterOne 3).TrainStep (demoCollaborators 3 false) demoProblem).2 =
      Outcome.throw (Exn.raised 7) ∧
    ((demoAfterOne 3).TrainStep (demoCollaborators 3 false) demoProblem).1.models =
      (demoAfterOne 3).models ∧
    ((demoAfterOne 3).baseProblem.isSome →
      ((demoAfterOne 3).TrainStep (demoCollaborators 3 false) demoProblem).1.models =
        (demoAfterOne 3).models) ∧
    ((demoAfterOne 3).baseProblem = none →
      ((demoAfterOne 3).TrainStep (demoCollaborators 3 false) demoProblem).1.models =
        CArray.SetSize (demoAfterOne 3).models
          (if (demoAfterOne 3).isMultiTreesModel then 1
            else ((demoCollaborators 3 false).notNullWeightsView demoProblem).ValueSize) []) ∧
    ((demoAfterOne 3).models.length =
        (if (demoAfterOne 3).isMultiTreesModel then 1
          else ((demoCollaborators 3 false).notNullWeightsView demoProblem).ValueSize).toNat →
      ((demoAfterOne 3).TrainStep (demoCollaborators 3 false) demoProblem).1.models =
        (demoAfterOne 3).models) ∧
    (∀ (j : Nat) (ensemble : List ℚ),
      ((demoAfterOne 3).TrainStep (demoCollaborators 3 false) demoProblem).1.models[j]? =
          some ensemble →
        (demoAfterOne 3).models[j]? = some ensemble ∨
          ((demoAfterOne 3).models[j]? = none ∧ ensemble = [])) :=
  failed_step_keeps_ensembles (demoCollaborators 3 false) (demoAfterOne 3) (demoAfterOne 3)
    demoProblem (Exn.raised 7) (by decide!) (by decide!)

/-- Claim C8, counterexample: a trainer of three ensembles, trained for one step
on a problem with three outputs and torn down by a second step that failed, is
given a problem with two outputs.  `prepareProblem` returns, having run
`initialize`, which resizes `models` to two ensembles; the tree builder then
raises inside `executeStep`; the call raises that exception and `models` has
lost its third ensemble and the tree it held. -/
theorem failed_step_resizes_ensembles :
    (CGradientBoost.TrainStepsOn (choosyCollaborators 3)
      [threeOutputProblem, threeOutputProblem] demoFresh).2 =
      [Outcome.ok false, Outcome.throw (Exn.raised 7)] ∧
    (CGradientBoost.TrainStepsOn (choosyCollaborators 3)
      [threeOutputProblem, threeOutputProblem] demoFresh).1.models =
      [[11 / 4], [1 / 4], [5 / 4]] ∧
    (CGradientBoost.TrainStepsOn (choosyCollaborators 3)
      [threeOutputProblem, threeOutputProblem] demoFresh).1.baseProblem = none ∧
    ((CGradientBoost.TrainStepsOn (choosyCollaborators 3)
      [threeOutputProblem, threeOutputProblem] demoFresh).1.prepareProblem
      (choosyCollaborators 3) demoProblem).2 = Outcome.ok () ∧
    (((CGradientBoost.TrainStepsOn (choosyCollaborators 3)
      [threeOutputProblem, threeOutputProblem] demoFresh).1.prepareProblem
      (choosyCollaborators 3) demoProblem).1.trainStepExecute (choosyCollaborators 3)).2 =
      Outcome.throw (Exn.raised 7) ∧
    ((CGradientBoost.TrainStepsOn (choosyCollaborators 3)
      [threeOutputProblem, threeOutputProblem] demoFresh).1.TrainStep
      (choosyCollaborators 3) demoProblem).2 = Outcome.throw (Exn.raised 7) ∧
    ((CGradientBoost.TrainStepsOn (choosyCollaborators 3)
      [threeOutputProblem, threeOutputProblem] demoFresh).1.TrainStep
      (choosyCollaborators 3) demoProblem).1.models = [[11 / 4], [1 / 4]] := by
  decide!

end NeoML
